import Mathlib

/-!
# rv_p4 control plane: rule store, pipeline model and rule compilers

A shallow embedding of the firmware sources (`sim_hal.c`, `pkt_model.c`,
`route.c`, `acl.c`, `qos.c`, `fdb.c`, `arp.c`, `vlan.c`) together with theorems
about them.

Conventions of the embedding

* machine integers are `Nat`; a cast to `uintN_t` is written `% 2^N`;
* a C array is a `List`; `a[i]` is `a.getD i 0` and `a[i] = v` is `a.set i v`
  (an index outside the array, which C leaves undefined, reads 0 and writes
  nothing; the callers in the sources keep every index inside);
* a pointer into an array is the index of the slot; `NULL` is `none`;
* `sim_tcam_db` is the list of the allocated slots `0 .. sim_tcam_n - 1`
  (every loop of the source stops at `sim_tcam_n`, and a slot is written in
  full when it is allocated), so `sim_tcam_n` is the length of the list;
* global state is passed explicitly.
-/

namespace RvP4

/-! ## rv_p4_hal.h -/

def HAL_OK : Int := 0
def HAL_ERR_BUSY : Int := -1
def HAL_ERR_FULL : Int := -2
def HAL_ERR_INVAL : Int := -3

/-- The type `tcam_key_t`: `uint8_t bytes[64]; uint8_t key_len`. -/
structure tcam_key_t where
  bytes : List Nat
  key_len : Nat
deriving DecidableEq, Repr

/-- The type `tcam_entry_t`. -/
structure tcam_entry_t where
  key : tcam_key_t
  mask : tcam_key_t
  action_id : Nat
  action_params : List Nat
  stage : Nat
  table_id : Nat
deriving DecidableEq, Repr

/-- The value left by `memset(&e, 0, sizeof(e))` on a `tcam_entry_t`. -/
def tcam_entry_zero : tcam_entry_t :=
  { key := { bytes := List.replicate 64 0, key_len := 0 },
    mask := { bytes := List.replicate 64 0, key_len := 0 },
    action_id := 0,
    action_params := List.replicate 12 0,
    stage := 0,
    table_id := 0 }

/-! ## sim_hal.h / sim_hal.c : the rule store -/

def SIM_TCAM_MAX : Nat := 512

/-- The type `sim_tcam_rec_t`. -/
structure sim_tcam_rec_t where
  entry : tcam_entry_t
  valid : Nat
  deleted : Nat
deriving DecidableEq, Repr

/-- Apply `f` to slot `i` of an array (a write through a pointer to slot `i`). -/
def slot_update {α : Type} (f : α → α) : List α → Nat → List α
  | [], _ => []
  | r :: rs, 0 => f r :: rs
  | r :: rs, i + 1 => r :: slot_update f rs i

/-- The test `r->valid && !r->deleted`. -/
def rec_live (r : sim_tcam_rec_t) : Bool :=
  r.valid != 0 && r.deleted == 0

/-- The condition of the `if` in `sim_tcam_find`. -/
def rec_is (stage table_id : Nat) (r : sim_tcam_rec_t) : Bool :=
  r.valid != 0 && r.deleted == 0 && r.entry.stage == stage && r.entry.table_id == table_id

/-- The loop of `sim_tcam_find`, from slot `i` on. -/
def sim_tcam_find_from (stage table_id : Nat) : List sim_tcam_rec_t → Nat → Option Nat
  | [], _ => none
  | r :: rs, i =>
    if rec_is stage table_id r then some i
    else sim_tcam_find_from stage table_id rs (i + 1)

/-- The function `sim_tcam_find`: the first live slot of `(stage, table_id)`. -/
def sim_tcam_find (db : List sim_tcam_rec_t) (stage table_id : Nat) : Option Nat :=
  sim_tcam_find_from stage table_id db 0

/-- The function `sim_tcam_count_stage`. -/
def sim_tcam_count_stage (db : List sim_tcam_rec_t) (stage : Nat) : Nat :=
  (db.filter (fun r => r.valid != 0 && r.deleted == 0 && r.entry.stage == stage)).length

/-- The function `hal_tcam_insert`; `none` is the null pointer. -/
def hal_tcam_insert (entry : Option tcam_entry_t) (db : List sim_tcam_rec_t) :
    Int × List sim_tcam_rec_t :=
  match entry with
  | none => (HAL_ERR_INVAL, db)
  | some e =>
    match sim_tcam_find db e.stage e.table_id with
    | some ex => (HAL_OK, slot_update (fun r => { r with entry := e, deleted := 0 }) db ex)
    | none =>
      if db.length ≥ SIM_TCAM_MAX then (HAL_ERR_FULL, db)
      else (HAL_OK, db ++ [{ entry := e, valid := 1, deleted := 0 }])

/-- The function `hal_tcam_delete`. -/
def hal_tcam_delete (stage table_id : Nat) (db : List sim_tcam_rec_t) :
    Int × List sim_tcam_rec_t :=
  match sim_tcam_find db stage table_id with
  | none => (HAL_ERR_INVAL, db)
  | some e => (HAL_OK, slot_update (fun r => { r with deleted := 1 }) db e)

/-- The function `hal_tcam_modify`. -/
def hal_tcam_modify (entry : Option tcam_entry_t) (db : List sim_tcam_rec_t) :
    Int × List sim_tcam_rec_t :=
  match entry with
  | none => (HAL_ERR_INVAL, db)
  | some en =>
    match sim_tcam_find db en.stage en.table_id with
    | none => (HAL_ERR_INVAL, db)
    | some e => (HAL_OK, slot_update (fun r => { r with entry := en }) db e)

/-- The function `hal_tcam_flush`. -/
def hal_tcam_flush (stage : Nat) (db : List sim_tcam_rec_t) : Int × List sim_tcam_rec_t :=
  (HAL_OK, db.map (fun r =>
    if r.valid != 0 && r.entry.stage == stage then { r with deleted := 1 } else r))

/-! ## pkt_model.c : ternary lookup -/

/-- The byte loop of `tcam_ternary_lookup`, from byte `b` with `n` bytes left;
the result is the final value of `match`. -/
def ternary_match_loop (key : List Nat) (e : tcam_entry_t) : Nat → Nat → Nat
  | _, 0 => 1
  | b, n + 1 =>
    if (key.getD b 0 &&& e.mask.bytes.getD b 0) ≠
        (e.key.bytes.getD b 0 &&& e.mask.bytes.getD b 0) then 0
    else ternary_match_loop key e (b + 1) n

/-- The value of `cmp_len` in `tcam_ternary_lookup`. -/
def ternary_cmp_len (e : tcam_entry_t) (key_len : Nat) : Nat :=
  if e.key.key_len > key_len then key_len else e.key.key_len

/-- The value of `match` after the byte loop, for one record. -/
def ternary_match (key : List Nat) (key_len : Nat) (e : tcam_entry_t) : Nat :=
  ternary_match_loop key e 0 (ternary_cmp_len e key_len)

/-- The record loop of `tcam_ternary_lookup`, from slot `i` on. -/
def tcam_ternary_lookup_from (stage : Nat) (key : List Nat) (key_len : Nat) :
    List sim_tcam_rec_t → Nat → Option Nat
  | [], _ => none
  | r :: rs, i =>
    if r.valid == 0 || r.deleted != 0 then
      tcam_ternary_lookup_from stage key key_len rs (i + 1)
    else if r.entry.stage != stage then
      tcam_ternary_lookup_from stage key key_len rs (i + 1)
    else if ternary_match key key_len r.entry != 0 then some i
    else tcam_ternary_lookup_from stage key key_len rs (i + 1)

/-- The function `tcam_ternary_lookup`: the slot of the first hit, or `none`. -/
def tcam_ternary_lookup (db : List sim_tcam_rec_t) (stage : Nat) (key : List Nat)
    (key_len : Nat) : Option Nat :=
  tcam_ternary_lookup_from stage key key_len db 0

/-- The record test of `tcam_ternary_lookup`: live, in the stage, bytes match. -/
def ternary_hit (stage : Nat) (key : List Nat) (key_len : Nat) (r : sim_tcam_rec_t) : Bool :=
  rec_live r && r.entry.stage == stage && ternary_match key key_len r.entry != 0

/-! ## Operation sequences on the rule store -/

/-- One call of the rule-store interface. -/
inductive tcam_op where
  | insert (entry : Option tcam_entry_t)
  | delete (stage table_id : Nat)
  | modify (entry : Option tcam_entry_t)
  | flush (stage : Nat)
deriving DecidableEq, Repr

/-- The store after one call. -/
def tcam_step (db : List sim_tcam_rec_t) : tcam_op → List sim_tcam_rec_t
  | .insert e => (hal_tcam_insert e db).2
  | .delete s t => (hal_tcam_delete s t db).2
  | .modify e => (hal_tcam_modify e db).2
  | .flush s => (hal_tcam_flush s db).2

/-- The store after a sequence of calls, first call first. -/
def tcam_run (db : List sim_tcam_rec_t) (ops : List tcam_op) : List sim_tcam_rec_t :=
  ops.foldl tcam_step db

/-- At most one live record per `(stage, table_id)`. -/
def store_unique (db : List sim_tcam_rec_t) : Prop :=
  ∀ (i j : Nat) (ri rj : sim_tcam_rec_t), db[i]? = some ri → db[j]? = some rj →
    rec_live ri = true → rec_live rj = true →
    ri.entry.stage = rj.entry.stage → ri.entry.table_id = rj.entry.table_id → i = j

/-! ## table_map.h -/

def TABLE_IPV4_LPM_STAGE : Nat := 0
def TABLE_ACL_INGRESS_STAGE : Nat := 1
def TABLE_L2_FDB_STAGE : Nat := 2
def TABLE_ARP_TRAP_STAGE : Nat := 3
def TABLE_VLAN_INGRESS_STAGE : Nat := 4
def TABLE_DSCP_MAP_STAGE : Nat := 5
def TABLE_VLAN_EGRESS_STAGE : Nat := 6

def TABLE_IPV4_LPM_BASE : Nat := 0x0000
def TABLE_ACL_INGRESS_BASE : Nat := 0x0000
def TABLE_DSCP_MAP_BASE : Nat := 0x0000

def ACTION_FORWARD : Nat := 0x1001
def ACTION_DROP : Nat := 0x1002
def ACTION_PERMIT : Nat := 0x2001
def ACTION_DENY : Nat := 0x2002
def ACTION_L2_FORWARD : Nat := 0x3001
def ACTION_FLOOD : Nat := 0x3002
def ACTION_PUNT_CPU : Nat := 0x4001
def ACTION_VLAN_ASSIGN_PVID : Nat := 0x5001
def ACTION_VLAN_ACCEPT_TAGGED : Nat := 0x5002
def ACTION_VLAN_DROP : Nat := 0x5003
def ACTION_VLAN_STRIP_TAG : Nat := 0x5004
def ACTION_VLAN_KEEP_TAG : Nat := 0x5005
def ACTION_SET_PRIO : Nat := 0x6001

def PHV_OFF_ETH_DST : Nat := 0
def PHV_OFF_ETH_SRC : Nat := 6
def PHV_OFF_ETH_TYPE : Nat := 12
def PHV_OFF_VLAN_TCI : Nat := 14
def PHV_OFF_IPV4_VER_IHL : Nat := 18
def PHV_OFF_IPV4_DSCP : Nat := 19
def PHV_OFF_IPV4_TOT_LEN : Nat := 20
def PHV_OFF_IPV4_TTL : Nat := 26
def PHV_OFF_IPV4_PROTO : Nat := 27
def PHV_OFF_IPV4_SRC : Nat := 30
def PHV_OFF_IPV4_DST : Nat := 34
def PHV_OFF_TCP_SPORT : Nat := 38
def PHV_OFF_TCP_DPORT : Nat := 40

/-! ## route.c -/

def ROUTE_TABLE_SIZE : Nat := 256

/-- The type `route_entry_t` (`pfx` is the field `prefix`). -/
structure route_entry_t where
  pfx : Nat
  len : Nat
  port : Nat
  dmac : Nat
  valid : Nat
deriving DecidableEq, Repr

/-- The function `prefix_to_mask`; `~x` on `uint32_t` is `0xFFFFFFFF - x` and
`x - 1U` is `(x + 0xFFFFFFFF) % 2^32`. -/
def prefix_to_mask (len : Nat) : Nat :=
  if len = 0 then 0x00000000
  else if len ≥ 32 then 0xFFFFFFFF
  else 0xFFFFFFFF - (((1 <<< (32 - len)) % 2 ^ 32 + 0xFFFFFFFF) % 2 ^ 32)

/-- The function `u32_to_key`: four big-endian bytes of `val` at `buf[off..]`. -/
def u32_to_key (buf : List Nat) (off : Nat) (val : Nat) : List Nat :=
  (((buf.set (off + 0) (((val >>> 24) &&& 0xFF) % 256)).set
      (off + 1) (((val >>> 16) &&& 0xFF) % 256)).set
      (off + 2) (((val >>> 8) &&& 0xFF) % 256)).set
      (off + 3) (((val >>> 0) &&& 0xFF) % 256)

/-- The function `route_tcam_id`. -/
def route_tcam_id (pfx len : Nat) : Nat :=
  if len = 0 then TABLE_IPV4_LPM_BASE % 2 ^ 16
  else ((TABLE_IPV4_LPM_BASE + (pfx >>> (32 - len))) % 2 ^ 32) % 2 ^ 16

/-- The function `route_init`: `memset(route_table, 0, sizeof(route_table))`. -/
def route_init : List route_entry_t :=
  List.replicate ROUTE_TABLE_SIZE { pfx := 0, len := 0, port := 0, dmac := 0, valid := 0 }

/-- The TCAM entry built by `route_add` (the block after the software-table update). -/
def route_tcam_entry (pfx len port dmac : Nat) : tcam_entry_t :=
  let e := tcam_entry_zero
  let e := { e with key := { e.key with key_len := 4 } }
  let e := { e with key := { e.key with bytes := u32_to_key e.key.bytes 0 pfx } }
  let e := { e with mask := { e.mask with key_len := 4 } }
  let mask_bytes := u32_to_key e.mask.bytes 0 (prefix_to_mask len)
  let e := { e with mask := { e.mask with bytes := mask_bytes } }
  let e := { e with stage := TABLE_IPV4_LPM_STAGE }
  let e := { e with table_id := route_tcam_id pfx len }
  let e := { e with action_id := ACTION_FORWARD }
  let e := { e with action_params := e.action_params.set 0 port }
  let e := { e with action_params := e.action_params.set 1 (((dmac >>> 40) &&& 0xFF) % 256) }
  let e := { e with action_params := e.action_params.set 2 (((dmac >>> 32) &&& 0xFF) % 256) }
  let e := { e with action_params := e.action_params.set 3 (((dmac >>> 24) &&& 0xFF) % 256) }
  let e := { e with action_params := e.action_params.set 4 (((dmac >>> 16) &&& 0xFF) % 256) }
  let e := { e with action_params := e.action_params.set 5 (((dmac >>> 8) &&& 0xFF) % 256) }
  let e := { e with action_params := e.action_params.set 6 (((dmac >>> 0) &&& 0xFF) % 256) }
  e

/-- The test of the search loops of `route_add` and `route_del`. -/
def route_is (pfx len : Nat) (r : route_entry_t) : Bool :=
  r.valid != 0 && r.pfx == pfx && r.len == len

/-- The slot chosen by `route_add`: the first valid slot of `(prefix, len)`, else
the first free slot, else `NULL`. -/
def route_add_slot (route_table : List route_entry_t) (pfx len : Nat) : Option Nat :=
  match route_table.findIdx? (route_is pfx len) with
  | some i => some i
  | none => route_table.findIdx? (fun r => r.valid == 0)

/-- The function `route_add`; the state is the software table and the rule store. -/
def route_add (pfx len port dmac : Nat) (route_table : List route_entry_t)
    (db : List sim_tcam_rec_t) : Int × List route_entry_t × List sim_tcam_rec_t :=
  if len > 32 then (HAL_ERR_INVAL, route_table, db)
  else
    match route_add_slot route_table pfx len with
    | none => (HAL_ERR_FULL, route_table, db)
    | some slot =>
      let route_table := slot_update
        (fun _ => { pfx := pfx, len := len, port := port, dmac := dmac, valid := 1 })
        route_table slot
      let r := hal_tcam_insert (some (route_tcam_entry pfx len port dmac)) db
      (r.1, route_table, r.2)

/-- The function `route_del`. -/
def route_del (pfx len : Nat) (route_table : List route_entry_t)
    (db : List sim_tcam_rec_t) : Int × List route_entry_t × List sim_tcam_rec_t :=
  if len > 32 then (HAL_ERR_INVAL, route_table, db)
  else
    let route_table :=
      match route_table.findIdx? (route_is pfx len) with
      | some i => slot_update (fun r => { r with valid := 0 }) route_table i
      | none => route_table
    let r := hal_tcam_delete TABLE_IPV4_LPM_STAGE (route_tcam_id pfx len) db
    (r.1, route_table, r.2)

/-! ## Operation sequences of the route compiler -/

/-- The state the route compiler works on. -/
structure route_sys where
  route_table : List route_entry_t
  sim_tcam_db : List sim_tcam_rec_t
deriving DecidableEq, Repr

/-- The state after `sim_hal_reset(); route_init();`. -/
def route_sys_init : route_sys :=
  { route_table := route_init, sim_tcam_db := [] }

/-- One call of the route compiler. -/
inductive route_op where
  | add (pfx len port dmac : Nat)
  | del (pfx len : Nat)
deriving DecidableEq, Repr

/-- The state after one call. -/
def route_step (s : route_sys) : route_op → route_sys
  | .add pfx len port dmac =>
    let r := route_add pfx len port dmac s.route_table s.sim_tcam_db
    { route_table := r.2.1, sim_tcam_db := r.2.2 }
  | .del pfx len =>
    let r := route_del pfx len s.route_table s.sim_tcam_db
    { route_table := r.2.1, sim_tcam_db := r.2.2 }

/-- The state after a sequence of calls, first call first. -/
def route_run (s : route_sys) (ops : List route_op) : route_sys :=
  ops.foldl route_step s

/-- Mirror/store consistency: every valid route has exactly one live Stage-0
record at its derived table-id, and that record carries the entry of the route. -/
def route_consistent (s : route_sys) : Prop :=
  ∀ r ∈ s.route_table, r.valid ≠ 0 →
    (s.sim_tcam_db.filter
      (rec_is TABLE_IPV4_LPM_STAGE (route_tcam_id r.pfx r.len))).length = 1 ∧
    ∀ x ∈ s.sim_tcam_db, rec_is TABLE_IPV4_LPM_STAGE (route_tcam_id r.pfx r.len) x = true →
      x.entry = route_tcam_entry r.pfx r.len r.port r.dmac

instance route_consistent_decidable (s : route_sys) : Decidable (route_consistent s) := by
  unfold route_consistent
  infer_instance

/-- No valid route other than `(prefix, len)` itself has the table-id of
`(prefix, len)`. -/
def route_alias_free (route_table : List route_entry_t) (pfx len : Nat) : Prop :=
  ∀ r ∈ route_table, r.valid ≠ 0 →
    route_tcam_id r.pfx r.len = route_tcam_id pfx len → r.pfx = pfx ∧ r.len = len

/-- A call that names no aliased table-id and, for an add that reaches the rule
store (the software table has a slot for it), that the rule store does not refuse. -/
def route_op_ok (s : route_sys) : route_op → Prop
  | .add pfx len _ _ =>
    len ≤ 32 → route_alias_free s.route_table pfx len ∧
      (route_add_slot s.route_table pfx len = none ∨
        sim_tcam_find s.sim_tcam_db TABLE_IPV4_LPM_STAGE (route_tcam_id pfx len) ≠ none ∨
        s.sim_tcam_db.length < SIM_TCAM_MAX)
  | .del pfx len => len ≤ 32 → route_alias_free s.route_table pfx len

/-- Every call of the sequence is `route_op_ok` in the state it is made in. -/
def route_run_ok (s : route_sys) : List route_op → Prop
  | [] => True
  | op :: ops => route_op_ok s op ∧ route_run_ok (route_step s op) ops

/-- Distinct valid slots of the software route table have distinct table-ids. -/
def route_ids_unique (route_table : List route_entry_t) : Prop :=
  ∀ (i j : Nat) (ri rj : route_entry_t), route_table[i]? = some ri →
    route_table[j]? = some rj → ri.valid ≠ 0 → rj.valid ≠ 0 →
    route_tcam_id ri.pfx ri.len = route_tcam_id rj.pfx rj.len → i = j

/-- Every valid route has a live record carrying its entry. -/
def route_backed (s : route_sys) : Prop :=
  ∀ r ∈ s.route_table, r.valid ≠ 0 →
    ∃ x ∈ s.sim_tcam_db, rec_live x = true ∧
      x.entry = route_tcam_entry r.pfx r.len r.port r.dmac

/-- The invariant behind mirror/store consistency. -/
def route_inv (s : route_sys) : Prop :=
  store_unique s.sim_tcam_db ∧ route_ids_unique s.route_table ∧ route_backed s

instance route_alias_free_decidable (route_table : List route_entry_t) (pfx len : Nat) :
    Decidable (route_alias_free route_table pfx len) := by
  unfold route_alias_free
  infer_instance

instance route_op_ok_decidable (s : route_sys) (op : route_op) :
    Decidable (route_op_ok s op) := by
  cases op <;> (unfold route_op_ok; infer_instance)

instance route_run_ok_decidable (s : route_sys) (ops : List route_op) :
    Decidable (route_run_ok s ops) := by
  induction ops generalizing s with
  | nil => exact isTrue trivial
  | cons op ops ih =>
    unfold route_run_ok
    exact @instDecidableAnd _ _ _ (ih _)

/-- No `(prefix, len)` is valid in two slots of the software route table. -/
def route_table_nodup (route_table : List route_entry_t) : Prop :=
  ∀ (i j : Nat) (ri rj : route_entry_t), route_table[i]? = some ri →
    route_table[j]? = some rj → ri.valid ≠ 0 → rj.valid ≠ 0 →
    ri.pfx = rj.pfx → ri.len = rj.len → i = j

/-! ## pkt_model.h / pkt_model.c : the pipeline executor -/

def PKT_PHV_HDR_SIZE : Nat := 512
def PKT_NUM_STAGES : Nat := 7
def VLAN_ACT_NONE : Nat := 0
def VLAN_ACT_STRIP : Nat := 1
def VLAN_ACT_KEEP : Nat := 2

/-- The type `phv_t`. -/
structure phv_t where
  hdr : List Nat
  ig_port : Nat
  eg_port : Nat
  drop : Nat
  punt : Nat
  vlan_id : Nat
  qos_prio : Nat
  vlan_action : Nat
deriving DecidableEq, Repr

/-- The type `fwd_result_t`. -/
structure fwd_result_t where
  eg_port : Nat
  drop : Nat
  punt : Nat
  vlan_id : Nat
  qos_prio : Nat
  vlan_action : Nat
deriving DecidableEq, Repr

/-- The value left by `memset(phv, 0, sizeof(*phv))`. -/
def phv_zero : phv_t :=
  { hdr := List.replicate PKT_PHV_HDR_SIZE 0, ig_port := 0, eg_port := 0, drop := 0,
    punt := 0, vlan_id := 0, qos_prio := 0, vlan_action := 0 }

/-- The call `memcpy(dst + doff, src + soff, n)`. -/
def memcpy (dst : List Nat) (doff : Nat) (src : List Nat) (soff : Nat) : Nat → List Nat
  | 0 => dst
  | n + 1 => (memcpy dst doff src soff n).set (doff + n) (src.getD (soff + n) 0)

/-- The function `extract_s0`: `ipv4_dst`. -/
def extract_s0 (phv : phv_t) (key : List Nat) : List Nat × Nat :=
  (memcpy key 0 phv.hdr PHV_OFF_IPV4_DST 4, 4)

/-- The function `extract_s1`: `ipv4_src`, `ipv4_dst`, `dport`. -/
def extract_s1 (phv : phv_t) (key : List Nat) : List Nat × Nat :=
  let key := memcpy key 0 phv.hdr PHV_OFF_IPV4_SRC 4
  let key := memcpy key 4 phv.hdr PHV_OFF_IPV4_DST 4
  let key := memcpy key 8 phv.hdr PHV_OFF_TCP_DPORT 2
  (key, 10)

/-- The function `extract_s2`: `eth_dst`. -/
def extract_s2 (phv : phv_t) (key : List Nat) : List Nat × Nat :=
  (memcpy key 0 phv.hdr PHV_OFF_ETH_DST 6, 6)

/-- The function `extract_s3`: `eth_type`. -/
def extract_s3 (phv : phv_t) (key : List Nat) : List Nat × Nat :=
  (memcpy key 0 phv.hdr PHV_OFF_ETH_TYPE 2, 2)

/-- The function `extract_s4`: `ig_port`, `vlan_tci`. -/
def extract_s4 (phv : phv_t) (key : List Nat) : List Nat × Nat :=
  let key := key.set 0 phv.ig_port
  let key := key.set 1 (phv.hdr.getD PHV_OFF_VLAN_TCI 0)
  let key := key.set 2 (phv.hdr.getD (PHV_OFF_VLAN_TCI + 1) 0)
  (key, 3)

/-- The function `extract_s5`: the TOS byte. -/
def extract_s5 (phv : phv_t) (key : List Nat) : List Nat × Nat :=
  (key.set 0 (phv.hdr.getD PHV_OFF_IPV4_DSCP 0), 1)

/-- The function `extract_s6`: `eg_port`, low byte of `vlan_id`. -/
def extract_s6 (phv : phv_t) (key : List Nat) : List Nat × Nat :=
  let key := key.set 0 phv.eg_port
  let key := key.set 1 ((phv.vlan_id &&& 0xFF) % 256)
  (key, 2)

/-- The table `stage_extract`, indexed by the stage (0..6). -/
def stage_extract (stage : Nat) (phv : phv_t) (key : List Nat) : List Nat × Nat :=
  match stage with
  | 0 => extract_s0 phv key
  | 1 => extract_s1 phv key
  | 2 => extract_s2 phv key
  | 3 => extract_s3 phv key
  | 4 => extract_s4 phv key
  | 5 => extract_s5 phv key
  | _ => extract_s6 phv key

/-- The function `apply_action`. -/
def apply_action (phv : phv_t) (r : sim_tcam_rec_t) : phv_t :=
  let e := r.entry
  if e.action_id = ACTION_FORWARD then
    { phv with eg_port := e.action_params.getD 0 0,
               hdr := memcpy phv.hdr PHV_OFF_ETH_DST e.action_params 1 6 }
  else if e.action_id = ACTION_DROP then { phv with drop := 1 }
  else if e.action_id = ACTION_PERMIT then phv
  else if e.action_id = ACTION_DENY then { phv with drop := 1 }
  else if e.action_id = ACTION_L2_FORWARD then
    { phv with eg_port := e.action_params.getD 0 0 }
  else if e.action_id = ACTION_FLOOD then { phv with eg_port := 0xFF }
  else if e.action_id = ACTION_PUNT_CPU then { phv with punt := 1 }
  else if e.action_id = ACTION_VLAN_ASSIGN_PVID then
    { phv with vlan_id :=
        (((e.action_params.getD 0 0) <<< 8) ||| (e.action_params.getD 1 0)) % 2 ^ 16 }
  else if e.action_id = ACTION_VLAN_ACCEPT_TAGGED then
    if e.action_params.getD 0 0 = 0 ∧ e.action_params.getD 1 0 = 0 then
      { phv with vlan_id :=
          (((phv.hdr.getD PHV_OFF_VLAN_TCI 0 &&& 0x0F) <<< 8)
            ||| (phv.hdr.getD (PHV_OFF_VLAN_TCI + 1) 0)) % 2 ^ 16 }
    else
      { phv with vlan_id :=
          (((e.action_params.getD 0 0) <<< 8) ||| (e.action_params.getD 1 0)) % 2 ^ 16 }
  else if e.action_id = ACTION_VLAN_DROP then { phv with drop := 1 }
  else if e.action_id = ACTION_VLAN_STRIP_TAG then
    { phv with vlan_action := VLAN_ACT_STRIP,
               hdr := (phv.hdr.set PHV_OFF_VLAN_TCI 0).set (PHV_OFF_VLAN_TCI + 1) 0 }
  else if e.action_id = ACTION_VLAN_KEEP_TAG then { phv with vlan_action := VLAN_ACT_KEEP }
  else if e.action_id = ACTION_SET_PRIO then
    { phv with qos_prio := e.action_params.getD 0 0 }
  else phv

/-- The 802.1Q block of `pkt_parse`; the result is the PHV, `eth_type` and
`ip_start`. -/
def pkt_parse_vlan (raw : List Nat) (raw_len : Nat) (phv : phv_t) (eth_type : Nat) :
    phv_t × Nat × Nat :=
  if eth_type = 0x8100 ∧ raw_len ≥ 18 then
    let phv := { phv with hdr := phv.hdr.set PHV_OFF_VLAN_TCI (raw.getD 14 0) }
    let phv := { phv with hdr := phv.hdr.set (PHV_OFF_VLAN_TCI + 1) (raw.getD 15 0) }
    let phv := { phv with vlan_id :=
      ((((raw.getD 14 0) &&& 0x0F) <<< 8) ||| (raw.getD 15 0)) % 2 ^ 16 }
    (phv, (((raw.getD 16 0) <<< 8) ||| (raw.getD 17 0)) % 2 ^ 16, 18)
  else (phv, eth_type, 14)

/-- The TCP/UDP block of `pkt_parse`; `ip` is the offset of the IPv4 header. -/
def pkt_parse_l4 (raw : List Nat) (raw_len : Nat) (phv : phv_t) (ip_start : Nat) : phv_t :=
  let ip := ip_start
  let ihl := ((raw.getD (ip + 0) 0) &&& 0x0F) * 4
  let proto := raw.getD (ip + 9) 0
  if (proto = 6 ∨ proto = 17) ∧ raw_len ≥ (ip_start + ihl + 4) % 2 ^ 16 then
    let l4 := ip + ihl
    let phv := { phv with hdr := phv.hdr.set PHV_OFF_TCP_SPORT (raw.getD (l4 + 0) 0) }
    let phv := { phv with hdr := phv.hdr.set (PHV_OFF_TCP_SPORT + 1) (raw.getD (l4 + 1) 0) }
    let phv := { phv with hdr := phv.hdr.set PHV_OFF_TCP_DPORT (raw.getD (l4 + 2) 0) }
    let phv := { phv with hdr := phv.hdr.set (PHV_OFF_TCP_DPORT + 1) (raw.getD (l4 + 3) 0) }
    phv
  else phv

/-- The field copies of the IPv4 block of `pkt_parse`; `ip` is `raw + ip_start`. -/
def pkt_parse_ipv4_hdr (raw : List Nat) (phv : phv_t) (ip_start : Nat) : phv_t :=
  let ip := ip_start
  let phv := { phv with hdr := phv.hdr.set PHV_OFF_IPV4_VER_IHL (raw.getD (ip + 0) 0) }
  let phv := { phv with hdr := phv.hdr.set PHV_OFF_IPV4_DSCP (raw.getD (ip + 1) 0) }
  let phv := { phv with hdr := phv.hdr.set PHV_OFF_IPV4_TOT_LEN (raw.getD (ip + 2) 0) }
  let phv := { phv with hdr := phv.hdr.set (PHV_OFF_IPV4_TOT_LEN + 1) (raw.getD (ip + 3) 0) }
  let phv := { phv with hdr := phv.hdr.set PHV_OFF_IPV4_TTL (raw.getD (ip + 8) 0) }
  let phv := { phv with hdr := phv.hdr.set PHV_OFF_IPV4_PROTO (raw.getD (ip + 9) 0) }
  let phv := { phv with hdr := memcpy phv.hdr PHV_OFF_IPV4_SRC raw (ip + 12) 4 }
  let phv := { phv with hdr := memcpy phv.hdr PHV_OFF_IPV4_DST raw (ip + 16) 4 }
  phv

/-- The IPv4 block of `pkt_parse`. -/
def pkt_parse_ipv4 (raw : List Nat) (raw_len : Nat) (phv : phv_t) (eth_type ip_start : Nat) :
    phv_t :=
  if eth_type = 0x0800 ∧ raw_len ≥ (ip_start + 20) % 2 ^ 16 then
    pkt_parse_l4 raw raw_len (pkt_parse_ipv4_hdr raw phv ip_start) ip_start
  else phv

/-- The Ethernet block of `pkt_parse`: `memset`, `ig_port` and the 14-byte header. -/
def pkt_parse_eth (raw : List Nat) (ing_port : Nat) : phv_t :=
  let phv := phv_zero
  let phv := { phv with ig_port := ing_port }
  let phv := { phv with hdr := memcpy phv.hdr PHV_OFF_ETH_DST raw 0 6 }
  let phv := { phv with hdr := memcpy phv.hdr PHV_OFF_ETH_SRC raw 6 6 }
  let phv := { phv with hdr := phv.hdr.set PHV_OFF_ETH_TYPE (raw.getD 12 0) }
  let phv := { phv with hdr := phv.hdr.set (PHV_OFF_ETH_TYPE + 1) (raw.getD 13 0) }
  phv

/-- The function `pkt_parse`; `raw` and `phv` are non-null, the PHV is passed in
and returned. -/
def pkt_parse (raw : List Nat) (raw_len ing_port : Nat) (phv : phv_t) : Int × phv_t :=
  if raw_len < 14 then (-1, phv)
  else
    let phv := pkt_parse_eth raw ing_port
    let eth_type := (((raw.getD 12 0) <<< 8) ||| (raw.getD 13 0)) % 2 ^ 16
    let v := pkt_parse_vlan raw raw_len phv eth_type
    (0, pkt_parse_ipv4 raw raw_len v.1 v.2.1 v.2.2)

/-- One iteration of the stage loop of `pkt_forward`, after the drop/punt test. -/
def pkt_forward_stage (db : List sim_tcam_rec_t) (phv : phv_t) (stage : Nat) : phv_t :=
  let k := stage_extract stage phv (List.replicate 64 0)
  match tcam_ternary_lookup db (stage % 256) k.1 k.2 with
  | none => phv
  | some m =>
    match db[m]? with
    | some r => apply_action phv r
    | none => phv

/-- The stage loop of `pkt_forward`, from `stage` with `n` stages left. -/
def pkt_forward_loop (db : List sim_tcam_rec_t) : phv_t → Nat → Nat → phv_t
  | phv, _, 0 => phv
  | phv, stage, n + 1 =>
    if phv.drop ≠ 0 ∨ phv.punt ≠ 0 then phv
    else pkt_forward_loop db (pkt_forward_stage db phv stage) (stage + 1) n

/-- The function `pkt_forward`; `phv` and `result` are non-null and `result` is
written in full; returns the code, the PHV and the result. -/
def pkt_forward (db : List sim_tcam_rec_t) (phv : phv_t) :
    Int × phv_t × fwd_result_t :=
  let phv := pkt_forward_loop db phv 0 PKT_NUM_STAGES
  (0, phv, { eg_port := phv.eg_port, drop := phv.drop, punt := phv.punt,
             vlan_id := phv.vlan_id, qos_prio := phv.qos_prio,
             vlan_action := phv.vlan_action })

/-- The function `pkt_process`; `result` is returned unchanged when parsing fails.
The local `phv` is written in full by `pkt_parse` before it is read. -/
def pkt_process (db : List sim_tcam_rec_t) (raw : List Nat) (raw_len ing_port : Nat)
    (result : fwd_result_t) : Int × fwd_result_t :=
  let p := pkt_parse raw raw_len ing_port phv_zero
  if p.1 ≠ 0 then (p.1, result)
  else
    let f := pkt_forward db p.2
    (f.1, f.2.2)

/-- The IPv4 destination address of an untagged frame: bytes 30..33, big endian. -/
def frame_ipv4_dst (raw : List Nat) : Nat :=
  raw.getD 30 0 * 2 ^ 24 + raw.getD 31 0 * 2 ^ 16 + raw.getD 32 0 * 2 ^ 8 + raw.getD 33 0

/-- The IPv4 source address of an untagged frame: bytes 26..29, big endian. -/
def frame_ipv4_src (raw : List Nat) : Nat :=
  raw.getD 26 0 * 2 ^ 24 + raw.getD 27 0 * 2 ^ 16 + raw.getD 28 0 * 2 ^ 8 + raw.getD 29 0

/-- The frame of `test_dp_cosim_route_forward`: `build_ipv4_pkt` with destination
MAC ff:ff:ff:ff:ff:ff, TOS 0, source 1.2.3.4, destination 10.10.5.99, no L4. -/
def cosim_route_pkt : List Nat :=
  [0xFF, 0xFF, 0xFF, 0xFF, 0xFF, 0xFF, 0x00, 0x11, 0x22, 0x33, 0x44, 0x55, 0x08, 0x00,
   0x45, 0x00, 0x00, 20, 0x00, 0x01, 0x00, 0x00, 64, 0, 0x00, 0x00,
   1, 2, 3, 4, 10, 10, 5, 99]

/-! ## acl.c -/

def ACL_TABLE_SIZE : Nat := 128

/-- The type `acl_entry_t`. -/
structure acl_entry_t where
  src_ip : Nat
  src_mask : Nat
  dst_ip : Nat
  dst_mask : Nat
  dport : Nat
  action : Nat
  valid : Nat
  rule_id : Nat
deriving DecidableEq, Repr

/-- The statics of `acl.c`: `acl_table` and `acl_next_id`. -/
structure acl_state where
  acl_table : List acl_entry_t
  acl_next_id : Nat
deriving DecidableEq, Repr

/-- The function `acl_alloc`: the first free slot, or `NULL`. -/
def acl_alloc (acl_table : List acl_entry_t) : Option Nat :=
  acl_table.findIdx? (fun e => e.valid == 0)

/-- The function `acl_init`. -/
def acl_init : acl_state :=
  { acl_table := List.replicate ACL_TABLE_SIZE
      { src_ip := 0, src_mask := 0, dst_ip := 0, dst_mask := 0, dport := 0, action := 0,
        valid := 0, rule_id := 0 },
    acl_next_id := 0 }

/-- The TCAM entry built by `acl_add_deny` for the rule id `rule_id`. -/
def acl_deny_entry (src_ip src_mask dst_ip dst_mask dport rule_id : Nat) : tcam_entry_t :=
  let te := tcam_entry_zero
  let te := { te with key := { te.key with key_len := 10 } }
  let te := { te with key := { te.key with bytes := u32_to_key te.key.bytes 0 src_ip } }
  let te := { te with key := { te.key with bytes := u32_to_key te.key.bytes 4 dst_ip } }
  let te := { te with key := { te.key with
    bytes := te.key.bytes.set 8 (((dport >>> 8) &&& 0xFF) % 256) } }
  let te := { te with key := { te.key with bytes := te.key.bytes.set 9 ((dport &&& 0xFF) % 256) } }
  let te := { te with mask := { te.mask with key_len := 10 } }
  let te := { te with mask := { te.mask with bytes := u32_to_key te.mask.bytes 0 src_mask } }
  let te := { te with mask := { te.mask with bytes := u32_to_key te.mask.bytes 4 dst_mask } }
  let te :=
    if dport ≠ 0 then
      { te with mask := { te.mask with bytes := (te.mask.bytes.set 8 0xFF).set 9 0xFF } }
    else te
  let te := { te with stage := TABLE_ACL_INGRESS_STAGE }
  let te := { te with table_id := (TABLE_ACL_INGRESS_BASE + rule_id) % 2 ^ 16 }
  let te := { te with action_id := ACTION_DENY }
  te

/-- The function `acl_add_deny`; the state is the statics of `acl.c` and the rule
store. -/
def acl_add_deny (src_ip src_mask dst_ip dst_mask dport : Nat) (st : acl_state)
    (db : List sim_tcam_rec_t) : Int × acl_state × List sim_tcam_rec_t :=
  match acl_alloc st.acl_table with
  | none => (HAL_ERR_FULL, st, db)
  | some e =>
    let rule_id := st.acl_next_id
    let st : acl_state :=
      { acl_table := slot_update
          (fun _ => { src_ip := src_ip, src_mask := src_mask, dst_ip := dst_ip,
                      dst_mask := dst_mask, dport := dport, action := 0, valid := 1,
                      rule_id := rule_id }) st.acl_table e,
        acl_next_id := (st.acl_next_id + 1) % 2 ^ 16 }
    let r := hal_tcam_insert
      (some (acl_deny_entry src_ip src_mask dst_ip dst_mask dport rule_id)) db
    if r.1 ≠ HAL_OK then
      (r.1, { st with acl_table :=
                slot_update (fun x => { x with valid := 0 }) st.acl_table e }, r.2)
    else ((rule_id : Int), st, r.2)

/-- The TCAM entry built by `acl_add_permit` for the rule id `rule_id`. -/
def acl_permit_entry (src_ip src_mask dst_ip dst_mask rule_id : Nat) : tcam_entry_t :=
  let te := tcam_entry_zero
  let te := { te with key := { te.key with key_len := 8 } }
  let te := { te with key := { te.key with bytes := u32_to_key te.key.bytes 0 src_ip } }
  let te := { te with key := { te.key with bytes := u32_to_key te.key.bytes 4 dst_ip } }
  let te := { te with mask := { te.mask with key_len := 8 } }
  let te := { te with mask := { te.mask with bytes := u32_to_key te.mask.bytes 0 src_mask } }
  let te := { te with mask := { te.mask with bytes := u32_to_key te.mask.bytes 4 dst_mask } }
  let te := { te with stage := TABLE_ACL_INGRESS_STAGE }
  let te := { te with table_id := (TABLE_ACL_INGRESS_BASE + rule_id) % 2 ^ 16 }
  let te := { te with action_id := ACTION_PERMIT }
  te

/-- The function `acl_add_permit`. -/
def acl_add_permit (src_ip src_mask dst_ip dst_mask : Nat) (st : acl_state)
    (db : List sim_tcam_rec_t) : Int × acl_state × List sim_tcam_rec_t :=
  match acl_alloc st.acl_table with
  | none => (HAL_ERR_FULL, st, db)
  | some e =>
    let rule_id := st.acl_next_id
    let st : acl_state :=
      { acl_table := slot_update
          (fun _ => { src_ip := src_ip, src_mask := src_mask, dst_ip := dst_ip,
                      dst_mask := dst_mask, dport := 0, action := 1, valid := 1,
                      rule_id := rule_id }) st.acl_table e,
        acl_next_id := (st.acl_next_id + 1) % 2 ^ 16 }
    let r := hal_tcam_insert
      (some (acl_permit_entry src_ip src_mask dst_ip dst_mask rule_id)) db
    if r.1 ≠ HAL_OK then
      (r.1, { st with acl_table :=
                slot_update (fun x => { x with valid := 0 }) st.acl_table e }, r.2)
    else ((rule_id : Int), st, r.2)

/-- The function `acl_delete`. -/
def acl_delete (rule_id : Nat) (st : acl_state) (db : List sim_tcam_rec_t) :
    Int × acl_state × List sim_tcam_rec_t :=
  match st.acl_table.findIdx? (fun e => e.valid != 0 && e.rule_id == rule_id) with
  | some i =>
    let st : acl_state :=
      { st with acl_table := slot_update (fun x => { x with valid := 0 }) st.acl_table i }
    let r := hal_tcam_delete TABLE_ACL_INGRESS_STAGE
      ((TABLE_ACL_INGRESS_BASE + rule_id) % 2 ^ 16) db
    (r.1, st, r.2)
  | none => (HAL_ERR_INVAL, st, db)

/-! ## Frames -/

/-- Four bytes of a frame at `off`, big endian. -/
def frame_be32 (raw : List Nat) (off : Nat) : Nat :=
  raw.getD off 0 * 2 ^ 24 + raw.getD (off + 1) 0 * 2 ^ 16 + raw.getD (off + 2) 0 * 2 ^ 8
    + raw.getD (off + 3) 0

/-- An IPv4 frame whose IPv4 header starts at `ip_start` and is complete: untagged
(ethertype 0x0800, `ip_start = 14`, at least 34 bytes) or 802.1Q-tagged (0x8100,
inner ethertype 0x0800, `ip_start = 18`, at least 38 bytes). -/
def ipv4_frame (raw : List Nat) (ip_start : Nat) : Prop :=
  (ip_start = 14 ∧ raw.getD 12 0 = 0x08 ∧ raw.getD 13 0 = 0x00 ∧ 34 ≤ raw.length) ∨
  (ip_start = 18 ∧ raw.getD 12 0 = 0x81 ∧ raw.getD 13 0 = 0x00 ∧
    raw.getD 16 0 = 0x08 ∧ raw.getD 17 0 = 0x00 ∧ 38 ≤ raw.length)

instance ipv4_frame_decidable (raw : List Nat) (ip_start : Nat) :
    Decidable (ipv4_frame raw ip_start) := by
  unfold ipv4_frame
  infer_instance

/-- The first frame of `test_dp_cosim_acl_deny`: source 172.16.1.2, destination
192.168.0.1, TCP, destination port 80. -/
def cosim_acl_pkt1 : List Nat :=
  [0xFF, 0xFF, 0xFF, 0xFF, 0xFF, 0xFF, 0x00, 0xAA, 0xBB, 0xCC, 0xDD, 0xEE, 0x08, 0x00,
   0x45, 0x00, 0x00, 24, 0x00, 0x01, 0x00, 0x00, 64, 6, 0x00, 0x00,
   172, 16, 1, 2, 192, 168, 0, 1, 0x00, 0x50, 0x00, 0x50]

/-- The second frame of `test_dp_cosim_acl_deny`: source 10.0.0.1, destination
192.168.0.2, TCP, destination port 80. -/
def cosim_acl_pkt2 : List Nat :=
  [0xFF, 0xFF, 0xFF, 0xFF, 0xFF, 0xFF, 0x00, 0xAA, 0xBB, 0xCC, 0xDD, 0xEE, 0x08, 0x00,
   0x45, 0x00, 0x00, 24, 0x00, 0x01, 0x00, 0x00, 64, 6, 0x00, 0x00,
   10, 0, 0, 1, 192, 168, 0, 2, 0x00, 0x50, 0x00, 0x50]

/-- The rule store after `sim_hal_reset(); route_init(); acl_init();
route_add(prefix, len, port, mac); acl_add_deny(src, smask, dst, dmask, dport)`. -/
def acl_over_route_db (pfx len port dmac src smask dst dmask dport : Nat) :
    List sim_tcam_rec_t :=
  (acl_add_deny src smask dst dmask dport acl_init
    (route_add pfx len port dmac route_init []).2.2).2.2

/-! ## qos.h / qos.c and the QoS registers of sim_hal.c -/

def QOS_QUEUES_PER_PORT : Nat := 8
def QOS_DSCP_COUNT : Nat := 64
def QOS_DEFAULT_WEIGHT : Nat := 1500
def QOS_DEFAULT_PIR : Nat := 0
def QOS_SCHED_DWRR : Nat := 0
def QOS_SCHED_SP : Nat := 1
def QOS_SCHED_SP_DWRR : Nat := 2

/-- The type `port_qos_cfg_t`. -/
structure port_qos_cfg_t where
  dwrr_weight : List Nat
  pir_bps : Nat
  sched_mode : Nat
  sp_queues : Nat
deriving DecidableEq, Repr

/-- The QoS registers of the simulated HAL: `sim_qos_dwrr[32][8]`, `sim_qos_pir[32]`,
`sim_qos_mode[32]`, `sim_qos_dscp_map[64]`. -/
structure sim_qos_t where
  sim_qos_dwrr : List (List Nat)
  sim_qos_pir : List Nat
  sim_qos_mode : List Nat
  sim_qos_dscp_map : List Nat
deriving DecidableEq, Repr

/-- The state `qos.c` works on: its statics `port_qos[32]` and `dscp_map.queue[64]`,
the QoS registers and the rule store. -/
structure qos_sys where
  port_qos : List port_qos_cfg_t
  dscp_map : List Nat
  csr : sim_qos_t
  sim_tcam_db : List sim_tcam_rec_t
deriving DecidableEq, Repr

/-- The state at start-up after `sim_hal_reset()`: zeroed statics and registers, empty
rule store. -/
def qos_sys_reset : qos_sys :=
  { port_qos := List.replicate 32
      { dwrr_weight := List.replicate 8 0, pir_bps := 0, sched_mode := 0, sp_queues := 0 },
    dscp_map := List.replicate 64 0,
    csr := { sim_qos_dwrr := List.replicate 32 (List.replicate 8 0),
             sim_qos_pir := List.replicate 32 0,
             sim_qos_mode := List.replicate 32 0,
             sim_qos_dscp_map := List.replicate 64 0 },
    sim_tcam_db := [] }

/-- The function `hal_qos_dwrr_set`. -/
def hal_qos_dwrr_set (port queue weight : Nat) (csr : sim_qos_t) : Int × sim_qos_t :=
  if port ≥ 32 ∨ queue ≥ 8 then (HAL_ERR_INVAL, csr)
  else
    let dwrr := slot_update (fun row => row.set queue weight) csr.sim_qos_dwrr port
    (HAL_OK, { csr with sim_qos_dwrr := dwrr })

/-- The function `hal_qos_pir_set`. -/
def hal_qos_pir_set (port bps : Nat) (csr : sim_qos_t) : Int × sim_qos_t :=
  if port ≥ 32 then (HAL_ERR_INVAL, csr)
  else (HAL_OK, { csr with sim_qos_pir := csr.sim_qos_pir.set port bps })

/-- The function `hal_qos_sched_mode_set`. -/
def hal_qos_sched_mode_set (port mode : Nat) (csr : sim_qos_t) : Int × sim_qos_t :=
  if port ≥ 32 ∨ mode > QOS_SCHED_SP_DWRR then (HAL_ERR_INVAL, csr)
  else (HAL_OK, { csr with sim_qos_mode := csr.sim_qos_mode.set port mode })

/-- The function `hal_qos_dscp_map_set`. -/
def hal_qos_dscp_map_set (dscp queue : Nat) (csr : sim_qos_t) : Int × sim_qos_t :=
  if dscp ≥ 64 ∨ queue ≥ 8 then (HAL_ERR_INVAL, csr)
  else (HAL_OK, { csr with sim_qos_dscp_map := csr.sim_qos_dscp_map.set dscp queue })

/-- The TCAM entry built by `install_dscp_rule`. -/
def dscp_rule_entry (dscp queue : Nat) : tcam_entry_t :=
  let e := tcam_entry_zero
  let e := { e with key := { e.key with key_len := 1 } }
  let e := { e with key := { e.key with bytes := e.key.bytes.set 0 ((dscp <<< 2) % 256) } }
  let e := { e with mask := { e.mask with key_len := 1 } }
  let e := { e with mask := { e.mask with bytes := e.mask.bytes.set 0 0xFC } }
  let e := { e with stage := TABLE_DSCP_MAP_STAGE }
  let e := { e with table_id := (TABLE_DSCP_MAP_BASE + dscp) % 2 ^ 16 }
  let e := { e with action_id := ACTION_SET_PRIO }
  let e := { e with action_params := e.action_params.set 0 queue }
  e

/-- The function `install_dscp_rule`; the code of `hal_tcam_insert` is discarded. -/
def install_dscp_rule (dscp queue : Nat) (db : List sim_tcam_rec_t) : List sim_tcam_rec_t :=
  (hal_tcam_insert (some (dscp_rule_entry dscp queue)) db).2

/-- The function `qos_dscp_map_default`, on `dscp_map.queue`. -/
def qos_dscp_map_default (queue : List Nat) : List Nat :=
  let queue := (List.range QOS_DSCP_COUNT).foldl (fun q d => q.set d 0) queue
  let queue := ((queue.set 10 1).set 12 1).set 14 1
  let queue := ((queue.set 18 2).set 20 2).set 22 2
  let queue := ((queue.set 26 3).set 28 3).set 30 3
  let queue := ((queue.set 34 4).set 36 4).set 38 4
  let queue := (queue.set 40 5).set 46 5
  let queue := queue.set 48 6
  let queue := queue.set 56 7
  queue

/-- The function `qos_apply_dscp_rules`. -/
def qos_apply_dscp_rules (s : qos_sys) : qos_sys :=
  (List.range QOS_DSCP_COUNT).foldl (fun s d =>
    let csr := (hal_qos_dscp_map_set (d % 256) (s.dscp_map.getD d 0) s.csr).2
    let db := install_dscp_rule (d % 256) (s.dscp_map.getD d 0) s.sim_tcam_db
    { s with csr := csr, sim_tcam_db := db }) s

/-- The function `qos_apply_port`. -/
def qos_apply_port (port : Nat) (s : qos_sys) : qos_sys :=
  if port ≥ 32 then s
  else
    let cfg := s.port_qos.getD port
      { dwrr_weight := [], pir_bps := 0, sched_mode := 0, sp_queues := 0 }
    let csr := (List.range QOS_QUEUES_PER_PORT).foldl (fun csr q =>
      (hal_qos_dwrr_set port (q % 256) (cfg.dwrr_weight.getD q 0) csr).2) s.csr
    let csr := (hal_qos_pir_set port cfg.pir_bps csr).2
    let csr := (hal_qos_sched_mode_set port cfg.sched_mode csr).2
    { s with csr := csr }

/-- The function `qos_apply_all`. -/
def qos_apply_all (s : qos_sys) : qos_sys :=
  (List.range 32).foldl (fun s p => qos_apply_port (p % 256) s) s

/-- The function `qos_init`. -/
def qos_init (s : qos_sys) : qos_sys :=
  let port_qos := (List.range 32).foldl (fun pq p =>
    slot_update (fun cfg =>
      { dwrr_weight := (List.range QOS_QUEUES_PER_PORT).foldl
          (fun w q => w.set q QOS_DEFAULT_WEIGHT) cfg.dwrr_weight,
        pir_bps := QOS_DEFAULT_PIR, sched_mode := QOS_SCHED_DWRR, sp_queues := 0 }) pq p)
    s.port_qos
  let s := { s with port_qos := port_qos }
  let s := { s with dscp_map := qos_dscp_map_default s.dscp_map }
  let s := qos_apply_dscp_rules s
  qos_apply_all s

/-- The default DSCP-to-queue map in the words of the specification: DSCP 10, 12,
14 -> 1; 18, 20, 22 -> 2; 26, 28, 30 -> 3; 34, 36, 38 -> 4; 40, 46 -> 5; 48 -> 6;
56 -> 7; every other DSCP -> 0. -/
def spec_dscp_queue (dscp : Nat) : Nat :=
  if dscp = 10 ∨ dscp = 12 ∨ dscp = 14 then 1
  else if dscp = 18 ∨ dscp = 20 ∨ dscp = 22 then 2
  else if dscp = 26 ∨ dscp = 28 ∨ dscp = 30 then 3
  else if dscp = 34 ∨ dscp = 36 ∨ dscp = 38 then 4
  else if dscp = 40 ∨ dscp = 46 then 5
  else if dscp = 48 then 6
  else if dscp = 56 then 7
  else 0

/-- The frame of `test_dp_cosim_dscp_qos` with TOS byte `tos`. -/
def cosim_dscp_pkt (tos : Nat) : List Nat :=
  [0xFF, 0xFF, 0xFF, 0xFF, 0xFF, 0xFF, 0x00, 0x11, 0x22, 0x33, 0x44, 0x55, 0x08, 0x00,
   0x45, tos, 0x00, 20, 0x00, 0x01, 0x00, 0x00, 64, 0, 0x00, 0x00,
   1, 2, 3, 4, 10, 0, 0, 1]

/-! ## fdb.c -/

def FDB_TABLE_SIZE : Nat := 256
def FDB_AGE_DYNAMIC : Nat := 300
def TABLE_L2_FDB_BASE : Nat := 0x0000
def TABLE_ARP_TRAP_BASE : Nat := 0x0000

/-- The type `fdb_entry_t`. -/
structure fdb_entry_t where
  dmac : Nat
  port : Nat
  vlan : Nat
  age_ticks : Nat
  is_static : Nat
  valid : Nat
deriving DecidableEq, Repr

/-- The value left by `memset(e, 0, sizeof(*e))` on an `fdb_entry_t`. -/
def fdb_entry_zero : fdb_entry_t :=
  { dmac := 0, port := 0, vlan := 0, age_ticks := 0, is_static := 0, valid := 0 }

/-- The function `fdb_find`: the first valid slot holding `dmac`, or `NULL`. -/
def fdb_find (fdb_table : List fdb_entry_t) (dmac : Nat) : Option Nat :=
  fdb_table.findIdx? (fun e => e.valid != 0 && e.dmac == dmac)

/-- The function `fdb_alloc`: the first free slot, or `NULL`. -/
def fdb_alloc (fdb_table : List fdb_entry_t) : Option Nat :=
  fdb_table.findIdx? (fun e => e.valid == 0)

/-- The table id computed by `fdb_install_tcam`, `fdb_delete` and `fdb_age`:
`TABLE_L2_FDB_BASE + (uint16_t)(dmac & 0xFFF)`. -/
def fdb_tcam_id (dmac : Nat) : Nat :=
  (TABLE_L2_FDB_BASE + (dmac &&& 0xFFF) % 2 ^ 16) % 2 ^ 16

/-- The TCAM entry built by `fdb_install_tcam`. -/
def fdb_tcam_entry (dmac port : Nat) : tcam_entry_t :=
  let e := tcam_entry_zero
  let e := { e with key := { e.key with key_len := 6 } }
  let e := { e with key := { e.key with bytes := e.key.bytes.set 0 (((dmac >>> 40) &&& 0xFF) % 256) } }
  let e := { e with key := { e.key with bytes := e.key.bytes.set 1 (((dmac >>> 32) &&& 0xFF) % 256) } }
  let e := { e with key := { e.key with bytes := e.key.bytes.set 2 (((dmac >>> 24) &&& 0xFF) % 256) } }
  let e := { e with key := { e.key with bytes := e.key.bytes.set 3 (((dmac >>> 16) &&& 0xFF) % 256) } }
  let e := { e with key := { e.key with bytes := e.key.bytes.set 4 (((dmac >>> 8) &&& 0xFF) % 256) } }
  let e := { e with key := { e.key with bytes := e.key.bytes.set 5 (((dmac >>> 0) &&& 0xFF) % 256) } }
  let e := { e with mask := { e.mask with key_len := 6 } }
  let mask_bytes := (List.range 6).foldl (fun b i => b.set i 0xFF) e.mask.bytes
  let e := { e with mask := { e.mask with bytes := mask_bytes } }
  let e := { e with stage := TABLE_L2_FDB_STAGE }
  let e := { e with table_id := fdb_tcam_id dmac }
  let e := { e with action_id := ACTION_L2_FORWARD }
  let e := { e with action_params := e.action_params.set 0 port }
  e

/-- The function `fdb_install_tcam`. -/
def fdb_install_tcam (dmac port : Nat) (db : List sim_tcam_rec_t) :
    Int × List sim_tcam_rec_t :=
  hal_tcam_insert (some (fdb_tcam_entry dmac port)) db

/-- The function `fdb_init`: `memset(fdb_table, 0, sizeof(fdb_table))`. -/
def fdb_init : List fdb_entry_t :=
  List.replicate FDB_TABLE_SIZE fdb_entry_zero

/-- The function `fdb_learn`; the state is the software table and the rule store. -/
def fdb_learn (dmac port : Nat) (fdb_table : List fdb_entry_t) (db : List sim_tcam_rec_t) :
    Int × List fdb_entry_t × List sim_tcam_rec_t :=
  match fdb_find fdb_table dmac with
  | some e =>
    let fdb_table := slot_update (fun x => { x with port := port, age_ticks := 0 }) fdb_table e
    let r := fdb_install_tcam dmac port db
    (r.1, fdb_table, r.2)
  | none =>
    match fdb_alloc fdb_table with
    | none => (HAL_ERR_FULL, fdb_table, db)
    | some e =>
      let fdb_table := slot_update
        (fun _ => { dmac := dmac, port := port, vlan := 0, age_ticks := 0, is_static := 0,
                    valid := 1 }) fdb_table e
      let r := fdb_install_tcam dmac port db
      (r.1, fdb_table, r.2)

/-- The function `fdb_add_static`. -/
def fdb_add_static (dmac port vlan : Nat) (fdb_table : List fdb_entry_t)
    (db : List sim_tcam_rec_t) : Int × List fdb_entry_t × List sim_tcam_rec_t :=
  let slot :=
    match fdb_find fdb_table dmac with
    | some e => some e
    | none => fdb_alloc fdb_table
  match slot with
  | none => (HAL_ERR_FULL, fdb_table, db)
  | some e =>
    let fdb_table := slot_update
      (fun _ => { dmac := dmac, port := port, vlan := vlan, age_ticks := 0, is_static := 1,
                  valid := 1 }) fdb_table e
    let r := fdb_install_tcam dmac port db
    (r.1, fdb_table, r.2)

/-- The function `fdb_delete`. -/
def fdb_delete (dmac : Nat) (fdb_table : List fdb_entry_t) (db : List sim_tcam_rec_t) :
    Int × List fdb_entry_t × List sim_tcam_rec_t :=
  match fdb_find fdb_table dmac with
  | none => (HAL_ERR_INVAL, fdb_table, db)
  | some e =>
    let r := hal_tcam_delete TABLE_L2_FDB_STAGE (fdb_tcam_id dmac) db
    (HAL_OK, slot_update (fun _ => fdb_entry_zero) fdb_table e, r.2)

/-- One iteration of the loop of `fdb_age`, on slot `i`. -/
def fdb_age_slot (now_sec : Nat) (st : List fdb_entry_t × List sim_tcam_rec_t) (i : Nat) :
    List fdb_entry_t × List sim_tcam_rec_t :=
  let e := st.1.getD i fdb_entry_zero
  if e.valid = 0 ∨ e.is_static ≠ 0 then st
  else if (now_sec + 2 ^ 32 - e.age_ticks) % 2 ^ 32 ≥ FDB_AGE_DYNAMIC then
    let r := hal_tcam_delete TABLE_L2_FDB_STAGE (fdb_tcam_id e.dmac) st.2
    (slot_update (fun _ => fdb_entry_zero) st.1 i, r.2)
  else st

/-- The function `fdb_age`; `now_sec - e->age_ticks` is a `uint32_t` difference. -/
def fdb_age (now_sec : Nat) (fdb_table : List fdb_entry_t) (db : List sim_tcam_rec_t) :
    List fdb_entry_t × List sim_tcam_rec_t :=
  (List.range FDB_TABLE_SIZE).foldl (fdb_age_slot now_sec) (fdb_table, db)

/-! ## sim_hal.c: the punt TX ring -/

def SIM_PUNT_MAX : Nat := 32
def PUNT_REASON_ARP : Nat := 0
def PUNT_REASON_OTHER : Nat := 1

/-- The type `punt_pkt_t`. -/
structure punt_pkt_t where
  ing_port : Nat
  eg_port : Nat
  pkt_len : Nat
  vlan_id : Nat
  reason : Nat
  _pad : Nat
  data : List Nat
deriving DecidableEq, Repr

/-- The value left by `memset(&pkt, 0, sizeof(pkt))`. -/
def punt_pkt_zero : punt_pkt_t :=
  { ing_port := 0, eg_port := 0, pkt_len := 0, vlan_id := 0, reason := 0, _pad := 0,
    data := List.replicate 256 0 }

/-- The type `sim_punt_rec_t`. -/
structure sim_punt_rec_t where
  pkt : punt_pkt_t
  valid : Nat
deriving DecidableEq, Repr

/-- The TX ring of `sim_hal.c`: `sim_punt_tx_ring`, `sim_punt_tx_head` and
`sim_punt_tx_tail`. Both counters start at 0 and only grow. -/
structure sim_punt_tx_t where
  sim_punt_tx_ring : List sim_punt_rec_t
  sim_punt_tx_head : Nat
  sim_punt_tx_tail : Nat
deriving DecidableEq, Repr

/-- The TX ring after `sim_hal_reset`. -/
def sim_punt_tx_reset : sim_punt_tx_t :=
  { sim_punt_tx_ring := List.replicate SIM_PUNT_MAX { pkt := punt_pkt_zero, valid := 0 },
    sim_punt_tx_head := 0, sim_punt_tx_tail := 0 }

/-- The function `hal_punt_tx_send`; the difference of the counters is an `int`. -/
def hal_punt_tx_send (pkt : Option punt_pkt_t) (tx : sim_punt_tx_t) : Int × sim_punt_tx_t :=
  match pkt with
  | none => (HAL_ERR_INVAL, tx)
  | some pkt =>
    if (tx.sim_punt_tx_head : Int) - (tx.sim_punt_tx_tail : Int) ≥ (SIM_PUNT_MAX : Int) then
      (HAL_ERR_FULL, tx)
    else
      let slot := tx.sim_punt_tx_head % SIM_PUNT_MAX
      (HAL_OK, { tx with
        sim_punt_tx_ring := slot_update (fun _ => { pkt := pkt, valid := 1 })
          tx.sim_punt_tx_ring slot,
        sim_punt_tx_head := tx.sim_punt_tx_head + 1 })

/-- The helper `sim_punt_tx_pending` of `sim_hal.h`. -/
def sim_punt_tx_pending (tx : sim_punt_tx_t) : Int :=
  (tx.sim_punt_tx_head : Int) - (tx.sim_punt_tx_tail : Int)

/-! ## arp.h, arp.c -/

def ARP_TABLE_SIZE : Nat := 256
def ARP_AGE_MAX : Nat := 300
def ARP_PROBE_RETRY_MAX : Nat := 3
def ARP_INCOMPLETE_TTL : Nat := 5
def ARP_OP_REQUEST : Nat := 1
def ARP_OP_REPLY : Nat := 2
def ETH_TYPE_ARP : Nat := 0x0806

def ARP_STATE_FREE : Nat := 0
def ARP_STATE_INCOMPLETE : Nat := 1
def ARP_STATE_REACHABLE : Nat := 2
def ARP_STATE_STALE : Nat := 3

/-- The type `arp_entry_t`. -/
structure arp_entry_t where
  ip : Nat
  mac : List Nat
  port : Nat
  vlan : Nat
  age_ticks : Nat
  retry : Nat
  state : Nat
deriving DecidableEq, Repr

/-- The type `l3_intf_t`. -/
structure l3_intf_t where
  ip : Nat
  mac : List Nat
  valid : Nat
deriving DecidableEq, Repr

/-- The value left by `memset(e, 0, sizeof(arp_entry_t))`. -/
def arp_entry_zero : arp_entry_t :=
  { ip := 0, mac := List.replicate 6 0, port := 0, vlan := 0, age_ticks := 0, retry := 0,
    state := 0 }

/-- The value of a slot of `l3_intf` after `memset`. -/
def l3_intf_zero : l3_intf_t :=
  { ip := 0, mac := List.replicate 6 0, valid := 0 }

/-- The constant `BCAST_MAC`. -/
def BCAST_MAC : List Nat := [0xFF, 0xFF, 0xFF, 0xFF, 0xFF, 0xFF]

/-- The state the ARP engine works on: the statics of `arp.c` (`arp_table`, `l3_intf`),
the table of `fdb.c`, the rule store and the punt TX ring. -/
structure arp_sys where
  arp_table : List arp_entry_t
  l3_intf : List l3_intf_t
  fdb_table : List fdb_entry_t
  db : List sim_tcam_rec_t
  tx : sim_punt_tx_t
deriving DecidableEq, Repr

/-- The function `arp_hash` (FNV-1a over the four bytes of `ip`, on `uint32_t`). -/
def arp_hash (ip : Nat) : Nat :=
  let h := 2166136261
  let h := h ^^^ (ip &&& 0xFF)
  let h := (h * 16777619) % 2 ^ 32
  let h := h ^^^ ((ip >>> 8) &&& 0xFF)
  let h := (h * 16777619) % 2 ^ 32
  let h := h ^^^ ((ip >>> 16) &&& 0xFF)
  let h := (h * 16777619) % 2 ^ 32
  let h := h ^^^ ((ip >>> 24) &&& 0xFF)
  let h := (h * 16777619) % 2 ^ 32
  (h % ARP_TABLE_SIZE) % 2 ^ 16

/-- The loop of `arp_find` from iteration `i`, with `n` iterations left. -/
def arp_find_loop (arp_table : List arp_entry_t) (ip find_free start : Nat) :
    Nat → Nat → Option Nat
  | 0, _ => none
  | n + 1, i =>
    let idx := ((start + i) % ARP_TABLE_SIZE) % 2 ^ 16
    let e := arp_table.getD idx arp_entry_zero
    if e.state ≠ ARP_STATE_FREE ∧ e.ip = ip then some idx
    else if find_free ≠ 0 ∧ e.state = ARP_STATE_FREE then some idx
    else arp_find_loop arp_table ip find_free start n (i + 1)

/-- The function `arp_find`: linear probing from `arp_hash(ip)`. -/
def arp_find (arp_table : List arp_entry_t) (ip find_free : Nat) : Option Nat :=
  arp_find_loop arp_table ip find_free (arp_hash ip) ARP_TABLE_SIZE 0

/-- The function `u32_be`. -/
def u32_be (buf : List Nat) (off : Nat) (v : Nat) : List Nat :=
  (((buf.set off (((v >>> 24) &&& 0xFF) % 256)).set
      (off + 1) (((v >>> 16) &&& 0xFF) % 256)).set
      (off + 2) (((v >>> 8) &&& 0xFF) % 256)).set
      (off + 3) ((v &&& 0xFF) % 256)

/-- The function `u32_be_rd`. -/
def u32_be_rd (buf : List Nat) (off : Nat) : Nat :=
  (((buf.getD off 0) <<< 24) % 2 ^ 32) |||
  (((buf.getD (off + 1) 0) <<< 16) % 2 ^ 32) |||
  (((buf.getD (off + 2) 0) <<< 8) % 2 ^ 32) |||
  ((buf.getD (off + 3) 0) % 2 ^ 32)

/-- The function `u16_be_rd`. -/
def u16_be_rd (buf : List Nat) (off : Nat) : Nat :=
  ((((buf.getD off 0) % 2 ^ 16) <<< 8) ||| (buf.getD (off + 1) 0)) % 2 ^ 16

/-- The TCAM entry built by `install_arp_punt_rule`. -/
def arp_punt_entry : tcam_entry_t :=
  let e := tcam_entry_zero
  let e := { e with key := { e.key with key_len := 2 } }
  let e := { e with key := { e.key with bytes := e.key.bytes.set 0 ((ETH_TYPE_ARP >>> 8) &&& 0xFF) } }
  let e := { e with key := { e.key with bytes := e.key.bytes.set 1 (ETH_TYPE_ARP &&& 0xFF) } }
  let e := { e with mask := { e.mask with key_len := 2 } }
  let e := { e with mask := { e.mask with bytes := e.mask.bytes.set 0 0xFF } }
  let e := { e with mask := { e.mask with bytes := e.mask.bytes.set 1 0xFF } }
  let e := { e with stage := TABLE_ARP_TRAP_STAGE }
  let e := { e with table_id := TABLE_ARP_TRAP_BASE }
  let e := { e with action_id := ACTION_PUNT_CPU }
  e

/-- The function `install_arp_punt_rule`. -/
def install_arp_punt_rule (db : List sim_tcam_rec_t) : List sim_tcam_rec_t :=
  (hal_tcam_insert (some arp_punt_entry) db).2

/-- The packet built by `send_arp_reply`. -/
def arp_reply_pkt (eg_port vlan : Nat) (req_sha : List Nat) (req_spa : Nat)
    (my_mac : List Nat) (my_ip : Nat) : punt_pkt_t :=
  let pkt := punt_pkt_zero
  let pkt := { pkt with eg_port := eg_port }
  let pkt := { pkt with vlan_id := vlan }
  let pkt := { pkt with reason := PUNT_REASON_ARP }
  let p := pkt.data
  let p := memcpy p 0 req_sha 0 6
  let p := memcpy p 6 my_mac 0 6
  let p := (p.set 12 0x08).set 13 0x06
  let p := (p.set 14 0x00).set 15 0x01
  let p := (p.set 16 0x08).set 17 0x00
  let p := p.set 18 6
  let p := p.set 19 4
  let p := (p.set 20 0x00).set 21 ARP_OP_REPLY
  let p := memcpy p 22 my_mac 0 6
  let p := u32_be p 28 my_ip
  let p := memcpy p 32 req_sha 0 6
  let p := u32_be p 38 req_spa
  { pkt with data := p, pkt_len := 42 % 2 ^ 16 }

/-- The function `send_arp_reply`. -/
def send_arp_reply (eg_port vlan : Nat) (req_sha : List Nat) (req_spa : Nat)
    (my_mac : List Nat) (my_ip : Nat) (tx : sim_punt_tx_t) : sim_punt_tx_t :=
  (hal_punt_tx_send (some (arp_reply_pkt eg_port vlan req_sha req_spa my_mac my_ip)) tx).2

/-- The function `arp_init`. -/
def arp_init (s : arp_sys) : arp_sys :=
  { s with
    arp_table := List.replicate ARP_TABLE_SIZE arp_entry_zero,
    l3_intf := List.replicate 32 l3_intf_zero,
    db := install_arp_punt_rule s.db }

/-- The function `arp_set_port_intf`. -/
def arp_set_port_intf (port ip : Nat) (mac : Option (List Nat)) (s : arp_sys) : arp_sys :=
  match mac with
  | none => s
  | some mac =>
    if port ≥ 32 then s
    else
      let l3_intf := slot_update
        (fun x => { ip := ip, valid := 1, mac := memcpy x.mac 0 mac 0 6 }) s.l3_intf port
      { s with l3_intf := l3_intf }

/-- The 48-bit value `dmac` that `arp_add` builds from `mac[0..5]`. -/
def arp_dmac (mac : List Nat) : Nat :=
  (((mac.getD 0 0) <<< 40) % 2 ^ 64) ||| (((mac.getD 1 0) <<< 32) % 2 ^ 64) |||
  (((mac.getD 2 0) <<< 24) % 2 ^ 64) ||| (((mac.getD 3 0) <<< 16) % 2 ^ 64) |||
  (((mac.getD 4 0) <<< 8) % 2 ^ 64) ||| ((mac.getD 5 0) % 2 ^ 64)

/-- The slot chosen by `arp_add`: `arp_find(ip, 0)`, else `arp_find(ip, 1)`. -/
def arp_add_slot (arp_table : List arp_entry_t) (ip : Nat) : Option Nat :=
  match arp_find arp_table ip 0 with
  | some e => some e
  | none => arp_find arp_table ip 1

/-- The function `arp_add`; the return value of `fdb_learn` is dropped. -/
def arp_add (ip : Nat) (mac : Option (List Nat)) (port vlan : Nat) (s : arp_sys) :
    Int × arp_sys :=
  match mac with
  | none => (HAL_ERR_INVAL, s)
  | some mac =>
    match arp_add_slot s.arp_table ip with
    | none => (HAL_ERR_FULL, s)
    | some e =>
      let arp_table := slot_update
        (fun x => { ip := ip, port := port, vlan := vlan, age_ticks := 0,
                    retry := ARP_PROBE_RETRY_MAX, state := ARP_STATE_REACHABLE,
                    mac := memcpy x.mac 0 mac 0 6 }) s.arp_table e
      let r := fdb_learn (arp_dmac mac) port s.fdb_table s.db
      (HAL_OK, { s with arp_table := arp_table, fdb_table := r.2.1, db := r.2.2 })

/-- The function `arp_delete`. -/
def arp_delete (ip : Nat) (s : arp_sys) : Int × arp_sys :=
  match arp_find s.arp_table ip 0 with
  | none => (HAL_ERR_INVAL, s)
  | some e =>
    (HAL_OK, { s with arp_table := slot_update (fun _ => arp_entry_zero) s.arp_table e })

/-- The function `arp_lookup`; the result carries the buffers behind `mac_out` and
`port_out` (`none` for a null pointer). -/
def arp_lookup (ip : Nat) (mac_out : Option (List Nat)) (port_out : Option Nat)
    (arp_table : List arp_entry_t) : Int × Option (List Nat) × Option Nat :=
  match arp_find arp_table ip 0 with
  | none => (-1, mac_out, port_out)
  | some e =>
    let e := arp_table.getD e arp_entry_zero
    if e.state ≠ ARP_STATE_REACHABLE then (-1, mac_out, port_out)
    else
      (HAL_OK, mac_out.map (fun m => memcpy m 0 e.mac 0 6), port_out.map (fun _ => e.port))
/-- The function `arp_process_pkt`. -/
def arp_process_pkt (pkt : Option punt_pkt_t) (s : arp_sys) : arp_sys :=
  match pkt with
  | none => s
  | some pkt =>
    if pkt.pkt_len < 42 then s
    else
      let p := pkt.data
      let eth_type := u16_be_rd p 12
      if eth_type ≠ ETH_TYPE_ARP then s
      else
        let oper := u16_be_rd p (14 + 6)
        let sha := memcpy (List.replicate 6 0) 0 p (14 + 8) 6
        let spa := u32_be_rd p (14 + 14)
        let tpa := u32_be_rd p (14 + 24)
        let ing := pkt.ing_port
        if oper = ARP_OP_REQUEST then
          if ing < 32 ∧ (s.l3_intf.getD ing l3_intf_zero).valid ≠ 0 ∧
              (s.l3_intf.getD ing l3_intf_zero).ip = tpa then
            let s := (arp_add spa (some sha) ing pkt.vlan_id s).2
            let intf := s.l3_intf.getD ing l3_intf_zero
            { s with tx := send_arp_reply ing pkt.vlan_id sha spa intf.mac intf.ip s.tx }
          else (arp_add spa (some sha) ing pkt.vlan_id s).2
        else if oper = ARP_OP_REPLY then (arp_add spa (some sha) ing pkt.vlan_id s).2
        else s

/-- The packet built by `arp_probe`. -/
def arp_probe_pkt (target_ip eg_port vlan : Nat) (my_mac : List Nat) (my_ip : Nat) :
    punt_pkt_t :=
  let pkt := punt_pkt_zero
  let pkt := { pkt with eg_port := eg_port }
  let pkt := { pkt with vlan_id := vlan }
  let pkt := { pkt with reason := PUNT_REASON_ARP }
  let p := pkt.data
  let p := memcpy p 0 BCAST_MAC 0 6
  let p := memcpy p 6 my_mac 0 6
  let p := (p.set 12 0x08).set 13 0x06
  let p := (p.set 14 0x00).set 15 0x01
  let p := (p.set 16 0x08).set 17 0x00
  let p := p.set 18 6
  let p := p.set 19 4
  let p := (p.set 20 0x00).set 21 ARP_OP_REQUEST
  let p := memcpy p 22 my_mac 0 6
  let p := u32_be p 28 my_ip
  let p := memcpy p 32 BCAST_MAC 0 6
  let p := u32_be p 38 target_ip
  { pkt with data := p, pkt_len := 42 % 2 ^ 16 }

/-- The table update of `arp_probe`: the slot of `arp_find(target_ip, 1)` becomes
Incomplete if it is Free. -/
def arp_probe_mark (target_ip eg_port vlan : Nat) (arp_table : List arp_entry_t) :
    List arp_entry_t :=
  match arp_find arp_table target_ip 1 with
  | none => arp_table
  | some e =>
    if (arp_table.getD e arp_entry_zero).state = ARP_STATE_FREE then
      slot_update
        (fun x => { x with ip := target_ip, port := eg_port, vlan := vlan,
                           retry := ARP_PROBE_RETRY_MAX, state := ARP_STATE_INCOMPLETE })
        arp_table e
    else arp_table

/-- The function `arp_probe`. -/
def arp_probe (target_ip eg_port vlan : Nat) (s : arp_sys) : Int × arp_sys :=
  if eg_port ≥ 32 then (HAL_ERR_INVAL, s)
  else if (s.l3_intf.getD eg_port l3_intf_zero).valid = 0 then (HAL_ERR_INVAL, s)
  else
    let arp_table := arp_probe_mark target_ip eg_port vlan s.arp_table
    let my_mac := (s.l3_intf.getD eg_port l3_intf_zero).mac
    let my_ip := (s.l3_intf.getD eg_port l3_intf_zero).ip
    let r := hal_punt_tx_send (some (arp_probe_pkt target_ip eg_port vlan my_mac my_ip)) s.tx
    (r.1, { s with arp_table := arp_table, tx := r.2 })

/-- The body of the loop of `arp_age` on slot `i`; `age` is a `uint32_t` difference. -/
def arp_age_slot (now_sec : Nat) (s : arp_sys) (i : Nat) : arp_sys :=
  let e := s.arp_table.getD i arp_entry_zero
  if e.state = ARP_STATE_FREE then s
  else
    let age := (now_sec + 2 ^ 32 - e.age_ticks) % 2 ^ 32
    if e.state = ARP_STATE_INCOMPLETE then
      if age ≥ ARP_INCOMPLETE_TTL then
        if e.retry > 0 then
          let t := slot_update (fun x => { x with retry := x.retry - 1 }) s.arp_table i
          let t := slot_update (fun x => { x with age_ticks := now_sec }) t i
          (arp_probe e.ip e.port e.vlan { s with arp_table := t }).2
        else { s with arp_table := slot_update (fun _ => arp_entry_zero) s.arp_table i }
      else s
    else if e.state = ARP_STATE_REACHABLE then
      if age ≥ ARP_AGE_MAX then
        { s with arp_table :=
            slot_update (fun x => { x with state := ARP_STATE_STALE }) s.arp_table i }
      else s
    else if e.state = ARP_STATE_STALE then
      if age ≥ ARP_AGE_MAX + ARP_INCOMPLETE_TTL then
        if e.retry > 0 then
          let t := slot_update (fun x => { x with retry := x.retry - 1 }) s.arp_table i
          let t := slot_update (fun x => { x with age_ticks := now_sec }) t i
          let s := (arp_probe e.ip e.port e.vlan { s with arp_table := t }).2
          { s with arp_table :=
              slot_update (fun x => { x with state := ARP_STATE_INCOMPLETE }) s.arp_table i }
        else (arp_delete e.ip s).2
      else s
    else s

/-- The function `arp_age`. -/
def arp_age (now_sec : Nat) (s : arp_sys) : arp_sys :=
  (List.range ARP_TABLE_SIZE).foldl (arp_age_slot now_sec) s

/-- The state after `sim_hal_reset(); fdb_init();` with the statics of `arp.c` still
zero. -/
def arp_sys_reset : arp_sys :=
  { arp_table := List.replicate ARP_TABLE_SIZE arp_entry_zero,
    l3_intf := List.replicate 32 l3_intf_zero,
    fdb_table := fdb_init, db := [], tx := sim_punt_tx_reset }

/-! ## Neighbor-table predicates and operation sequences -/

/-- Slot `i` of the ARP table is not Free and holds `ip`. -/
def arp_holds (arp_table : List arp_entry_t) (i ip : Nat) : Prop :=
  (arp_table.getD i arp_entry_zero).state ≠ ARP_STATE_FREE ∧
  (arp_table.getD i arp_entry_zero).ip = ip

instance arp_holds_decidable (arp_table : List arp_entry_t) (i ip : Nat) :
    Decidable (arp_holds arp_table i ip) := by
  unfold arp_holds
  exact inferInstance

/-- At most one slot of the ARP table holds `ip`. -/
def arp_ip_unique (arp_table : List arp_entry_t) (ip : Nat) : Prop :=
  ∀ i, i < ARP_TABLE_SIZE → ∀ j, j < ARP_TABLE_SIZE →
    arp_holds arp_table i ip → arp_holds arp_table j ip → i = j

instance arp_ip_unique_decidable (arp_table : List arp_entry_t) (ip : Nat) :
    Decidable (arp_ip_unique arp_table ip) := by
  unfold arp_ip_unique
  exact inferInstance

/-- A call of `arp_add` (with a non-null `mac`) or of `arp_delete`. -/
inductive arp_op where
  | add (ip : Nat) (mac : List Nat) (port vlan : Nat)
  | del (ip : Nat)
deriving DecidableEq, Repr

/-- The call an `arp_op` stands for: return value and next state. -/
def arp_call (s : arp_sys) : arp_op → Int × arp_sys
  | .add ip mac port vlan => arp_add ip (some mac) port vlan s
  | .del ip => arp_delete ip s

/-- The state after a sequence of calls. -/
def arp_run (s : arp_sys) (ops : List arp_op) : arp_sys :=
  ops.foldl (fun s op => (arp_call s op).2) s

/-- The IP address an operation names. -/
def arp_op_ip : arp_op → Nat
  | .add ip _ _ _ => ip
  | .del ip => ip

/-- The `mac` argument of an `arp_add` points to six bytes. -/
def arp_op_wf : arp_op → Prop
  | .add _ mac _ _ => mac.length = 6
  | .del _ => True

instance arp_op_wf_decidable (op : arp_op) : Decidable (arp_op_wf op) := by
  cases op <;> unfold arp_op_wf <;> exact inferInstance

/-- The finite map a sequence of calls describes: the MAC and port of the most recent
`arp_add(ip, ...)` if `ip` was added and not deleted since. -/
def arp_last (ops : List arp_op) (ip : Nat) : Option (List Nat × Nat) :=
  ops.foldl (fun acc op =>
    match op with
    | .add ip1 mac port _ => if ip1 = ip then some (mac, port) else acc
    | .del ip1 => if ip1 = ip then none else acc) none

/-- The neighbors present after a sequence of calls. -/
def arp_present (ops : List arp_op) : List Nat :=
  ((ops.map arp_op_ip).dedup).filter (fun ip => (arp_last ops ip).isSome)

/-- The table never holds more than 256 neighbors during the sequence. -/
def arp_within_capacity (ops : List arp_op) : Prop :=
  ∀ k, k ≤ ops.length → (arp_present (ops.take k)).length ≤ ARP_TABLE_SIZE

instance arp_within_capacity_decidable (ops : List arp_op) :
    Decidable (arp_within_capacity ops) := by
  unfold arp_within_capacity
  exact inferInstance

/-- The result of `arp_lookup` a finite map entry calls for. -/
def arp_lookup_spec (v : Option (List Nat × Nat)) (mac_out : List Nat) (port_out : Nat) :
    Int × Option (List Nat) × Option Nat :=
  match v with
  | some (mac, port) => (HAL_OK, some mac, some port)
  | none => (-1, some mac_out, some port_out)

/-- The return value the finite map calls for at a call: `arp_add` succeeds and
`arp_delete(ip)` fails iff `ip` is not present. -/
def arp_ret_spec (before : List arp_op) : arp_op → Int
  | .add _ _ _ _ => HAL_OK
  | .del ip => if (arp_last before ip).isSome then HAL_OK else HAL_ERR_INVAL

/-- The neighbor table represents the finite map of a call sequence: every slot in
use is Reachable and carries the last added MAC and port of its address, every
present address has a slot, and no address has two. -/
def arp_map_inv (arp_table : List arp_entry_t) (ops : List arp_op) : Prop :=
  arp_table.length = ARP_TABLE_SIZE ∧
  (∀ j, j < ARP_TABLE_SIZE → (arp_table.getD j arp_entry_zero).mac.length = 6) ∧
  (∀ j, j < ARP_TABLE_SIZE → (arp_table.getD j arp_entry_zero).state ≠ ARP_STATE_FREE →
    (arp_table.getD j arp_entry_zero).state = ARP_STATE_REACHABLE ∧
    arp_last ops (arp_table.getD j arp_entry_zero).ip
      = some ((arp_table.getD j arp_entry_zero).mac, (arp_table.getD j arp_entry_zero).port)) ∧
  (∀ ip, (arp_last ops ip).isSome → ∃ j, j < ARP_TABLE_SIZE ∧ arp_holds arp_table j ip) ∧
  (∀ ip, arp_ip_unique arp_table ip)

/-- Two neighbors whose addresses share the hash slot 146 are added, then the first
is deleted. -/
def arp_collide_ops : List arp_op :=
  [arp_op.add 0x0A000001 [0x00, 0x11, 0x22, 0x33, 0x44, 0x55] 2 10,
   arp_op.add 0x0A00019A [0x00, 0xAA, 0xBB, 0xCC, 0xDD, 0xEE] 3 10,
   arp_op.del 0x0A000001]

/-- An ARP table with all 256 slots Reachable, slot `j` holding the address `j`. -/
def arp_full_table : List arp_entry_t :=
  (List.range ARP_TABLE_SIZE).map
    (fun j => { arp_entry_zero with ip := j, state := ARP_STATE_REACHABLE })

/-! ## ARP frames -/

/-- The six bytes of a buffer at `off`. -/
def mac_at (buf : List Nat) (off : Nat) : List Nat :=
  (List.range 6).map (fun i => buf.getD (off + i) 0)

/-- The four bytes of a 32-bit value, most significant first. -/
def be32 (v : Nat) : List Nat :=
  [(v >>> 24) % 256, (v >>> 16) % 256, (v >>> 8) % 256, v % 256]

/-- The standard 42-byte Ethernet + ARP layout: 6 + 6 + 2 bytes of Ethernet header,
8 bytes of fixed ARP header (htype 1, ptype 0x0800, hlen 6, plen 4, oper), then
sha, spa, tha, tpa. -/
def arp_frame (eth_dst eth_src : List Nat) (oper : Nat) (sha : List Nat) (spa : Nat)
    (tha : List Nat) (tpa : Nat) : List Nat :=
  eth_dst ++ eth_src ++ [0x08, 0x06] ++
  [0x00, 0x01, 0x08, 0x00, 6, 4, (oper >>> 8) % 256, oper % 256] ++
  sha ++ be32 spa ++ tha ++ be32 tpa

/-- Every slot of the ARP table exists and has a six-byte MAC field. -/
def arp_table_wf (arp_table : List arp_entry_t) : Prop :=
  arp_table.length = ARP_TABLE_SIZE ∧
  ∀ j, j < ARP_TABLE_SIZE → (arp_table.getD j arp_entry_zero).mac.length = 6

/-- The test of `arp_process_pkt` for a Request: the target is the local interface
address of the ingress port. -/
def arp_target_local (pkt : punt_pkt_t) (s : arp_sys) : Prop :=
  pkt.ing_port < 32 ∧ (s.l3_intf.getD pkt.ing_port l3_intf_zero).valid ≠ 0 ∧
  (s.l3_intf.getD pkt.ing_port l3_intf_zero).ip = u32_be_rd pkt.data 38

instance arp_target_local_decidable (pkt : punt_pkt_t) (s : arp_sys) :
    Decidable (arp_target_local pkt s) := by
  unfold arp_target_local
  exact inferInstance

/-- The punted packet of `test_arp_process_request`: a Request from 10.10.0.2 for
10.10.0.1 on port 0, VLAN 10. -/
def arp_test_request : punt_pkt_t :=
  { ing_port := 0, eg_port := 0, pkt_len := 42, vlan_id := 10, reason := PUNT_REASON_ARP,
    _pad := 0,
    data := arp_frame BCAST_MAC [0x00, 0x11, 0x22, 0x33, 0x44, 0x55] ARP_OP_REQUEST
      [0x00, 0x11, 0x22, 0x33, 0x44, 0x55] 0x0A0A0002 [0, 0, 0, 0, 0, 0] 0x0A0A0001 ++
      List.replicate 214 0 }

/-- The punted packet of `test_arp_process_reply`: a Reply from 192.168.1.2 on port 5,
VLAN 20. -/
def arp_test_reply : punt_pkt_t :=
  { ing_port := 5, eg_port := 0, pkt_len := 42, vlan_id := 20, reason := PUNT_REASON_ARP,
    _pad := 0,
    data := arp_frame [0, 0, 0, 0, 0, 0] [0x00, 0xAA, 0xBB, 0xCC, 0xDD, 0xEE] ARP_OP_REPLY
      [0x00, 0xAA, 0xBB, 0xCC, 0xDD, 0xEE] 0xC0A80102 [0, 0, 0, 0, 0, 0] 0 ++
      List.replicate 214 0 }

/-- The state of `test_arp_process_request` before the packet: port 0 has the local
interface 10.10.0.1, 02:00:00:00:00:00. -/
def arp_test_sys : arp_sys :=
  arp_set_port_intf 0 0x0A0A0001 (some [0x02, 0x00, 0x00, 0x00, 0x00, 0x00])
    (arp_init arp_sys_reset)
/-- The writes that `send_arp_reply` and `arp_probe` both perform on `pkt.data`, with
the fields that differ between them as parameters. -/
def arp_write_frame (p eth_dst eth_src : List Nat) (oper : Nat) (sha : List Nat) (spa : Nat)
    (tha : List Nat) (tpa : Nat) : List Nat :=
  let p := memcpy p 0 eth_dst 0 6
  let p := memcpy p 6 eth_src 0 6
  let p := (p.set 12 0x08).set 13 0x06
  let p := (p.set 14 0x00).set 15 0x01
  let p := (p.set 16 0x08).set 17 0x00
  let p := p.set 18 6
  let p := p.set 19 4
  let p := (p.set 20 0x00).set 21 oper
  let p := memcpy p 22 sha 0 6
  let p := u32_be p 28 spa
  let p := memcpy p 32 tha 0 6
  let p := u32_be p 38 tpa
  p

/-- Exactly one frame was queued on the punt TX ring between the ring states `tx` and
`tx2`, and it is the ARP Reply to the Request `pkt` from the local interface `intf`:
42 bytes on the ingress port with the VLAN of the Request, addressed to the
requester. -/
def arp_reply_sent (pkt : punt_pkt_t) (intf : l3_intf_t) (tx tx2 : sim_punt_tx_t) : Prop :=
  ∃ f : punt_pkt_t,
    tx2 = { sim_punt_tx_ring := slot_update (fun _ => { pkt := f, valid := 1 })
              tx.sim_punt_tx_ring (tx.sim_punt_tx_head % SIM_PUNT_MAX),
            sim_punt_tx_head := tx.sim_punt_tx_head + 1,
            sim_punt_tx_tail := tx.sim_punt_tx_tail } ∧
    f.pkt_len = 42 ∧ f.eg_port = pkt.ing_port ∧ f.vlan_id = pkt.vlan_id ∧
    f.data.take 42
      = arp_frame (mac_at pkt.data 22) (mac_at intf.mac 0) ARP_OP_REPLY
          (mac_at intf.mac 0) intf.ip (mac_at pkt.data 22) (u32_be_rd pkt.data 28)

/-! ## Aging of a lone neighbor -/

/-- The ARP table whose only slot in use is slot `i`, holding `e`. -/
def arp_single (i : Nat) (e : arp_entry_t) : List arp_entry_t :=
  slot_update (fun _ => e) (List.replicate ARP_TABLE_SIZE arp_entry_zero) i

/-- The state after `arp_init`, `arp_set_port_intf(0, 10.10.0.1, ...)` and the calls of
`arp_collide_ops`: 10.0.1.154 is Reachable in slot 147, behind the slot 146 that the
deleted 10.0.0.1 left Free. -/
def arp_collide_sys : arp_sys :=
  arp_run
    (arp_set_port_intf 0 0x0A0A0001 (some [0x02, 0x00, 0x00, 0x00, 0x00, 0x00])
      (arp_init arp_sys_reset))
    arp_collide_ops

/-! ## Operation sequences of the ACL compiler -/

/-- The statics of `acl.c` together with the rule store. -/
structure acl_sys where
  st : acl_state
  db : List sim_tcam_rec_t
deriving DecidableEq, Repr

/-- A call of `acl_add_deny`, `acl_add_permit` or `acl_delete`. -/
inductive acl_op where
  | deny (src_ip src_mask dst_ip dst_mask dport : Nat)
  | permit (src_ip src_mask dst_ip dst_mask : Nat)
  | del (rule_id : Nat)
deriving DecidableEq, Repr

/-- The call an `acl_op` stands for: return value and next state. -/
def acl_call (s : acl_sys) : acl_op → Int × acl_sys
  | .deny src_ip src_mask dst_ip dst_mask dport =>
    let r := acl_add_deny src_ip src_mask dst_ip dst_mask dport s.st s.db
    (r.1, { st := r.2.1, db := r.2.2 })
  | .permit src_ip src_mask dst_ip dst_mask =>
    let r := acl_add_permit src_ip src_mask dst_ip dst_mask s.st s.db
    (r.1, { st := r.2.1, db := r.2.2 })
  | .del rule_id =>
    let r := acl_delete rule_id s.st s.db
    (r.1, { st := r.2.1, db := r.2.2 })

/-- The state after a sequence of calls. -/
def acl_run (s : acl_sys) (ops : List acl_op) : acl_sys :=
  ops.foldl (fun s op => (acl_call s op).2) s

/-- The state after `sim_hal_reset(); acl_init();`. -/
def acl_sys_init : acl_sys :=
  { st := acl_init, db := [] }

/-- The calls of `test_acl_seq_ids`. -/
def acl_test_ops : List acl_op :=
  [acl_op.deny 0xC0A80000 0xFFFF0000 0 0 0, acl_op.permit 0x0A000000 0xFF000000 0 0,
   acl_op.deny 0xAC100000 0xFFF00000 0 0 443, acl_op.del 1]

/-! ## vlan.h / vlan.c and the VLAN registers of sim_hal.c -/

def VLAN_MAX_ID : Nat := 255
def VLAN_MODE_ACCESS : Nat := 0
def VLAN_MODE_TRUNK : Nat := 1

/-- The macro `VLAN_INGRESS_ENTRY(port, tagged)`, before the cast to `uint16_t`. -/
def VLAN_INGRESS_ENTRY (port tagged : Nat) : Nat :=
  port * 2 + tagged

/-- The macro `VLAN_EGRESS_ENTRY(port, vlan)`, before the cast to `uint16_t`. -/
def VLAN_EGRESS_ENTRY (port vlan : Nat) : Nat :=
  port * 256 + vlan

/-- The type `vlan_entry_t`. -/
structure vlan_entry_t where
  member_bitmap : Nat
  untagged_bitmap : Nat
  valid : Nat
deriving DecidableEq, Repr

/-- The type `port_vlan_cfg_t`. -/
structure port_vlan_cfg_t where
  pvid : Nat
  mode : Nat
deriving DecidableEq, Repr

/-- The value left by `memset` on a `vlan_entry_t`. -/
def vlan_entry_zero : vlan_entry_t :=
  { member_bitmap := 0, untagged_bitmap := 0, valid := 0 }

/-- The value left by `memset` on a `port_vlan_cfg_t`. -/
def port_vlan_cfg_zero : port_vlan_cfg_t :=
  { pvid := 0, mode := 0 }

/-- The VLAN registers of the simulated HAL: `sim_vlan_pvid[32]`, `sim_vlan_mode[32]`,
`sim_vlan_member[256]`, `sim_vlan_untagged[256]`. -/
structure sim_vlan_t where
  sim_vlan_pvid : List Nat
  sim_vlan_mode : List Nat
  sim_vlan_member : List Nat
  sim_vlan_untagged : List Nat
deriving DecidableEq, Repr

/-- The state `vlan.c` works on: its statics `vlan_db[256]` and `port_cfg[32]`, the
VLAN registers and the rule store. -/
structure vlan_sys where
  vlan_db : List vlan_entry_t
  port_cfg : List port_vlan_cfg_t
  csr : sim_vlan_t
  db : List sim_tcam_rec_t
deriving DecidableEq, Repr

/-- The state at start-up after `sim_hal_reset()`: zeroed statics and registers, empty
rule store. -/
def vlan_sys_reset : vlan_sys :=
  { vlan_db := List.replicate (VLAN_MAX_ID + 1) vlan_entry_zero,
    port_cfg := List.replicate 32 port_vlan_cfg_zero,
    csr := { sim_vlan_pvid := List.replicate 32 0,
             sim_vlan_mode := List.replicate 32 0,
             sim_vlan_member := List.replicate 256 0,
             sim_vlan_untagged := List.replicate 256 0 },
    db := [] }

/-- The function `hal_vlan_pvid_set`. -/
def hal_vlan_pvid_set (port vlan_id : Nat) (csr : sim_vlan_t) : Int × sim_vlan_t :=
  if port ≥ 32 ∨ vlan_id > 4095 then (HAL_ERR_INVAL, csr)
  else (HAL_OK, { csr with sim_vlan_pvid := csr.sim_vlan_pvid.set port vlan_id })

/-- The function `hal_vlan_mode_set`. -/
def hal_vlan_mode_set (port mode : Nat) (csr : sim_vlan_t) : Int × sim_vlan_t :=
  if port ≥ 32 then (HAL_ERR_INVAL, csr)
  else (HAL_OK, { csr with sim_vlan_mode := csr.sim_vlan_mode.set port mode })

/-- The function `hal_vlan_member_set`. -/
def hal_vlan_member_set (vlan_id member untagged : Nat) (csr : sim_vlan_t) :
    Int × sim_vlan_t :=
  if vlan_id > 255 then (HAL_ERR_INVAL, csr)
  else
    let csr := { csr with sim_vlan_member := csr.sim_vlan_member.set vlan_id member }
    (HAL_OK, { csr with sim_vlan_untagged := csr.sim_vlan_untagged.set vlan_id untagged })

/-- The function `hal_vlan_member_get`. -/
def hal_vlan_member_get (vlan_id : Nat) (csr : sim_vlan_t) : Nat :=
  if vlan_id > 255 then 0 else csr.sim_vlan_member.getD vlan_id 0

/-- The function `u16_to_key` of `vlan.c`. -/
def u16_to_key (buf : List Nat) (off : Nat) (val : Nat) : List Nat :=
  let buf := buf.set off ((val >>> 8) &&& 0xFF)
  buf.set (off + 1) (val &&& 0xFF)

/-- The TCAM entry built by `install_ingress_rule`. -/
def vlan_ingress_entry (port vlan_tci_val vlan_tci_mask action_id meta_vlan_id table_id : Nat) :
    tcam_entry_t :=
  let e := tcam_entry_zero
  let e := { e with key := { e.key with key_len := 3 } }
  let e := { e with key := { e.key with bytes := e.key.bytes.set 0 port } }
  let e := { e with key := { e.key with bytes := u16_to_key e.key.bytes 1 vlan_tci_val } }
  let e := { e with mask := { e.mask with key_len := 3 } }
  let e := { e with mask := { e.mask with bytes := e.mask.bytes.set 0 0xFF } }
  let e := { e with mask := { e.mask with bytes := u16_to_key e.mask.bytes 1 vlan_tci_mask } }
  let e := { e with stage := TABLE_VLAN_INGRESS_STAGE }
  let e := { e with table_id := table_id }
  let e := { e with action_id := action_id }
  let e := { e with action_params := e.action_params.set 0 (((meta_vlan_id >>> 8) &&& 0xFF) % 256) }
  let e := { e with action_params := e.action_params.set 1 ((meta_vlan_id &&& 0xFF) % 256) }
  e

/-- The function `install_ingress_rule`; the code of `hal_tcam_insert` is discarded. -/
def install_ingress_rule (port vlan_tci_val vlan_tci_mask action_id meta_vlan_id table_id : Nat)
    (db : List sim_tcam_rec_t) : List sim_tcam_rec_t :=
  (hal_tcam_insert (some (vlan_ingress_entry port vlan_tci_val vlan_tci_mask action_id
    meta_vlan_id table_id)) db).2

/-- The TCAM entry built by `install_egress_rule`. -/
def vlan_egress_entry (port vlan_id action_id : Nat) : tcam_entry_t :=
  let e := tcam_entry_zero
  let e := { e with key := { e.key with key_len := 2 } }
  let e := { e with key := { e.key with bytes := e.key.bytes.set 0 port } }
  let e := { e with key := { e.key with bytes := e.key.bytes.set 1 ((vlan_id &&& 0xFF) % 256) } }
  let e := { e with mask := { e.mask with key_len := 2 } }
  let e := { e with mask := { e.mask with bytes := e.mask.bytes.set 0 0xFF } }
  let e := { e with mask := { e.mask with bytes := e.mask.bytes.set 1 0xFF } }
  let e := { e with stage := TABLE_VLAN_EGRESS_STAGE }
  let e := { e with table_id := (VLAN_EGRESS_ENTRY port vlan_id) % 2 ^ 16 }
  let e := { e with action_id := action_id }
  e

/-- The function `install_egress_rule`; the code of `hal_tcam_insert` is discarded. -/
def install_egress_rule (port vlan_id action_id : Nat) (db : List sim_tcam_rec_t) :
    List sim_tcam_rec_t :=
  (hal_tcam_insert (some (vlan_egress_entry port vlan_id action_id)) db).2

/-- The function `vlan_install_port_rules`; `port` indexes `port_cfg[32]`. -/
def vlan_install_port_rules (port : Nat) (s : vlan_sys) : vlan_sys :=
  let pvid := (s.port_cfg.getD port port_vlan_cfg_zero).pvid
  let mode := (s.port_cfg.getD port port_vlan_cfg_zero).mode
  if mode = VLAN_MODE_ACCESS then
    let db := install_ingress_rule port 0x0000 0x0000 ACTION_VLAN_ASSIGN_PVID pvid
      ((VLAN_INGRESS_ENTRY port 0) % 2 ^ 16) s.db
    let db := install_ingress_rule port ((pvid &&& 0x0FFF) % 2 ^ 16) 0x0FFF
      ACTION_VLAN_ACCEPT_TAGGED pvid ((VLAN_INGRESS_ENTRY port 1) % 2 ^ 16) db
    { s with db := db }
  else
    let db := install_ingress_rule port 0x0000 0x0000 ACTION_VLAN_ASSIGN_PVID pvid
      ((VLAN_INGRESS_ENTRY port 0) % 2 ^ 16) s.db
    let db := install_ingress_rule port 0x0000 0x0000 ACTION_VLAN_ACCEPT_TAGGED 0
      ((VLAN_INGRESS_ENTRY port 1) % 2 ^ 16) db
    { s with db := db }

/-- The function `vlan_create`. -/
def vlan_create (vlan_id : Nat) (s : vlan_sys) : Int × vlan_sys :=
  if vlan_id = 0 ∨ vlan_id > VLAN_MAX_ID then (HAL_ERR_INVAL, s)
  else if (s.vlan_db.getD vlan_id vlan_entry_zero).valid ≠ 0 then (HAL_OK, s)
  else
    let vdb := slot_update (fun _ => { member_bitmap := 0, untagged_bitmap := 0, valid := 1 })
      s.vlan_db vlan_id
    (HAL_OK, { s with vlan_db := vdb, csr := (hal_vlan_member_set vlan_id 0 0 s.csr).2 })

/-- The loop of `vlan_delete` over the ports 0..31. -/
def vlan_delete_rules (vlan_id mbr : Nat) (db : List sim_tcam_rec_t) : List sim_tcam_rec_t :=
  (List.range 32).foldl (fun db p =>
    if mbr &&& ((1 <<< p) % 2 ^ 32) ≠ 0 then
      (hal_tcam_delete TABLE_VLAN_EGRESS_STAGE ((VLAN_EGRESS_ENTRY p vlan_id) % 2 ^ 16) db).2
    else db) db

/-- The function `vlan_delete`. -/
def vlan_delete (vlan_id : Nat) (s : vlan_sys) : Int × vlan_sys :=
  if vlan_id = 0 ∨ vlan_id > VLAN_MAX_ID then (HAL_ERR_INVAL, s)
  else if (s.vlan_db.getD vlan_id vlan_entry_zero).valid = 0 then (HAL_ERR_INVAL, s)
  else
    let mbr := (s.vlan_db.getD vlan_id vlan_entry_zero).member_bitmap
    let db := vlan_delete_rules vlan_id mbr s.db
    let vdb := slot_update (fun _ => vlan_entry_zero) s.vlan_db vlan_id
    (HAL_OK, { s with vlan_db := vdb, csr := (hal_vlan_member_set vlan_id 0 0 s.csr).2,
                      db := db })

/-- The function `vlan_port_add`. -/
def vlan_port_add (vlan_id port tagged : Nat) (s : vlan_sys) : Int × vlan_sys :=
  if vlan_id = 0 ∨ vlan_id > VLAN_MAX_ID then (HAL_ERR_INVAL, s)
  else if port ≥ 32 then (HAL_ERR_INVAL, s)
  else if (s.vlan_db.getD vlan_id vlan_entry_zero).valid = 0 then (HAL_ERR_INVAL, s)
  else
    let bit := (1 <<< port) % 2 ^ 32
    let vdb := slot_update (fun e => { e with member_bitmap := e.member_bitmap ||| bit })
      s.vlan_db vlan_id
    let vdb :=
      if tagged = 0 then
        slot_update (fun e => { e with untagged_bitmap := e.untagged_bitmap ||| bit }) vdb vlan_id
      else
        slot_update (fun e => { e with untagged_bitmap := e.untagged_bitmap &&& (0xFFFFFFFF ^^^ bit) })
          vdb vlan_id
    let csr := (hal_vlan_member_set vlan_id (vdb.getD vlan_id vlan_entry_zero).member_bitmap
      (vdb.getD vlan_id vlan_entry_zero).untagged_bitmap s.csr).2
    let eg_action := if tagged ≠ 0 then ACTION_VLAN_KEEP_TAG else ACTION_VLAN_STRIP_TAG
    let db := install_egress_rule port vlan_id eg_action s.db
    (HAL_OK, { s with vlan_db := vdb, csr := csr, db := db })

/-- The function `vlan_port_remove`. -/
def vlan_port_remove (vlan_id port : Nat) (s : vlan_sys) : Int × vlan_sys :=
  if vlan_id = 0 ∨ vlan_id > VLAN_MAX_ID then (HAL_ERR_INVAL, s)
  else if port ≥ 32 then (HAL_ERR_INVAL, s)
  else if (s.vlan_db.getD vlan_id vlan_entry_zero).valid = 0 then (HAL_ERR_INVAL, s)
  else
    let bit := (1 <<< port) % 2 ^ 32
    let vdb := slot_update (fun e => { e with member_bitmap := e.member_bitmap &&& (0xFFFFFFFF ^^^ bit) })
      s.vlan_db vlan_id
    let vdb := slot_update (fun e => { e with untagged_bitmap := e.untagged_bitmap &&& (0xFFFFFFFF ^^^ bit) })
      vdb vlan_id
    let csr := (hal_vlan_member_set vlan_id (vdb.getD vlan_id vlan_entry_zero).member_bitmap
      (vdb.getD vlan_id vlan_entry_zero).untagged_bitmap s.csr).2
    let db := (hal_tcam_delete TABLE_VLAN_EGRESS_STAGE
      ((VLAN_EGRESS_ENTRY port vlan_id) % 2 ^ 16) s.db).2
    (HAL_OK, { s with vlan_db := vdb, csr := csr, db := db })

/-- The function `vlan_port_set_pvid`. -/
def vlan_port_set_pvid (port vlan_id : Nat) (s : vlan_sys) : Int × vlan_sys :=
  if port ≥ 32 ∨ vlan_id = 0 ∨ vlan_id > VLAN_MAX_ID then (HAL_ERR_INVAL, s)
  else
    let cfg := slot_update (fun c => { c with pvid := vlan_id }) s.port_cfg port
    let s := { s with port_cfg := cfg, csr := (hal_vlan_pvid_set port vlan_id s.csr).2 }
    (HAL_OK, vlan_install_port_rules port s)

/-- The function `vlan_port_set_mode`. -/
def vlan_port_set_mode (port mode : Nat) (s : vlan_sys) : Int × vlan_sys :=
  if port ≥ 32 ∨ (mode ≠ VLAN_MODE_ACCESS ∧ mode ≠ VLAN_MODE_TRUNK) then (HAL_ERR_INVAL, s)
  else
    let cfg := slot_update (fun c => { c with mode := mode }) s.port_cfg port
    let s := { s with port_cfg := cfg, csr := (hal_vlan_mode_set port mode s.csr).2 }
    (HAL_OK, vlan_install_port_rules port s)

/-- The ethertype of a frame: bytes 12..13, big endian. -/
def frame_eth_type (raw : List Nat) : Nat :=
  (((raw.getD 12 0) <<< 8) ||| (raw.getD 13 0)) % 2 ^ 16

/-- The frame carries a whole 802.1Q tag: ethertype 0x8100 and at least 18 bytes. -/
def frame_has_tag (raw : List Nat) (raw_len : Nat) : Prop :=
  frame_eth_type raw = 0x8100 ∧ 18 ≤ raw_len

instance frame_has_tag_decidable (raw : List Nat) (raw_len : Nat) :
    Decidable (frame_has_tag raw raw_len) := by
  unfold frame_has_tag
  infer_instance

/-- Where the payload of the Ethernet header starts: after the tag when there is one. -/
def frame_ip_start (raw : List Nat) (raw_len : Nat) : Nat :=
  if frame_has_tag raw raw_len then 18 else 14

/-- The ethertype of the payload: bytes 16..17 behind a tag, else bytes 12..13. -/
def frame_inner_type (raw : List Nat) (raw_len : Nat) : Nat :=
  if frame_has_tag raw raw_len then (((raw.getD 16 0) <<< 8) ||| (raw.getD 17 0)) % 2 ^ 16
  else frame_eth_type raw

/-- The frame carries a whole 20-byte IPv4 header. -/
def frame_has_ipv4 (raw : List Nat) (raw_len : Nat) : Prop :=
  frame_inner_type raw raw_len = 0x0800 ∧ frame_ip_start raw raw_len + 20 ≤ raw_len

instance frame_has_ipv4_decidable (raw : List Nat) (raw_len : Nat) :
    Decidable (frame_has_ipv4 raw raw_len) := by
  unfold frame_has_ipv4
  infer_instance

/-- The frame carries the four port bytes of a TCP or UDP header behind a whole IPv4
header of `ihl` words. -/
def frame_has_l4 (raw : List Nat) (raw_len : Nat) : Prop :=
  frame_has_ipv4 raw raw_len ∧
  (raw.getD (frame_ip_start raw raw_len + 9) 0 = 6 ∨
    raw.getD (frame_ip_start raw raw_len + 9) 0 = 17) ∧
  frame_ip_start raw raw_len + ((raw.getD (frame_ip_start raw raw_len) 0) &&& 0x0F) * 4 + 4
    ≤ raw_len

instance frame_has_l4_decidable (raw : List Nat) (raw_len : Nat) :
    Decidable (frame_has_l4 raw raw_len) := by
  unfold frame_has_l4
  infer_instance

/-! ## Runs of deletes and the aging pass of the FDB -/

/-- The store after `hal_tcam_delete(stage, table_id)` for each key of a list, first
key first. -/
def hal_tcam_delete_run (db : List sim_tcam_rec_t) (keys : List (Nat × Nat)) :
    List sim_tcam_rec_t :=
  keys.foldl (fun db k => (hal_tcam_delete k.1 k.2 db).2) db

/-- The `uint32_t` difference `now_sec - e->age_ticks` of `fdb_age`. -/
def fdb_idle (now_sec : Nat) (e : fdb_entry_t) : Nat :=
  (now_sec + 2 ^ 32 - e.age_ticks) % 2 ^ 32

/-- The entries `fdb_age(now_sec)` removes: valid, dynamic, idle for at least
`FDB_AGE_DYNAMIC` seconds. -/
def fdb_expired (now_sec : Nat) (e : fdb_entry_t) : Prop :=
  e.valid ≠ 0 ∧ e.is_static = 0 ∧ fdb_idle now_sec e ≥ FDB_AGE_DYNAMIC

instance fdb_expired_decidable (now_sec : Nat) (e : fdb_entry_t) :
    Decidable (fdb_expired now_sec e) := by
  unfold fdb_expired
  infer_instance

/-- The keys `fdb_age(now_sec)` deletes while it visits the slots `idxs` of the table. -/
def fdb_age_keys (now_sec : Nat) (fdb_table : List fdb_entry_t) (idxs : List Nat) :
    List (Nat × Nat) :=
  (idxs.filter (fun i => decide (fdb_expired now_sec (fdb_table.getD i fdb_entry_zero)))).map
    (fun i => (TABLE_L2_FDB_STAGE, fdb_tcam_id (fdb_table.getD i fdb_entry_zero).dmac))

/-- The table and the store after `fdb_init()`, `fdb_learn(00:00:00:00:10:01, 1)` and
`fdb_add_static(00:00:00:00:00:01, 2, 0)` on the empty store. -/
def fdb_alias_sys : List fdb_entry_t × List sim_tcam_rec_t :=
  let a := fdb_learn 0x1001 1 fdb_init []
  let b := fdb_add_static 0x0001 2 0 a.2.1 a.2.2
  (b.2.1, b.2.2)

/-! ## Stores that hold the ingress rules of the VLAN compiler -/

/-- The shape of a Stage-4 record that `install_ingress_rule` writes for a port below
32: a 3-byte key whose first byte is the port, compared under the mask byte 0xFF, at
table id `VLAN_INGRESS_ENTRY(port, 0)` or `VLAN_INGRESS_ENTRY(port, 1)`. -/
def vlan_ingress_rule (r : sim_tcam_rec_t) : Prop :=
  r.entry.key.key_len = 3 ∧ r.entry.mask.bytes.getD 0 0 = 0xFF ∧
  r.entry.key.bytes.getD 0 0 < 32 ∧
  (r.entry.table_id = VLAN_INGRESS_ENTRY (r.entry.key.bytes.getD 0 0) 0 ∨
    r.entry.table_id = VLAN_INGRESS_ENTRY (r.entry.key.bytes.getD 0 0) 1)

instance vlan_ingress_rule_decidable (r : sim_tcam_rec_t) : Decidable (vlan_ingress_rule r) := by
  unfold vlan_ingress_rule
  infer_instance

/-- Every live Stage-4 record is an ingress rule of the VLAN compiler, and no live
record of Stage 5 or 6 carries one of the two actions that write `vlan_id`. -/
def vlan_ingress_store (db : List sim_tcam_rec_t) : Prop :=
  ∀ r ∈ db, rec_live r = true →
    (r.entry.stage = TABLE_VLAN_INGRESS_STAGE → vlan_ingress_rule r) ∧
    (r.entry.stage = TABLE_DSCP_MAP_STAGE ∨ r.entry.stage = TABLE_VLAN_EGRESS_STAGE →
      r.entry.action_id ≠ ACTION_VLAN_ASSIGN_PVID ∧
      r.entry.action_id ≠ ACTION_VLAN_ACCEPT_TAGGED)

instance vlan_ingress_store_decidable (db : List sim_tcam_rec_t) :
    Decidable (vlan_ingress_store db) := by
  unfold vlan_ingress_store
  infer_instance

/-- Every live record was written by the VLAN compiler: a Stage-4 record, or a
Stage-6 record with the action strip-tag or keep-tag. -/
def vlan_only_store (db : List sim_tcam_rec_t) : Prop :=
  ∀ r ∈ db, rec_live r = true →
    r.entry.stage = TABLE_VLAN_INGRESS_STAGE ∨
    (r.entry.stage = TABLE_VLAN_EGRESS_STAGE ∧
      (r.entry.action_id = ACTION_VLAN_STRIP_TAG ∨ r.entry.action_id = ACTION_VLAN_KEEP_TAG))

instance vlan_only_store_decidable (db : List sim_tcam_rec_t) :
    Decidable (vlan_only_store db) := by
  unfold vlan_only_store
  infer_instance

/-- The second ingress rule of `port`, when live, sits behind the first one (the order
in which `vlan_install_port_rules` inserts them). -/
def vlan_ingress_ordered (db : List sim_tcam_rec_t) (port : Nat) : Prop :=
  match sim_tcam_find db TABLE_VLAN_INGRESS_STAGE (VLAN_INGRESS_ENTRY port 1) with
  | none => True
  | some j =>
    match sim_tcam_find db TABLE_VLAN_INGRESS_STAGE (VLAN_INGRESS_ENTRY port 0) with
    | none => False
    | some i => i < j

instance vlan_ingress_ordered_decidable (db : List sim_tcam_rec_t) (port : Nat) :
    Decidable (vlan_ingress_ordered db port) := by
  unfold vlan_ingress_ordered
  split
  · infer_instance
  · split <;> infer_instance

/-- The state of `test_vlan_port_trunk_ingress` before its `vlan_port_set_mode`:
`sim_hal_reset()`, `vlan_create(10)`, `vlan_port_set_pvid(5, 10)` on zeroed statics. -/
def vlan_trunk_sys : vlan_sys :=
  (vlan_port_set_pvid 5 10 (vlan_create 10 vlan_sys_reset).2).2

/-- An 18-byte frame with an 802.1Q tag of VID `vid` (PCP and DEI 0) and inner
ethertype 0x9999. -/
def vlan_tagged_frame (vid : Nat) : List Nat :=
  [0xFF, 0xFF, 0xFF, 0xFF, 0xFF, 0xFF, 0x00, 0x11, 0x22, 0x33, 0x44, 0x55, 0x81, 0x00,
   (vid >>> 8) &&& 0x0F, vid &&& 0xFF, 0x99, 0x99]

/-! ## ACL keys in the PHV -/

/-- The IPv4 source address in a PHV: bytes 30..33 of `hdr`, big endian. -/
def phv_ipv4_src (phv : phv_t) : Nat :=
  phv.hdr.getD 30 0 * 2 ^ 24 + phv.hdr.getD 31 0 * 2 ^ 16 + phv.hdr.getD 32 0 * 2 ^ 8
    + phv.hdr.getD 33 0

/-- The IPv4 destination address in a PHV: bytes 34..37 of `hdr`, big endian. -/
def phv_ipv4_dst (phv : phv_t) : Nat :=
  phv.hdr.getD 34 0 * 2 ^ 24 + phv.hdr.getD 35 0 * 2 ^ 16 + phv.hdr.getD 36 0 * 2 ^ 8
    + phv.hdr.getD 37 0

/-- The TCP/UDP destination port in a PHV: bytes 40..41 of `hdr`, big endian. -/
def phv_dport (phv : phv_t) : Nat :=
  phv.hdr.getD 40 0 * 2 ^ 8 + phv.hdr.getD 41 0

/-- The source and destination addresses of a PHV agree with those of an ACL rule under
the masks of the rule. -/
def acl_addr_match (phv : phv_t) (src_ip src_mask dst_ip dst_mask : Nat) : Prop :=
  phv_ipv4_src phv &&& src_mask = src_ip &&& src_mask ∧
  phv_ipv4_dst phv &&& dst_mask = dst_ip &&& dst_mask

instance acl_addr_match_decidable (phv : phv_t) (src_ip src_mask dst_ip dst_mask : Nat) :
    Decidable (acl_addr_match phv src_ip src_mask dst_ip dst_mask) := by
  unfold acl_addr_match
  infer_instance

/-- A TCP frame from 192.168.1.1 to 10.0.0.1 with destination port `dport` (untagged,
IHL 5, 38 bytes). -/
def acl_tcp_frame (dport : Nat) : List Nat :=
  [0xFF, 0xFF, 0xFF, 0xFF, 0xFF, 0xFF, 0x00, 0xAA, 0xBB, 0xCC, 0xDD, 0xEE, 0x08, 0x00,
   0x45, 0x00, 0x00, 24, 0x00, 0x01, 0x00, 0x00, 64, 6, 0x00, 0x00,
   192, 168, 1, 1, 10, 0, 0, 1, 0x04, 0x00, (dport >>> 8) % 256, dport % 256]

/-- The frame of `test_dp_cosim_arp_punt`: `build_arp_pkt` with sender
02:00:00:00:00:00, 10.0.0.1, target 10.0.0.2 (42 bytes). -/
def cosim_arp_pkt : List Nat :=
  arp_frame BCAST_MAC [0x02, 0x00, 0x00, 0x00, 0x00, 0x00] ARP_OP_REQUEST
    [0x02, 0x00, 0x00, 0x00, 0x00, 0x00] 0x0A000001 [0, 0, 0, 0, 0, 0] 0x0A000002

/-! ## The two ingress rules of a port -/

/-- The store has a slot for each ingress rule of the port that is not live yet. -/
def vlan_rules_room (port : Nat) (db : List sim_tcam_rec_t) : Prop :=
  db.length
    + (if sim_tcam_find db TABLE_VLAN_INGRESS_STAGE (VLAN_INGRESS_ENTRY port 0) = none
        then 1 else 0)
    + (if sim_tcam_find db TABLE_VLAN_INGRESS_STAGE (VLAN_INGRESS_ENTRY port 1) = none
        then 1 else 0) ≤ SIM_TCAM_MAX

instance vlan_rules_room_decidable (port : Nat) (db : List sim_tcam_rec_t) :
    Decidable (vlan_rules_room port db) := by
  unfold vlan_rules_room
  infer_instance

/-- The calls `route_add(prefix, len, port, mac); route_del(prefix, len);` for each
route `(prefix, len, port, mac)` of a list. -/
def route_cycles : List (Nat × Nat × Nat × Nat) → List route_op
  | [] => []
  | c :: cs => route_op.add c.1 c.2.1 c.2.2.1 c.2.2.2 :: route_op.del c.1 c.2.1 :: route_cycles cs

/-! ## The bytes of the frame that `pkt_parse` reads -/

/-- The offsets of `raw` read by `memcpy(dst, raw + off, n)`. -/
def memcpy_reads (off n : Nat) : List Nat :=
  (List.range n).map (fun i => off + i)

/-- The offsets of `raw` read by the Ethernet block of `pkt_parse`: the two `memcpy`,
`raw[12]`, `raw[13]`, and `raw[12]`, `raw[13]` again for `eth_type`. -/
def pkt_parse_eth_reads : List Nat :=
  memcpy_reads 0 6 ++ memcpy_reads 6 6 ++ [12, 13, 12, 13]

/-- The offsets of `raw` read by the 802.1Q block of `pkt_parse`. -/
def pkt_parse_vlan_reads (raw_len eth_type : Nat) : List Nat :=
  if eth_type = 0x8100 ∧ raw_len ≥ 18 then [14, 15, 14, 15, 16, 17] else []

/-- The offsets of `raw` read by the field copies of the IPv4 block of `pkt_parse`. -/
def pkt_parse_ipv4_hdr_reads (ip_start : Nat) : List Nat :=
  let ip := ip_start
  [ip + 0, ip + 1, ip + 2, ip + 3, ip + 8, ip + 9] ++ memcpy_reads (ip + 12) 4
    ++ memcpy_reads (ip + 16) 4

/-- The offsets of `raw` read by the TCP/UDP block of `pkt_parse`: `ip[0]` for `ihl`,
`ip[9]` for `proto`, and `l4[0..3]` when the test passes. -/
def pkt_parse_l4_reads (raw : List Nat) (raw_len ip_start : Nat) : List Nat :=
  let ip := ip_start
  let ihl := ((raw.getD (ip + 0) 0) &&& 0x0F) * 4
  let proto := raw.getD (ip + 9) 0
  [ip + 0, ip + 9] ++
    (if (proto = 6 ∨ proto = 17) ∧ raw_len ≥ (ip_start + ihl + 4) % 2 ^ 16 then
      let l4 := ip + ihl
      [l4 + 0, l4 + 1, l4 + 2, l4 + 3]
    else [])

/-- The offsets of `raw` read by the IPv4 block of `pkt_parse`. -/
def pkt_parse_ipv4_reads (raw : List Nat) (raw_len eth_type ip_start : Nat) : List Nat :=
  if eth_type = 0x0800 ∧ raw_len ≥ (ip_start + 20) % 2 ^ 16 then
    pkt_parse_ipv4_hdr_reads ip_start ++ pkt_parse_l4_reads raw raw_len ip_start
  else []

/-- The offsets of `raw` that `pkt_parse` reads, in the order of the source; nothing is
read when the length test fails. -/
def pkt_parse_reads (raw : List Nat) (raw_len : Nat) : List Nat :=
  if raw_len < 14 then []
  else
    let eth_type := (((raw.getD 12 0) <<< 8) ||| (raw.getD 13 0)) % 2 ^ 16
    let v := pkt_parse_vlan raw raw_len phv_zero eth_type
    pkt_parse_eth_reads ++ pkt_parse_vlan_reads raw_len eth_type
      ++ pkt_parse_ipv4_reads raw raw_len v.2.1 v.2.2

/-! ## Operation sequences of the FDB -/

/-- A call of `fdb_learn`, `fdb_add_static`, `fdb_delete` or `fdb_age`. -/
inductive fdb_op where
  | learn (dmac port : Nat)
  | add_static (dmac port vlan : Nat)
  | del (dmac : Nat)
  | age (now_sec : Nat)
deriving DecidableEq, Repr

/-- The state after the call an `fdb_op` stands for: the table and the rule store. -/
def fdb_call (st : List fdb_entry_t × List sim_tcam_rec_t) :
    fdb_op → List fdb_entry_t × List sim_tcam_rec_t
  | .learn dmac port => (fdb_learn dmac port st.1 st.2).2
  | .add_static dmac port vlan => (fdb_add_static dmac port vlan st.1 st.2).2
  | .del dmac => (fdb_delete dmac st.1 st.2).2
  | .age now_sec => fdb_age now_sec st.1 st.2

/-- The state after a sequence of calls. -/
def fdb_run (st : List fdb_entry_t × List sim_tcam_rec_t) (ops : List fdb_op) :
    List fdb_entry_t × List sim_tcam_rec_t :=
  ops.foldl fdb_call st

/-- The table has its 256 slots and every slot has `age_ticks = 0`. -/
def fdb_ages_zero (fdb_table : List fdb_entry_t) : Prop :=
  fdb_table.length = FDB_TABLE_SIZE ∧
  ∀ i, (fdb_table.getD i fdb_entry_zero).age_ticks = 0

/-- The packet `f` of the TX ring as the peer's `arp_process_pkt` gets it: the same
bytes, length and VLAN, received on ingress port `q`. -/
def punt_rx (f : punt_pkt_t) (q : Nat) : punt_pkt_t :=
  { f with ing_port := q }

/-! ## Operation sequences of the ARP engine -/

/-- A call of the API of `arp.c` after `arp_init`. -/
inductive arp_api_op where
  | set_intf (port ip : Nat) (mac : List Nat)
  | add (ip : Nat) (mac : List Nat) (port vlan : Nat)
  | del (ip : Nat)
  | probe (target_ip eg_port vlan : Nat)
  | pkt (p : punt_pkt_t)
  | age (now_sec : Nat)
deriving DecidableEq, Repr

/-- The state after the call an `arp_api_op` stands for. -/
def arp_api_call (s : arp_sys) : arp_api_op → arp_sys
  | .set_intf port ip mac => arp_set_port_intf port ip (some mac) s
  | .add ip mac port vlan => (arp_add ip (some mac) port vlan s).2
  | .del ip => (arp_delete ip s).2
  | .probe target_ip eg_port vlan => (arp_probe target_ip eg_port vlan s).2
  | .pkt p => arp_process_pkt (some p) s
  | .age now_sec => arp_age now_sec s

/-- The state after a sequence of calls. -/
def arp_api_run (s : arp_sys) (ops : List arp_api_op) : arp_sys :=
  ops.foldl arp_api_call s

/-- The table has its 256 slots, every Reachable slot has `age_ticks = 0` and a
positive retry budget, and every Stale slot has a positive retry budget. -/
def arp_fresh_inv (arp_table : List arp_entry_t) : Prop :=
  arp_table.length = ARP_TABLE_SIZE ∧
  ∀ i,
    ((arp_table.getD i arp_entry_zero).state = ARP_STATE_REACHABLE →
      (arp_table.getD i arp_entry_zero).age_ticks = 0 ∧
      (arp_table.getD i arp_entry_zero).retry > 0) ∧
    ((arp_table.getD i arp_entry_zero).state = ARP_STATE_STALE →
      (arp_table.getD i arp_entry_zero).retry > 0)

/-! # Theorems -/

/-! ## Scans and slot writes -/

theorem sim_tcam_find_from_eq (stage table_id : Nat) (l : List sim_tcam_rec_t) (i : Nat) :
    sim_tcam_find_from stage table_id l i = List.findIdx? (rec_is stage table_id) l i := by
  induction l generalizing i with
  | nil => simp [sim_tcam_find_from]
  | cons r rs ih => simp [sim_tcam_find_from, ih]

theorem sim_tcam_find_eq (db : List sim_tcam_rec_t) (stage table_id : Nat) :
    sim_tcam_find db stage table_id = db.findIdx? (rec_is stage table_id) := by
  simp [sim_tcam_find, sim_tcam_find_from_eq]

theorem tcam_ternary_lookup_from_eq (stage : Nat) (key : List Nat) (key_len : Nat)
    (l : List sim_tcam_rec_t) (i : Nat) :
    tcam_ternary_lookup_from stage key key_len l i
      = List.findIdx? (ternary_hit stage key key_len) l i := by
  induction l generalizing i with
  | nil => simp [tcam_ternary_lookup_from]
  | cons r rs ih =>
    simp only [tcam_ternary_lookup_from, List.findIdx?_cons, ih, ternary_hit, rec_live]
    by_cases hv : r.valid = 0 <;> by_cases hd : r.deleted = 0 <;>
      by_cases hs : r.entry.stage = stage <;>
      by_cases hm : ternary_match key key_len r.entry = 0 <;> simp [hv, hd, hs, hm]

theorem tcam_ternary_lookup_eq (db : List sim_tcam_rec_t) (stage : Nat) (key : List Nat)
    (key_len : Nat) :
    tcam_ternary_lookup db stage key key_len
      = db.findIdx? (ternary_hit stage key key_len) := by
  simp [tcam_ternary_lookup, tcam_ternary_lookup_from_eq]

theorem length_slot_update {α : Type} (f : α → α) (l : List α) (i : Nat) :
    (slot_update f l i).length = l.length := by
  induction l generalizing i with
  | nil => simp [slot_update]
  | cons r rs ih => cases i <;> simp [slot_update, ih]

theorem getElem?_slot_update {α : Type} (f : α → α) (l : List α) (i j : Nat) :
    (slot_update f l i)[j]? = if i = j then (l[j]?).map f else l[j]? := by
  induction l generalizing i j with
  | nil => simp [slot_update]
  | cons r rs ih =>
    cases i with
    | zero => cases j <;> simp [slot_update]
    | succ i => cases j <;> simp [slot_update, ih]

theorem ternary_match_loop_ne_zero (key : List Nat) (e : tcam_entry_t) (b n : Nat) :
    ternary_match_loop key e b n ≠ 0 ↔
      ∀ i, i < n → key.getD (b + i) 0 &&& e.mask.bytes.getD (b + i) 0
        = e.key.bytes.getD (b + i) 0 &&& e.mask.bytes.getD (b + i) 0 := by
  induction n generalizing b with
  | zero => simp [ternary_match_loop]
  | succ n ih =>
    rw [ternary_match_loop]
    split
    · rename_i hne
      constructor
      · intro h; exact absurd rfl h
      · intro h; exact absurd (h 0 (Nat.succ_pos n)) (by simpa using hne)
    · rename_i heq
      rw [ih]
      constructor
      · intro h i hi
        cases i with
        | zero => simpa using heq
        | succ i =>
          have := h i (by omega)
          simpa [Nat.add_assoc, Nat.add_comm 1 i] using this
      · intro h i hi
        have := h (i + 1) (by omega)
        simpa [Nat.add_assoc, Nat.add_comm 1 i] using this

theorem ternary_cmp_len_eq (e : tcam_entry_t) (key_len : Nat) :
    ternary_cmp_len e key_len = min e.key.key_len key_len := by
  unfold ternary_cmp_len; split <;> omega

theorem ternary_match_ne_zero (key : List Nat) (key_len : Nat) (e : tcam_entry_t) :
    ternary_match key key_len e ≠ 0 ↔
      ∀ i, i < min e.key.key_len key_len →
        key.getD i 0 &&& e.mask.bytes.getD i 0
          = e.key.bytes.getD i 0 &&& e.mask.bytes.getD i 0 := by
  unfold ternary_match
  rw [ternary_match_loop_ne_zero, ternary_cmp_len_eq]
  simp

theorem rec_is_iff (stage table_id : Nat) (r : sim_tcam_rec_t) :
    rec_is stage table_id r = true ↔
      rec_live r = true ∧ r.entry.stage = stage ∧ r.entry.table_id = table_id := by
  simp [rec_is, rec_live, and_assoc]

theorem sim_tcam_find_none (db : List sim_tcam_rec_t) (stage table_id : Nat) :
    sim_tcam_find db stage table_id = none ↔ ∀ r ∈ db, rec_is stage table_id r = false := by
  rw [sim_tcam_find_eq, List.findIdx?_eq_none_iff]

theorem sim_tcam_find_some (db : List sim_tcam_rec_t) (stage table_id i : Nat) :
    sim_tcam_find db stage table_id = some i ↔
      ∃ r, db[i]? = some r ∧ rec_is stage table_id r = true ∧
        ∀ j r2, j < i → db[j]? = some r2 → rec_is stage table_id r2 = false := by
  rw [sim_tcam_find_eq, List.findIdx?_eq_some_iff_getElem]
  constructor
  · rintro ⟨h, hp, hlt⟩
    refine ⟨db[i], by simp [h], hp, ?_⟩
    intro j r2 hj hr2
    have hjl : j < db.length := Nat.lt_trans hj h
    have := hlt j hj
    rw [List.getElem?_eq_getElem hjl] at hr2
    cases hr2
    simpa using this
  · rintro ⟨r, hr, hp, hlt⟩
    obtain ⟨h, rfl⟩ := List.getElem?_eq_some_iff.mp hr
    refine ⟨h, hp, ?_⟩
    intro j hj
    have hjl : j < db.length := Nat.lt_trans hj h
    simpa using hlt j db[j] hj (by simp [hjl])

/-! ## C1: ternary match -/

/-- C1: the byte loop of `tcam_ternary_lookup` accepts an entry exactly when
`(h[i] & mask[i]) == (key[i] & mask[i])` for every `i < min(key_len, n)`, for every
entry and every key; the lookup returns the first live record of the stage that
satisfies this, so entry bytes at index `n` and above are never compared. -/
theorem c1_ternary_match (db : List sim_tcam_rec_t) (stage : Nat) (key : List Nat)
    (key_len : Nat) :
    (∀ e : tcam_entry_t, ternary_match key key_len e ≠ 0 ↔
      ∀ i, i < min e.key.key_len key_len →
        key.getD i 0 &&& e.mask.bytes.getD i 0
          = e.key.bytes.getD i 0 &&& e.mask.bytes.getD i 0) ∧
    tcam_ternary_lookup db stage key key_len =
      db.findIdx? (fun r => rec_live r && r.entry.stage == stage &&
        decide (∀ i, i < min r.entry.key.key_len key_len →
          key.getD i 0 &&& r.entry.mask.bytes.getD i 0
            = r.entry.key.bytes.getD i 0 &&& r.entry.mask.bytes.getD i 0)) := by
  refine ⟨fun e => ternary_match_ne_zero key key_len e, ?_⟩
  rw [tcam_ternary_lookup_eq]
  congr 1
  funext r
  have h := ternary_match_ne_zero key key_len r.entry
  unfold ternary_hit
  congr 1
  rw [Bool.eq_iff_iff]
  simp only [bne_iff_ne, decide_eq_true_eq]
  exact h

theorem tcam_ternary_lookup_some (db : List sim_tcam_rec_t) (stage : Nat) (key : List Nat)
    (key_len i : Nat) :
    tcam_ternary_lookup db stage key key_len = some i ↔
      ∃ r, db[i]? = some r ∧ ternary_hit stage key key_len r = true ∧
        ∀ j r2, j < i → db[j]? = some r2 → ternary_hit stage key key_len r2 = false := by
  rw [tcam_ternary_lookup_eq, List.findIdx?_eq_some_iff_getElem]
  constructor
  · rintro ⟨h, hp, hlt⟩
    refine ⟨db[i], by simp [h], hp, ?_⟩
    intro j r2 hj hr2
    have hjl : j < db.length := Nat.lt_trans hj h
    have := hlt j hj
    rw [List.getElem?_eq_getElem hjl] at hr2
    cases hr2
    simpa using this
  · rintro ⟨r, hr, hp, hlt⟩
    obtain ⟨h, rfl⟩ := List.getElem?_eq_some_iff.mp hr
    refine ⟨h, hp, ?_⟩
    intro j hj
    have hjl : j < db.length := Nat.lt_trans hj h
    simpa using hlt j db[j] hj (by simp [hjl])

theorem tcam_ternary_lookup_none (db : List sim_tcam_rec_t) (stage : Nat) (key : List Nat)
    (key_len : Nat) :
    tcam_ternary_lookup db stage key key_len = none ↔
      ∀ r ∈ db, ternary_hit stage key key_len r = false := by
  rw [tcam_ternary_lookup_eq, List.findIdx?_eq_none_iff]

theorem hal_tcam_insert_new (db : List sim_tcam_rec_t) (e : tcam_entry_t)
    (hf : sim_tcam_find db e.stage e.table_id = none) (hn : db.length < SIM_TCAM_MAX) :
    hal_tcam_insert (some e) db = (HAL_OK, db ++ [{ entry := e, valid := 1, deleted := 0 }]) := by
  simp [hal_tcam_insert, hf, Nat.not_le.mpr hn]

theorem hal_tcam_insert_existing (db : List sim_tcam_rec_t) (e : tcam_entry_t) (i : Nat)
    (hf : sim_tcam_find db e.stage e.table_id = some i) :
    hal_tcam_insert (some e) db
      = (HAL_OK, slot_update (fun r => { r with entry := e, deleted := 0 }) db i) := by
  simp [hal_tcam_insert, hf]

theorem tcam_ternary_lookup_le_of_hit (db : List sim_tcam_rec_t) (stage : Nat)
    (key : List Nat) (key_len k : Nat) (r : sim_tcam_rec_t) (hk : db[k]? = some r)
    (hr : ternary_hit stage key key_len r = true) :
    ∃ i, tcam_ternary_lookup db stage key key_len = some i ∧ i ≤ k := by
  cases h : tcam_ternary_lookup db stage key key_len with
  | none =>
    have := (tcam_ternary_lookup_none db stage key key_len).mp h r (List.getElem?_mem hk)
    rw [hr] at this
    cases this
  | some i =>
    refine ⟨i, rfl, ?_⟩
    obtain ⟨_, _, _, hlt⟩ := (tcam_ternary_lookup_some db stage key key_len i).mp h
    by_contra hle
    have := hlt k r (by omega) hk
    rw [hr] at this
    cases this

/-! ## C2: first match wins -/

/-- C2: first match wins. `tcam_ternary_lookup` returns slot `i` exactly when
slot `i` holds a live matching record of the stage and no smaller slot does (and
`NULL` exactly when no record hits); `hal_tcam_insert` of a `(stage, table_id)` that
is not live puts the record in slot `sim_tcam_n`, after every slot allocated before;
so when two new entries of a stage are inserted one after the other and both match
the key, the lookup selects a slot not after the first one, never the second. -/
theorem c2_first_match_wins (db : List sim_tcam_rec_t) (stage : Nat) (key : List Nat)
    (key_len : Nat) :
    (∀ i, tcam_ternary_lookup db stage key key_len = some i ↔
      ∃ r, db[i]? = some r ∧ ternary_hit stage key key_len r = true ∧
        ∀ j r2, j < i → db[j]? = some r2 → ternary_hit stage key key_len r2 = false) ∧
    (tcam_ternary_lookup db stage key key_len = none ↔
      ∀ r ∈ db, ternary_hit stage key key_len r = false) ∧
    (∀ e : tcam_entry_t, sim_tcam_find db e.stage e.table_id = none →
      db.length < SIM_TCAM_MAX →
      hal_tcam_insert (some e) db
        = (HAL_OK, db ++ [{ entry := e, valid := 1, deleted := 0 }])) ∧
    (∀ a b : tcam_entry_t, sim_tcam_find db a.stage a.table_id = none →
      sim_tcam_find db b.stage b.table_id = none →
      a.stage = stage → b.stage = stage → a.table_id ≠ b.table_id →
      db.length + 1 < SIM_TCAM_MAX →
      ternary_match key key_len a ≠ 0 → ternary_match key key_len b ≠ 0 →
      (hal_tcam_insert (some b) (hal_tcam_insert (some a) db).2).2
        = db ++ [{ entry := a, valid := 1, deleted := 0 },
                 { entry := b, valid := 1, deleted := 0 }] ∧
      ∃ i, tcam_ternary_lookup
          (hal_tcam_insert (some b) (hal_tcam_insert (some a) db).2).2 stage key key_len
            = some i ∧ i ≤ db.length) := by
  refine ⟨fun i => tcam_ternary_lookup_some db stage key key_len i,
    tcam_ternary_lookup_none db stage key key_len,
    fun e hf hn => hal_tcam_insert_new db e hf hn, ?_⟩
  intro a b hfa hfb hsa hsb hne hlen hma hmb
  rw [hal_tcam_insert_new db a hfa (by omega)]
  have hfb2 : sim_tcam_find (db ++ [{ entry := a, valid := 1, deleted := 0 }])
      b.stage b.table_id = none := by
    rw [sim_tcam_find_none] at hfb ⊢
    intro r hr
    rcases List.mem_append.mp hr with h | h
    · exact hfb r h
    · simp only [List.mem_singleton] at h
      subst h
      simp [rec_is, hne]
  rw [hal_tcam_insert_new _ b hfb2 (by simpa using hlen)]
  simp only [List.append_assoc, List.singleton_append, true_and]
  apply tcam_ternary_lookup_le_of_hit _ stage key key_len db.length
    { entry := a, valid := 1, deleted := 0 }
  · rw [List.getElem?_append_right (Nat.le_refl _)]
    simp
  · simp [ternary_hit, rec_live, hsa, hma]

/-- C2 at a concrete store: two overlapping stage-0 entries inserted in order, the
first one wins. -/
theorem c2_first_match_wins_witness :
    tcam_ternary_lookup
      (hal_tcam_insert (some { tcam_entry_zero with table_id := 2 })
        (hal_tcam_insert (some { tcam_entry_zero with table_id := 1 }) []).2).2
      0 [7] 1 = some 0 := by
  obtain ⟨i, hi, hle⟩ := ((c2_first_match_wins [] 0 [7] 1).2.2.2
    { tcam_entry_zero with table_id := 1 } { tcam_entry_zero with table_id := 2 }
    (by decide) (by decide) (by decide) (by decide) (by decide) (by decide)
    (by decide) (by decide)).2
  have h0 : i = 0 := by simpa using hle
  subst h0
  exact hi

/-! ## C3: at most one live record per (stage, table_id) -/

theorem store_unique_nil : store_unique [] := by
  intro i j ri rj hi
  simp at hi

theorem store_unique_overwrite (db : List sim_tcam_rec_t) (e : tcam_entry_t) (k : Nat)
    (f : sim_tcam_rec_t → sim_tcam_rec_t) (hfe : ∀ r, (f r).entry = e)
    (h : store_unique db) (hf : sim_tcam_find db e.stage e.table_id = some k) :
    store_unique (slot_update f db k) := by
  obtain ⟨rk, hrk, hpk, _⟩ := (sim_tcam_find_some db e.stage e.table_id k).mp hf
  obtain ⟨hlk, hsk, htk⟩ := (rec_is_iff _ _ _).mp hpk
  intro i j ri rj hi hj hli hlj hs ht
  rw [getElem?_slot_update] at hi hj
  by_cases hik : k = i <;> by_cases hjk : k = j
  · omega
  · subst hik
    simp only [if_true, hrk, Option.map_some', Option.some.injEq] at hi
    simp only [hjk, if_false] at hj
    subst hi
    rw [hfe] at hs ht
    exact h k j rk rj hrk hj hlk hlj (by rw [hsk, hs]) (by rw [htk, ht])
  · subst hjk
    simp only [if_true, hrk, Option.map_some', Option.some.injEq] at hj
    simp only [hik, if_false] at hi
    subst hj
    rw [hfe] at hs ht
    exact h i k ri rk hi hrk hli hlk (by rw [hsk, hs]) (by rw [htk, ht])
  · simp only [hik, hjk, if_false] at hi hj
    exact h i j ri rj hi hj hli hlj hs ht

theorem store_unique_insert (db : List sim_tcam_rec_t) (entry : Option tcam_entry_t)
    (h : store_unique db) : store_unique (hal_tcam_insert entry db).2 := by
  cases entry with
  | none => exact h
  | some e =>
    cases hf : sim_tcam_find db e.stage e.table_id with
    | some k =>
      rw [hal_tcam_insert_existing db e k hf]
      exact store_unique_overwrite db e k _ (fun _ => rfl) h hf
    | none =>
      by_cases hn : db.length < SIM_TCAM_MAX
      · rw [hal_tcam_insert_new db e hf hn]
        have hnone := (sim_tcam_find_none db e.stage e.table_id).mp hf
        intro i j ri rj hi hj hli hlj hs ht
        simp only [List.getElem?_append, List.length_singleton] at hi hj
        by_cases hil : i < db.length <;> by_cases hjl : j < db.length
        · simp only [hil, hjl, if_true] at hi hj
          exact h i j ri rj hi hj hli hlj hs ht
        · simp only [hil, hjl, if_true, if_false] at hi hj
          have hj2 : rj = { entry := e, valid := 1, deleted := 0 } := by
            have := List.getElem?_mem hj
            simpa using this
          subst hj2
          have := hnone ri (List.getElem?_mem hi)
          rw [← Bool.not_eq_true, rec_is_iff] at this
          exact absurd ⟨hli, hs, ht⟩ this
        · simp only [hil, hjl, if_true, if_false] at hi hj
          have hi2 : ri = { entry := e, valid := 1, deleted := 0 } := by
            have := List.getElem?_mem hi
            simpa using this
          subst hi2
          have := hnone rj (List.getElem?_mem hj)
          rw [← Bool.not_eq_true, rec_is_iff] at this
          exact absurd ⟨hlj, hs.symm, ht.symm⟩ this
        · simp only [hil, hjl, if_false] at hi hj
          have hi1 : i - db.length = 0 := by
            by_contra hne
            have : (i - db.length) = (i - db.length - 1) + 1 := by omega
            rw [this] at hi
            simp at hi
          have hj1 : j - db.length = 0 := by
            by_contra hne
            have : (j - db.length) = (j - db.length - 1) + 1 := by omega
            rw [this] at hj
            simp at hj
          omega
      · have : hal_tcam_insert (some e) db = (HAL_ERR_FULL, db) := by
          simp [hal_tcam_insert, hf, Nat.le_of_not_lt hn]
        rw [this]
        exact h

theorem store_unique_delete (db : List sim_tcam_rec_t) (stage table_id : Nat)
    (h : store_unique db) : store_unique (hal_tcam_delete stage table_id db).2 := by
  unfold hal_tcam_delete
  cases hf : sim_tcam_find db stage table_id with
  | none => exact h
  | some k =>
    intro i j ri rj hi hj hli hlj hs ht
    simp only [getElem?_slot_update] at hi hj
    by_cases hik : k = i
    · subst hik
      simp only [if_true, Option.map_eq_some'] at hi
      obtain ⟨r, _, rfl⟩ := hi
      simp [rec_live] at hli
    · by_cases hjk : k = j
      · subst hjk
        simp only [if_true, Option.map_eq_some'] at hj
        obtain ⟨r, _, rfl⟩ := hj
        simp [rec_live] at hlj
      · simp only [hik, hjk, if_false] at hi hj
        exact h i j ri rj hi hj hli hlj hs ht

theorem store_unique_modify (db : List sim_tcam_rec_t) (entry : Option tcam_entry_t)
    (h : store_unique db) : store_unique (hal_tcam_modify entry db).2 := by
  cases entry with
  | none => exact h
  | some e =>
    cases hf : sim_tcam_find db e.stage e.table_id with
    | none =>
      have : hal_tcam_modify (some e) db = (HAL_ERR_INVAL, db) := by
        simp [hal_tcam_modify, hf]
      rw [this]
      exact h
    | some k =>
      have : hal_tcam_modify (some e) db
          = (HAL_OK, slot_update (fun r => { r with entry := e }) db k) := by
        simp [hal_tcam_modify, hf]
      rw [this]
      exact store_unique_overwrite db e k _ (fun _ => rfl) h hf

theorem store_unique_flush (db : List sim_tcam_rec_t) (stage : Nat)
    (h : store_unique db) : store_unique (hal_tcam_flush stage db).2 := by
  unfold hal_tcam_flush
  have key : ∀ (i : Nat) (ri : sim_tcam_rec_t),
      (db.map (fun r => if (r.valid != 0 && r.entry.stage == stage) = true
          then { r with deleted := 1 } else r))[i]? = some ri →
      rec_live ri = true → db[i]? = some ri := by
    intro i ri hi hli
    simp only [List.getElem?_map, Option.map_eq_some'] at hi
    obtain ⟨r, hr, rfl⟩ := hi
    split at hli
    · simp [rec_live] at hli
    · rename_i hc
      simp only [hc, if_false]
      exact hr
  intro i j ri rj hi hj hli hlj hs ht
  exact h i j ri rj (key i ri hi hli) (key j rj hj hlj) hli hlj hs ht

theorem store_unique_step (db : List sim_tcam_rec_t) (op : tcam_op) (h : store_unique db) :
    store_unique (tcam_step db op) := by
  cases op with
  | insert e => exact store_unique_insert db e h
  | delete s t => exact store_unique_delete db s t h
  | modify e => exact store_unique_modify db e h
  | flush s => exact store_unique_flush db s h

theorem store_unique_run (db : List sim_tcam_rec_t) (ops : List tcam_op)
    (h : store_unique db) : store_unique (tcam_run db ops) := by
  induction ops generalizing db with
  | nil => exact h
  | cons op ops ih => exact ih (tcam_step db op) (store_unique_step db op h)

theorem store_unique_count (db : List sim_tcam_rec_t) (h : store_unique db)
    (stage table_id : Nat) : (db.filter (rec_is stage table_id)).length ≤ 1 := by
  induction db with
  | nil => simp
  | cons r rs ih =>
    have hrs : store_unique rs := by
      intro i j ri rj hi hj hli hlj hs ht
      have := h (i + 1) (j + 1) ri rj (by simpa using hi) (by simpa using hj) hli hlj hs ht
      omega
    by_cases hr : rec_is stage table_id r = true
    · have hnone : rs.filter (rec_is stage table_id) = [] := by
        rw [List.filter_eq_nil_iff]
        intro x hx hpx
        obtain ⟨n, hn⟩ := List.mem_iff_getElem?.mp hx
        obtain ⟨hl1, hs1, ht1⟩ := (rec_is_iff _ _ _).mp hr
        obtain ⟨hl2, hs2, ht2⟩ := (rec_is_iff _ _ _).mp hpx
        have := h 0 (n + 1) r x (by simp) (by simpa using hn) hl1 hl2
          (by rw [hs1, hs2]) (by rw [ht1, ht2])
        omega
      simp [List.filter_cons, hr, hnone]
    · simp only [List.filter_cons, hr, if_false]
      exact ih hrs

/-- C3: after every sequence of `hal_tcam_insert`, `hal_tcam_delete`,
`hal_tcam_modify` and `hal_tcam_flush` calls on the reset (empty) store, the number
of live records of any `(stage, table_id)` is at most one, and two slots that hold
live records of the same pair are the same slot. -/
theorem c3_store_invariant (ops : List tcam_op) (stage table_id : Nat) :
    ((tcam_run [] ops).filter (rec_is stage table_id)).length ≤ 1 ∧
    store_unique (tcam_run [] ops) :=
  ⟨store_unique_count _ (store_unique_run [] ops store_unique_nil) stage table_id,
   store_unique_run [] ops store_unique_nil⟩

/-! ## C4: insert on a live (stage, table_id) overwrites in place -/

theorem hal_tcam_insert_overwrite_spec (db : List sim_tcam_rec_t) (e : tcam_entry_t)
    (i : Nat) (hf : sim_tcam_find db e.stage e.table_id = some i) :
    (hal_tcam_insert (some e) db).1 = HAL_OK ∧
    (hal_tcam_insert (some e) db).2.length = db.length ∧
    (∀ j, j ≠ i → (hal_tcam_insert (some e) db).2[j]? = db[j]?) ∧
    (∃ r, db[i]? = some r ∧
      r.entry.stage = e.stage ∧ r.entry.table_id = e.table_id ∧
      (hal_tcam_insert (some e) db).2[i]? = some { r with entry := e }) ∧
    sim_tcam_find (hal_tcam_insert (some e) db).2 e.stage e.table_id = some i := by
  obtain ⟨r, hr, hp, hlt⟩ := (sim_tcam_find_some db e.stage e.table_id i).mp hf
  obtain ⟨hl, hs, ht⟩ := (rec_is_iff _ _ _).mp hp
  have hvd : r.valid ≠ 0 ∧ r.deleted = 0 := by simpa [rec_live] using hl
  rw [hal_tcam_insert_existing db e i hf]
  have hi : (slot_update (fun r => { r with entry := e, deleted := 0 }) db i)[i]?
      = some { r with entry := e } := by
    rw [getElem?_slot_update, if_pos rfl, hr, Option.map_some', ← hvd.2]
  refine ⟨rfl, length_slot_update _ _ _, ?_, ⟨r, hr, hs, ht, hi⟩, ?_⟩
  · intro j hj
    rw [getElem?_slot_update, if_neg (fun h => hj h.symm)]
  · rw [sim_tcam_find_some]
    refine ⟨_, hi, ?_, ?_⟩
    · simp [rec_is, hvd.1, hvd.2]
    · intro j r2 hj hr2
      rw [getElem?_slot_update, if_neg (by omega)] at hr2
      exact hlt j r2 hj hr2

/-- C4: when `(entry.stage, entry.table_id)` is live in slot `i`, `hal_tcam_insert`
returns `HAL_OK`, the number of allocated slots is unchanged, every slot other than
`i` is unchanged, slot `i` keeps its flags, stage and table-id and holds the new
entry (key, mask, action), and `sim_tcam_find` returns slot `i` with that entry. -/
theorem c4_insert_overwrites_in_place (db : List sim_tcam_rec_t) (e : tcam_entry_t)
    (i : Nat) (hf : sim_tcam_find db e.stage e.table_id = some i) :
    (hal_tcam_insert (some e) db).1 = HAL_OK ∧
    (hal_tcam_insert (some e) db).2.length = db.length ∧
    (∀ j, j ≠ i → (hal_tcam_insert (some e) db).2[j]? = db[j]?) ∧
    (∃ r, db[i]? = some r ∧
      r.entry.stage = e.stage ∧ r.entry.table_id = e.table_id ∧
      (hal_tcam_insert (some e) db).2[i]? = some { r with entry := e }) ∧
    sim_tcam_find (hal_tcam_insert (some e) db).2 e.stage e.table_id = some i :=
  hal_tcam_insert_overwrite_spec db e i hf

/-- C4 at a concrete store: table-id 1 of stage 0 is live in slot 0 and is
overwritten there. -/
theorem c4_insert_overwrites_in_place_witness :
    sim_tcam_find [{ entry := { tcam_entry_zero with table_id := 1 }, valid := 1, deleted := 0 }]
        0 1 = some 0 ∧
    (hal_tcam_insert (some { tcam_entry_zero with table_id := 1, action_id := 4097 })
      [{ entry := { tcam_entry_zero with table_id := 1 }, valid := 1, deleted := 0 }]).2.length
        = 1 :=
  ⟨by decide,
   (c4_insert_overwrites_in_place
      [{ entry := { tcam_entry_zero with table_id := 1 }, valid := 1, deleted := 0 }]
      { tcam_entry_zero with table_id := 1, action_id := 4097 } 0 (by decide)).2.1⟩

/-! ## C5: the rule store fails closed -/

/-- C5: when all `SIM_TCAM_MAX` = 512 slots are allocated and `(stage, table_id)`
of the entry is not live, `hal_tcam_insert` returns `HAL_ERR_FULL` and the store is
unchanged; for every other non-null entry (a free slot is left, or the pair is
live) it returns `HAL_OK`. -/
theorem c5_insert_fails_closed (db : List sim_tcam_rec_t) (e : tcam_entry_t) :
    SIM_TCAM_MAX = 512 ∧
    (SIM_TCAM_MAX ≤ db.length ∧ sim_tcam_find db e.stage e.table_id = none →
      hal_tcam_insert (some e) db = (HAL_ERR_FULL, db)) ∧
    (¬ (SIM_TCAM_MAX ≤ db.length ∧ sim_tcam_find db e.stage e.table_id = none) →
      (hal_tcam_insert (some e) db).1 = HAL_OK) := by
  refine ⟨rfl, ?_, ?_⟩
  · rintro ⟨hn, hf⟩
    simp [hal_tcam_insert, hf, hn]
  · intro h
    cases hf : sim_tcam_find db e.stage e.table_id with
    | some k => rw [hal_tcam_insert_existing db e k hf]
    | none =>
      have hn : db.length < SIM_TCAM_MAX := by
        by_contra hc
        exact h ⟨Nat.le_of_not_lt hc, hf⟩
      rw [hal_tcam_insert_new db e hf hn]

/-- C5 at a concrete store: 512 allocated slots that were all deleted; a new
table-id is refused and the store is unchanged. -/
theorem c5_insert_fails_closed_witness :
    hal_tcam_insert (some { tcam_entry_zero with table_id := 7 })
        (List.replicate 512 { entry := tcam_entry_zero, valid := 1, deleted := 1 })
      = (HAL_ERR_FULL,
          List.replicate 512 { entry := tcam_entry_zero, valid := 1, deleted := 1 }) :=
  (c5_insert_fails_closed
      (List.replicate 512 { entry := tcam_entry_zero, valid := 1, deleted := 1 })
      { tcam_entry_zero with table_id := 7 }).2.1
    ⟨by rw [List.length_replicate]; exact Nat.le_refl _, by
      rw [sim_tcam_find_none]
      intro r hr
      rw [List.eq_of_mem_replicate hr]
      rfl⟩

/-! ## C6: mirror/store consistency of the route compiler -/

theorem route_tcam_entry_stage (pfx len port dmac : Nat) :
    (route_tcam_entry pfx len port dmac).stage = TABLE_IPV4_LPM_STAGE := rfl

theorem route_tcam_entry_table_id (pfx len port dmac : Nat) :
    (route_tcam_entry pfx len port dmac).table_id = route_tcam_id pfx len := rfl

theorem hal_tcam_insert_keeps (db : List sim_tcam_rec_t) (e : tcam_entry_t)
    (x : sim_tcam_rec_t) (hx : x ∈ db) (hne : rec_is e.stage e.table_id x = false) :
    x ∈ (hal_tcam_insert (some e) db).2 := by
  cases hf : sim_tcam_find db e.stage e.table_id with
  | some k =>
    rw [hal_tcam_insert_existing db e k hf]
    obtain ⟨rk, hrk, hpk, _⟩ := (sim_tcam_find_some db e.stage e.table_id k).mp hf
    obtain ⟨m, hm⟩ := List.mem_iff_getElem?.mp hx
    apply List.mem_iff_getElem?.mpr
    refine ⟨m, ?_⟩
    rw [getElem?_slot_update]
    have hkm : k ≠ m := by
      intro h
      subst h
      rw [hrk] at hm
      cases hm
      rw [hpk] at hne
      cases hne
    rw [if_neg hkm]
    exact hm
  | none =>
    unfold hal_tcam_insert
    simp only [hf]
    split
    · exact hx
    · exact List.mem_append_left _ hx

theorem hal_tcam_insert_ok_mem (db : List sim_tcam_rec_t) (e : tcam_entry_t)
    (h : sim_tcam_find db e.stage e.table_id ≠ none ∨ db.length < SIM_TCAM_MAX) :
    (hal_tcam_insert (some e) db).1 = HAL_OK ∧
    ∃ x ∈ (hal_tcam_insert (some e) db).2, rec_live x = true ∧ x.entry = e := by
  cases hf : sim_tcam_find db e.stage e.table_id with
  | some k =>
    obtain ⟨_, _, _, ⟨r, hr, _, _, hi⟩, _⟩ := hal_tcam_insert_overwrite_spec db e k hf
    obtain ⟨rk, hrk, hpk, _⟩ := (sim_tcam_find_some db e.stage e.table_id k).mp hf
    obtain ⟨hlk, _, _⟩ := (rec_is_iff _ _ _).mp hpk
    rw [hrk] at hr
    cases hr
    refine ⟨by rw [hal_tcam_insert_existing db e k hf], _, List.getElem?_mem hi, ?_, rfl⟩
    simpa [rec_live] using hlk
  | none =>
    have hn : db.length < SIM_TCAM_MAX := by
      rcases h with h | h
      · exact absurd hf h
      · exact h
    rw [hal_tcam_insert_new db e hf hn]
    exact ⟨rfl, _, List.mem_append_right _ (List.mem_singleton.mpr rfl), rfl, rfl⟩

theorem hal_tcam_delete_keeps (db : List sim_tcam_rec_t) (stage table_id : Nat)
    (x : sim_tcam_rec_t) (hx : x ∈ db) (hne : rec_is stage table_id x = false) :
    x ∈ (hal_tcam_delete stage table_id db).2 := by
  unfold hal_tcam_delete
  cases hf : sim_tcam_find db stage table_id with
  | none => exact hx
  | some k =>
    obtain ⟨rk, hrk, hpk, _⟩ := (sim_tcam_find_some db stage table_id k).mp hf
    obtain ⟨m, hm⟩ := List.mem_iff_getElem?.mp hx
    apply List.mem_iff_getElem?.mpr
    refine ⟨m, ?_⟩
    simp only [getElem?_slot_update]
    have hkm : k ≠ m := by
      intro h
      subst h
      rw [hrk] at hm
      cases hm
      rw [hpk] at hne
      cases hne
    rw [if_neg hkm]
    exact hm

theorem route_is_iff (pfx len : Nat) (r : route_entry_t) :
    route_is pfx len r = true ↔ r.valid ≠ 0 ∧ r.pfx = pfx ∧ r.len = len := by
  simp [route_is, and_assoc]

theorem findIdx?_some_getElem? {α : Type} (p : α → Bool) (l : List α) (i : Nat)
    (h : l.findIdx? p = some i) : ∃ r, l[i]? = some r ∧ p r = true := by
  obtain ⟨hi, hp, _⟩ := List.findIdx?_eq_some_iff_getElem.mp h
  exact ⟨l[i], by simp [hi], hp⟩

/-- The slot chosen by `route_add` is a slot of the table, and under
`route_ids_unique` and `route_alias_free` it is the only slot that can hold a valid
route with the table-id of `(prefix, len)`. -/
theorem route_add_slot_spec (rt : List route_entry_t) (pfx len i : Nat)
    (hu : route_ids_unique rt) (haf : route_alias_free rt pfx len)
    (hslot : route_add_slot rt pfx len = some i) :
    (∃ r, rt[i]? = some r) ∧
    ∀ j rj, rt[j]? = some rj → rj.valid ≠ 0 →
      route_tcam_id rj.pfx rj.len = route_tcam_id pfx len → j = i := by
  unfold route_add_slot at hslot
  cases hfi : rt.findIdx? (route_is pfx len) with
  | some i0 =>
    rw [hfi] at hslot
    have h0 : i0 = i := by simpa using hslot
    subst h0
    obtain ⟨r0, hr0, hp0⟩ := findIdx?_some_getElem? _ _ _ hfi
    obtain ⟨hv0, hp, hl⟩ := (route_is_iff _ _ _).mp hp0
    refine ⟨⟨r0, hr0⟩, ?_⟩
    intro j rj hj hvj hid
    exact hu j i0 rj r0 hj hr0 hvj hv0 (by rw [hid, hp, hl])
  | none =>
    rw [hfi] at hslot
    simp only at hslot
    obtain ⟨r0, hr0, _⟩ := findIdx?_some_getElem? _ _ _ hslot
    refine ⟨⟨r0, hr0⟩, ?_⟩
    intro j rj hj hvj hid
    obtain ⟨hp, hl⟩ := haf rj (List.getElem?_mem hj) hvj hid
    have := List.findIdx?_eq_none_iff.mp hfi rj (List.getElem?_mem hj)
    rw [← Bool.not_eq_true, route_is_iff] at this
    exact absurd ⟨hvj, hp, hl⟩ this

theorem route_inv_add (s : route_sys) (pfx len port dmac : Nat) (hinv : route_inv s)
    (hok : route_op_ok s (.add pfx len port dmac)) :
    route_inv (route_step s (.add pfx len port dmac)) := by
  obtain ⟨hI1, hI2, hI3⟩ := hinv
  simp only [route_step, route_add]
  by_cases hlen : len > 32
  · simp only [hlen, if_true]
    exact ⟨hI1, hI2, hI3⟩
  simp only [hlen, if_false]
  obtain ⟨haf, hroom⟩ := hok (by omega)
  cases hslot : route_add_slot s.route_table pfx len with
  | none => exact ⟨hI1, hI2, hI3⟩
  | some i =>
    obtain ⟨⟨r0, hr0⟩, hA⟩ := route_add_slot_spec s.route_table pfx len i hI2 haf hslot
    have hroom2 : sim_tcam_find s.sim_tcam_db TABLE_IPV4_LPM_STAGE (route_tcam_id pfx len)
        ≠ none ∨ s.sim_tcam_db.length < SIM_TCAM_MAX := by
      rcases hroom with h | h
      · rw [hslot] at h
        cases h
      · exact h
    simp only
    refine ⟨store_unique_insert _ _ hI1, ?_, ?_⟩
    · intro a b ra rb ha hb hva hvb hid
      simp only [getElem?_slot_update] at ha hb
      by_cases hia : i = a <;> by_cases hib : i = b
      · omega
      · subst hia
        simp only [if_true, hr0, Option.map_some', Option.some.injEq] at ha
        simp only [hib, if_false] at hb
        subst ha
        exact (hA b rb hb hvb hid.symm).symm
      · subst hib
        simp only [if_true, hr0, Option.map_some', Option.some.injEq] at hb
        simp only [hia, if_false] at ha
        subst hb
        exact hA a ra ha hva hid
      · simp only [hia, hib, if_false] at ha hb
        exact hI2 a b ra rb ha hb hva hvb hid
    · intro r hr hv
      obtain ⟨a, ha⟩ := List.mem_iff_getElem?.mp hr
      simp only [getElem?_slot_update] at ha
      by_cases hia : i = a
      · subst hia
        simp only [if_true, hr0, Option.map_some', Option.some.injEq] at ha
        subst ha
        exact (hal_tcam_insert_ok_mem s.sim_tcam_db (route_tcam_entry pfx len port dmac)
          hroom2).2
      · simp only [hia, if_false] at ha
        obtain ⟨x, hx, hlx, hex⟩ := hI3 r (List.getElem?_mem ha) hv
        refine ⟨x, hal_tcam_insert_keeps _ _ x hx ?_, hlx, hex⟩
        rw [← Bool.not_eq_true, rec_is_iff]
        rintro ⟨_, _, ht⟩
        rw [hex, route_tcam_entry_table_id, route_tcam_entry_table_id] at ht
        exact hia (hA a r ha hv ht).symm

theorem route_inv_del (s : route_sys) (pfx len : Nat) (hinv : route_inv s)
    (hok : route_op_ok s (.del pfx len)) :
    route_inv (route_step s (.del pfx len)) := by
  obtain ⟨hI1, hI2, hI3⟩ := hinv
  simp only [route_step, route_del]
  by_cases hlen : len > 32
  · simp only [hlen, if_true]
    exact ⟨hI1, hI2, hI3⟩
  simp only [hlen, if_false]
  have haf := hok (by omega)
  -- a slot that is valid after the call was valid before, and is not a slot of (pfx, len)
  have hkeep : ∀ (a : Nat) (ra : route_entry_t),
      (match s.route_table.findIdx? (route_is pfx len) with
        | some i =>
          slot_update (fun (r : route_entry_t) => { r with valid := 0 }) s.route_table i
        | none => s.route_table)[a]? = some ra → ra.valid ≠ 0 →
      s.route_table[a]? = some ra ∧
        route_tcam_id ra.pfx ra.len ≠ route_tcam_id pfx len := by
    intro a ra ha hva
    cases hfi : s.route_table.findIdx? (route_is pfx len) with
    | none =>
      rw [hfi] at ha
      refine ⟨ha, ?_⟩
      intro hid
      obtain ⟨hp, hl⟩ := haf ra (List.getElem?_mem ha) hva hid
      have := List.findIdx?_eq_none_iff.mp hfi ra (List.getElem?_mem ha)
      rw [← Bool.not_eq_true, route_is_iff] at this
      exact this ⟨hva, hp, hl⟩
    | some i =>
      rw [hfi] at ha
      simp only [getElem?_slot_update] at ha
      obtain ⟨r0, hr0, hp0⟩ := findIdx?_some_getElem? _ _ _ hfi
      obtain ⟨hv0, hp, hl⟩ := (route_is_iff _ _ _).mp hp0
      by_cases hia : i = a
      · subst hia
        simp only [if_true, hr0, Option.map_some', Option.some.injEq] at ha
        subst ha
        exact absurd rfl hva
      · simp only [hia, if_false] at ha
        refine ⟨ha, ?_⟩
        intro hid
        exact hia (hI2 a i ra r0 ha hr0 hva hv0 (by rw [hid, hp, hl])).symm
  refine ⟨store_unique_delete _ _ _ hI1, ?_, ?_⟩
  · intro a b ra rb ha hb hva hvb hid
    have h1 := hkeep a ra ha hva
    have h2 := hkeep b rb hb hvb
    exact hI2 a b ra rb h1.1 h2.1 hva hvb hid
  · intro r hr hv
    obtain ⟨a, ha⟩ := List.mem_iff_getElem?.mp hr
    obtain ⟨ha0, hne⟩ := hkeep a r ha hv
    obtain ⟨x, hx, hlx, hex⟩ := hI3 r (List.getElem?_mem ha0) hv
    refine ⟨x, hal_tcam_delete_keeps _ _ _ x hx ?_, hlx, hex⟩
    rw [← Bool.not_eq_true, rec_is_iff]
    rintro ⟨_, _, ht⟩
    rw [hex, route_tcam_entry_table_id] at ht
    exact hne ht

theorem route_inv_init : route_inv route_sys_init := by
  refine ⟨store_unique_nil, ?_, ?_⟩
  · intro i j ri rj hi _ hvi
    have hm : ri ∈ List.replicate ROUTE_TABLE_SIZE
        ({ pfx := 0, len := 0, port := 0, dmac := 0, valid := 0 } : route_entry_t) :=
      List.getElem?_mem hi
    rw [List.eq_of_mem_replicate hm] at hvi
    exact absurd rfl hvi
  · intro r hr hv
    have hm : r ∈ List.replicate ROUTE_TABLE_SIZE
        ({ pfx := 0, len := 0, port := 0, dmac := 0, valid := 0 } : route_entry_t) := hr
    rw [List.eq_of_mem_replicate hm] at hv
    exact absurd rfl hv

theorem route_inv_run (s : route_sys) (ops : List route_op) (hinv : route_inv s)
    (hok : route_run_ok s ops) : route_inv (route_run s ops) := by
  induction ops generalizing s with
  | nil => exact hinv
  | cons op ops ih =>
    obtain ⟨h1, h2⟩ := hok
    apply ih _ _ h2
    cases op with
    | add pfx len port dmac => exact route_inv_add s pfx len port dmac hinv h1
    | del pfx len => exact route_inv_del s pfx len hinv h1

theorem route_inv_consistent (s : route_sys) (hinv : route_inv s) : route_consistent s := by
  obtain ⟨hI1, _, hI3⟩ := hinv
  intro r hr hv
  obtain ⟨x, hx, hlx, hex⟩ := hI3 r hr hv
  have hpx : rec_is TABLE_IPV4_LPM_STAGE (route_tcam_id r.pfx r.len) x = true := by
    rw [rec_is_iff, hex]
    exact ⟨hlx, rfl, rfl⟩
  constructor
  · apply Nat.le_antisymm (store_unique_count _ hI1 _ _)
    exact List.length_pos_of_mem (List.mem_filter.mpr ⟨hx, hpx⟩)
  · intro y hy hpy
    obtain ⟨m, hm⟩ := List.mem_iff_getElem?.mp hx
    obtain ⟨n, hn⟩ := List.mem_iff_getElem?.mp hy
    obtain ⟨hly, hsy, hty⟩ := (rec_is_iff _ _ _).mp hpy
    obtain ⟨_, hsx, htx⟩ := (rec_is_iff _ _ _).mp hpx
    have := hI1 m n x y hm hn hlx hly (by rw [hsx, hsy]) (by rw [htx, hty])
    subst this
    rw [hm] at hn
    cases hn
    exact hex

set_option maxRecDepth 100000 in
/-- C6 as stated fails: after `route_add(10.0.0.0/8)` and `route_add(0.10.0.0/16)`
both routes are valid in the software table and both derive table-id 10, so the one
live Stage-0 record carries the key of the second route only. -/
theorem c6_counterexample :
    ¬ route_consistent (route_run route_sys_init
      [route_op.add 0x0A000000 8 1 0x001122334455,
       route_op.add 0x000A0000 16 2 0x00AABBCCDDEE]) := by
  decide

/-- C6 (amended): after every sequence of `route_add` and `route_del` calls from
`route_init` on an empty rule store in which no call names a `(prefix, len)` whose
derived table-id is that of a different valid route, and no `route_add` is refused
by a full rule store, every valid route of the software table has exactly one live
Stage-0 record at its derived table-id, carrying the key, mask, port and MAC of
that route. -/
theorem c6_route_consistency (ops : List route_op)
    (hok : route_run_ok route_sys_init ops) :
    route_consistent (route_run route_sys_init ops) :=
  route_inv_consistent _ (route_inv_run _ ops route_inv_init hok)

set_option maxRecDepth 100000 in
/-- C6 (amended) at a concrete sequence: two routes with distinct table-ids are
added and the first is deleted. -/
theorem c6_route_consistency_witness :
    route_consistent (route_run route_sys_init
      [route_op.add 0x0A0A0000 16 3 0xAABBCCDDEEFF,
       route_op.add 0xC0A80000 16 1 0x001122334455,
       route_op.del 0x0A0A0000 16]) :=
  c6_route_consistency _ (by decide)

/-! ## C7: route add/del round trip -/

theorem findIdx?_eq_some_iff_getElem? {α : Type} (p : α → Bool) (l : List α) (i : Nat) :
    l.findIdx? p = some i ↔
      ∃ r, l[i]? = some r ∧ p r = true ∧
        ∀ j rj, j < i → l[j]? = some rj → p rj = false := by
  rw [List.findIdx?_eq_some_iff_getElem]
  constructor
  · rintro ⟨h, hp, hlt⟩
    refine ⟨l[i], by simp [h], hp, ?_⟩
    intro j r2 hj hr2
    have hjl : j < l.length := Nat.lt_trans hj h
    have := hlt j hj
    rw [List.getElem?_eq_getElem hjl] at hr2
    cases hr2
    simpa using this
  · rintro ⟨r, hr, hp, hlt⟩
    obtain ⟨h, rfl⟩ := List.getElem?_eq_some_iff.mp hr
    refine ⟨h, hp, ?_⟩
    intro j hj
    have hjl : j < l.length := Nat.lt_trans hj h
    simpa using hlt j l[j] hj (by simp [hjl])

/-- After `route_add` has written slot `i`, that slot is the first and only valid
slot of `(prefix, len)`. -/
theorem route_add_slot_first (rt : List route_entry_t) (pfx len i : Nat)
    (hnd : route_table_nodup rt) (hslot : route_add_slot rt pfx len = some i) :
    (∃ r, rt[i]? = some r) ∧
    ∀ j rj, j ≠ i → rt[j]? = some rj → route_is pfx len rj = false := by
  unfold route_add_slot at hslot
  cases hfi : rt.findIdx? (route_is pfx len) with
  | some i0 =>
    rw [hfi] at hslot
    have h0 : i0 = i := by simpa using hslot
    subst h0
    obtain ⟨r0, hr0, hp0⟩ := findIdx?_some_getElem? _ _ _ hfi
    obtain ⟨hv0, hp, hl⟩ := (route_is_iff _ _ _).mp hp0
    refine ⟨⟨r0, hr0⟩, ?_⟩
    intro j rj hji hj
    rw [← Bool.not_eq_true, route_is_iff]
    rintro ⟨hvj, hpj, hlj⟩
    exact hji (hnd j i0 rj r0 hj hr0 hvj hv0 (by rw [hpj, hp]) (by rw [hlj, hl]))
  | none =>
    rw [hfi] at hslot
    simp only at hslot
    obtain ⟨r0, hr0, _⟩ := findIdx?_some_getElem? _ _ _ hslot
    refine ⟨⟨r0, hr0⟩, ?_⟩
    intro j rj _ hj
    exact List.findIdx?_eq_none_iff.mp hfi rj (List.getElem?_mem hj)

theorem route_del_absent (rt : List route_entry_t) (db : List sim_tcam_rec_t)
    (pfx len : Nat) (hlen : len ≤ 32)
    (hrt : ∀ r ∈ rt, route_is pfx len r = false)
    (hdb : sim_tcam_find db TABLE_IPV4_LPM_STAGE (route_tcam_id pfx len) = none) :
    route_del pfx len rt db = (HAL_ERR_INVAL, rt, db) := by
  have hfi : rt.findIdx? (route_is pfx len) = none := List.findIdx?_eq_none_iff.mpr hrt
  simp [route_del, Nat.not_lt.mpr hlen, hfi, hal_tcam_delete, hdb]

theorem hal_tcam_delete_appended (db : List sim_tcam_rec_t) (e : tcam_entry_t)
    (hfree : sim_tcam_find db e.stage e.table_id = none) :
    hal_tcam_delete e.stage e.table_id (db ++ [{ entry := e, valid := 1, deleted := 0 }])
      = (HAL_OK, db ++ [{ entry := e, valid := 1, deleted := 1 }]) ∧
    sim_tcam_find (db ++ [{ entry := e, valid := 1, deleted := 1 }]) e.stage e.table_id
      = none := by
  have hnone := (sim_tcam_find_none db e.stage e.table_id).mp hfree
  have hfind : sim_tcam_find (db ++ [{ entry := e, valid := 1, deleted := 0 }])
      e.stage e.table_id = some db.length := by
    rw [sim_tcam_find_some]
    refine ⟨{ entry := e, valid := 1, deleted := 0 }, ?_, ?_, ?_⟩
    · rw [List.getElem?_append_right (Nat.le_refl _)]
      simp
    · simp [rec_is]
    · intro j r2 hj hr2
      rw [List.getElem?_append_left hj] at hr2
      exact hnone r2 (List.getElem?_mem hr2)
  constructor
  · unfold hal_tcam_delete
    rw [hfind]
    simp only
    congr 1
    apply List.ext_getElem?
    intro n
    rw [getElem?_slot_update]
    by_cases hn : db.length = n
    · subst hn
      rw [if_pos rfl, List.getElem?_append_right (Nat.le_refl _),
        List.getElem?_append_right (Nat.le_refl _)]
      simp
    · rw [if_neg hn]
      by_cases hlt : n < db.length
      · rw [List.getElem?_append_left hlt, List.getElem?_append_left hlt]
      · rw [List.getElem?_append_right (by omega), List.getElem?_append_right (by omega)]
        have : n - db.length = (n - db.length - 1) + 1 := by omega
        rw [this]
        simp
  · rw [sim_tcam_find_none]
    intro r hr
    rcases List.mem_append.mp hr with h | h
    · exact hnone r h
    · simp only [List.mem_singleton] at h
      subst h
      simp [rec_is]

/-- C7: route round trip. For `len <= 32`, a software table without duplicate
routes (every table reached from `route_init` is one) and a rule store with no live
Stage-0 record at the table-id of `(prefix, len)`: when `route_add` returns
`HAL_OK`, the following `route_del` returns `HAL_OK`, leaves no live Stage-0 record
at that table-id and no valid slot of `(prefix, len)` in the software table; a
second `route_del` returns `HAL_ERR_INVAL` and changes nothing, and so does a
`route_del` of any pair that has no valid slot and no live record at its
table-id. -/
theorem c7_route_round_trip (rt : List route_entry_t) (db : List sim_tcam_rec_t)
    (pfx len port dmac : Nat) (hlen : len ≤ 32) (hnd : route_table_nodup rt)
    (hfree : sim_tcam_find db TABLE_IPV4_LPM_STAGE (route_tcam_id pfx len) = none)
    (hadd : (route_add pfx len port dmac rt db).1 = HAL_OK) :
    (route_del pfx len (route_add pfx len port dmac rt db).2.1
        (route_add pfx len port dmac rt db).2.2).1 = HAL_OK ∧
    ((route_del pfx len (route_add pfx len port dmac rt db).2.1
        (route_add pfx len port dmac rt db).2.2).2.2.filter
      (rec_is TABLE_IPV4_LPM_STAGE (route_tcam_id pfx len))).length = 0 ∧
    (∀ r, r ∈ (route_del pfx len (route_add pfx len port dmac rt db).2.1
        (route_add pfx len port dmac rt db).2.2).2.1 → route_is pfx len r = false) ∧
    route_del pfx len
        (route_del pfx len (route_add pfx len port dmac rt db).2.1
          (route_add pfx len port dmac rt db).2.2).2.1
        (route_del pfx len (route_add pfx len port dmac rt db).2.1
          (route_add pfx len port dmac rt db).2.2).2.2
      = (HAL_ERR_INVAL,
         (route_del pfx len (route_add pfx len port dmac rt db).2.1
          (route_add pfx len port dmac rt db).2.2).2) ∧
    (∀ (rt0 : List route_entry_t) (db0 : List sim_tcam_rec_t),
      (∀ r, r ∈ rt0 → route_is pfx len r = false) →
      sim_tcam_find db0 TABLE_IPV4_LPM_STAGE (route_tcam_id pfx len) = none →
      route_del pfx len rt0 db0 = (HAL_ERR_INVAL, rt0, db0)) := by
  have hl : ¬ len > 32 := Nat.not_lt.mpr hlen
  -- the add takes a slot and appends the record
  cases hslot : route_add_slot rt pfx len with
  | none =>
    simp [route_add, hl, hslot, HAL_ERR_FULL, HAL_OK] at hadd
  | some i =>
    have hins : hal_tcam_insert (some (route_tcam_entry pfx len port dmac)) db
        = (HAL_OK, db ++ [(⟨route_tcam_entry pfx len port dmac, 1, 0⟩ : sim_tcam_rec_t)]) := by
      by_cases hn : db.length < SIM_TCAM_MAX
      · exact hal_tcam_insert_new db _ hfree hn
      · have hfull : hal_tcam_insert (some (route_tcam_entry pfx len port dmac)) db
            = (HAL_ERR_FULL, db) := by
          have hfree2 : sim_tcam_find db (route_tcam_entry pfx len port dmac).stage
              (route_tcam_entry pfx len port dmac).table_id = none := hfree
          simp [hal_tcam_insert, hfree2, Nat.le_of_not_lt hn]
        simp [route_add, hl, hslot, hfull, HAL_ERR_FULL, HAL_OK] at hadd
    have hadd_eq : route_add pfx len port dmac rt db
        = (HAL_OK,
           slot_update (fun _ => (⟨pfx, len, port, dmac, 1⟩ : route_entry_t)) rt i,
           db ++ [(⟨route_tcam_entry pfx len port dmac, 1, 0⟩ : sim_tcam_rec_t)]) := by
      simp [route_add, hl, hslot, hins]
    obtain ⟨⟨r0, hr0⟩, hothers⟩ := route_add_slot_first rt pfx len i hnd hslot
    -- the del finds slot i first
    have hfi : (slot_update (fun _ =>
        (⟨pfx, len, port, dmac, 1⟩ : route_entry_t)) rt i).findIdx? (route_is pfx len)
          = some i := by
      rw [findIdx?_eq_some_iff_getElem?]
      refine ⟨(⟨pfx, len, port, dmac, 1⟩ : route_entry_t), ?_, ?_, ?_⟩
      · rw [getElem?_slot_update, if_pos rfl, hr0]
        rfl
      · simp [route_is]
      · intro j rj hj hrj
        rw [getElem?_slot_update, if_neg (by omega)] at hrj
        exact hothers j rj (by omega) hrj
    have hupd : slot_update (fun (r : route_entry_t) => { r with valid := 0 })
        (slot_update (fun _ => (⟨pfx, len, port, dmac, 1⟩ : route_entry_t)) rt i) i
        = slot_update (fun _ => (⟨pfx, len, port, dmac, 0⟩ : route_entry_t)) rt i := by
      apply List.ext_getElem?
      intro n
      simp only [getElem?_slot_update]
      by_cases hn : i = n
      · subst hn
        simp only [if_true, hr0, Option.map_some']
      · simp only [hn, if_false]
    obtain ⟨hdel, hfind2⟩ := hal_tcam_delete_appended db (route_tcam_entry pfx len port dmac)
      hfree
    have hdel_eq : route_del pfx len
        (slot_update (fun _ => (⟨pfx, len, port, dmac, 1⟩ : route_entry_t)) rt i)
        (db ++ [(⟨route_tcam_entry pfx len port dmac, 1, 0⟩ : sim_tcam_rec_t)])
        = (HAL_OK,
           slot_update (fun _ => (⟨pfx, len, port, dmac, 0⟩ : route_entry_t)) rt i,
           db ++ [(⟨route_tcam_entry pfx len port dmac, 1, 1⟩ : sim_tcam_rec_t)]) := by
      have hdel2 : hal_tcam_delete TABLE_IPV4_LPM_STAGE (route_tcam_id pfx len)
          (db ++ [(⟨route_tcam_entry pfx len port dmac, 1, 0⟩ : sim_tcam_rec_t)])
          = (HAL_OK, db ++ [(⟨route_tcam_entry pfx len port dmac, 1, 1⟩ : sim_tcam_rec_t)]) :=
        hdel
      simp only [route_del, hl, if_false, hfi, hupd, hdel2]
    have hgone : ∀ r, r ∈ slot_update
        (fun _ => (⟨pfx, len, port, dmac, 0⟩ : route_entry_t)) rt i →
          route_is pfx len r = false := by
      intro r hr
      obtain ⟨a, ha⟩ := List.mem_iff_getElem?.mp hr
      rw [getElem?_slot_update] at ha
      by_cases hia : i = a
      · subst hia
        rw [if_pos rfl, hr0] at ha
        cases ha
        simp [route_is]
      · rw [if_neg hia] at ha
        exact hothers a r (fun h => hia h.symm) ha
    have hfind3 : sim_tcam_find
        (db ++ [(⟨route_tcam_entry pfx len port dmac, 1, 1⟩ : sim_tcam_rec_t)])
        TABLE_IPV4_LPM_STAGE (route_tcam_id pfx len) = none := hfind2
    rw [hadd_eq]
    simp only
    rw [hdel_eq]
    refine ⟨rfl, ?_, hgone, route_del_absent _ _ pfx len hlen hgone hfind3, ?_⟩
    · rw [List.length_eq_zero, List.filter_eq_nil_iff]
      intro x hx
      rw [Bool.not_eq_true]
      exact (sim_tcam_find_none _ _ _).mp hfind3 x hx
    · intro rt0 db0 h1 h2
      exact route_del_absent rt0 db0 pfx len hlen h1 h2

theorem route_table_nodup_init : route_table_nodup route_init := by
  intro i j ri rj hi _ hvi
  have hm : ri ∈ List.replicate ROUTE_TABLE_SIZE
      ({ pfx := 0, len := 0, port := 0, dmac := 0, valid := 0 } : route_entry_t) :=
    List.getElem?_mem hi
  rw [List.eq_of_mem_replicate hm] at hvi
  exact absurd rfl hvi

theorem route_table_nodup_add (rt : List route_entry_t) (db : List sim_tcam_rec_t)
    (pfx len port dmac : Nat) (hnd : route_table_nodup rt) :
    route_table_nodup (route_add pfx len port dmac rt db).2.1 := by
  unfold route_add
  by_cases hlen : len > 32
  · simp only [hlen, if_true]
    exact hnd
  simp only [hlen, if_false]
  cases hslot : route_add_slot rt pfx len with
  | none => exact hnd
  | some i =>
    obtain ⟨⟨r0, hr0⟩, hothers⟩ := route_add_slot_first rt pfx len i hnd hslot
    intro a b ra rb ha hb hva hvb hp hl
    simp only [getElem?_slot_update] at ha hb
    by_cases hia : i = a <;> by_cases hib : i = b
    · omega
    · subst hia
      simp only [if_true, hr0, Option.map_some', Option.some.injEq] at ha
      simp only [hib, if_false] at hb
      subst ha
      have := hothers b rb (fun h => hib h.symm) hb
      rw [← Bool.not_eq_true, route_is_iff] at this
      exact absurd ⟨hvb, hp.symm, hl.symm⟩ this
    · subst hib
      simp only [if_true, hr0, Option.map_some', Option.some.injEq] at hb
      simp only [hia, if_false] at ha
      subst hb
      have := hothers a ra (fun h => hia h.symm) ha
      rw [← Bool.not_eq_true, route_is_iff] at this
      exact absurd ⟨hva, hp, hl⟩ this
    · simp only [hia, hib, if_false] at ha hb
      exact hnd a b ra rb ha hb hva hvb hp hl

theorem route_table_nodup_del (rt : List route_entry_t) (db : List sim_tcam_rec_t)
    (pfx len : Nat) (hnd : route_table_nodup rt) :
    route_table_nodup (route_del pfx len rt db).2.1 := by
  unfold route_del
  by_cases hlen : len > 32
  · simp only [hlen, if_true]
    exact hnd
  simp only [hlen, if_false]
  cases hfi : rt.findIdx? (route_is pfx len) with
  | none => exact hnd
  | some i =>
    simp only
    have hkeep : ∀ (a : Nat) (ra : route_entry_t),
        (slot_update (fun (r : route_entry_t) => { r with valid := 0 }) rt i)[a]? = some ra →
        ra.valid ≠ 0 → rt[a]? = some ra := by
      intro a ra ha hva
      rw [getElem?_slot_update] at ha
      by_cases hia : i = a
      · subst hia
        rw [if_pos rfl] at ha
        obtain ⟨r, _, rfl⟩ := Option.map_eq_some'.mp ha
        exact absurd rfl hva
      · rw [if_neg hia] at ha
        exact ha
    intro a b ra rb ha hb hva hvb hp hl
    exact hnd a b ra rb (hkeep a ra ha hva) (hkeep b rb hb hvb) hva hvb hp hl

/-- Every software route table reached from `route_init` by `route_add` and
`route_del` calls, over any rule store, holds no route twice. -/
theorem route_table_nodup_run (s : route_sys) (ops : List route_op)
    (h : route_table_nodup s.route_table) :
    route_table_nodup (route_run s ops).route_table := by
  induction ops generalizing s with
  | nil => exact h
  | cons op ops ih =>
    apply ih
    cases op with
    | add pfx len port dmac => exact route_table_nodup_add _ _ pfx len port dmac h
    | del pfx len => exact route_table_nodup_del _ _ pfx len h

set_option maxRecDepth 100000 in
/-- C7 at the input of `test_route_add_del`: 10.0.0.0/8 -> port 2 on the initial
state; the add succeeds, the del returns `HAL_OK` and a second del fails. -/
theorem c7_route_round_trip_witness :
    (route_add 0x0A000000 8 2 0xAABBCCDDEEFF route_init []).1 = HAL_OK ∧
    (route_del 0x0A000000 8 (route_add 0x0A000000 8 2 0xAABBCCDDEEFF route_init []).2.1
      (route_add 0x0A000000 8 2 0xAABBCCDDEEFF route_init []).2.2).1 = HAL_OK :=
  ⟨by decide,
   (c7_route_round_trip route_init [] 0x0A000000 8 2 0xAABBCCDDEEFF (by decide)
      route_table_nodup_init (by decide) (by decide)).1⟩

/-! ## Bit-level facts about prefixes and masks -/

theorem and_0xFF (x : Nat) : x &&& 0xFF = x % 256 :=
  Nat.and_pow_two_sub_one_eq_mod x 8

theorem prefix_to_mask_eq (len : Nat) (hlen : len ≤ 32) :
    prefix_to_mask len = 2 ^ 32 - 2 ^ (32 - len) := by
  interval_cases len <;> rfl

theorem testBit_prefix_mask (k j : Nat) (hk : k ≤ 32) :
    (2 ^ 32 - 2 ^ k).testBit j = (decide (k ≤ j) && decide (j < 32)) := by
  have hpos : 0 < 2 ^ k := Nat.two_pow_pos k
  have hlt : 2 ^ k - 1 < 2 ^ 32 := by
    have : 2 ^ k ≤ 2 ^ 32 := Nat.pow_le_pow_right (by decide) hk
    omega
  have h := Nat.testBit_two_pow_sub_succ hlt j
  have he : 2 ^ k - 1 + 1 = 2 ^ k := by omega
  rw [he] at h
  rw [h, Nat.testBit_two_pow_sub_one]
  by_cases h1 : j < 32 <;> by_cases h2 : j < k <;> simp [h1, h2]
  all_goals omega

theorem land_prefix_mask_eq_iff (d p k : Nat) (hd : d < 2 ^ 32) (hp : p < 2 ^ 32)
    (hk : k ≤ 32) :
    d &&& (2 ^ 32 - 2 ^ k) = p &&& (2 ^ 32 - 2 ^ k) ↔ d >>> k = p >>> k := by
  constructor
  · intro h
    apply Nat.eq_of_testBit_eq
    intro j
    rw [Nat.testBit_shiftRight, Nat.testBit_shiftRight]
    by_cases hj : k + j < 32
    · have := congrArg (fun x => x.testBit (k + j)) h
      simp only [Nat.testBit_and, testBit_prefix_mask k (k + j) hk] at this
      simpa [hj] using this
    · have h32 : 2 ^ 32 ≤ 2 ^ (k + j) := Nat.pow_le_pow_right (by decide) (by omega)
      rw [Nat.testBit_lt_two_pow (Nat.lt_of_lt_of_le hd h32),
        Nat.testBit_lt_two_pow (Nat.lt_of_lt_of_le hp h32)]
  · intro h
    apply Nat.eq_of_testBit_eq
    intro j
    simp only [Nat.testBit_and, testBit_prefix_mask k j hk]
    by_cases hj : k ≤ j
    · have := congrArg (fun x => x.testBit (j - k)) h
      simp only [Nat.testBit_shiftRight] at this
      have hkj : k + (j - k) = j := by omega
      rw [hkj] at this
      rw [this]
    · simp [hj]

theorem byte_land (x y s : Nat) :
    ((x &&& y) >>> s) % 256 = ((x >>> s) % 256) &&& ((y >>> s) % 256) := by
  apply Nat.eq_of_testBit_eq
  intro j
  have h256 : (256 : Nat) = 2 ^ 8 := rfl
  simp only [h256, Nat.testBit_mod_two_pow, Nat.testBit_shiftRight, Nat.testBit_and]
  by_cases hj : j < 8 <;> simp [hj]

theorem u32_eq_iff_bytes (x y : Nat) (hx : x < 2 ^ 32) (hy : y < 2 ^ 32) :
    x = y ↔ (x >>> 24) % 256 = (y >>> 24) % 256 ∧ (x >>> 16) % 256 = (y >>> 16) % 256 ∧
      (x >>> 8) % 256 = (y >>> 8) % 256 ∧ (x >>> 0) % 256 = (y >>> 0) % 256 := by
  constructor
  · rintro rfl
    exact ⟨rfl, rfl, rfl, rfl⟩
  · simp only [Nat.shiftRight_eq_div_pow]
    rintro ⟨h0, h1, h2, h3⟩
    omega

theorem land_lt_two_pow_32 (x y : Nat) (hx : x < 2 ^ 32) : x &&& y < 2 ^ 32 :=
  Nat.lt_of_le_of_lt Nat.and_le_left hx

/-- The four masked byte comparisons of a Stage-0 lookup say that the top `len`
bits agree. -/
theorem lpm_bytes_match_iff (d p len : Nat) (hd : d < 2 ^ 32) (hp : p < 2 ^ 32)
    (hlen : len ≤ 32) :
    (((d >>> 24) % 256) &&& ((prefix_to_mask len >>> 24) % 256)
        = ((p >>> 24) % 256) &&& ((prefix_to_mask len >>> 24) % 256) ∧
     ((d >>> 16) % 256) &&& ((prefix_to_mask len >>> 16) % 256)
        = ((p >>> 16) % 256) &&& ((prefix_to_mask len >>> 16) % 256) ∧
     ((d >>> 8) % 256) &&& ((prefix_to_mask len >>> 8) % 256)
        = ((p >>> 8) % 256) &&& ((prefix_to_mask len >>> 8) % 256) ∧
     ((d >>> 0) % 256) &&& ((prefix_to_mask len >>> 0) % 256)
        = ((p >>> 0) % 256) &&& ((prefix_to_mask len >>> 0) % 256)) ↔
    d >>> (32 - len) = p >>> (32 - len) := by
  rw [← land_prefix_mask_eq_iff d p (32 - len) hd hp (by omega), ← prefix_to_mask_eq len hlen,
    u32_eq_iff_bytes _ _ (land_lt_two_pow_32 d _ hd) (land_lt_two_pow_32 p _ hp)]
  simp only [byte_land]

theorem getD_set_zero (l : List Nat) (i j v : Nat) :
    (l.set i v).getD j 0 = if i = j ∧ i < l.length then v else l.getD j 0 := by
  simp only [List.getD_eq_getElem?_getD, List.getElem?_set]
  by_cases h : i = j
  · subst h
    by_cases h2 : i < l.length
    · simp [h2]
    · simp [h2, List.getElem?_eq_none (Nat.le_of_not_lt h2)]
  · simp [h]

theorem length_memcpy (dst : List Nat) (doff : Nat) (src : List Nat) (soff n : Nat) :
    (memcpy dst doff src soff n).length = dst.length := by
  induction n with
  | zero => rfl
  | succ n ih => simp [memcpy, ih]

theorem getD_memcpy (dst : List Nat) (doff : Nat) (src : List Nat) (soff n i : Nat) :
    (memcpy dst doff src soff n).getD i 0
      = if doff ≤ i ∧ i < doff + n ∧ i < dst.length then src.getD (soff + (i - doff)) 0
        else dst.getD i 0 := by
  induction n with
  | zero =>
    have : ¬ (doff ≤ i ∧ i < doff + 0 ∧ i < dst.length) := by omega
    rw [if_neg this]
    rfl
  | succ n ih =>
    rw [memcpy, getD_set_zero, length_memcpy, ih]
    by_cases h1 : doff + n = i
    · subst h1
      by_cases h2 : doff + n < dst.length
      · have : doff ≤ doff + n ∧ doff + n < doff + (n + 1) ∧ doff + n < dst.length := by
          omega
        rw [if_pos ⟨rfl, h2⟩, if_pos this]
        congr 2
        omega
      · have h3 : ¬ (doff + n = doff + n ∧ doff + n < dst.length) := by omega
        have h4 : ¬ (doff ≤ doff + n ∧ doff + n < doff + (n + 1) ∧
            doff + n < dst.length) := by
          omega
        have h5 : ¬ (doff ≤ doff + n ∧ doff + n < doff + n ∧ doff + n < dst.length) := by
          omega
        rw [if_neg h3, if_neg h4, if_neg h5]
    · have h3 : ¬ (doff + n = i ∧ doff + n < dst.length) := by omega
      rw [if_neg h3]
      by_cases h6 : doff ≤ i ∧ i < doff + n ∧ i < dst.length
      · have : doff ≤ i ∧ i < doff + (n + 1) ∧ i < dst.length := by omega
        rw [if_pos h6, if_pos this]
      · have : ¬ (doff ≤ i ∧ i < doff + (n + 1) ∧ i < dst.length) := by omega
        rw [if_neg h6, if_neg this]

theorem pkt_parse_l4_frame (raw : List Nat) (raw_len : Nat) (phv : phv_t) (ip_start : Nat) :
    (pkt_parse_l4 raw raw_len phv ip_start).hdr.length = phv.hdr.length ∧
    (∀ i, i < 38 → (pkt_parse_l4 raw raw_len phv ip_start).hdr.getD i 0 = phv.hdr.getD i 0) ∧
    (pkt_parse_l4 raw raw_len phv ip_start).ig_port = phv.ig_port ∧
    (pkt_parse_l4 raw raw_len phv ip_start).eg_port = phv.eg_port ∧
    (pkt_parse_l4 raw raw_len phv ip_start).drop = phv.drop ∧
    (pkt_parse_l4 raw raw_len phv ip_start).punt = phv.punt ∧
    (pkt_parse_l4 raw raw_len phv ip_start).vlan_id = phv.vlan_id ∧
    (pkt_parse_l4 raw raw_len phv ip_start).qos_prio = phv.qos_prio ∧
    (pkt_parse_l4 raw raw_len phv ip_start).vlan_action = phv.vlan_action := by
  unfold pkt_parse_l4
  simp only
  split
  · refine ⟨by simp, ?_, rfl, rfl, rfl, rfl, rfl, rfl, rfl⟩
    intro i hi
    simp only [getD_set_zero, PHV_OFF_TCP_SPORT, PHV_OFF_TCP_DPORT]
    have h1 : ¬ (40 + 1 = i) := by omega
    have h2 : ¬ (40 = i) := by omega
    have h3 : ¬ (38 + 1 = i) := by omega
    have h4 : ¬ (38 = i) := by omega
    simp [h1, h2, h3, h4]
  · exact ⟨rfl, fun _ _ => rfl, rfl, rfl, rfl, rfl, rfl, rfl, rfl⟩
theorem eth_type_ipv4 : ((0x08 <<< 8) ||| 0x00) % 2 ^ 16 = 0x0800 := by decide

theorem phv_zero_hdr_length : phv_zero.hdr.length = 512 :=
  List.length_replicate 512 0

theorem phv_zero_hdr_getD (i : Nat) : phv_zero.hdr.getD i 0 = 0 := by
  simp only [phv_zero, List.getD_eq_getElem?_getD, List.getElem?_replicate]
  split <;> rfl

theorem pkt_parse_eth_hdr (raw : List Nat) (ing_port : Nat) :
    (pkt_parse_eth raw ing_port).hdr.length = 512 ∧
    (∀ i, (pkt_parse_eth raw ing_port).hdr.getD i 0 = if i < 14 then raw.getD i 0 else 0) := by
  unfold pkt_parse_eth
  simp only [length_memcpy, List.length_set, phv_zero_hdr_length, true_and]
  intro i
  simp only [getD_memcpy, getD_set_zero, length_memcpy, List.length_set,
    phv_zero_hdr_length, phv_zero_hdr_getD, PHV_OFF_ETH_DST, PHV_OFF_ETH_SRC,
    PHV_OFF_ETH_TYPE]
  by_cases h14 : i < 14
  · rw [if_pos h14]
    interval_cases i <;> simp
  · rw [if_neg h14]
    have h1 : ¬ (12 + 1 = i ∧ 12 + 1 < 512) := by omega
    have h2 : ¬ (12 = i ∧ 12 < 512) := by omega
    have h3 : ¬ (6 ≤ i ∧ i < 6 + 6 ∧ i < 512) := by omega
    have h4 : ¬ (0 ≤ i ∧ i < 0 + 6 ∧ i < 512) := by omega
    rw [if_neg h1, if_neg h2, if_neg h3, if_neg h4]

theorem pkt_parse_ipv4_hdr_at (raw : List Nat) (phv : phv_t) (ip : Nat)
    (hlen : phv.hdr.length = 512) :
    (pkt_parse_ipv4_hdr raw phv ip).hdr.length = 512 ∧
    (∀ i, i < 18 → (pkt_parse_ipv4_hdr raw phv ip).hdr.getD i 0 = phv.hdr.getD i 0) ∧
    (pkt_parse_ipv4_hdr raw phv ip).hdr.getD 19 0 = raw.getD (ip + 1) 0 ∧
    (∀ i, i < 8 → (pkt_parse_ipv4_hdr raw phv ip).hdr.getD (30 + i) 0
      = raw.getD (ip + 12 + i) 0) ∧
    (pkt_parse_ipv4_hdr raw phv ip).ig_port = phv.ig_port ∧
    (pkt_parse_ipv4_hdr raw phv ip).eg_port = phv.eg_port ∧
    (pkt_parse_ipv4_hdr raw phv ip).drop = phv.drop ∧
    (pkt_parse_ipv4_hdr raw phv ip).punt = phv.punt ∧
    (pkt_parse_ipv4_hdr raw phv ip).vlan_id = phv.vlan_id ∧
    (pkt_parse_ipv4_hdr raw phv ip).qos_prio = phv.qos_prio ∧
    (pkt_parse_ipv4_hdr raw phv ip).vlan_action = phv.vlan_action := by
  unfold pkt_parse_ipv4_hdr
  simp only [length_memcpy, List.length_set, hlen, true_and, and_true]
  refine ⟨?_, ?_, ?_⟩
  · intro i hi
    simp only [getD_memcpy, getD_set_zero, length_memcpy, List.length_set, hlen,
      PHV_OFF_IPV4_VER_IHL, PHV_OFF_IPV4_DSCP, PHV_OFF_IPV4_TOT_LEN,
      PHV_OFF_IPV4_TTL, PHV_OFF_IPV4_PROTO, PHV_OFF_IPV4_SRC, PHV_OFF_IPV4_DST]
    have h1 : ¬ (34 ≤ i ∧ i < 34 + 4 ∧ i < 512) := by omega
    have h2 : ¬ (30 ≤ i ∧ i < 30 + 4 ∧ i < 512) := by omega
    have h3 : ¬ (27 = i ∧ 27 < 512) := by omega
    have h4 : ¬ (26 = i ∧ 26 < 512) := by omega
    have h5 : ¬ (20 + 1 = i ∧ 20 + 1 < 512) := by omega
    have h6 : ¬ (20 = i ∧ 20 < 512) := by omega
    have h7 : ¬ (19 = i ∧ 19 < 512) := by omega
    have h8 : ¬ (18 = i ∧ 18 < 512) := by omega
    rw [if_neg h1, if_neg h2, if_neg h3, if_neg h4, if_neg h5, if_neg h6, if_neg h7,
      if_neg h8]
  · simp only [getD_memcpy, getD_set_zero, length_memcpy, List.length_set, hlen,
      PHV_OFF_IPV4_VER_IHL, PHV_OFF_IPV4_DSCP, PHV_OFF_IPV4_TOT_LEN,
      PHV_OFF_IPV4_TTL, PHV_OFF_IPV4_PROTO, PHV_OFF_IPV4_SRC, PHV_OFF_IPV4_DST]
    simp
  · intro i hi
    simp only [getD_memcpy, getD_set_zero, length_memcpy, List.length_set, hlen,
      PHV_OFF_IPV4_VER_IHL, PHV_OFF_IPV4_DSCP, PHV_OFF_IPV4_TOT_LEN,
      PHV_OFF_IPV4_TTL, PHV_OFF_IPV4_PROTO, PHV_OFF_IPV4_SRC, PHV_OFF_IPV4_DST]
    interval_cases i <;> simp [Nat.add_assoc]

/-- The PHV that `pkt_parse` builds for an untagged IPv4 frame of at least 34 bytes. -/
theorem pkt_parse_ipv4_untagged (raw : List Nat) (ing_port : Nat) (phv0 : phv_t)
    (h34 : 34 ≤ raw.length)
    (h12 : raw.getD 12 0 = 0x08) (h13 : raw.getD 13 0 = 0x00) :
    (pkt_parse raw raw.length ing_port phv0).1 = 0 ∧
    (pkt_parse raw raw.length ing_port phv0).2.hdr.length = 512 ∧
    (∀ i, i < 18 → (pkt_parse raw raw.length ing_port phv0).2.hdr.getD i 0
      = if i < 14 then raw.getD i 0 else 0) ∧
    (pkt_parse raw raw.length ing_port phv0).2.hdr.getD 19 0 = raw.getD 15 0 ∧
    (∀ i, i < 8 → (pkt_parse raw raw.length ing_port phv0).2.hdr.getD (30 + i) 0
      = raw.getD (26 + i) 0) ∧
    (pkt_parse raw raw.length ing_port phv0).2.ig_port = ing_port ∧
    (pkt_parse raw raw.length ing_port phv0).2.eg_port = 0 ∧
    (pkt_parse raw raw.length ing_port phv0).2.drop = 0 ∧
    (pkt_parse raw raw.length ing_port phv0).2.punt = 0 ∧
    (pkt_parse raw raw.length ing_port phv0).2.vlan_id = 0 ∧
    (pkt_parse raw raw.length ing_port phv0).2.qos_prio = 0 ∧
    (pkt_parse raw raw.length ing_port phv0).2.vlan_action = 0 := by
  have hge : ¬ raw.length < 14 := by omega
  have hnv : ¬ (2048 = 0x8100 ∧ raw.length ≥ 18) := fun h => absurd h.1 (by decide)
  have hip : 2048 = 0x0800 ∧ raw.length ≥ (14 + 20) % 2 ^ 16 := ⟨rfl, h34⟩
  have heq : pkt_parse raw raw.length ing_port phv0
      = (0, pkt_parse_l4 raw raw.length
          (pkt_parse_ipv4_hdr raw (pkt_parse_eth raw ing_port) 14) 14) := by
    unfold pkt_parse
    rw [if_neg hge]
    simp only [h12, h13, eth_type_ipv4]
    unfold pkt_parse_vlan
    rw [if_neg hnv]
    simp only
    unfold pkt_parse_ipv4
    rw [if_pos hip]
  rw [heq]
  obtain ⟨he1, he2⟩ := pkt_parse_eth_hdr raw ing_port
  obtain ⟨hi1, hi2, hi3, hi4, hi5, hi6, hi7, hi8, hi9, hi10, hi11⟩ :=
    pkt_parse_ipv4_hdr_at raw (pkt_parse_eth raw ing_port) 14 he1
  obtain ⟨hl1, hl2, hl3, hl4, hl5, hl6, hl7, hl8, hl9⟩ :=
    pkt_parse_l4_frame raw raw.length
      (pkt_parse_ipv4_hdr raw (pkt_parse_eth raw ing_port) 14) 14
  refine ⟨rfl, ?_, ?_, ?_, ?_, ?_, ?_, ?_, ?_, ?_, ?_, ?_⟩
  · simp only
    rw [hl1, hi1]
  · intro i hi
    simp only
    rw [hl2 i (by omega), hi2 i hi, he2 i]
  · simp only
    rw [hl2 19 (by omega), hi3]
  · intro i hi
    simp only
    rw [hl2 (30 + i) (by omega), hi4 i hi]
  · simp only
    rw [hl3, hi5]
    rfl
  · simp only
    rw [hl4, hi6]
    rfl
  · simp only
    rw [hl5, hi7]
    rfl
  · simp only
    rw [hl6, hi8]
    rfl
  · simp only
    rw [hl7, hi9]
    rfl
  · simp only
    rw [hl8, hi10]
    rfl
  · simp only
    rw [hl9, hi11]
    rfl

theorem tcam_ternary_lookup_no_stage (db : List sim_tcam_rec_t) (stage : Nat)
    (key : List Nat) (key_len : Nat) (h : ∀ r ∈ db, r.entry.stage ≠ stage) :
    tcam_ternary_lookup db stage key key_len = none := by
  rw [tcam_ternary_lookup_none]
  intro r hr
  simp [ternary_hit, h r hr]

theorem pkt_forward_loop_miss (db : List sim_tcam_rec_t) (phv : phv_t) (s0 n : Nat)
    (h : ∀ s, s0 ≤ s → s < s0 + n → ∀ r ∈ db, r.entry.stage ≠ s % 256) :
    pkt_forward_loop db phv s0 n = phv := by
  induction n generalizing s0 phv with
  | zero => rfl
  | succ n ih =>
    rw [pkt_forward_loop]
    split
    · rfl
    · have hs : pkt_forward_stage db phv s0 = phv := by
        unfold pkt_forward_stage
        simp only
        rw [tcam_ternary_lookup_no_stage db _ _ _ (h s0 (Nat.le_refl _) (by omega))]
      rw [hs]
      exact ih phv (s0 + 1) (fun s hs hlt => h s (by omega) (by omega))

theorem u32_to_key_getD (buf : List Nat) (v : Nat) (hlen : 4 ≤ buf.length) :
    (u32_to_key buf 0 v).getD 0 0 = (v >>> 24) % 256 ∧
    (u32_to_key buf 0 v).getD 1 0 = (v >>> 16) % 256 ∧
    (u32_to_key buf 0 v).getD 2 0 = (v >>> 8) % 256 ∧
    (u32_to_key buf 0 v).getD 3 0 = (v >>> 0) % 256 := by
  unfold u32_to_key
  simp only [getD_set_zero, List.length_set, and_0xFF, Nat.mod_mod]
  have h0 : 0 < buf.length := by omega
  have h1 : 1 < buf.length := by omega
  have h2 : 2 < buf.length := by omega
  have h3 : 3 < buf.length := by omega
  simp [h0, h1, h2, h3]
theorem be32_bytes (b0 b1 b2 b3 : Nat) (h0 : b0 < 256) (h1 : b1 < 256) (h2 : b2 < 256)
    (h3 : b3 < 256) :
    b0 * 2 ^ 24 + b1 * 2 ^ 16 + b2 * 2 ^ 8 + b3 < 2 ^ 32 ∧
    ((b0 * 2 ^ 24 + b1 * 2 ^ 16 + b2 * 2 ^ 8 + b3) >>> 24) % 256 = b0 ∧
    ((b0 * 2 ^ 24 + b1 * 2 ^ 16 + b2 * 2 ^ 8 + b3) >>> 16) % 256 = b1 ∧
    ((b0 * 2 ^ 24 + b1 * 2 ^ 16 + b2 * 2 ^ 8 + b3) >>> 8) % 256 = b2 ∧
    ((b0 * 2 ^ 24 + b1 * 2 ^ 16 + b2 * 2 ^ 8 + b3) >>> 0) % 256 = b3 := by
  simp only [Nat.shiftRight_eq_div_pow]
  refine ⟨?_, ?_, ?_, ?_, ?_⟩ <;> omega

theorem forall_lt_four (P : Nat → Prop) :
    (∀ i, i < 4 → P i) ↔ P 0 ∧ P 1 ∧ P 2 ∧ P 3 := by
  constructor
  · intro h
    exact ⟨h 0 (by decide), h 1 (by decide), h 2 (by decide), h 3 (by decide)⟩
  · rintro ⟨h0, h1, h2, h3⟩ i hi
    interval_cases i <;> assumption

/-- A 4-byte key hits the entry of a route exactly when its top `len` bits are
those of the prefix. -/
theorem route_entry_match_iff (key : List Nat) (pfx len port dmac : Nat)
    (hp : pfx < 2 ^ 32) (hlen : len ≤ 32) (hk : ∀ i, i < 4 → key.getD i 0 < 256) :
    ternary_match key 4 (route_tcam_entry pfx len port dmac) ≠ 0 ↔
      (key.getD 0 0 * 2 ^ 24 + key.getD 1 0 * 2 ^ 16 + key.getD 2 0 * 2 ^ 8 + key.getD 3 0)
          >>> (32 - len) = pfx >>> (32 - len) := by
  obtain ⟨hd, hb0, hb1, hb2, hb3⟩ := be32_bytes _ _ _ _ (hk 0 (by decide)) (hk 1 (by decide))
    (hk 2 (by decide)) (hk 3 (by decide))
  rw [ternary_match_ne_zero, ← lpm_bytes_match_iff _ pfx len hd hp hlen, hb0, hb1, hb2, hb3]
  have hkl : (route_tcam_entry pfx len port dmac).key.key_len = 4 := rfl
  have hkb : (route_tcam_entry pfx len port dmac).key.bytes
      = u32_to_key (List.replicate 64 0) 0 pfx := rfl
  have hmb : (route_tcam_entry pfx len port dmac).mask.bytes
      = u32_to_key (List.replicate 64 0) 0 (prefix_to_mask len) := rfl
  obtain ⟨k0, k1, k2, k3⟩ := u32_to_key_getD (List.replicate 64 0) pfx (by simp)
  obtain ⟨m0, m1, m2, m3⟩ := u32_to_key_getD (List.replicate 64 0) (prefix_to_mask len)
    (by simp)
  rw [hkl, hkb, hmb, Nat.min_self, forall_lt_four, k0, k1, k2, k3, m0, m1, m2, m3]
theorem route_add_init (pfx len port dmac : Nat) (hlen : len ≤ 32) :
    route_add pfx len port dmac route_init []
      = (HAL_OK,
         slot_update (fun _ => (⟨pfx, len, port, dmac, 1⟩ : route_entry_t)) route_init 0,
         [{ entry := route_tcam_entry pfx len port dmac, valid := 1, deleted := 0 }]) := by
  have hl : ¬ len > 32 := Nat.not_lt.mpr hlen
  have h1 : route_init.findIdx? (route_is pfx len) = none := by
    rw [List.findIdx?_eq_none_iff]
    intro r hr
    rw [List.eq_of_mem_replicate hr]
    rfl
  have h2 : route_init.findIdx? (fun r => r.valid == 0) = some 0 := by
    unfold route_init
    rw [List.findIdx?_replicate]
    simp [ROUTE_TABLE_SIZE]
  have hslot : route_add_slot route_init pfx len = some 0 := by
    unfold route_add_slot
    rw [h1]
    exact h2
  have hins : hal_tcam_insert (some (route_tcam_entry pfx len port dmac)) []
      = (HAL_OK, [{ entry := route_tcam_entry pfx len port dmac, valid := 1, deleted := 0 }]) :=
    hal_tcam_insert_new [] _ rfl (by decide)
  unfold route_add
  rw [if_neg hl, hslot]
  simp only [hins]

theorem tcam_ternary_lookup_singleton (r : sim_tcam_rec_t) (stage : Nat) (key : List Nat)
    (key_len : Nat) :
    tcam_ternary_lookup [r] stage key key_len
      = if ternary_hit stage key key_len r = true then some 0 else none := by
  rw [tcam_ternary_lookup_eq]
  simp only [List.findIdx?_cons, List.findIdx?_nil]

theorem apply_action_forward (phv : phv_t) (r : sim_tcam_rec_t)
    (h : r.entry.action_id = ACTION_FORWARD) :
    apply_action phv r
      = { phv with eg_port := r.entry.action_params.getD 0 0,
                   hdr := memcpy phv.hdr PHV_OFF_ETH_DST r.entry.action_params 1 6 } := by
  unfold apply_action
  simp only
  rw [if_pos h]

/-- Stage 0 of the pipeline over a store holding the record of one route. -/
theorem pkt_forward_stage0_route (pfx len port dmac : Nat) (phv : phv_t)
    (hp : pfx < 2 ^ 32) (hlen : len ≤ 32)
    (hb : ∀ i, i < 4 → phv.hdr.getD (34 + i) 0 < 256) :
    pkt_forward_stage
        [{ entry := route_tcam_entry pfx len port dmac, valid := 1, deleted := 0 }] phv 0
      = if (phv.hdr.getD 34 0 * 2 ^ 24 + phv.hdr.getD 35 0 * 2 ^ 16
              + phv.hdr.getD 36 0 * 2 ^ 8 + phv.hdr.getD 37 0) >>> (32 - len)
            = pfx >>> (32 - len)
        then { phv with eg_port := port,
                        hdr := memcpy phv.hdr PHV_OFF_ETH_DST
                          (route_tcam_entry pfx len port dmac).action_params 1 6 }
        else phv := by
  have hkey : ∀ i, i < 4 →
      (memcpy (List.replicate 64 0) 0 phv.hdr PHV_OFF_IPV4_DST 4).getD i 0
        = phv.hdr.getD (34 + i) 0 := by
    intro i hi
    rw [getD_memcpy]
    have : 0 ≤ i ∧ i < 0 + 4 ∧ i < (List.replicate 64 0).length := by
      simp only [List.length_replicate]
      omega
    rw [if_pos this]
    rfl
  have hm := route_entry_match_iff (memcpy (List.replicate 64 0) 0 phv.hdr PHV_OFF_IPV4_DST 4)
    pfx len port dmac hp hlen (fun i hi => by rw [hkey i hi]; exact hb i hi)
  rw [hkey 0 (by decide), hkey 1 (by decide), hkey 2 (by decide), hkey 3 (by decide)] at hm
  have hst : (route_tcam_entry pfx len port dmac).stage = 0 := rfl
  have hact : (route_tcam_entry pfx len port dmac).action_id = ACTION_FORWARD := rfl
  have hpar : (route_tcam_entry pfx len port dmac).action_params.getD 0 0 = port := rfl
  unfold pkt_forward_stage
  simp only [stage_extract, extract_s0, Nat.zero_mod]
  generalize memcpy (List.replicate 64 0) 0 phv.hdr PHV_OFF_IPV4_DST 4 = K at hm ⊢
  rw [tcam_ternary_lookup_singleton]
  by_cases hmatch : ternary_match K 4 (route_tcam_entry pfx len port dmac) = 0
  · have hne : ¬ ((phv.hdr.getD 34 0 * 2 ^ 24 + phv.hdr.getD 35 0 * 2 ^ 16
              + phv.hdr.getD 36 0 * 2 ^ 8 + phv.hdr.getD 37 0) >>> (32 - len)
            = pfx >>> (32 - len)) := fun h => (hm.mpr h) hmatch
    have hh : ternary_hit 0 K 4
        { entry := route_tcam_entry pfx len port dmac, valid := 1, deleted := 0 } = false := by
      simp only [ternary_hit, hmatch, bne_self_eq_false, Bool.and_false]
    rw [if_neg hne, hh]
    rfl
  · have heq := hm.mp hmatch
    have hh : ternary_hit 0 K 4
        { entry := route_tcam_entry pfx len port dmac, valid := 1, deleted := 0 } = true := by
      simp [ternary_hit, rec_live, hst, hmatch]
    rw [if_pos heq, hh]
    simp only [if_true, List.getElem?_cons_zero]
    rw [apply_action_forward _ _ hact, hpar]
theorem route_tcam_entry_params (pfx len port dmac i : Nat) (hi : i < 6) :
    (route_tcam_entry pfx len port dmac).action_params.getD (1 + i) 0
      = (dmac >>> (40 - 8 * i)) % 256 := by
  have h : (route_tcam_entry pfx len port dmac).action_params
      = ((((((((List.replicate 12 0).set 0 port).set 1 (((dmac >>> 40) &&& 0xFF) % 256)).set
          2 (((dmac >>> 32) &&& 0xFF) % 256)).set 3 (((dmac >>> 24) &&& 0xFF) % 256)).set
          4 (((dmac >>> 16) &&& 0xFF) % 256)).set 5 (((dmac >>> 8) &&& 0xFF) % 256)).set
          6 (((dmac >>> 0) &&& 0xFF) % 256)) := rfl
  rw [h]
  simp only [getD_set_zero, List.length_set, List.length_replicate, and_0xFF, Nat.mod_mod]
  interval_cases i <;> simp

theorem pkt_forward_eq (db : List sim_tcam_rec_t) (phv : phv_t) :
    pkt_forward db phv
      = (0, pkt_forward_loop db phv 0 PKT_NUM_STAGES,
          { eg_port := (pkt_forward_loop db phv 0 PKT_NUM_STAGES).eg_port,
            drop := (pkt_forward_loop db phv 0 PKT_NUM_STAGES).drop,
            punt := (pkt_forward_loop db phv 0 PKT_NUM_STAGES).punt,
            vlan_id := (pkt_forward_loop db phv 0 PKT_NUM_STAGES).vlan_id,
            qos_prio := (pkt_forward_loop db phv 0 PKT_NUM_STAGES).qos_prio,
            vlan_action := (pkt_forward_loop db phv 0 PKT_NUM_STAGES).vlan_action }) := rfl

theorem getD_lt_of_forall_mem (raw : List Nat) (h : ∀ b ∈ raw, b < 256) (i : Nat) :
    raw.getD i 0 < 256 := by
  rw [List.getD_eq_getElem?_getD]
  cases hi : raw[i]? with
  | none => exact Nat.zero_lt_succ _
  | some b => exact h b (List.getElem?_mem hi)

/-! ## C8: longest-prefix forwarding end to end -/

/-- C8: with the one route installed by `route_add(prefix, len, port, mac)`,
`len <= 32`, on the initial state (empty rule store), `pkt_parse` and `pkt_forward`
of an untagged IPv4 frame (ethertype 0x0800, at least 34 bytes) with destination
address `d` both return 0 and give `drop = 0`, `punt = 0`; when the top `len` bits
of `d` equal those of the prefix, `eg_port = port` and bytes 0..5 of the PHV are the
six low bytes of `mac`, most significant first; otherwise `eg_port = 0` and bytes
0..5 are those of the frame. -/
theorem c8_lpm_forward (pfx len port dmac : Nat) (raw : List Nat) (ing_port : Nat)
    (hlen : len ≤ 32) (hp : pfx < 2 ^ 32) (h34 : 34 ≤ raw.length)
    (hbytes : ∀ b ∈ raw, b < 256)
    (h12 : raw.getD 12 0 = 0x08) (h13 : raw.getD 13 0 = 0x00) :
    (route_add pfx len port dmac route_init []).1 = HAL_OK ∧
    (pkt_parse raw raw.length ing_port phv_zero).1 = 0 ∧
    (pkt_forward (route_add pfx len port dmac route_init []).2.2
      (pkt_parse raw raw.length ing_port phv_zero).2).1 = 0 ∧
    (pkt_forward (route_add pfx len port dmac route_init []).2.2
      (pkt_parse raw raw.length ing_port phv_zero).2).2.2.drop = 0 ∧
    (pkt_forward (route_add pfx len port dmac route_init []).2.2
      (pkt_parse raw raw.length ing_port phv_zero).2).2.2.punt = 0 ∧
    (frame_ipv4_dst raw >>> (32 - len) = pfx >>> (32 - len) →
      (pkt_forward (route_add pfx len port dmac route_init []).2.2
        (pkt_parse raw raw.length ing_port phv_zero).2).2.2.eg_port = port ∧
      ∀ i, i < 6 →
        (pkt_forward (route_add pfx len port dmac route_init []).2.2
          (pkt_parse raw raw.length ing_port phv_zero).2).2.1.hdr.getD i 0
            = (dmac >>> (40 - 8 * i)) % 256) ∧
    (frame_ipv4_dst raw >>> (32 - len) ≠ pfx >>> (32 - len) →
      (pkt_forward (route_add pfx len port dmac route_init []).2.2
        (pkt_parse raw raw.length ing_port phv_zero).2).2.2.eg_port = 0 ∧
      ∀ i, i < 6 →
        (pkt_forward (route_add pfx len port dmac route_init []).2.2
          (pkt_parse raw raw.length ing_port phv_zero).2).2.1.hdr.getD i 0
            = raw.getD i 0) := by
  obtain ⟨hp1, hp2, hp3, hp4, hp5, hp6, hp7, hp8, hp9, hp10, hp11, hp12⟩ :=
    pkt_parse_ipv4_untagged raw ing_port phv_zero h34 h12 h13
  generalize (pkt_parse raw raw.length ing_port phv_zero).2 = phv at *
  have hd0 : phv.hdr.getD 34 0 = raw.getD 30 0 := hp5 4 (by decide)
  have hd1 : phv.hdr.getD 35 0 = raw.getD 31 0 := hp5 5 (by decide)
  have hd2 : phv.hdr.getD 36 0 = raw.getD 32 0 := hp5 6 (by decide)
  have hd3 : phv.hdr.getD 37 0 = raw.getD 33 0 := hp5 7 (by decide)
  have hb : ∀ i, i < 4 → phv.hdr.getD (34 + i) 0 < 256 := by
    intro i hi
    have := hp5 (4 + i) (by omega)
    rw [show 30 + (4 + i) = 34 + i by omega] at this
    rw [this]
    exact getD_lt_of_forall_mem raw hbytes _
  have hs0 := pkt_forward_stage0_route pfx len port dmac phv hp hlen hb
  rw [hd0, hd1, hd2, hd3] at hs0
  have hloop : pkt_forward_loop
      [{ entry := route_tcam_entry pfx len port dmac, valid := 1, deleted := 0 }] phv 0
        PKT_NUM_STAGES
      = pkt_forward_stage
        [{ entry := route_tcam_entry pfx len port dmac, valid := 1, deleted := 0 }] phv 0 := by
    have h7 : PKT_NUM_STAGES = 6 + 1 := rfl
    rw [h7, pkt_forward_loop, if_neg (by rw [hp8, hp9]; simp)]
    apply pkt_forward_loop_miss
    intro s hs hlt r hr
    simp only [List.mem_singleton] at hr
    subst hr
    have hst : (route_tcam_entry pfx len port dmac).stage = 0 := rfl
    simp only [hst]
    omega
  rw [route_add_init pfx len port dmac hlen, pkt_forward_eq, hloop, hs0]
  simp only
  refine ⟨trivial, hp1, trivial, ?_, ?_, ?_, ?_⟩
  · split <;> exact hp8
  · split <;> exact hp9
  · intro hmatch
    have hmatch2 : (raw.getD 30 0 * 2 ^ 24 + raw.getD 31 0 * 2 ^ 16 + raw.getD 32 0 * 2 ^ 8
        + raw.getD 33 0) >>> (32 - len) = pfx >>> (32 - len) := hmatch
    rw [if_pos hmatch2]
    refine ⟨rfl, ?_⟩
    intro i hi
    simp only
    rw [getD_memcpy, if_pos (by rw [hp2, PHV_OFF_ETH_DST]; omega)]
    simp only [PHV_OFF_ETH_DST, Nat.sub_zero]
    exact route_tcam_entry_params pfx len port dmac i hi
  · intro hmatch
    have hmatch2 : ¬ ((raw.getD 30 0 * 2 ^ 24 + raw.getD 31 0 * 2 ^ 16 + raw.getD 32 0 * 2 ^ 8
        + raw.getD 33 0) >>> (32 - len) = pfx >>> (32 - len)) := hmatch
    rw [if_neg hmatch2]
    refine ⟨hp7, ?_⟩
    intro i hi
    rw [hp3 i (by omega), if_pos (by omega)]
set_option maxRecDepth 100000 in
/-- C8 at the input of `test_dp_cosim_route_forward`: route 10.10.0.0/16 -> port 3,
AA:BB:CC:DD:EE:FF; the packet to 10.10.5.99 leaves on port 3 with the first byte of
the destination MAC rewritten to 0xAA. -/
theorem c8_lpm_forward_witness :
    (pkt_forward (route_add 0x0A0A0000 16 3 0xAABBCCDDEEFF route_init []).2.2
      (pkt_parse cosim_route_pkt cosim_route_pkt.length 0 phv_zero).2).2.2.eg_port = 3 ∧
    (pkt_forward (route_add 0x0A0A0000 16 3 0xAABBCCDDEEFF route_init []).2.2
      (pkt_parse cosim_route_pkt cosim_route_pkt.length 0 phv_zero).2).2.1.hdr.getD 0 0
        = 0xAA :=
  ⟨((c8_lpm_forward 0x0A0A0000 16 3 0xAABBCCDDEEFF cosim_route_pkt 0 (by decide) (by decide)
      (by decide) (by decide) (by decide) (by decide)).2.2.2.2.2.1 (by decide)).1,
   ((c8_lpm_forward 0x0A0A0000 16 3 0xAABBCCDDEEFF cosim_route_pkt 0 (by decide) (by decide)
      (by decide) (by decide) (by decide) (by decide)).2.2.2.2.2.1 (by decide)).2 0
      (by decide)⟩

/-! ## Parsing of IPv4 frames, tagged or not -/

theorem eth_type_vlan : ((0x81 <<< 8) ||| 0x00) % 2 ^ 16 = 0x8100 := by decide

/-- The PHV that `pkt_parse` builds for an IPv4 frame, tagged or not. -/
theorem pkt_parse_ipv4_frame (raw : List Nat) (ip_start ing_port : Nat) (phv0 : phv_t)
    (hf : ipv4_frame raw ip_start) :
    (pkt_parse raw raw.length ing_port phv0).1 = 0 ∧
    (pkt_parse raw raw.length ing_port phv0).2.hdr.length = 512 ∧
    (∀ i, i < 14 → (pkt_parse raw raw.length ing_port phv0).2.hdr.getD i 0 = raw.getD i 0) ∧
    (pkt_parse raw raw.length ing_port phv0).2.hdr.getD 19 0 = raw.getD (ip_start + 1) 0 ∧
    (∀ i, i < 8 → (pkt_parse raw raw.length ing_port phv0).2.hdr.getD (30 + i) 0
      = raw.getD (ip_start + 12 + i) 0) ∧
    (pkt_parse raw raw.length ing_port phv0).2.ig_port = ing_port ∧
    (pkt_parse raw raw.length ing_port phv0).2.eg_port = 0 ∧
    (pkt_parse raw raw.length ing_port phv0).2.drop = 0 ∧
    (pkt_parse raw raw.length ing_port phv0).2.punt = 0 ∧
    (pkt_parse raw raw.length ing_port phv0).2.qos_prio = 0 ∧
    (pkt_parse raw raw.length ing_port phv0).2.vlan_action = 0 := by
  rcases hf with ⟨rfl, h12, h13, h34⟩ | ⟨rfl, h12, h13, h16, h17, h38⟩
  · obtain ⟨a1, a2, a3, a4, a5, a6, a7, a8, a9, _, a11, a12⟩ :=
      pkt_parse_ipv4_untagged raw ing_port phv0 h34 h12 h13
    refine ⟨a1, a2, ?_, a4, a5, a6, a7, a8, a9, a11, a12⟩
    intro i hi
    rw [a3 i (by omega), if_pos hi]
  · have hge : ¬ raw.length < 14 := by omega
    have hv : 0x8100 = 0x8100 ∧ raw.length ≥ 18 := ⟨rfl, by omega⟩
    have hip : 2048 = 0x0800 ∧ raw.length ≥ (18 + 20) % 2 ^ 16 := ⟨rfl, h38⟩
    obtain ⟨he1, he2⟩ := pkt_parse_eth_hdr raw ing_port
    have hfields : (pkt_parse_eth raw ing_port).ig_port = ing_port ∧
        (pkt_parse_eth raw ing_port).eg_port = 0 ∧ (pkt_parse_eth raw ing_port).drop = 0 ∧
        (pkt_parse_eth raw ing_port).punt = 0 ∧ (pkt_parse_eth raw ing_port).qos_prio = 0 ∧
        (pkt_parse_eth raw ing_port).vlan_action = 0 := ⟨rfl, rfl, rfl, rfl, rfl, rfl⟩
    generalize hE : pkt_parse_eth raw ing_port = E at he1 he2 hfields
    obtain ⟨phv1, hphv1⟩ : ∃ p : phv_t, p = { E with
        hdr := (E.hdr.set PHV_OFF_VLAN_TCI (raw.getD 14 0)).set
            (PHV_OFF_VLAN_TCI + 1) (raw.getD 15 0),
        vlan_id := ((((raw.getD 14 0) &&& 0x0F) <<< 8) ||| (raw.getD 15 0)) % 2 ^ 16 } :=
      ⟨_, rfl⟩
    have heq : pkt_parse raw raw.length ing_port phv0
          = (0, pkt_parse_l4 raw raw.length (pkt_parse_ipv4_hdr raw phv1 18) 18) := by
      unfold pkt_parse
      rw [if_neg hge]
      simp only [h12, h13, eth_type_vlan, hE]
      unfold pkt_parse_vlan
      rw [if_pos hv]
      simp only [h16, h17, eth_type_ipv4]
      unfold pkt_parse_ipv4
      rw [if_pos hip, hphv1]
    have hh : phv1.hdr = (E.hdr.set PHV_OFF_VLAN_TCI (raw.getD 14 0)).set
          (PHV_OFF_VLAN_TCI + 1) (raw.getD 15 0) := by rw [hphv1]
    have b1 : phv1.ig_port = ing_port := by rw [hphv1]; exact hfields.1
    have b2 : phv1.eg_port = 0 := by rw [hphv1]; exact hfields.2.1
    have b3 : phv1.drop = 0 := by rw [hphv1]; exact hfields.2.2.1
    have b4 : phv1.punt = 0 := by rw [hphv1]; exact hfields.2.2.2.1
    have b5 : phv1.qos_prio = 0 := by rw [hphv1]; exact hfields.2.2.2.2.1
    have b6 : phv1.vlan_action = 0 := by rw [hphv1]; exact hfields.2.2.2.2.2
    have hlen1 : phv1.hdr.length = 512 := by
      rw [hh, List.length_set, List.length_set, he1]
    have hget1 : ∀ i, i < 14 → phv1.hdr.getD i 0 = raw.getD i 0 := by
      intro i hi
      rw [hh, getD_set_zero, getD_set_zero, he2 i, if_pos hi]
      have h1 : PHV_OFF_VLAN_TCI + 1 ≠ i := by
        simp only [PHV_OFF_VLAN_TCI]
        omega
      have h2 : PHV_OFF_VLAN_TCI ≠ i := by
        simp only [PHV_OFF_VLAN_TCI]
        omega
      rw [if_neg (fun h => h1 h.1), if_neg (fun h => h2 h.1)]
    rw [heq]
    obtain ⟨hi1, hi2, hi3, hi4, hi5, hi6, hi7, hi8, _, hi10, hi11⟩ :=
      pkt_parse_ipv4_hdr_at raw phv1 18 hlen1
    obtain ⟨hl1, hl2, hl3, hl4, hl5, hl6, _, hl8, hl9⟩ :=
      pkt_parse_l4_frame raw raw.length (pkt_parse_ipv4_hdr raw phv1 18) 18
    refine ⟨rfl, ?_, ?_, ?_, ?_, ?_, ?_, ?_, ?_, ?_, ?_⟩
    · simp only
      rw [hl1, hi1]
    · intro i hi
      simp only
      rw [hl2 i (by omega), hi2 i (by omega), hget1 i hi]
    · simp only
      rw [hl2 19 (by omega), hi3]
    · intro i hi
      simp only
      rw [hl2 (30 + i) (by omega), hi4 i hi]
    · simp only
      rw [hl3, hi5, b1]
    · simp only
      rw [hl4, hi6, b2]
    · simp only
      rw [hl5, hi7, b3]
    · simp only
      rw [hl6, hi8, b4]
    · simp only
      rw [hl8, hi10, b5]
    · simp only
      rw [hl9, hi11, b6]
/-! ## Stage lookups over stores that hold several tables -/

theorem pkt_forward_stage_append_no_stage (db1 db2 : List sim_tcam_rec_t) (phv : phv_t)
    (stage : Nat) (h : ∀ r ∈ db2, r.entry.stage ≠ stage % 256) :
    pkt_forward_stage (db1 ++ db2) phv stage = pkt_forward_stage db1 phv stage := by
  unfold pkt_forward_stage
  simp only
  generalize (stage_extract stage phv (List.replicate 64 0)).1 = K
  generalize (stage_extract stage phv (List.replicate 64 0)).2 = L
  have h2 : tcam_ternary_lookup db2 (stage % 256) K L = none :=
    tcam_ternary_lookup_no_stage db2 _ K L h
  have hl : tcam_ternary_lookup (db1 ++ db2) (stage % 256) K L
      = tcam_ternary_lookup db1 (stage % 256) K L := by
    rw [tcam_ternary_lookup_eq, tcam_ternary_lookup_eq, List.findIdx?_append,
      ← tcam_ternary_lookup_eq db2, h2]
    simp
  rw [hl]
  cases hm : tcam_ternary_lookup db1 (stage % 256) K L with
  | none => rfl
  | some m =>
    obtain ⟨r, hr, _⟩ := (tcam_ternary_lookup_some db1 _ K L m).mp hm
    have hlt : m < db1.length := (List.getElem?_eq_some_iff.mp hr).1
    simp only [List.getElem?_append_left hlt]

theorem pkt_forward_stage_cons_no_stage (r : sim_tcam_rec_t) (db : List sim_tcam_rec_t)
    (phv : phv_t) (stage : Nat) (h : r.entry.stage ≠ stage % 256) :
    pkt_forward_stage (r :: db) phv stage = pkt_forward_stage db phv stage := by
  unfold pkt_forward_stage
  simp only
  generalize (stage_extract stage phv (List.replicate 64 0)).1 = K
  generalize (stage_extract stage phv (List.replicate 64 0)).2 = L
  have hh : ternary_hit (stage % 256) K L r = false := by
    simp [ternary_hit, h]
  have hl : tcam_ternary_lookup (r :: db) (stage % 256) K L
      = (tcam_ternary_lookup db (stage % 256) K L).map (fun i => i + 1) := by
    rw [tcam_ternary_lookup_eq, tcam_ternary_lookup_eq, List.findIdx?_cons, hh]
    simp only [Bool.false_eq_true, if_false, Nat.zero_add]
    rw [List.findIdx?_succ]
  rw [hl]
  cases hm : tcam_ternary_lookup db (stage % 256) K L with
  | none => rfl
  | some m => simp only [Option.map_some', List.getElem?_cons_succ]

theorem length_u32_to_key (buf : List Nat) (off v : Nat) :
    (u32_to_key buf off v).length = buf.length := by
  simp [u32_to_key]

theorem u32_to_key_getD_at (buf : List Nat) (off v j : Nat) (hlen : off + 4 ≤ buf.length) :
    (u32_to_key buf off v).getD j 0
      = if j = off then (v >>> 24) % 256
        else if j = off + 1 then (v >>> 16) % 256
        else if j = off + 2 then (v >>> 8) % 256
        else if j = off + 3 then (v >>> 0) % 256
        else buf.getD j 0 := by
  unfold u32_to_key
  simp only [getD_set_zero, List.length_set, and_0xFF, Nat.mod_mod, Nat.add_zero]
  by_cases h0 : j = off
  · subst h0
    have : ¬ (j + 3 = j ∧ j + 3 < buf.length) := by omega
    have : ¬ (j + 2 = j ∧ j + 2 < buf.length) := by omega
    have : ¬ (j + 1 = j ∧ j + 1 < buf.length) := by omega
    have : j < buf.length := by omega
    simp [*]
  · by_cases h1 : j = off + 1
    · subst h1
      have : ¬ (off + 3 = off + 1 ∧ off + 3 < buf.length) := by omega
      have : ¬ (off + 2 = off + 1 ∧ off + 2 < buf.length) := by omega
      have : off + 1 < buf.length := by omega
      simp [*]
    · by_cases h2 : j = off + 2
      · subst h2
        have : ¬ (off + 3 = off + 2 ∧ off + 3 < buf.length) := by omega
        have : off + 2 < buf.length := by omega
        simp [*]
      · by_cases h3 : j = off + 3
        · subst h3
          have : off + 3 < buf.length := by omega
          simp [*]
        · have e0 : ¬ (off + 3 = j ∧ off + 3 < buf.length) := by omega
          have e1 : ¬ (off + 2 = j ∧ off + 2 < buf.length) := by omega
          have e2 : ¬ (off + 1 = j ∧ off + 1 < buf.length) := by omega
          have e3 : ¬ (off = j ∧ off < buf.length) := by omega
          rw [if_neg e0, if_neg e1, if_neg e2, if_neg e3, if_neg h0, if_neg h1, if_neg h2,
            if_neg h3]
theorem replicate_zero_getD (n j : Nat) : (List.replicate n 0).getD j 0 = 0 := by
  simp only [List.getD_eq_getElem?_getD, List.getElem?_replicate]
  split <;> rfl

theorem acl_deny_entry_bytes (src smask dst dmask rid i : Nat) (hi : i < 10) :
    (acl_deny_entry src smask dst dmask 0 rid).key.bytes.getD i 0
      = (if i < 4 then (src >>> (24 - 8 * i)) % 256
         else if i < 8 then (dst >>> (24 - 8 * (i - 4))) % 256 else 0) ∧
    (acl_deny_entry src smask dst dmask 0 rid).mask.bytes.getD i 0
      = (if i < 4 then (smask >>> (24 - 8 * i)) % 256
         else if i < 8 then (dmask >>> (24 - 8 * (i - 4))) % 256 else 0) := by
  obtain ⟨Z, hZ, hZl, hZg⟩ : ∃ Z : List Nat, Z = List.replicate 64 0 ∧ Z.length = 64 ∧
      ∀ j, Z.getD j 0 = 0 :=
    ⟨_, rfl, List.length_replicate 64 0, replicate_zero_getD 64⟩
  have hkb : (acl_deny_entry src smask dst dmask 0 rid).key.bytes
      = ((u32_to_key (u32_to_key Z 0 src) 4 dst).set 8 0).set 9 0 := by
    rw [hZ]
    rfl
  have hmb : (acl_deny_entry src smask dst dmask 0 rid).mask.bytes
      = u32_to_key (u32_to_key Z 0 smask) 4 dmask := by
    rw [hZ]
    rfl
  have hl0 : 0 + 4 ≤ Z.length := by omega
  have hl4 : ∀ v, 4 + 4 ≤ (u32_to_key Z 0 v).length := by
    intro v
    rw [length_u32_to_key]
    omega
  rw [hkb, hmb, getD_set_zero, getD_set_zero, u32_to_key_getD_at _ 4 dst i (hl4 src),
    u32_to_key_getD_at _ 0 src i hl0, u32_to_key_getD_at _ 4 dmask i (hl4 smask),
    u32_to_key_getD_at _ 0 smask i hl0, hZg]
  interval_cases i <;> simp

/-- A 10-byte key hits a deny entry with wildcard port exactly when the masked
source and destination addresses agree. -/
theorem acl_deny_match_iff (key : List Nat) (src smask dst dmask rid : Nat)
    (hsrc : src < 2 ^ 32) (hdst : dst < 2 ^ 32) (hk : ∀ i, i < 8 → key.getD i 0 < 256) :
    ternary_match key 10 (acl_deny_entry src smask dst dmask 0 rid) ≠ 0 ↔
      (key.getD 0 0 * 2 ^ 24 + key.getD 1 0 * 2 ^ 16 + key.getD 2 0 * 2 ^ 8 + key.getD 3 0)
          &&& smask = src &&& smask ∧
      (key.getD 4 0 * 2 ^ 24 + key.getD 5 0 * 2 ^ 16 + key.getD 6 0 * 2 ^ 8 + key.getD 7 0)
          &&& dmask = dst &&& dmask := by
  obtain ⟨hs, hs0, hs1, hs2, hs3⟩ := be32_bytes _ _ _ _ (hk 0 (by decide)) (hk 1 (by decide))
    (hk 2 (by decide)) (hk 3 (by decide))
  obtain ⟨hd, hd0, hd1, hd2, hd3⟩ := be32_bytes _ _ _ _ (hk 4 (by decide)) (hk 5 (by decide))
    (hk 6 (by decide)) (hk 7 (by decide))
  rw [ternary_match_ne_zero,
    u32_eq_iff_bytes _ _ (land_lt_two_pow_32 _ smask hs) (land_lt_two_pow_32 src smask hsrc),
    u32_eq_iff_bytes _ _ (land_lt_two_pow_32 _ dmask hd) (land_lt_two_pow_32 dst dmask hdst)]
  simp only [byte_land, hs0, hs1, hs2, hs3, hd0, hd1, hd2, hd3]
  have hkl : (acl_deny_entry src smask dst dmask 0 rid).key.key_len = 10 := rfl
  rw [hkl, Nat.min_self]
  constructor
  · intro h
    have e0 := h 0 (by decide)
    have e1 := h 1 (by decide)
    have e2 := h 2 (by decide)
    have e3 := h 3 (by decide)
    have e4 := h 4 (by decide)
    have e5 := h 5 (by decide)
    have e6 := h 6 (by decide)
    have e7 := h 7 (by decide)
    rw [(acl_deny_entry_bytes src smask dst dmask rid 0 (by decide)).1,
      (acl_deny_entry_bytes src smask dst dmask rid 0 (by decide)).2] at e0
    rw [(acl_deny_entry_bytes src smask dst dmask rid 1 (by decide)).1,
      (acl_deny_entry_bytes src smask dst dmask rid 1 (by decide)).2] at e1
    rw [(acl_deny_entry_bytes src smask dst dmask rid 2 (by decide)).1,
      (acl_deny_entry_bytes src smask dst dmask rid 2 (by decide)).2] at e2
    rw [(acl_deny_entry_bytes src smask dst dmask rid 3 (by decide)).1,
      (acl_deny_entry_bytes src smask dst dmask rid 3 (by decide)).2] at e3
    rw [(acl_deny_entry_bytes src smask dst dmask rid 4 (by decide)).1,
      (acl_deny_entry_bytes src smask dst dmask rid 4 (by decide)).2] at e4
    rw [(acl_deny_entry_bytes src smask dst dmask rid 5 (by decide)).1,
      (acl_deny_entry_bytes src smask dst dmask rid 5 (by decide)).2] at e5
    rw [(acl_deny_entry_bytes src smask dst dmask rid 6 (by decide)).1,
      (acl_deny_entry_bytes src smask dst dmask rid 6 (by decide)).2] at e6
    rw [(acl_deny_entry_bytes src smask dst dmask rid 7 (by decide)).1,
      (acl_deny_entry_bytes src smask dst dmask rid 7 (by decide)).2] at e7
    exact ⟨⟨e0, e1, e2, e3⟩, e4, e5, e6, e7⟩
  · rintro ⟨⟨e0, e1, e2, e3⟩, e4, e5, e6, e7⟩ i hi
    rw [(acl_deny_entry_bytes src smask dst dmask rid i hi).1,
      (acl_deny_entry_bytes src smask dst dmask rid i hi).2]
    interval_cases i
    · exact e0
    · exact e1
    · exact e2
    · exact e3
    · exact e4
    · exact e5
    · exact e6
    · exact e7
    · simp
    · simp
theorem apply_action_deny (phv : phv_t) (r : sim_tcam_rec_t)
    (h : r.entry.action_id = ACTION_DENY) :
    apply_action phv r = { phv with drop := 1 } := by
  unfold apply_action
  simp only
  rw [if_neg (by rw [h]; decide), if_neg (by rw [h]; decide), if_neg (by rw [h]; decide),
    if_pos h]

/-- Stage 1 of the pipeline over a store holding one deny rule with wildcard port. -/
theorem pkt_forward_stage1_deny (src smask dst dmask rid : Nat) (phv : phv_t)
    (hsrc : src < 2 ^ 32) (hdst : dst < 2 ^ 32)
    (hb : ∀ i, i < 8 → phv.hdr.getD (30 + i) 0 < 256) :
    pkt_forward_stage
        [{ entry := acl_deny_entry src smask dst dmask 0 rid, valid := 1, deleted := 0 }] phv 1
      = if (phv.hdr.getD 30 0 * 2 ^ 24 + phv.hdr.getD 31 0 * 2 ^ 16
              + phv.hdr.getD 32 0 * 2 ^ 8 + phv.hdr.getD 33 0) &&& smask = src &&& smask ∧
           (phv.hdr.getD 34 0 * 2 ^ 24 + phv.hdr.getD 35 0 * 2 ^ 16
              + phv.hdr.getD 36 0 * 2 ^ 8 + phv.hdr.getD 37 0) &&& dmask = dst &&& dmask
        then { phv with drop := 1 }
        else phv := by
  have hkey : ∀ i, i < 8 →
      (memcpy (memcpy (memcpy (List.replicate 64 0) 0 phv.hdr PHV_OFF_IPV4_SRC 4) 4
          phv.hdr PHV_OFF_IPV4_DST 4) 8 phv.hdr PHV_OFF_TCP_DPORT 2).getD i 0
        = phv.hdr.getD (30 + i) 0 := by
    intro i hi
    simp only [getD_memcpy, length_memcpy, List.length_replicate, PHV_OFF_IPV4_SRC,
      PHV_OFF_IPV4_DST]
    have h1 : ¬ (8 ≤ i ∧ i < 8 + 2 ∧ i < 64) := by omega
    rw [if_neg h1]
    by_cases h4 : i < 4
    · have h2 : ¬ (4 ≤ i ∧ i < 4 + 4 ∧ i < 64) := by omega
      have h3 : 0 ≤ i ∧ i < 0 + 4 ∧ i < 64 := by omega
      rw [if_neg h2, if_pos h3]
      congr 1
    · have h2 : 4 ≤ i ∧ i < 4 + 4 ∧ i < 64 := by omega
      rw [if_pos h2]
      congr 1
      omega
  have hm := acl_deny_match_iff
    (memcpy (memcpy (memcpy (List.replicate 64 0) 0 phv.hdr PHV_OFF_IPV4_SRC 4) 4
          phv.hdr PHV_OFF_IPV4_DST 4) 8 phv.hdr PHV_OFF_TCP_DPORT 2)
    src smask dst dmask rid hsrc hdst (fun i hi => by rw [hkey i hi]; exact hb i hi)
  rw [hkey 0 (by decide), hkey 1 (by decide), hkey 2 (by decide), hkey 3 (by decide),
    hkey 4 (by decide), hkey 5 (by decide), hkey 6 (by decide), hkey 7 (by decide)] at hm
  have hst : (acl_deny_entry src smask dst dmask 0 rid).stage = 1 := rfl
  have hact : (acl_deny_entry src smask dst dmask 0 rid).action_id = ACTION_DENY := rfl
  unfold pkt_forward_stage
  simp only [stage_extract, extract_s1, Nat.one_mod]
  generalize memcpy (memcpy (memcpy (List.replicate 64 0) 0 phv.hdr PHV_OFF_IPV4_SRC 4) 4
          phv.hdr PHV_OFF_IPV4_DST 4) 8 phv.hdr PHV_OFF_TCP_DPORT 2 = K at hm ⊢
  rw [tcam_ternary_lookup_singleton]
  by_cases hmatch : ternary_match K 10 (acl_deny_entry src smask dst dmask 0 rid) = 0
  · have hh : ternary_hit 1 K 10
        { entry := acl_deny_entry src smask dst dmask 0 rid, valid := 1, deleted := 0 }
          = false := by
      simp only [ternary_hit, hmatch, bne_self_eq_false, Bool.and_false]
    rw [if_neg (fun h => (hm.mpr h) hmatch), hh]
    rfl
  · have hh : ternary_hit 1 K 10
        { entry := acl_deny_entry src smask dst dmask 0 rid, valid := 1, deleted := 0 }
          = true := by
      simp [ternary_hit, rec_live, hst, hmatch]
    rw [if_pos (hm.mp hmatch), hh]
    simp only [if_true, List.getElem?_cons_zero]
    rw [apply_action_deny _ _ hact]

theorem acl_over_route_db_eq (pfx len port dmac src smask dst dmask : Nat) (hlen : len ≤ 32) :
    (route_add pfx len port dmac route_init []).1 = HAL_OK ∧
    (acl_add_deny src smask dst dmask 0 acl_init
      (route_add pfx len port dmac route_init []).2.2).1 = 0 ∧
    acl_over_route_db pfx len port dmac src smask dst dmask 0
      = [{ entry := route_tcam_entry pfx len port dmac, valid := 1, deleted := 0 }] ++
        [{ entry := acl_deny_entry src smask dst dmask 0 0, valid := 1, deleted := 0 }] := by
  have halloc : acl_alloc acl_init.acl_table = some 0 := by
    unfold acl_alloc acl_init
    simp only
    rw [List.findIdx?_replicate]
    simp [ACL_TABLE_SIZE]
  have hins : hal_tcam_insert (some (acl_deny_entry src smask dst dmask 0 0))
      [{ entry := route_tcam_entry pfx len port dmac, valid := 1, deleted := 0 }]
      = (HAL_OK, [{ entry := route_tcam_entry pfx len port dmac, valid := 1, deleted := 0 }] ++
        [{ entry := acl_deny_entry src smask dst dmask 0 0, valid := 1, deleted := 0 }]) := by
    apply hal_tcam_insert_new
    · rw [sim_tcam_find_none]
      intro r hr
      simp only [List.mem_singleton] at hr
      subst hr
      have h1 : (route_tcam_entry pfx len port dmac).stage = 0 := rfl
      have h2 : (acl_deny_entry src smask dst dmask 0 0).stage = 1 := rfl
      simp [rec_is, h1, h2]
    · simp [SIM_TCAM_MAX]
  have hacl : ∃ st, acl_add_deny src smask dst dmask 0 acl_init
      [{ entry := route_tcam_entry pfx len port dmac, valid := 1, deleted := 0 }]
      = (0, st, [{ entry := route_tcam_entry pfx len port dmac, valid := 1, deleted := 0 }] ++
        [{ entry := acl_deny_entry src smask dst dmask 0 0, valid := 1, deleted := 0 }]) := by
    unfold acl_add_deny
    rw [halloc]
    simp only
    have hid : acl_init.acl_next_id = 0 := rfl
    rw [hid, hins]
    simp only [ne_eq, not_true_eq_false, if_false]
    exact ⟨_, rfl⟩
  obtain ⟨st, hacl⟩ := hacl
  unfold acl_over_route_db
  rw [route_add_init pfx len port dmac hlen]
  simp only
  rw [hacl]
  exact ⟨trivial, rfl, rfl⟩
/-! ## C9: ACL over route -/

/-- C9: on the store left by `route_add(prefix, len, port, mac)` followed by
`acl_add_deny(src, smask, dst, dmask, 0)` from the initial state, `pkt_process` of
every IPv4 frame (tagged or not, any L4 content) returns 0 with `punt = 0`; when
`(sip & smask) == (src & smask)` and `(dip & dmask) == (dst & dmask)` the result has
`drop = 1`, whether or not the route matches; otherwise `drop = 0` and `eg_port` is
the port of the route when the top `len` bits of `dip` are those of the prefix, and
0 when they are not. -/
theorem c9_acl_over_route (pfx len port dmac src smask dst dmask : Nat) (raw : List Nat)
    (ip_start ing_port : Nat) (result : fwd_result_t)
    (hlen : len ≤ 32) (hp : pfx < 2 ^ 32) (hsrc : src < 2 ^ 32) (hdst : dst < 2 ^ 32)
    (hf : ipv4_frame raw ip_start) (hbytes : ∀ b ∈ raw, b < 256) :
    (route_add pfx len port dmac route_init []).1 = HAL_OK ∧
    (acl_add_deny src smask dst dmask 0 acl_init
      (route_add pfx len port dmac route_init []).2.2).1 = 0 ∧
    (pkt_process (acl_over_route_db pfx len port dmac src smask dst dmask 0)
      raw raw.length ing_port result).1 = 0 ∧
    (pkt_process (acl_over_route_db pfx len port dmac src smask dst dmask 0)
      raw raw.length ing_port result).2.punt = 0 ∧
    (frame_be32 raw (ip_start + 12) &&& smask = src &&& smask ∧
        frame_be32 raw (ip_start + 16) &&& dmask = dst &&& dmask →
      (pkt_process (acl_over_route_db pfx len port dmac src smask dst dmask 0)
        raw raw.length ing_port result).2.drop = 1) ∧
    (¬ (frame_be32 raw (ip_start + 12) &&& smask = src &&& smask ∧
        frame_be32 raw (ip_start + 16) &&& dmask = dst &&& dmask) →
      (pkt_process (acl_over_route_db pfx len port dmac src smask dst dmask 0)
        raw raw.length ing_port result).2.drop = 0 ∧
      (pkt_process (acl_over_route_db pfx len port dmac src smask dst dmask 0)
        raw raw.length ing_port result).2.eg_port
          = if frame_be32 raw (ip_start + 16) >>> (32 - len) = pfx >>> (32 - len)
            then port else 0) := by
  obtain ⟨hdb1, hdb2, hdb⟩ := acl_over_route_db_eq pfx len port dmac src smask dst dmask hlen
  obtain ⟨p1, p2, _, _, p5, _, p7, p8, p9, _, _⟩ :=
    pkt_parse_ipv4_frame raw ip_start ing_port phv_zero hf
  refine ⟨hdb1, hdb2, ?_⟩
  have hproc : pkt_process (acl_over_route_db pfx len port dmac src smask dst dmask 0)
      raw raw.length ing_port result
      = ((pkt_forward (acl_over_route_db pfx len port dmac src smask dst dmask 0)
          (pkt_parse raw raw.length ing_port phv_zero).2).1,
         (pkt_forward (acl_over_route_db pfx len port dmac src smask dst dmask 0)
          (pkt_parse raw raw.length ing_port phv_zero).2).2.2) := by
    unfold pkt_process
    simp only [p1, ne_eq, not_true_eq_false, if_false]
  rw [hproc, hdb, pkt_forward_eq]
  simp only
  generalize (pkt_parse raw raw.length ing_port phv_zero).2 = phv at *
  -- the address bytes in the PHV
  have hs : phv.hdr.getD 30 0 * 2 ^ 24 + phv.hdr.getD 31 0 * 2 ^ 16
      + phv.hdr.getD 32 0 * 2 ^ 8 + phv.hdr.getD 33 0 = frame_be32 raw (ip_start + 12) := by
    have e0 := p5 0 (by decide)
    have e1 := p5 1 (by decide)
    have e2 := p5 2 (by decide)
    have e3 := p5 3 (by decide)
    simp only [Nat.add_zero] at e0
    unfold frame_be32
    rw [← e0, ← e1, ← e2, ← e3]
  have hd : phv.hdr.getD 34 0 * 2 ^ 24 + phv.hdr.getD 35 0 * 2 ^ 16
      + phv.hdr.getD 36 0 * 2 ^ 8 + phv.hdr.getD 37 0 = frame_be32 raw (ip_start + 16) := by
    have e0 := p5 4 (by decide)
    have e1 := p5 5 (by decide)
    have e2 := p5 6 (by decide)
    have e3 := p5 7 (by decide)
    have a0 : ip_start + 12 + 4 = ip_start + 16 := by omega
    have a1 : ip_start + 12 + 5 = ip_start + 16 + 1 := by omega
    have a2 : ip_start + 12 + 6 = ip_start + 16 + 2 := by omega
    have a3 : ip_start + 12 + 7 = ip_start + 16 + 3 := by omega
    rw [a0] at e0
    rw [a1] at e1
    rw [a2] at e2
    rw [a3] at e3
    unfold frame_be32
    rw [← e0, ← e1, ← e2, ← e3]
  have hb8 : ∀ i, i < 8 → phv.hdr.getD (30 + i) 0 < 256 := by
    intro i hi
    rw [p5 i hi]
    exact getD_lt_of_forall_mem raw hbytes _
  have hb4 : ∀ i, i < 4 → phv.hdr.getD (34 + i) 0 < 256 := by
    intro i hi
    have := hb8 (4 + i) (by omega)
    rw [show 30 + (4 + i) = 34 + i by omega] at this
    exact this
  -- stage 0: the route
  have hst_r : (route_tcam_entry pfx len port dmac).stage = 0 := rfl
  have hst_a : (acl_deny_entry src smask dst dmask 0 0).stage = 1 := rfl
  have hs0 : pkt_forward_stage
      ([{ entry := route_tcam_entry pfx len port dmac, valid := 1, deleted := 0 }] ++
        [{ entry := acl_deny_entry src smask dst dmask 0 0, valid := 1, deleted := 0 }]) phv 0
      = if frame_be32 raw (ip_start + 16) >>> (32 - len) = pfx >>> (32 - len)
        then { phv with eg_port := port,
                        hdr := memcpy phv.hdr PHV_OFF_ETH_DST
                          (route_tcam_entry pfx len port dmac).action_params 1 6 }
        else phv := by
    rw [pkt_forward_stage_append_no_stage _ _ _ _ (by
      intro r hr
      simp only [List.mem_singleton] at hr
      subst hr
      simp only [hst_a]
      decide), pkt_forward_stage0_route pfx len port dmac phv hp hlen hb4, hd]
  generalize hphv1 : pkt_forward_stage
      ([{ entry := route_tcam_entry pfx len port dmac, valid := 1, deleted := 0 }] ++
        [{ entry := acl_deny_entry src smask dst dmask 0 0, valid := 1, deleted := 0 }]) phv 0
      = phv1 at hs0
  have h1drop : phv1.drop = 0 := by
    rw [hs0]
    split <;> exact p8
  have h1punt : phv1.punt = 0 := by
    rw [hs0]
    split <;> exact p9
  have h1eg : phv1.eg_port
      = if frame_be32 raw (ip_start + 16) >>> (32 - len) = pfx >>> (32 - len)
        then port else 0 := by
    rw [hs0]
    split
    · rfl
    · exact p7
  have h1hdr : ∀ j, 6 ≤ j → phv1.hdr.getD j 0 = phv.hdr.getD j 0 := by
    intro j hj
    rw [hs0]
    split
    · simp only
      rw [getD_memcpy, if_neg (by rw [PHV_OFF_ETH_DST]; omega)]
    · rfl
  -- stage 1: the deny rule
  have hs1 : pkt_forward_stage
      ([{ entry := route_tcam_entry pfx len port dmac, valid := 1, deleted := 0 }] ++
        [{ entry := acl_deny_entry src smask dst dmask 0 0, valid := 1, deleted := 0 }]) phv1 1
      = if frame_be32 raw (ip_start + 12) &&& smask = src &&& smask ∧
           frame_be32 raw (ip_start + 16) &&& dmask = dst &&& dmask
        then { phv1 with drop := 1 }
        else phv1 := by
    rw [List.singleton_append, pkt_forward_stage_cons_no_stage _ _ _ _ (by
      simp only [hst_r]
      decide), pkt_forward_stage1_deny src smask dst dmask 0 phv1 hsrc hdst (by
      intro i hi
      rw [h1hdr _ (by omega)]
      exact hb8 i hi)]
    rw [h1hdr 30 (by omega), h1hdr 31 (by omega), h1hdr 32 (by omega), h1hdr 33 (by omega),
      h1hdr 34 (by omega), h1hdr 35 (by omega), h1hdr 36 (by omega), h1hdr 37 (by omega),
      hs, hd]
  generalize hphv2 : pkt_forward_stage
      ([{ entry := route_tcam_entry pfx len port dmac, valid := 1, deleted := 0 }] ++
        [{ entry := acl_deny_entry src smask dst dmask 0 0, valid := 1, deleted := 0 }]) phv1 1
      = phv2 at hs1
  -- the loop
  have hloop : pkt_forward_loop
      ([{ entry := route_tcam_entry pfx len port dmac, valid := 1, deleted := 0 }] ++
        [{ entry := acl_deny_entry src smask dst dmask 0 0, valid := 1, deleted := 0 }])
      phv 0 PKT_NUM_STAGES = phv2 := by
    have h7 : PKT_NUM_STAGES = 5 + 1 + 1 := rfl
    rw [h7, pkt_forward_loop, if_neg (by rw [p8, p9]; simp), hphv1, pkt_forward_loop,
      if_neg (by rw [h1drop, h1punt]; simp), hphv2]
    apply pkt_forward_loop_miss
    intro s hs hlt r hr
    simp only [List.mem_append, List.mem_singleton] at hr
    rcases hr with rfl | rfl
    · simp only [hst_r]
      omega
    · simp only [hst_a]
      omega
  rw [hloop]
  refine ⟨trivial, ?_, ?_, ?_⟩
  · rw [hs1]
    split <;> exact h1punt
  · intro hc
    rw [hs1, if_pos hc]
  · intro hc
    rw [hs1, if_neg hc]
    exact ⟨h1drop, h1eg⟩
set_option maxRecDepth 100000 in
/-- C9 at the input of `test_dp_cosim_acl_deny`: route 192.168.0.0/16 -> port 1 and
deny 172.16.0.0/12; the frame from 172.16.1.2 is dropped, the frame from 10.0.0.1
is not and leaves on port 1. -/
theorem c9_acl_over_route_witness :
    (pkt_process (acl_over_route_db 0xC0A80000 16 1 0x001122334455 0xAC100000 0xFFF00000 0 0 0)
      cosim_acl_pkt1 cosim_acl_pkt1.length 0 ⟨0, 0, 0, 0, 0, 0⟩).2.drop = 1 ∧
    (pkt_process (acl_over_route_db 0xC0A80000 16 1 0x001122334455 0xAC100000 0xFFF00000 0 0 0)
      cosim_acl_pkt2 cosim_acl_pkt2.length 0 ⟨0, 0, 0, 0, 0, 0⟩).2.drop = 0 ∧
    (pkt_process (acl_over_route_db 0xC0A80000 16 1 0x001122334455 0xAC100000 0xFFF00000 0 0 0)
      cosim_acl_pkt2 cosim_acl_pkt2.length 0 ⟨0, 0, 0, 0, 0, 0⟩).2.eg_port = 1 :=
  ⟨(c9_acl_over_route 0xC0A80000 16 1 0x001122334455 0xAC100000 0xFFF00000 0 0
      cosim_acl_pkt1 14 0 ⟨0, 0, 0, 0, 0, 0⟩ (by decide) (by decide) (by decide) (by decide)
      (by decide) (by decide)).2.2.2.2.1 (by decide),
   ((c9_acl_over_route 0xC0A80000 16 1 0x001122334455 0xAC100000 0xFFF00000 0 0
      cosim_acl_pkt2 14 0 ⟨0, 0, 0, 0, 0, 0⟩ (by decide) (by decide) (by decide) (by decide)
      (by decide) (by decide)).2.2.2.2.2 (by decide)).1,
   ((c9_acl_over_route 0xC0A80000 16 1 0x001122334455 0xAC100000 0xFFF00000 0 0
      cosim_acl_pkt2 14 0 ⟨0, 0, 0, 0, 0, 0⟩ (by decide) (by decide) (by decide) (by decide)
      (by decide) (by decide)).2.2.2.2.2 (by decide)).2⟩

/-! ## C10: DSCP classification -/

set_option maxRecDepth 1000000 in
/-- The rule store after `qos_init`: one record per DSCP value, in DSCP order, with
the queue of the default map. -/
theorem qos_init_db :
    (qos_init qos_sys_reset).sim_tcam_db
      = (List.range 64).map (fun d =>
          { entry := dscp_rule_entry d (spec_dscp_queue d), valid := 1, deleted := 0 }) := by
  decide

set_option maxRecDepth 1000000 in
theorem qos_init_dscp_map :
    ∀ d, d < 64 → (qos_init qos_sys_reset).dscp_map.getD d 0 = spec_dscp_queue d := by
  decide

set_option maxRecDepth 1000000 in
theorem dscp_table_lookup :
    ∀ t, t < 256 →
      tcam_ternary_lookup
        ((List.range 64).map (fun d =>
          ({ entry := dscp_rule_entry d (spec_dscp_queue d), valid := 1, deleted := 0 }
            : sim_tcam_rec_t)))
        5 ((List.replicate 64 0).set 0 t) 1 = some (t / 4) ∧
      (((List.range 64).map (fun d =>
          ({ entry := dscp_rule_entry d (spec_dscp_queue d), valid := 1, deleted := 0 }
            : sim_tcam_rec_t))).filter
        (ternary_hit 5 ((List.replicate 64 0).set 0 t) 1)).length = 1 := by
  decide
theorem pkt_forward_loop_skip (db : List sim_tcam_rec_t) (phv : phv_t) (s0 k n : Nat)
    (h : ∀ s, s0 ≤ s → s < s0 + k → ∀ r ∈ db, r.entry.stage ≠ s % 256) :
    pkt_forward_loop db phv s0 (k + (n + 1)) = pkt_forward_loop db phv (s0 + k) (n + 1) := by
  induction k generalizing s0 with
  | zero => simp only [Nat.zero_add, Nat.add_zero]
  | succ k ih =>
    have e : k + 1 + (n + 1) = (k + (n + 1)) + 1 := by omega
    rw [e, pkt_forward_loop]
    have hs : pkt_forward_stage db phv s0 = phv := by
      unfold pkt_forward_stage
      simp only
      rw [tcam_ternary_lookup_no_stage db _ _ _ (h s0 (Nat.le_refl _) (by omega))]
    rw [hs, ih (s0 + 1) (fun s hs hlt => h s (by omega) (by omega))]
    have e2 : s0 + 1 + k = s0 + (k + 1) := by omega
    rw [e2]
    split
    · rename_i hdp
      rw [pkt_forward_loop, if_pos hdp]
    · rfl

theorem apply_action_set_prio (phv : phv_t) (r : sim_tcam_rec_t)
    (h : r.entry.action_id = ACTION_SET_PRIO) :
    apply_action phv r = { phv with qos_prio := r.entry.action_params.getD 0 0 } := by
  unfold apply_action
  simp only
  rw [if_neg (by rw [h]; decide), if_neg (by rw [h]; decide), if_neg (by rw [h]; decide),
    if_neg (by rw [h]; decide), if_neg (by rw [h]; decide), if_neg (by rw [h]; decide),
    if_neg (by rw [h]; decide), if_neg (by rw [h]; decide), if_neg (by rw [h]; decide),
    if_neg (by rw [h]; decide), if_neg (by rw [h]; decide), if_neg (by rw [h]; decide),
    if_pos h]

/-- Stage 5 of the pipeline over the store left by `qos_init`. -/
theorem pkt_forward_stage5_qos (phv : phv_t) (ht : phv.hdr.getD 19 0 < 256) :
    pkt_forward_stage (qos_init qos_sys_reset).sim_tcam_db phv 5
      = { phv with qos_prio := spec_dscp_queue (phv.hdr.getD 19 0 >>> 2) } := by
  rw [qos_init_db]
  unfold pkt_forward_stage
  simp only [stage_extract, extract_s5, PHV_OFF_IPV4_DSCP]
  have h5 : 5 % 256 = 5 := rfl
  rw [h5, (dscp_table_lookup _ ht).1]
  simp only
  have hlt : phv.hdr.getD 19 0 / 4 < 64 := by omega
  rw [List.getElem?_map, List.getElem?_range hlt]
  simp only [Option.map_some']
  rw [apply_action_set_prio _ _ rfl]
  have hq : (dscp_rule_entry (phv.hdr.getD 19 0 / 4)
      (spec_dscp_queue (phv.hdr.getD 19 0 / 4))).action_params.getD 0 0
        = spec_dscp_queue (phv.hdr.getD 19 0 / 4) := rfl
  simp only [hq, Nat.shiftRight_eq_div_pow]

set_option maxRecDepth 1000000 in
theorem qos_init_db_stage :
    ∀ r ∈ (qos_init qos_sys_reset).sim_tcam_db, r.entry.stage = 5 := by
  decide

/-- C10: after `qos_init` on the reset state (empty rule store), `pkt_process` of
every IPv4 frame (tagged or not) whose TOS byte is `t` returns 0 with
`qos_prio = Q(t >> 2)`, where `Q` is the default map of the specification (DSCP 10,
12, 14 -> 1; 18, 20, 22 -> 2; 26, 28, 30 -> 3; 34, 36, 38 -> 4; 40, 46 -> 5;
48 -> 6; 56 -> 7; every other DSCP -> 0), which is also the content of
`dscp_map.queue`; the two ECN bits do not enter. The store holds 64 rules and
exactly one of them matches `t`. -/
theorem c10_dscp_classification (raw : List Nat) (ip_start ing_port : Nat)
    (result : fwd_result_t) (hf : ipv4_frame raw ip_start)
    (ht : raw.getD (ip_start + 1) 0 < 256) :
    (pkt_process (qos_init qos_sys_reset).sim_tcam_db raw raw.length ing_port result).1 = 0 ∧
    (pkt_process (qos_init qos_sys_reset).sim_tcam_db raw raw.length ing_port result).2.qos_prio
      = spec_dscp_queue (raw.getD (ip_start + 1) 0 >>> 2) ∧
    (∀ d, d < 64 → (qos_init qos_sys_reset).dscp_map.getD d 0 = spec_dscp_queue d) ∧
    (qos_init qos_sys_reset).sim_tcam_db.length = 64 ∧
    ((qos_init qos_sys_reset).sim_tcam_db.filter
      (ternary_hit 5 ((List.replicate 64 0).set 0 (raw.getD (ip_start + 1) 0)) 1)).length
        = 1 := by
  obtain ⟨p1, _, _, p4, _, _, _, p8, p9, _, _⟩ :=
    pkt_parse_ipv4_frame raw ip_start ing_port phv_zero hf
  have hproc : pkt_process (qos_init qos_sys_reset).sim_tcam_db raw raw.length ing_port result
      = ((pkt_forward (qos_init qos_sys_reset).sim_tcam_db
          (pkt_parse raw raw.length ing_port phv_zero).2).1,
         (pkt_forward (qos_init qos_sys_reset).sim_tcam_db
          (pkt_parse raw raw.length ing_port phv_zero).2).2.2) := by
    unfold pkt_process
    simp only [p1, ne_eq, not_true_eq_false, if_false]
  rw [hproc, pkt_forward_eq]
  simp only
  generalize (pkt_parse raw raw.length ing_port phv_zero).2 = phv at *
  have hloop : pkt_forward_loop (qos_init qos_sys_reset).sim_tcam_db phv 0 PKT_NUM_STAGES
      = { phv with qos_prio := spec_dscp_queue (raw.getD (ip_start + 1) 0 >>> 2) } := by
    have h7 : PKT_NUM_STAGES = 5 + (1 + 1) := rfl
    rw [h7, pkt_forward_loop_skip _ _ 0 5 1 (by
      intro s _ hlt r hr
      rw [qos_init_db_stage r hr]
      omega)]
    rw [pkt_forward_loop, if_neg (by rw [p8, p9]; simp),
      pkt_forward_stage5_qos phv (by rw [p4]; exact ht), p4]
    apply pkt_forward_loop_miss
    intro s hs hlt r hr
    rw [qos_init_db_stage r hr]
    omega
  rw [hloop]
  refine ⟨trivial, rfl, qos_init_dscp_map, ?_, ?_⟩
  · rw [qos_init_db]
    simp
  · rw [qos_init_db]
    exact (dscp_table_lookup _ ht).2

set_option maxRecDepth 1000000 in
/-- C10 at the inputs of `test_dp_cosim_dscp_qos`: TOS 0xB8 gives priority 5, 0xE0
gives 7 and 0x00 gives 0. -/
theorem c10_dscp_classification_witness :
    (pkt_process (qos_init qos_sys_reset).sim_tcam_db (cosim_dscp_pkt 0xB8)
      (cosim_dscp_pkt 0xB8).length 0 ⟨0, 0, 0, 0, 0, 0⟩).2.qos_prio = 5 ∧
    (pkt_process (qos_init qos_sys_reset).sim_tcam_db (cosim_dscp_pkt 0xE0)
      (cosim_dscp_pkt 0xE0).length 0 ⟨0, 0, 0, 0, 0, 0⟩).2.qos_prio = 7 ∧
    (pkt_process (qos_init qos_sys_reset).sim_tcam_db (cosim_dscp_pkt 0x00)
      (cosim_dscp_pkt 0x00).length 0 ⟨0, 0, 0, 0, 0, 0⟩).2.qos_prio = 0 :=
  ⟨(c10_dscp_classification (cosim_dscp_pkt 0xB8) 14 0 ⟨0, 0, 0, 0, 0, 0⟩ (by decide)
      (by decide)).2.1,
   (c10_dscp_classification (cosim_dscp_pkt 0xE0) 14 0 ⟨0, 0, 0, 0, 0, 0⟩ (by decide)
      (by decide)).2.1,
   (c10_dscp_classification (cosim_dscp_pkt 0x00) 14 0 ⟨0, 0, 0, 0, 0, 0⟩ (by decide)
      (by decide)).2.1⟩

/-! ## The neighbor table: probing -/

theorem getD_slot_update {α : Type} (f : α → α) (l : List α) (i j : Nat) (d : α) :
    (slot_update f l i).getD j d = if i = j ∧ i < l.length then f (l.getD j d) else l.getD j d := by
  induction l generalizing i j with
  | nil => cases i <;> simp [slot_update]
  | cons r rs ih =>
    cases i with
    | zero => cases j <;> simp [slot_update]
    | succ i =>
      cases j with
      | zero => simp [slot_update]
      | succ j =>
        have := ih i j
        simp only [List.getD_eq_getElem?_getD] at this
        simp [slot_update, this]

theorem arp_hash_lt (ip : Nat) : arp_hash ip < ARP_TABLE_SIZE := by
  unfold arp_hash ARP_TABLE_SIZE
  exact Nat.lt_of_le_of_lt (Nat.mod_le _ _) (Nat.mod_lt _ (by decide))

theorem arp_probe_idx_lt (start i : Nat) : ((start + i) % ARP_TABLE_SIZE) % 2 ^ 16 < 256 := by
  unfold ARP_TABLE_SIZE
  omega

theorem arp_probe_idx_cover (start j : Nat) (hs : start < 256) (hj : j < 256) :
    ∃ k, k < 256 ∧ ((start + k) % ARP_TABLE_SIZE) % 2 ^ 16 = j := by
  unfold ARP_TABLE_SIZE
  refine ⟨(j + 256 - start) % 256, by omega, ?_⟩
  omega

theorem arp_find_loop_some (tbl : List arp_entry_t) (ip ff start n i idx : Nat)
    (h : arp_find_loop tbl ip ff start n i = some idx) :
    idx < 256 ∧ (arp_holds tbl idx ip ∨
      (ff ≠ 0 ∧ (tbl.getD idx arp_entry_zero).state = ARP_STATE_FREE)) := by
  induction n generalizing i with
  | zero => simp [arp_find_loop] at h
  | succ n ih =>
    simp only [arp_find_loop] at h
    split_ifs at h with h1 h2
    · cases h
      exact ⟨arp_probe_idx_lt _ _, Or.inl h1⟩
    · cases h
      exact ⟨arp_probe_idx_lt _ _, Or.inr h2⟩
    · exact ih _ h

theorem arp_find_loop_none (tbl : List arp_entry_t) (ip ff start n i : Nat) :
    arp_find_loop tbl ip ff start n i = none ↔
      ∀ k, i ≤ k → k < i + n →
        ¬ arp_holds tbl (((start + k) % ARP_TABLE_SIZE) % 2 ^ 16) ip ∧
        ¬ (ff ≠ 0 ∧ (tbl.getD (((start + k) % ARP_TABLE_SIZE) % 2 ^ 16)
              arp_entry_zero).state = ARP_STATE_FREE) := by
  induction n generalizing i with
  | zero =>
    simp only [arp_find_loop, true_iff]
    intro k h1 h2
    omega
  | succ n ih =>
    simp only [arp_find_loop]
    split_ifs with h1 h2
    · simp only [false_iff, not_forall]
      exact ⟨i, Nat.le_refl _, by omega, fun h => h.1 h1⟩
    · simp only [false_iff, not_forall]
      exact ⟨i, Nat.le_refl _, by omega, fun h => h.2 h2⟩
    · rw [ih]
      constructor
      · intro h k hk1 hk2
        rcases Nat.eq_or_lt_of_le hk1 with hk | hk
        · subst hk
          exact ⟨h1, h2⟩
        · exact h k hk (by omega)
      · intro h k hk1 hk2
        exact h k (by omega) (by omega)

theorem arp_find_some (tbl : List arp_entry_t) (ip idx : Nat)
    (h : arp_find tbl ip 0 = some idx) : idx < 256 ∧ arp_holds tbl idx ip := by
  have := arp_find_loop_some tbl ip 0 _ _ _ idx h
  rcases this with ⟨h1, h2 | h2⟩
  · exact ⟨h1, h2⟩
  · exact absurd rfl h2.1

theorem arp_find_none (tbl : List arp_entry_t) (ip : Nat) :
    arp_find tbl ip 0 = none ↔ ∀ j, j < 256 → ¬ arp_holds tbl j ip := by
  unfold arp_find
  rw [arp_find_loop_none]
  constructor
  · intro h j hj
    obtain ⟨k, hk, hkj⟩ := arp_probe_idx_cover (arp_hash ip) j (arp_hash_lt ip) hj
    have := (h k (Nat.zero_le _) (by simp [ARP_TABLE_SIZE]; omega)).1
    rwa [hkj] at this
  · intro h k _ _
    exact ⟨h _ (arp_probe_idx_lt _ _), fun h => h.1 rfl⟩

theorem arp_find_free_none (tbl : List arp_entry_t) (ip : Nat) :
    arp_find tbl ip 1 = none ↔
      ∀ j, j < 256 → ¬ arp_holds tbl j ip ∧
        (tbl.getD j arp_entry_zero).state ≠ ARP_STATE_FREE := by
  unfold arp_find
  rw [arp_find_loop_none]
  constructor
  · intro h j hj
    obtain ⟨k, hk, hkj⟩ := arp_probe_idx_cover (arp_hash ip) j (arp_hash_lt ip) hj
    have := h k (Nat.zero_le _) (by simp [ARP_TABLE_SIZE]; omega)
    rw [hkj] at this
    exact ⟨this.1, fun hf => this.2 ⟨by decide, hf⟩⟩
  · intro h k _ _
    exact ⟨(h _ (arp_probe_idx_lt _ _)).1, fun hf => (h _ (arp_probe_idx_lt _ _)).2 hf.2⟩

theorem arp_find_free_some (tbl : List arp_entry_t) (ip idx : Nat)
    (hn : ∀ j, j < 256 → ¬ arp_holds tbl j ip)
    (h : arp_find tbl ip 1 = some idx) :
    idx < 256 ∧ (tbl.getD idx arp_entry_zero).state = ARP_STATE_FREE := by
  have := arp_find_loop_some tbl ip 1 _ _ _ idx h
  rcases this with ⟨h1, h2 | h2⟩
  · exact absurd h2 (hn _ h1)
  · exact ⟨h1, h2.2⟩

theorem arp_find_unique (tbl : List arp_entry_t) (ip j : Nat) (hu : arp_ip_unique tbl ip)
    (hj : j < 256) (h : arp_holds tbl j ip) : arp_find tbl ip 0 = some j := by
  cases hf : arp_find tbl ip 0 with
  | none => exact absurd h ((arp_find_none tbl ip).1 hf j hj)
  | some idx =>
    have := arp_find_some tbl ip idx hf
    rw [hu idx this.1 j hj this.2 h]
theorem memcpy_full (dst src : List Nat) (n : Nat) (hd : dst.length = n) (hs : src.length = n) :
    memcpy dst 0 src 0 n = src := by
  apply List.ext_getElem?
  intro i
  have h := getD_memcpy dst 0 src 0 n i
  have hl := length_memcpy dst 0 src 0 n
  generalize memcpy dst 0 src 0 n = m at h hl ⊢
  by_cases hi : i < n
  · rw [if_pos ⟨Nat.zero_le _, by omega, by omega⟩] at h
    simp only [Nat.zero_add, Nat.sub_zero] at h
    have h1 : i < m.length := by omega
    have h2 : i < src.length := by omega
    rw [List.getD_eq_getElem _ _ h1, List.getD_eq_getElem _ _ h2] at h
    rw [List.getElem?_eq_getElem h1, List.getElem?_eq_getElem h2, h]
  · rw [List.getElem?_eq_none (by omega), List.getElem?_eq_none (by omega)]

theorem arp_last_snoc (ops : List arp_op) (op : arp_op) (ip : Nat) :
    arp_last (ops ++ [op]) ip =
      match op with
      | .add ip1 mac port _ => if ip1 = ip then some (mac, port) else arp_last ops ip
      | .del ip1 => if ip1 = ip then none else arp_last ops ip := by
  unfold arp_last
  rw [List.foldl_append]
  cases op <;> rfl

theorem arp_last_mem (ops : List arp_op) (ip : Nat) (h : (arp_last ops ip).isSome) :
    ip ∈ ops.map arp_op_ip := by
  induction ops using List.reverseRecOn with
  | nil => simp [arp_last] at h
  | append_singleton l a ih =>
    rw [arp_last_snoc] at h
    rw [List.map_append, List.mem_append]
    cases a with
    | add ip1 mac port vlan =>
      by_cases he : ip1 = ip
      · right
        simp [arp_op_ip, he]
      · simp only [he, if_false] at h
        exact Or.inl (ih h)
    | del ip1 =>
      by_cases he : ip1 = ip
      · simp [he] at h
      · simp only [he, if_false] at h
        exact Or.inl (ih h)

theorem mem_arp_present (ops : List arp_op) (ip : Nat) :
    ip ∈ arp_present ops ↔ (arp_last ops ip).isSome := by
  unfold arp_present
  rw [List.mem_filter, List.mem_dedup]
  constructor
  · exact fun h => h.2
  · exact fun h => ⟨arp_last_mem ops ip h, h⟩

theorem arp_run_snoc (s : arp_sys) (ops : List arp_op) (op : arp_op) :
    arp_run s (ops ++ [op]) = (arp_call (arp_run s ops) op).2 := by
  unfold arp_run
  rw [List.foldl_append]
  rfl

theorem arp_map_inv_init : arp_map_inv (List.replicate ARP_TABLE_SIZE arp_entry_zero) [] := by
  have hz : ∀ j, (List.replicate ARP_TABLE_SIZE arp_entry_zero).getD j arp_entry_zero
      = arp_entry_zero := by
    intro j
    simp only [List.getD_eq_getElem?_getD, List.getElem?_replicate]
    split <;> rfl
  refine ⟨List.length_replicate _ _, ?_, ?_, ?_, ?_⟩
  · intro j _
    rw [hz]
    rfl
  · intro j _ h
    rw [hz] at h
    exact absurd rfl h
  · intro ip h
    simp [arp_last] at h
  · intro ip i _ j _ h
    unfold arp_holds at h
    rw [hz] at h
    exact absurd rfl h.1
theorem arp_holds_slot_update_ne (f : arp_entry_t → arp_entry_t) (tbl : List arp_entry_t)
    (e j ip : Nat) (h : e ≠ j) :
    arp_holds (slot_update f tbl e) j ip ↔ arp_holds tbl j ip := by
  unfold arp_holds
  rw [getD_slot_update, if_neg (fun hh => h hh.1)]

theorem arp_map_inv_add (tbl : List arp_entry_t) (ops : List arp_op)
    (ip : Nat) (mac : List Nat) (port vlan e : Nat)
    (hR : arp_map_inv tbl ops) (hm : mac.length = 6) (he : e < ARP_TABLE_SIZE)
    (hslot : arp_holds tbl e ip ∨ ((∀ j, j < 256 → ¬ arp_holds tbl j ip) ∧
      (tbl.getD e arp_entry_zero).state = ARP_STATE_FREE)) :
    arp_map_inv
      (slot_update
        (fun x => { ip := ip, port := port, vlan := vlan, age_ticks := 0,
                    retry := ARP_PROBE_RETRY_MAX, state := ARP_STATE_REACHABLE,
                    mac := memcpy x.mac 0 mac 0 6 }) tbl e)
      (ops ++ [arp_op.add ip mac port vlan]) := by
  obtain ⟨hlen, hmac, hent, hcomp, huniq⟩ := hR
  have helen : e < tbl.length := by omega
  -- any other slot holding `ip` is slot `e`
  have hother : ∀ j, j < ARP_TABLE_SIZE → arp_holds tbl j ip → j = e := by
    intro j hj hh
    rcases hslot with h1 | h1
    · exact huniq ip j hj e he hh h1
    · exact absurd hh (h1.1 j hj)
  refine ⟨by rw [length_slot_update]; exact hlen, ?_, ?_, ?_, ?_⟩
  · intro j hj
    rw [getD_slot_update]
    split_ifs with h
    · simp only [length_memcpy]
      exact hmac j hj
    · exact hmac j hj
  · intro j hj
    rw [getD_slot_update]
    split_ifs with h
    · intro _
      refine ⟨rfl, ?_⟩
      rw [arp_last_snoc]
      simp only [if_true]
      rw [memcpy_full _ _ 6 (hmac j hj) hm]
    · intro hs
      have hj2 := hent j hj hs
      refine ⟨hj2.1, ?_⟩
      rw [arp_last_snoc]
      have hne : ¬ ip = (tbl.getD j arp_entry_zero).ip := by
        intro heq
        have := hother j hj ⟨hs, heq.symm⟩
        exact h ⟨this.symm, helen⟩
      simp only [hne, if_false]
      exact hj2.2
  · intro ip2 h2
    rw [arp_last_snoc] at h2
    by_cases heq : ip = ip2
    · subst heq
      refine ⟨e, he, ?_⟩
      unfold arp_holds
      rw [getD_slot_update, if_pos ⟨rfl, helen⟩]
      exact ⟨by simp [ARP_STATE_REACHABLE, ARP_STATE_FREE], rfl⟩
    · simp only [heq, if_false] at h2
      obtain ⟨j, hj, hh⟩ := hcomp ip2 h2
      refine ⟨j, hj, ?_⟩
      have hne : e ≠ j := by
        rintro rfl
        rcases hslot with h1 | h1
        · exact heq (h1.2.symm.trans hh.2)
        · exact hh.1 h1.2
      exact (arp_holds_slot_update_ne _ _ _ _ _ hne).2 hh
  · intro ip2 i hi j hj h1 h2
    have key : ∀ k, k < ARP_TABLE_SIZE →
        arp_holds (slot_update (fun x => (⟨ip, memcpy x.mac 0 mac 0 6, port, vlan, 0, ARP_PROBE_RETRY_MAX, ARP_STATE_REACHABLE⟩ : arp_entry_t)) tbl e) k ip2 →
        (k = e ∧ ip2 = ip) ∨ (k ≠ e ∧ arp_holds tbl k ip2) := by
      intro k _ hk
      by_cases hke : e = k
      · subst hke
        unfold arp_holds at hk
        rw [getD_slot_update, if_pos ⟨rfl, helen⟩] at hk
        exact Or.inl ⟨rfl, hk.2.symm⟩
      · exact Or.inr ⟨fun h => hke h.symm, (arp_holds_slot_update_ne _ _ _ _ _ hke).1 hk⟩
    rcases key i hi h1 with ⟨hie, hip⟩ | ⟨hie, hih⟩ <;>
      rcases key j hj h2 with ⟨hje, hjp⟩ | ⟨hje, hjh⟩
    · rw [hie, hje]
    · subst hip
      exact absurd (hother j hj hjh) hje
    · subst hjp
      exact absurd (hother i hi hih) hie
    · exact huniq ip2 i hi j hj hih hjh

theorem arp_map_inv_del_hit (tbl : List arp_entry_t) (ops : List arp_op) (ip e : Nat)
    (hR : arp_map_inv tbl ops) (he : e < ARP_TABLE_SIZE) (hh : arp_holds tbl e ip) :
    arp_map_inv (slot_update (fun _ => arp_entry_zero) tbl e) (ops ++ [arp_op.del ip]) := by
  obtain ⟨hlen, hmac, hent, hcomp, huniq⟩ := hR
  have helen : e < tbl.length := by omega
  refine ⟨by rw [length_slot_update]; exact hlen, ?_, ?_, ?_, ?_⟩
  · intro j hj
    rw [getD_slot_update]
    split_ifs with h
    · rfl
    · exact hmac j hj
  · intro j hj
    rw [getD_slot_update]
    split_ifs with h
    · intro hs
      exact absurd rfl hs
    · intro hs
      have hj2 := hent j hj hs
      refine ⟨hj2.1, ?_⟩
      rw [arp_last_snoc]
      have hne : ¬ ip = (tbl.getD j arp_entry_zero).ip := by
        intro heq
        have := huniq ip j hj e he ⟨hs, heq.symm⟩ hh
        exact h ⟨this.symm, helen⟩
      simp only [hne, if_false]
      exact hj2.2
  · intro ip2 h2
    rw [arp_last_snoc] at h2
    by_cases heq : ip = ip2
    · simp [heq] at h2
    · simp only [heq, if_false] at h2
      obtain ⟨j, hj, hjh⟩ := hcomp ip2 h2
      refine ⟨j, hj, ?_⟩
      have hne : e ≠ j := by
        rintro rfl
        exact heq (hh.2.symm.trans hjh.2)
      exact (arp_holds_slot_update_ne _ _ _ _ _ hne).2 hjh
  · intro ip2 i hi j hj h1 h2
    have key : ∀ k, arp_holds (slot_update (fun _ => arp_entry_zero) tbl e) k ip2 →
        arp_holds tbl k ip2 := by
      intro k hk
      by_cases hke : e = k
      · subst hke
        unfold arp_holds at hk
        rw [getD_slot_update, if_pos ⟨rfl, helen⟩] at hk
        exact absurd rfl hk.1
      · exact (arp_holds_slot_update_ne _ _ _ _ _ hke).1 hk
    exact huniq ip2 i hi j hj (key i h1) (key j h2)

theorem arp_map_inv_absent (tbl : List arp_entry_t) (ops : List arp_op) (ip : Nat)
    (hR : arp_map_inv tbl ops) :
    (∀ j, j < 256 → ¬ arp_holds tbl j ip) ↔ arp_last ops ip = none := by
  obtain ⟨hlen, hmac, hent, hcomp, huniq⟩ := hR
  constructor
  · intro h
    cases hl : arp_last ops ip with
    | none => rfl
    | some v =>
      obtain ⟨j, hj, hjh⟩ := hcomp ip (by simp [hl])
      exact absurd hjh (h j hj)
  · intro h j hj hjh
    have := (hent j hj hjh.1).2
    rw [hjh.2, h] at this
    cases this

theorem arp_map_inv_del_miss (tbl : List arp_entry_t) (ops : List arp_op) (ip : Nat)
    (hR : arp_map_inv tbl ops) (hn : ∀ j, j < 256 → ¬ arp_holds tbl j ip) :
    arp_map_inv tbl (ops ++ [arp_op.del ip]) := by
  have hnone := (arp_map_inv_absent tbl ops ip hR).1 hn
  have hsame : ∀ ip2, arp_last (ops ++ [arp_op.del ip]) ip2 = arp_last ops ip2 := by
    intro ip2
    rw [arp_last_snoc]
    by_cases heq : ip = ip2
    · subst heq
      simp [hnone]
    · simp [heq]
  obtain ⟨hlen, hmac, hent, hcomp, huniq⟩ := hR
  refine ⟨hlen, hmac, ?_, ?_, huniq⟩
  · intro j hj hs
    rw [hsame]
    exact hent j hj hs
  · intro ip2 h2
    rw [hsame] at h2
    exact hcomp ip2 h2

theorem arp_map_inv_room (tbl : List arp_entry_t) (ops : List arp_op)
    (ip : Nat) (mac : List Nat) (port vlan : Nat)
    (hR : arp_map_inv tbl ops) (hn : ∀ j, j < 256 → ¬ arp_holds tbl j ip)
    (hcap : (arp_present (ops ++ [arp_op.add ip mac port vlan])).length ≤ ARP_TABLE_SIZE) :
    ∃ j, j < 256 ∧ (tbl.getD j arp_entry_zero).state = ARP_STATE_FREE := by
  by_contra hfull
  have hfull2 : ∀ j, j < 256 → (tbl.getD j arp_entry_zero).state ≠ ARP_STATE_FREE :=
    fun j hj hf => hfull ⟨j, hj, hf⟩
  obtain ⟨hlen, hmac, hent, hcomp, huniq⟩ := hR
  have hnd : (ip :: (List.range 256).map (fun j => (tbl.getD j arp_entry_zero).ip)).Nodup := by
    rw [List.nodup_cons]
    constructor
    · intro hmem
      obtain ⟨j, hj, hjip⟩ := List.mem_map.1 hmem
      exact hn j (List.mem_range.1 hj) ⟨hfull2 j (List.mem_range.1 hj), hjip⟩
    · apply List.Nodup.map_on _ (List.nodup_range 256)
      intro x hx y hy hxy
      exact huniq _ x (List.mem_range.1 hx) y (List.mem_range.1 hy)
        ⟨hfull2 x (List.mem_range.1 hx), rfl⟩ ⟨hfull2 y (List.mem_range.1 hy), hxy.symm⟩
  have hsub : (ip :: (List.range 256).map (fun j => (tbl.getD j arp_entry_zero).ip))
      ⊆ arp_present (ops ++ [arp_op.add ip mac port vlan]) := by
    intro x hx
    rw [mem_arp_present, arp_last_snoc]
    by_cases heq : ip = x
    · simp [heq]
    · simp only [heq, if_false]
      rcases List.mem_cons.1 hx with h1 | h1
      · exact absurd h1.symm heq
      · obtain ⟨j, hj, hjip⟩ := List.mem_map.1 h1
        have := (hent j (List.mem_range.1 hj) (hfull2 j (List.mem_range.1 hj))).2
        rw [hjip] at this
        simp [this]
  have hle := (List.subperm_of_subset hnd hsub).length_le
  simp only [List.length_cons, List.length_map, List.length_range] at hle
  unfold ARP_TABLE_SIZE at hcap
  omega
theorem arp_lookup_of_inv (tbl : List arp_entry_t) (ops : List arp_op) (ip : Nat)
    (mo : List Nat) (po : Nat) (hR : arp_map_inv tbl ops) (hmo : mo.length = 6) :
    arp_lookup ip (some mo) (some po) tbl = arp_lookup_spec (arp_last ops ip) mo po := by
  unfold arp_lookup
  cases hf : arp_find tbl ip 0 with
  | none =>
    have := (arp_map_inv_absent tbl ops ip hR).1 ((arp_find_none tbl ip).1 hf)
    rw [this]
    rfl
  | some e =>
    obtain ⟨he, hh⟩ := arp_find_some tbl ip e hf
    obtain ⟨hlen, hmac, hent, hcomp, huniq⟩ := hR
    have h1 := hent e he hh.1
    simp only [h1.1, ne_eq, not_true_eq_false, if_false, Option.map_some']
    rw [hh.2] at h1
    rw [h1.2, memcpy_full _ _ 6 hmo (hmac e he)]
    rfl

theorem arp_add_inv (s : arp_sys) (ops : List arp_op) (ip : Nat) (mac : List Nat)
    (port vlan : Nat) (hR : arp_map_inv s.arp_table ops) (hm : mac.length = 6)
    (hcap : (arp_present (ops ++ [arp_op.add ip mac port vlan])).length ≤ ARP_TABLE_SIZE) :
    arp_map_inv (arp_add ip (some mac) port vlan s).2.arp_table
      (ops ++ [arp_op.add ip mac port vlan]) ∧
    (arp_add ip (some mac) port vlan s).1 = HAL_OK := by
  unfold arp_add arp_add_slot
  cases hf : arp_find s.arp_table ip 0 with
  | some e =>
    obtain ⟨he, hh⟩ := arp_find_some _ ip e hf
    exact ⟨arp_map_inv_add _ ops ip mac port vlan e hR hm he (Or.inl hh), rfl⟩
  | none =>
    have hn := (arp_find_none _ ip).1 hf
    cases hf1 : arp_find s.arp_table ip 1 with
    | none =>
      obtain ⟨j, hj, hfree⟩ := arp_map_inv_room _ ops ip mac port vlan hR hn hcap
      exact absurd hfree ((arp_find_free_none _ ip).1 hf1 j hj).2
    | some e =>
      obtain ⟨he, hfree⟩ := arp_find_free_some _ ip e hn hf1
      exact ⟨arp_map_inv_add _ ops ip mac port vlan e hR hm he (Or.inr ⟨hn, hfree⟩), rfl⟩

theorem arp_delete_inv (s : arp_sys) (ops : List arp_op) (ip : Nat)
    (hR : arp_map_inv s.arp_table ops) :
    arp_map_inv (arp_delete ip s).2.arp_table (ops ++ [arp_op.del ip]) ∧
    (arp_delete ip s).1 = arp_ret_spec ops (arp_op.del ip) := by
  unfold arp_delete arp_ret_spec
  cases hf : arp_find s.arp_table ip 0 with
  | some e =>
    obtain ⟨he, hh⟩ := arp_find_some _ ip e hf
    refine ⟨arp_map_inv_del_hit _ ops ip e hR he hh, ?_⟩
    have := (hR.2.2.1 e he hh.1).2
    rw [hh.2] at this
    simp [this]
  | none =>
    have hn := (arp_find_none _ ip).1 hf
    refine ⟨arp_map_inv_del_miss _ ops ip hR hn, ?_⟩
    simp [(arp_map_inv_absent _ ops ip hR).1 hn]

theorem arp_call_inv (s : arp_sys) (ops : List arp_op) (op : arp_op)
    (hR : arp_map_inv s.arp_table ops) (hwf : arp_op_wf op)
    (hcap : (arp_present (ops ++ [op])).length ≤ ARP_TABLE_SIZE) :
    arp_map_inv (arp_call s op).2.arp_table (ops ++ [op]) ∧
    (arp_call s op).1 = arp_ret_spec ops op := by
  cases op with
  | add ip mac port vlan => exact arp_add_inv s ops ip mac port vlan hR hwf hcap
  | del ip => exact arp_delete_inv s ops ip hR

theorem arp_within_capacity_take (ops : List arp_op) (k : Nat)
    (h : arp_within_capacity ops) : arp_within_capacity (ops.take k) := by
  intro m hm
  rw [List.take_take]
  apply h
  rw [List.length_take] at hm
  omega

theorem arp_run_inv (s0 : arp_sys) (ops : List arp_op) (hwf : ∀ op ∈ ops, arp_op_wf op)
    (hcap : arp_within_capacity ops) :
    arp_map_inv (arp_run (arp_init s0) ops).arp_table ops := by
  induction ops using List.reverseRecOn with
  | nil => exact arp_map_inv_init
  | append_singleton l a ih =>
    rw [arp_run_snoc]
    have hl : arp_within_capacity l := by
      have := arp_within_capacity_take (l ++ [a]) l.length hcap
      rwa [List.take_left'] at this
      rfl
    have hfull := hcap (l ++ [a]).length (Nat.le_refl _)
    rw [List.take_length] at hfull
    exact (arp_call_inv _ l a (ih (fun op hop => hwf op (List.mem_append_left _ hop)) hl)
      (hwf a (by simp)) hfull).1

theorem arp_lookup_reachable (ip : Nat) (mo : Option (List Nat)) (po : Option Nat)
    (tbl : List arp_entry_t) (e : Nat) (hf : arp_find tbl ip 0 = some e)
    (hs : (tbl.getD e arp_entry_zero).state = ARP_STATE_REACHABLE) :
    arp_lookup ip mo po tbl
      = (HAL_OK, mo.map (fun m => memcpy m 0 (tbl.getD e arp_entry_zero).mac 0 6),
          po.map (fun _ => (tbl.getD e arp_entry_zero).port)) := by
  unfold arp_lookup
  rw [hf]
  exact if_neg (fun h => h hs)
/-- C11: after `arp_init`, over every sequence of `arp_add` and `arp_delete` calls that
never holds more than 256 neighbors, `arp_lookup(ip)` returns OK with the MAC and
port of the most recent `arp_add(ip, ...)` not deleted since and -1 (outputs
untouched) otherwise; every `arp_add` succeeds and `arp_delete(ip)` fails, with
`HAL_ERR_INVAL`, exactly when `ip` is not present; and deleting one neighbor changes
the lookup of no other address. -/
theorem c11_arp_finite_map (s0 : arp_sys) (ops : List arp_op)
    (hwf : ∀ op ∈ ops, arp_op_wf op) (hcap : arp_within_capacity ops) :
    (∀ ip mac_out port_out, mac_out.length = 6 →
      arp_lookup ip (some mac_out) (some port_out) (arp_run (arp_init s0) ops).arp_table
        = arp_lookup_spec (arp_last ops ip) mac_out port_out) ∧
    (∀ k (hk : k < ops.length),
      (arp_call (arp_run (arp_init s0) (ops.take k)) (ops.get ⟨k, hk⟩)).1
        = arp_ret_spec (ops.take k) (ops.get ⟨k, hk⟩)) ∧
    (∀ ip1 ip2 mac_out port_out, ip1 ≠ ip2 → mac_out.length = 6 →
      arp_lookup ip2 (some mac_out) (some port_out)
          (arp_delete ip1 (arp_run (arp_init s0) ops)).2.arp_table
        = arp_lookup ip2 (some mac_out) (some port_out)
            (arp_run (arp_init s0) ops).arp_table) := by
  have hR := arp_run_inv s0 ops hwf hcap
  refine ⟨?_, ?_, ?_⟩
  · intro ip mo po hmo
    exact arp_lookup_of_inv _ ops ip mo po hR hmo
  · intro k hk
    have hRk := arp_run_inv s0 (ops.take k)
      (fun op hop => hwf op (List.mem_of_mem_take hop)) (arp_within_capacity_take ops k hcap)
    have hc := hcap (k + 1) (by omega)
    rw [← List.take_concat_get ops k hk, List.concat_eq_append] at hc
    exact (arp_call_inv _ _ _ hRk (hwf _ (List.get_mem ops k hk)) hc).2
  · intro ip1 ip2 mo po hne hmo
    rw [arp_lookup_of_inv _ ops ip2 mo po hR hmo,
      arp_lookup_of_inv _ _ ip2 mo po (arp_delete_inv _ ops ip1 hR).1 hmo, arp_last_snoc]
    simp [hne]

/-- C11 at two neighbors that share hash slot 146: after the first is deleted the
second still resolves to its own MAC and port. -/
theorem c11_arp_finite_map_witness :
    (∀ op ∈ arp_collide_ops, arp_op_wf op) ∧ arp_within_capacity arp_collide_ops ∧
    arp_lookup 0x0A00019A (some (List.replicate 6 0)) (some 0)
        (arp_run (arp_init arp_sys_reset) arp_collide_ops).arp_table
      = arp_lookup_spec (arp_last arp_collide_ops 0x0A00019A) (List.replicate 6 0) 0 :=
  ⟨by decide, by decide,
    (c11_arp_finite_map arp_sys_reset arp_collide_ops (by decide) (by decide)).1
      0x0A00019A (List.replicate 6 0) 0 rfl⟩

/-- C18: when every one of the 256 slots is in use and none holds `ip`,
`arp_add(ip, mac, port, vlan)` returns `HAL_ERR_FULL` and the whole state (ARP table,
FDB table, rule store) is what it was. -/
theorem c18_arp_add_full_atomic (s : arp_sys) (ip : Nat) (mac : List Nat) (port vlan : Nat)
    (hfull : ∀ j, j < ARP_TABLE_SIZE →
      (s.arp_table.getD j arp_entry_zero).state ≠ ARP_STATE_FREE)
    (habs : ∀ j, j < ARP_TABLE_SIZE → (s.arp_table.getD j arp_entry_zero).ip ≠ ip) :
    arp_add ip (some mac) port vlan s = (HAL_ERR_FULL, s) := by
  have h0 : arp_find s.arp_table ip 0 = none :=
    (arp_find_none _ ip).2 (fun j hj hh => habs j hj hh.2)
  have h1 : arp_find s.arp_table ip 1 = none :=
    (arp_find_free_none _ ip).2 (fun j hj => ⟨fun hh => habs j hj hh.2, hfull j hj⟩)
  simp [arp_add, arp_add_slot, h0, h1]

set_option maxRecDepth 100000 in
/-- C18 on a table whose 256 slots are all Reachable: adding a 257th address returns
`HAL_ERR_FULL` and changes nothing. -/
theorem c18_arp_add_full_atomic_witness :
    arp_add 1000 (some [0x00, 0x11, 0x22, 0x33, 0x44, 0x55]) 2 10
        { arp_sys_reset with arp_table := arp_full_table }
      = (HAL_ERR_FULL, { arp_sys_reset with arp_table := arp_full_table }) :=
  c18_arp_add_full_atomic _ 1000 _ 2 10 (by decide) (by decide)

theorem fdb_tcam_id_eq (dmac : Nat) : fdb_tcam_id dmac = dmac % 4096 := by
  unfold fdb_tcam_id TABLE_L2_FDB_BASE
  have h : dmac &&& 0xFFF = dmac % 2 ^ 12 := Nat.and_pow_two_sub_one_eq_mod dmac 12
  rw [h]
  omega

theorem hal_tcam_insert_ok_live (db : List sim_tcam_rec_t) (e : tcam_entry_t)
    (h : (hal_tcam_insert (some e) db).1 = HAL_OK) :
    ∃ x ∈ (hal_tcam_insert (some e) db).2, rec_live x = true ∧ x.entry = e := by
  apply (hal_tcam_insert_ok_mem db e _).2
  cases hf : sim_tcam_find db e.stage e.table_id with
  | some k => exact Or.inl (by simp)
  | none =>
    right
    by_contra hn
    simp [hal_tcam_insert, hf, Nat.not_lt.mp hn] at h
    exact absurd h (by decide)

theorem fdb_tcam_entry_fields (dmac port : Nat) :
    (fdb_tcam_entry dmac port).stage = TABLE_L2_FDB_STAGE ∧
    (fdb_tcam_entry dmac port).table_id = dmac % 4096 ∧
    (fdb_tcam_entry dmac port).action_id = ACTION_L2_FORWARD ∧
    (fdb_tcam_entry dmac port).action_params.getD 0 0 = port := by
  refine ⟨rfl, fdb_tcam_id_eq dmac, rfl, ?_⟩
  simp [fdb_tcam_entry, tcam_entry_zero]

theorem arp_add_ok_iff (s : arp_sys) (ip : Nat) (mac : List Nat) (port vlan : Nat) :
    (arp_add ip (some mac) port vlan s).1 = HAL_OK ↔ ∃ e, arp_add_slot s.arp_table ip = some e := by
  cases hs : arp_add_slot s.arp_table ip with
  | none =>
    simp only [arp_add, hs]
    constructor
    · intro h
      exact absurd h (by decide)
    · rintro ⟨e, he⟩
      cases he
  | some e =>
    simp only [arp_add, hs]
    exact ⟨fun _ => ⟨e, rfl⟩, fun _ => trivial⟩

theorem arp_add_frame (s : arp_sys) (ip : Nat) (mac : List Nat) (port vlan e : Nat)
    (hs : arp_add_slot s.arp_table ip = some e) :
    (arp_add ip (some mac) port vlan s).2.fdb_table
      = (fdb_learn (arp_dmac mac) port s.fdb_table s.db).2.1 ∧
    (arp_add ip (some mac) port vlan s).2.db
      = (fdb_learn (arp_dmac mac) port s.fdb_table s.db).2.2 ∧
    (arp_add ip (some mac) port vlan s).2.l3_intf = s.l3_intf ∧
    (arp_add ip (some mac) port vlan s).2.tx = s.tx := by
  simp only [arp_add, hs, and_self]

theorem arp_add_frame_tx (ip : Nat) (mac : Option (List Nat)) (port vlan : Nat) (s : arp_sys) :
    (arp_add ip mac port vlan s).2.tx = s.tx ∧
    (arp_add ip mac port vlan s).2.l3_intf = s.l3_intf := by
  unfold arp_add
  cases mac with
  | none => exact ⟨rfl, rfl⟩
  | some mac =>
    cases arp_add_slot s.arp_table ip <;> exact ⟨rfl, rfl⟩

theorem memcpy_sha (p : List Nat) : memcpy (List.replicate 6 0) 0 p (14 + 8) 6 = mac_at p 22 := by
  rfl

theorem arp_process_pkt_ignore (pkt : punt_pkt_t) (s : arp_sys)
    (h : pkt.pkt_len < 42 ∨ u16_be_rd pkt.data 12 ≠ ETH_TYPE_ARP ∨
      (u16_be_rd pkt.data 20 ≠ ARP_OP_REQUEST ∧ u16_be_rd pkt.data 20 ≠ ARP_OP_REPLY)) :
    arp_process_pkt (some pkt) s = s := by
  unfold arp_process_pkt
  simp only [Nat.reduceAdd]
  by_cases h1 : pkt.pkt_len < 42
  · rw [if_pos h1]
  · rw [if_neg h1]
    by_cases h2 : u16_be_rd pkt.data 12 ≠ ETH_TYPE_ARP
    · rw [if_pos h2]
    · rw [if_neg h2]
      rcases h with h | h | h
      · exact absurd h h1
      · exact absurd h h2
      · rw [if_neg h.1, if_neg h.2]

theorem arp_process_pkt_learn (pkt : punt_pkt_t) (s : arp_sys)
    (h1 : 42 ≤ pkt.pkt_len) (h2 : u16_be_rd pkt.data 12 = ETH_TYPE_ARP)
    (h3 : u16_be_rd pkt.data 20 = ARP_OP_REPLY ∨
      (u16_be_rd pkt.data 20 = ARP_OP_REQUEST ∧ ¬ arp_target_local pkt s)) :
    arp_process_pkt (some pkt) s
      = (arp_add (u32_be_rd pkt.data 28) (some (mac_at pkt.data 22)) pkt.ing_port
          pkt.vlan_id s).2 := by
  unfold arp_process_pkt
  simp only [memcpy_sha, Nat.reduceAdd]
  rw [if_neg (Nat.not_lt.mpr h1), if_neg (fun h => h h2)]
  rcases h3 with h3 | ⟨h3, h4⟩
  · have : ¬ u16_be_rd pkt.data 20 = ARP_OP_REQUEST := by
      rw [h3]
      decide
    rw [if_neg this, if_pos h3]
  · unfold arp_target_local at h4
    rw [if_pos h3, if_neg h4]

theorem arp_process_pkt_request_local (pkt : punt_pkt_t) (s : arp_sys)
    (h1 : 42 ≤ pkt.pkt_len) (h2 : u16_be_rd pkt.data 12 = ETH_TYPE_ARP)
    (h3 : u16_be_rd pkt.data 20 = ARP_OP_REQUEST) (h4 : arp_target_local pkt s) :
    arp_process_pkt (some pkt) s
      = { (arp_add (u32_be_rd pkt.data 28) (some (mac_at pkt.data 22)) pkt.ing_port
            pkt.vlan_id s).2 with
          tx := send_arp_reply pkt.ing_port pkt.vlan_id (mac_at pkt.data 22)
            (u32_be_rd pkt.data 28) (s.l3_intf.getD pkt.ing_port l3_intf_zero).mac
            (s.l3_intf.getD pkt.ing_port l3_intf_zero).ip s.tx } := by
  unfold arp_process_pkt
  simp only [memcpy_sha, Nat.reduceAdd]
  unfold arp_target_local at h4
  rw [if_neg (Nat.not_lt.mpr h1), if_neg (fun h => h h2), if_pos h3, if_pos h4]
  simp only [arp_add_frame_tx]

theorem list_ext_getD (l1 l2 : List Nat) (n : Nat) (h1 : l1.length = n) (h2 : l2.length = n)
    (h : ∀ i, i < n → l1.getD i 0 = l2.getD i 0) : l1 = l2 := by
  apply List.ext_getElem (h1.trans h2.symm)
  intro i hi1 hi2
  have := h i (by omega)
  rwa [List.getD_eq_getElem _ _ hi1, List.getD_eq_getElem _ _ hi2] at this

theorem getD_take_zero (l : List Nat) (n i : Nat) (hi : i < n) :
    (l.take n).getD i 0 = l.getD i 0 := by
  simp only [List.getD_eq_getElem?_getD, List.getElem?_take, hi, if_true]

theorem length_u32_be (buf : List Nat) (off v : Nat) : (u32_be buf off v).length = buf.length := by
  simp [u32_be]

theorem length_arp_write_frame (p eth_dst eth_src : List Nat) (oper : Nat) (sha : List Nat)
    (spa : Nat) (tha : List Nat) (tpa : Nat) :
    (arp_write_frame p eth_dst eth_src oper sha spa tha tpa).length = p.length := by
  simp only [arp_write_frame, length_u32_be, length_memcpy, List.length_set]

theorem arp_write_frame_take (eth_dst eth_src : List Nat) (oper : Nat) (sha : List Nat)
    (spa : Nat) (tha : List Nat) (tpa : Nat) (ho : oper < 256) :
    (arp_write_frame (List.replicate 256 0) eth_dst eth_src oper sha spa tha tpa).take 42
      = arp_frame (mac_at eth_dst 0) (mac_at eth_src 0) oper (mac_at sha 0) spa
          (mac_at tha 0) tpa := by
  apply list_ext_getD _ _ 42
  · rw [List.length_take, length_arp_write_frame, List.length_replicate]
    rfl
  · rfl
  · intro i hi
    rw [getD_take_zero _ _ _ hi]
    have h8 : (oper >>> 8) % 256 = 0 := by
      rw [Nat.shiftRight_eq_div_pow]
      omega
    have h0 : oper % 256 = oper := Nat.mod_eq_of_lt ho
    simp only [arp_frame, mac_at, be32, h8, h0, List.range, List.range.loop, List.map,
      Nat.zero_add, List.cons_append, List.nil_append, List.append_nil]
    simp only [arp_write_frame, u32_be, getD_set_zero, getD_memcpy, length_memcpy,
      List.length_set, List.length_replicate, replicate_zero_getD, and_0xFF, Nat.mod_mod]
    interval_cases i <;> simp

theorem mac_at_length (buf : List Nat) (off : Nat) : (mac_at buf off).length = 6 := rfl

theorem mac_at_mac_at (buf : List Nat) (off : Nat) : mac_at (mac_at buf off) 0 = mac_at buf off :=
  rfl

theorem arp_reply_pkt_data (eg_port vlan : Nat) (req_sha : List Nat) (req_spa : Nat)
    (my_mac : List Nat) (my_ip : Nat) :
    (arp_reply_pkt eg_port vlan req_sha req_spa my_mac my_ip).data
      = arp_write_frame (List.replicate 256 0) req_sha my_mac ARP_OP_REPLY my_mac my_ip
          req_sha req_spa := by
  simp only [arp_reply_pkt, arp_write_frame, punt_pkt_zero]

theorem arp_probe_pkt_data (target_ip eg_port vlan : Nat) (my_mac : List Nat) (my_ip : Nat) :
    (arp_probe_pkt target_ip eg_port vlan my_mac my_ip).data
      = arp_write_frame (List.replicate 256 0) BCAST_MAC my_mac ARP_OP_REQUEST my_mac my_ip
          BCAST_MAC target_ip := by
  simp only [arp_probe_pkt, arp_write_frame, punt_pkt_zero]

theorem arp_reply_pkt_frame (eg_port vlan : Nat) (req_sha : List Nat) (req_spa : Nat)
    (my_mac : List Nat) (my_ip : Nat) :
    (arp_reply_pkt eg_port vlan req_sha req_spa my_mac my_ip).data.take 42
      = arp_frame (mac_at req_sha 0) (mac_at my_mac 0) ARP_OP_REPLY (mac_at my_mac 0) my_ip
          (mac_at req_sha 0) req_spa := by
  rw [arp_reply_pkt_data]
  exact arp_write_frame_take req_sha my_mac ARP_OP_REPLY my_mac my_ip req_sha req_spa
    (by decide)

theorem hal_punt_tx_send_room (pkt : punt_pkt_t) (tx : sim_punt_tx_t)
    (hroom : sim_punt_tx_pending tx < (SIM_PUNT_MAX : Int)) :
    hal_punt_tx_send (some pkt) tx
      = (HAL_OK,
          { sim_punt_tx_ring := slot_update (fun _ => { pkt := pkt, valid := 1 })
              tx.sim_punt_tx_ring (tx.sim_punt_tx_head % SIM_PUNT_MAX),
            sim_punt_tx_head := tx.sim_punt_tx_head + 1,
            sim_punt_tx_tail := tx.sim_punt_tx_tail }) := by
  unfold sim_punt_tx_pending at hroom
  simp only [hal_punt_tx_send, ge_iff_le]
  rw [if_neg (not_le.mpr hroom)]

theorem arp_find_loop_congr (tbl tbl2 : List arp_entry_t) (ip start n i : Nat)
    (h : ∀ j, j < 256 → (arp_holds tbl j ip ↔ arp_holds tbl2 j ip)) :
    arp_find_loop tbl ip 0 start n i = arp_find_loop tbl2 ip 0 start n i := by
  induction n generalizing i with
  | zero => rfl
  | succ n ih =>
    simp only [arp_find_loop]
    have hk := h _ (arp_probe_idx_lt start i)
    unfold arp_holds at hk
    by_cases hc : (tbl.getD ((start + i) % ARP_TABLE_SIZE % 2 ^ 16) arp_entry_zero).state
        ≠ ARP_STATE_FREE ∧
        (tbl.getD ((start + i) % ARP_TABLE_SIZE % 2 ^ 16) arp_entry_zero).ip = ip
    · rw [if_pos hc, if_pos (hk.1 hc)]
    · rw [if_neg hc, if_neg (fun h2 => hc (hk.2 h2)), if_neg (fun h2 => h2.1 rfl),
        if_neg (fun h2 => h2.1 rfl)]
      exact ih _

theorem arp_add_find (s : arp_sys) (ip : Nat) (mac : List Nat) (port vlan e : Nat)
    (hlen : s.arp_table.length = ARP_TABLE_SIZE) (hs : arp_add_slot s.arp_table ip = some e) :
    e < 256 ∧
    (arp_add ip (some mac) port vlan s).2.arp_table
      = slot_update (fun x => (⟨ip, memcpy x.mac 0 mac 0 6, port, vlan, 0, ARP_PROBE_RETRY_MAX, ARP_STATE_REACHABLE⟩ : arp_entry_t)) s.arp_table e ∧
    arp_find (arp_add ip (some mac) port vlan s).2.arp_table ip 0 = some e := by
  have htab : (arp_add ip (some mac) port vlan s).2.arp_table
      = slot_update (fun x => (⟨ip, memcpy x.mac 0 mac 0 6, port, vlan, 0, ARP_PROBE_RETRY_MAX, ARP_STATE_REACHABLE⟩ : arp_entry_t)) s.arp_table e := by
    unfold arp_add
    rw [hs]
  have hnew : ∀ (he : e < 256), arp_holds (slot_update (fun x => (⟨ip, memcpy x.mac 0 mac 0 6, port, vlan, 0, ARP_PROBE_RETRY_MAX, ARP_STATE_REACHABLE⟩ : arp_entry_t)) s.arp_table e) e ip := by
    intro he
    unfold arp_holds
    rw [getD_slot_update, if_pos ⟨rfl, by rw [hlen]; exact he⟩]
    exact ⟨by simp [ARP_STATE_REACHABLE, ARP_STATE_FREE], rfl⟩
  unfold arp_add_slot at hs
  cases hf : arp_find s.arp_table ip 0 with
  | some e0 =>
    rw [hf] at hs
    cases hs
    obtain ⟨he, hh⟩ := arp_find_some _ ip e hf
    refine ⟨he, htab, ?_⟩
    rw [htab, ← hf]
    unfold arp_find
    apply arp_find_loop_congr
    intro j hj
    by_cases hje : e = j
    · subst hje
      exact ⟨fun _ => hh, fun _ => hnew he⟩
    · exact arp_holds_slot_update_ne _ _ _ _ _ hje
  | none =>
    rw [hf] at hs
    have hn := (arp_find_none _ ip).1 hf
    have he := (arp_find_free_some _ ip e hn hs).1
    refine ⟨he, htab, ?_⟩
    rw [htab]
    apply arp_find_unique _ ip e _ he (hnew he)
    have hone : ∀ j, j < 256 → arp_holds (slot_update (fun x => (⟨ip, memcpy x.mac 0 mac 0 6, port, vlan, 0, ARP_PROBE_RETRY_MAX, ARP_STATE_REACHABLE⟩ : arp_entry_t)) s.arp_table e) j ip → j = e := by
      intro j hj hjh
      by_contra hne
      rw [arp_holds_slot_update_ne _ _ _ _ _ (fun h => hne h.symm)] at hjh
      exact hn j hj hjh
    intro i hi j hj h1 h2
    rw [hone i hi h1, hone j hj h2]

theorem arp_add_lookup (s : arp_sys) (ip : Nat) (mac : List Nat) (port vlan : Nat)
    (hwf : arp_table_wf s.arp_table) (hm : mac.length = 6)
    (hok : (arp_add ip (some mac) port vlan s).1 = HAL_OK)
    (mo : List Nat) (po : Nat) (hmo : mo.length = 6) :
    arp_lookup ip (some mo) (some po) (arp_add ip (some mac) port vlan s).2.arp_table
      = (HAL_OK, some mac, some port) := by
  obtain ⟨e, hs⟩ := (arp_add_ok_iff s ip mac port vlan).1 hok
  obtain ⟨he, htab, hfind⟩ := arp_add_find s ip mac port vlan e hwf.1 hs
  have hent : (arp_add ip (some mac) port vlan s).2.arp_table.getD e arp_entry_zero
      = ⟨ip, mac, port, vlan, 0, ARP_PROBE_RETRY_MAX, ARP_STATE_REACHABLE⟩ := by
    rw [htab, getD_slot_update, if_pos ⟨rfl, by rw [hwf.1]; exact he⟩,
      memcpy_full _ _ 6 (hwf.2 e he) hm]
  rw [arp_lookup_reachable _ _ _ _ e hfind (by rw [hent]), hent]
  simp only [Option.map_some', memcpy_full _ _ 6 hmo hm]
/-- C16: for an ARP Request (at least 42 bytes, ethertype 0x0806, oper 1) received on a
port `p < 32` whose configured local interface address equals the target address,
with room in the TX ring, `arp_process_pkt` queues exactly one frame: 42 bytes, egress
port `p`, the VLAN of the Request, Ethernet dst = requester MAC, src = local MAC,
type 0x0806, htype 1, ptype 0x0800, hlen 6, plen 4, oper 2, sha = local MAC,
spa = local IP, tha = requester MAC, tpa = requester IP. -/
theorem c16_arp_reply_format (s : arp_sys) (pkt : punt_pkt_t)
    (hlen : 42 ≤ pkt.pkt_len) (htype : u16_be_rd pkt.data 12 = ETH_TYPE_ARP)
    (hoper : u16_be_rd pkt.data 20 = ARP_OP_REQUEST) (hlocal : arp_target_local pkt s)
    (hroom : sim_punt_tx_pending s.tx < (SIM_PUNT_MAX : Int)) :
    arp_reply_sent pkt (s.l3_intf.getD pkt.ing_port l3_intf_zero) s.tx
      (arp_process_pkt (some pkt) s).tx := by
  rw [arp_process_pkt_request_local pkt s hlen htype hoper hlocal]
  refine ⟨arp_reply_pkt pkt.ing_port pkt.vlan_id (mac_at pkt.data 22) (u32_be_rd pkt.data 28)
    (s.l3_intf.getD pkt.ing_port l3_intf_zero).mac
    (s.l3_intf.getD pkt.ing_port l3_intf_zero).ip, ?_, rfl, rfl, rfl, ?_⟩
  · show send_arp_reply _ _ _ _ _ _ s.tx = _
    unfold send_arp_reply
    rw [hal_punt_tx_send_room _ _ hroom]
  · rw [arp_reply_pkt_frame, mac_at_mac_at]

set_option maxRecDepth 100000 in
/-- C16 at the input of `test_arp_process_request`. -/
theorem c16_arp_reply_format_witness :
    arp_reply_sent arp_test_request (arp_test_sys.l3_intf.getD 0 l3_intf_zero) arp_test_sys.tx
      (arp_process_pkt (some arp_test_request) arp_test_sys).tx :=
  c16_arp_reply_format arp_test_sys arp_test_request (by decide) (by decide) (by decide)
    (by decide) (by decide)

/-- C17: for every ARP Request and Reply (at least 42 bytes, ethertype 0x0806)
`arp_process_pkt` learns the sender by `arp_add(spa, sha, ing_port, vlan)` whatever the
target address: ARP table, FDB table and rule store are those of that call, and when
it succeeds `arp_lookup(spa)` resolves to the sender MAC on the ingress port and the
FDB learn of that MAC has run. Nothing is queued for a Reply or for a Request whose
target is not the local address of the ingress port. A frame shorter than 42 bytes,
with another ethertype or another opcode leaves the whole state unchanged. -/
theorem c17_arp_process_pkt_learns (s : arp_sys) (pkt : punt_pkt_t)
    (hwf : arp_table_wf s.arp_table) :
    ((42 ≤ pkt.pkt_len ∧ u16_be_rd pkt.data 12 = ETH_TYPE_ARP ∧
        (u16_be_rd pkt.data 20 = ARP_OP_REQUEST ∨ u16_be_rd pkt.data 20 = ARP_OP_REPLY)) →
      (arp_process_pkt (some pkt) s).arp_table
        = (arp_add (u32_be_rd pkt.data 28) (some (mac_at pkt.data 22)) pkt.ing_port
            pkt.vlan_id s).2.arp_table ∧
      (arp_process_pkt (some pkt) s).fdb_table
        = (arp_add (u32_be_rd pkt.data 28) (some (mac_at pkt.data 22)) pkt.ing_port
            pkt.vlan_id s).2.fdb_table ∧
      (arp_process_pkt (some pkt) s).db
        = (arp_add (u32_be_rd pkt.data 28) (some (mac_at pkt.data 22)) pkt.ing_port
            pkt.vlan_id s).2.db ∧
      (arp_process_pkt (some pkt) s).l3_intf = s.l3_intf ∧
      ((arp_add (u32_be_rd pkt.data 28) (some (mac_at pkt.data 22)) pkt.ing_port
            pkt.vlan_id s).1 = HAL_OK →
        (∀ mo po, mo.length = 6 →
          arp_lookup (u32_be_rd pkt.data 28) (some mo) (some po)
              (arp_process_pkt (some pkt) s).arp_table
            = (HAL_OK, some (mac_at pkt.data 22), some pkt.ing_port)) ∧
        (arp_process_pkt (some pkt) s).fdb_table
          = (fdb_learn (arp_dmac (mac_at pkt.data 22)) pkt.ing_port s.fdb_table s.db).2.1 ∧
        (arp_process_pkt (some pkt) s).db
          = (fdb_learn (arp_dmac (mac_at pkt.data 22)) pkt.ing_port s.fdb_table s.db).2.2) ∧
      ((u16_be_rd pkt.data 20 = ARP_OP_REPLY ∨ ¬ arp_target_local pkt s) →
        (arp_process_pkt (some pkt) s).tx = s.tx)) ∧
    ((pkt.pkt_len < 42 ∨ u16_be_rd pkt.data 12 ≠ ETH_TYPE_ARP ∨
        (u16_be_rd pkt.data 20 ≠ ARP_OP_REQUEST ∧ u16_be_rd pkt.data 20 ≠ ARP_OP_REPLY)) →
      arp_process_pkt (some pkt) s = s) ∧
    arp_process_pkt none s = s := by
  refine ⟨?_, arp_process_pkt_ignore pkt s, rfl⟩
  rintro ⟨h1, h2, h3⟩
  have hfr := arp_add_frame_tx (u32_be_rd pkt.data 28) (some (mac_at pkt.data 22))
    pkt.ing_port pkt.vlan_id s
  have hcases : arp_process_pkt (some pkt) s
        = (arp_add (u32_be_rd pkt.data 28) (some (mac_at pkt.data 22)) pkt.ing_port
            pkt.vlan_id s).2 ∨
      (u16_be_rd pkt.data 20 = ARP_OP_REQUEST ∧ arp_target_local pkt s ∧
        arp_process_pkt (some pkt) s
          = { (arp_add (u32_be_rd pkt.data 28) (some (mac_at pkt.data 22)) pkt.ing_port
                pkt.vlan_id s).2 with
              tx := send_arp_reply pkt.ing_port pkt.vlan_id (mac_at pkt.data 22)
                (u32_be_rd pkt.data 28) (s.l3_intf.getD pkt.ing_port l3_intf_zero).mac
                (s.l3_intf.getD pkt.ing_port l3_intf_zero).ip s.tx }) := by
    rcases h3 with h3 | h3
    · by_cases hl : arp_target_local pkt s
      · exact Or.inr ⟨h3, hl, arp_process_pkt_request_local pkt s h1 h2 h3 hl⟩
      · exact Or.inl (arp_process_pkt_learn pkt s h1 h2 (Or.inr ⟨h3, hl⟩))
    · exact Or.inl (arp_process_pkt_learn pkt s h1 h2 (Or.inl h3))
  have htab : (arp_process_pkt (some pkt) s).arp_table
        = (arp_add (u32_be_rd pkt.data 28) (some (mac_at pkt.data 22)) pkt.ing_port
            pkt.vlan_id s).2.arp_table ∧
      (arp_process_pkt (some pkt) s).fdb_table
        = (arp_add (u32_be_rd pkt.data 28) (some (mac_at pkt.data 22)) pkt.ing_port
            pkt.vlan_id s).2.fdb_table ∧
      (arp_process_pkt (some pkt) s).db
        = (arp_add (u32_be_rd pkt.data 28) (some (mac_at pkt.data 22)) pkt.ing_port
            pkt.vlan_id s).2.db ∧
      (arp_process_pkt (some pkt) s).l3_intf = s.l3_intf := by
    rcases hcases with h | ⟨_, _, h⟩ <;> rw [h] <;> exact ⟨rfl, rfl, rfl, hfr.2⟩
  refine ⟨htab.1, htab.2.1, htab.2.2.1, htab.2.2.2, ?_, ?_⟩
  · intro hok
    obtain ⟨e, hs⟩ := (arp_add_ok_iff s _ _ _ _).1 hok
    have hf := arp_add_frame s (u32_be_rd pkt.data 28) (mac_at pkt.data 22) pkt.ing_port
      pkt.vlan_id e hs
    refine ⟨?_, htab.2.1.trans hf.1, htab.2.2.1.trans hf.2.1⟩
    intro mo po hmo
    rw [htab.1]
    exact arp_add_lookup s _ _ _ _ hwf (mac_at_length _ _) hok mo po hmo
  · intro h
    rcases hcases with hc | ⟨hreq, hl, _⟩
    · rw [hc]
      exact hfr.1
    · rcases h with h | h
      · rw [hreq] at h
        exact absurd h (by decide)
      · exact absurd hl h

set_option maxRecDepth 100000 in
/-- C17 at the input of `test_arp_process_reply`: the sender is learnt on port 5 and
nothing is queued. -/
theorem c17_arp_process_pkt_learns_witness :
    arp_lookup 0xC0A80102 (some (List.replicate 6 0)) (some 0xFF)
        (arp_process_pkt (some arp_test_reply) (arp_init arp_sys_reset)).arp_table
      = (HAL_OK, some [0x00, 0xAA, 0xBB, 0xCC, 0xDD, 0xEE], some 5) ∧
    (arp_process_pkt (some arp_test_reply) (arp_init arp_sys_reset)).tx
      = (arp_init arp_sys_reset).tx :=
  have h := (c17_arp_process_pkt_learns (arp_init arp_sys_reset) arp_test_reply
    ⟨List.length_replicate _ _, arp_map_inv_init.2.1⟩).1 (by decide)
  ⟨(h.2.2.2.2.1 (by decide)).1 (List.replicate 6 0) 0xFF rfl, h.2.2.2.2.2 (Or.inl (by decide))⟩

theorem getD_arp_single (i j : Nat) (e : arp_entry_t) :
    (arp_single i e).getD j arp_entry_zero
      = if i = j ∧ i < ARP_TABLE_SIZE then e else arp_entry_zero := by
  unfold arp_single
  rw [getD_slot_update, List.length_replicate]
  have hz : (List.replicate ARP_TABLE_SIZE arp_entry_zero).getD j arp_entry_zero
      = arp_entry_zero := by
    simp only [List.getD_eq_getElem?_getD, List.getElem?_replicate]
    split <;> rfl
  split_ifs
  · rfl
  · exact hz

theorem arp_age_slot_free (now : Nat) (s : arp_sys) (i : Nat)
    (h : (s.arp_table.getD i arp_entry_zero).state = ARP_STATE_FREE) :
    arp_age_slot now s i = s := by
  unfold arp_age_slot
  simp only
  rw [if_pos h]

theorem arp_age_foldl_free (now : Nat) (l : List Nat) (s : arp_sys)
    (h : ∀ i ∈ l, (s.arp_table.getD i arp_entry_zero).state = ARP_STATE_FREE) :
    l.foldl (arp_age_slot now) s = s := by
  induction l with
  | nil => rfl
  | cons i l ih =>
    rw [List.foldl_cons, arp_age_slot_free now s i (h i (List.mem_cons_self _ _))]
    exact ih (fun j hj => h j (List.mem_cons_of_mem _ hj))

theorem arp_init_set_intf (s0 : arp_sys) (port lip : Nat) (lmac : List Nat) (hp : port < 32) :
    (arp_set_port_intf port lip (some lmac) (arp_init s0)).arp_table
      = List.replicate ARP_TABLE_SIZE arp_entry_zero ∧
    (arp_set_port_intf port lip (some lmac) (arp_init s0)).l3_intf.getD port l3_intf_zero
      = { ip := lip, mac := mac_at lmac 0, valid := 1 } ∧
    (arp_set_port_intf port lip (some lmac) (arp_init s0)).tx = s0.tx := by
  unfold arp_set_port_intf
  simp only
  rw [if_neg (Nat.not_le.mpr hp)]
  refine ⟨rfl, ?_, rfl⟩
  simp only [arp_init]
  rw [getD_slot_update, if_pos ⟨rfl, by rw [List.length_replicate]; exact hp⟩]
  have : (List.replicate 32 l3_intf_zero).getD port l3_intf_zero = l3_intf_zero := by
    simp only [List.getD_eq_getElem?_getD, List.getElem?_replicate]
    split <;> rfl
  rw [this]
  rfl

set_option maxRecDepth 1000000 in
/-- C19 (the code at the failing input): 10.0.1.154 is Reachable and resolves; after
`arp_probe(10.0.1.154, 0, 10)`, which succeeds, the ARP table is not what it was:
slot 146 has become an Incomplete entry for the same address in front of the
Reachable one in slot 147, and `arp_lookup(10.0.1.154)` returns -1. -/
theorem c19_probe_shadows_reachable :
    (arp_lookup 0x0A00019A none none arp_collide_sys.arp_table).1 = HAL_OK ∧
    (arp_probe 0x0A00019A 0 10 arp_collide_sys).1 = HAL_OK ∧
    (arp_probe 0x0A00019A 0 10 arp_collide_sys).2.arp_table ≠ arp_collide_sys.arp_table ∧
    ((arp_probe 0x0A00019A 0 10 arp_collide_sys).2.arp_table.getD 146 arp_entry_zero).ip
      = 0x0A00019A ∧
    ((arp_probe 0x0A00019A 0 10 arp_collide_sys).2.arp_table.getD 146 arp_entry_zero).state
      = ARP_STATE_INCOMPLETE ∧
    ((arp_probe 0x0A00019A 0 10 arp_collide_sys).2.arp_table.getD 147 arp_entry_zero).ip
      = 0x0A00019A ∧
    ((arp_probe 0x0A00019A 0 10 arp_collide_sys).2.arp_table.getD 147 arp_entry_zero).state
      = ARP_STATE_REACHABLE ∧
    arp_lookup 0x0A00019A none none (arp_probe 0x0A00019A 0 10 arp_collide_sys).2.arp_table
      = (-1, none, none) := by
  decide

theorem hal_tcam_insert_ret (e : tcam_entry_t) (db : List sim_tcam_rec_t) :
    (hal_tcam_insert (some e) db).1 = HAL_OK ∨ (hal_tcam_insert (some e) db).1 = HAL_ERR_FULL := by
  cases hf : sim_tcam_find db e.stage e.table_id with
  | some k =>
    rw [hal_tcam_insert_existing db e k hf]
    exact Or.inl rfl
  | none =>
    by_cases hl : db.length < SIM_TCAM_MAX
    · rw [hal_tcam_insert_new db e hf hl]
      exact Or.inl rfl
    · right
      simp [hal_tcam_insert, hf, Nat.not_lt.mp hl]

theorem route_tcam_id_eq (pfx len : Nat) :
    route_tcam_id pfx len = if len = 0 then 0 else (pfx >>> (32 - len)) % 2 ^ 16 := by
  unfold route_tcam_id TABLE_IPV4_LPM_BASE
  split_ifs
  · rfl
  · rw [Nat.zero_add]
    exact Nat.mod_mod_of_dvd _ (by decide)

theorem route_add_ok_live (pfx len port dmac : Nat) (rt : List route_entry_t)
    (db : List sim_tcam_rec_t) (hadd : (route_add pfx len port dmac rt db).1 = HAL_OK) :
    ∃ x ∈ (route_add pfx len port dmac rt db).2.2,
      rec_live x = true ∧ x.entry = route_tcam_entry pfx len port dmac := by
  unfold route_add at hadd ⊢
  split_ifs at hadd ⊢ with h32
  · exact absurd hadd (show HAL_ERR_INVAL ≠ HAL_OK by decide)
  · cases hs : route_add_slot rt pfx len with
    | none => rw [hs] at hadd; exact absurd hadd (show HAL_ERR_FULL ≠ HAL_OK by decide)
    | some slot =>
      rw [hs] at hadd
      exact hal_tcam_insert_ok_live db _ hadd

/-- C30, the claim at `len = 0`: `route_add(0x0A000001, 0, 1, 0)` on the initial state
returns `HAL_OK` and installs its Stage-0 entry at table id 0, while the prefix
truncated to 16 bits is 1, and no live Stage-0 entry has table id 1. -/
theorem c30_counterexample :
    (route_add 0x0A000001 0 1 0 route_init []).1 = HAL_OK ∧
    0x0A000001 % 2 ^ 16 = 1 ∧
    (∃ x ∈ (route_add 0x0A000001 0 1 0 route_init []).2.2,
      rec_live x = true ∧ x.entry.stage = TABLE_IPV4_LPM_STAGE ∧ x.entry.table_id = 0) ∧
    ¬ (∃ x ∈ (route_add 0x0A000001 0 1 0 route_init []).2.2,
      rec_live x = true ∧ x.entry.stage = TABLE_IPV4_LPM_STAGE ∧
        x.entry.table_id = 0x0A000001 % 2 ^ 16) := by
  rw [route_add_init 0x0A000001 0 1 0 (by decide)]
  decide

/-- C30 (amended): whenever `route_add(prefix, len, port, mac)` returns `HAL_OK`, the
rule store holds a live Stage-0 entry with the key, mask and action of the route
whose table id is `(prefix >> (32 - len))` truncated to 16 bits for
`1 <= len <= 32` and `TABLE_IPV4_LPM_BASE = 0` for `len = 0`; 10.0.0.0/8 gives 10,
192.168.1.1/32 gives 0x0101 and 0.0.0.0/0 gives 0. -/
theorem c30_route_table_id (pfx len port dmac : Nat) (rt : List route_entry_t)
    (db : List sim_tcam_rec_t) (hadd : (route_add pfx len port dmac rt db).1 = HAL_OK) :
    (∃ x ∈ (route_add pfx len port dmac rt db).2.2,
      rec_live x = true ∧ x.entry = route_tcam_entry pfx len port dmac ∧
      x.entry.stage = TABLE_IPV4_LPM_STAGE ∧
      x.entry.table_id = if len = 0 then 0 else (pfx >>> (32 - len)) % 2 ^ 16) ∧
    route_tcam_id 0x0A000000 8 = 10 ∧
    route_tcam_id 0xC0A80101 32 = 0x0101 ∧
    route_tcam_id 0 0 = 0 := by
  refine ⟨?_, by decide, by decide, by decide⟩
  obtain ⟨x, hx, hl, he⟩ := route_add_ok_live pfx len port dmac rt db hadd
  refine ⟨x, hx, hl, he, ?_, ?_⟩
  · rw [he]; exact route_tcam_entry_stage pfx len port dmac
  · rw [he, route_tcam_entry_table_id, route_tcam_id_eq]

/-- C30 at 10.0.0.0/8, port 1, on the initial state. -/
theorem c30_route_table_id_witness :
    (route_add 0x0A000000 8 1 0xAABBCCDDEEFF route_init []).1 = HAL_OK ∧
    ((∃ x ∈ (route_add 0x0A000000 8 1 0xAABBCCDDEEFF route_init []).2.2,
      rec_live x = true ∧ x.entry = route_tcam_entry 0x0A000000 8 1 0xAABBCCDDEEFF ∧
      x.entry.stage = TABLE_IPV4_LPM_STAGE ∧
      x.entry.table_id = if 8 = 0 then 0 else (0x0A000000 >>> (32 - 8)) % 2 ^ 16) ∧
    route_tcam_id 0x0A000000 8 = 10 ∧
    route_tcam_id 0xC0A80101 32 = 0x0101 ∧
    route_tcam_id 0 0 = 0) :=
  ⟨by rw [route_add_init _ _ _ _ (by decide)],
   c30_route_table_id 0x0A000000 8 1 0xAABBCCDDEEFF route_init []
     (by rw [route_add_init _ _ _ _ (by decide)])⟩

/-! ## C28: what `pkt_parse` leaves at zero -/

theorem pkt_parse_vlan_absent (raw : List Nat) (raw_len : Nat) (phv : phv_t)
    (h : ¬ frame_has_tag raw raw_len) :
    pkt_parse_vlan raw raw_len phv (frame_eth_type raw)
      = (phv, frame_inner_type raw raw_len, frame_ip_start raw raw_len) := by
  have h2 : ¬ (frame_eth_type raw = 0x8100 ∧ raw_len ≥ 18) := h
  unfold pkt_parse_vlan frame_inner_type frame_ip_start
  rw [if_neg h2, if_neg h, if_neg h]

theorem pkt_parse_vlan_present (raw : List Nat) (raw_len : Nat) (phv : phv_t)
    (h : frame_has_tag raw raw_len) (hlen : phv.hdr.length = 512) :
    (pkt_parse_vlan raw raw_len phv (frame_eth_type raw)).2
      = (frame_inner_type raw raw_len, frame_ip_start raw raw_len) ∧
    (pkt_parse_vlan raw raw_len phv (frame_eth_type raw)).1.hdr.length = 512 ∧
    (∀ i, i ≠ 14 → i ≠ 15 →
      (pkt_parse_vlan raw raw_len phv (frame_eth_type raw)).1.hdr.getD i 0
        = phv.hdr.getD i 0) ∧
    (pkt_parse_vlan raw raw_len phv (frame_eth_type raw)).1.ig_port = phv.ig_port ∧
    (pkt_parse_vlan raw raw_len phv (frame_eth_type raw)).1.eg_port = phv.eg_port ∧
    (pkt_parse_vlan raw raw_len phv (frame_eth_type raw)).1.drop = phv.drop ∧
    (pkt_parse_vlan raw raw_len phv (frame_eth_type raw)).1.punt = phv.punt ∧
    (pkt_parse_vlan raw raw_len phv (frame_eth_type raw)).1.qos_prio = phv.qos_prio ∧
    (pkt_parse_vlan raw raw_len phv (frame_eth_type raw)).1.vlan_action = phv.vlan_action := by
  have h2 : frame_eth_type raw = 0x8100 ∧ raw_len ≥ 18 := h
  unfold pkt_parse_vlan frame_inner_type frame_ip_start
  rw [if_pos h2, if_pos h, if_pos h]
  refine ⟨rfl, by simp [hlen], ?_, rfl, rfl, rfl, rfl, rfl, rfl⟩
  intro i hi hi2
  simp only [getD_set_zero, PHV_OFF_VLAN_TCI]
  have h3 : ¬ (14 + 1 = i ∧ 14 + 1 < (phv.hdr.set 14 (raw.getD 14 0)).length) := by omega
  have h4 : ¬ (14 = i ∧ 14 < phv.hdr.length) := by omega
  rw [if_neg h3, if_neg h4]

theorem pkt_parse_ipv4_hdr_high (raw : List Nat) (phv : phv_t) (ip i : Nat) (hi : 38 ≤ i) :
    (pkt_parse_ipv4_hdr raw phv ip).hdr.getD i 0 = phv.hdr.getD i 0 := by
  unfold pkt_parse_ipv4_hdr
  simp only [getD_memcpy, getD_set_zero, length_memcpy, List.length_set,
    PHV_OFF_IPV4_VER_IHL, PHV_OFF_IPV4_DSCP, PHV_OFF_IPV4_TOT_LEN,
    PHV_OFF_IPV4_TTL, PHV_OFF_IPV4_PROTO, PHV_OFF_IPV4_SRC, PHV_OFF_IPV4_DST]
  have h1 : ¬ (34 ≤ i ∧ i < 34 + 4 ∧ i < phv.hdr.length) := by omega
  have h2 : ¬ (30 ≤ i ∧ i < 30 + 4 ∧ i < phv.hdr.length) := by omega
  have h3 : ¬ (27 = i ∧ 27 < phv.hdr.length) := by omega
  have h4 : ¬ (26 = i ∧ 26 < phv.hdr.length) := by omega
  have h5 : ¬ (20 + 1 = i ∧ 20 + 1 < phv.hdr.length) := by omega
  have h6 : ¬ (20 = i ∧ 20 < phv.hdr.length) := by omega
  have h7 : ¬ (19 = i ∧ 19 < phv.hdr.length) := by omega
  have h8 : ¬ (18 = i ∧ 18 < phv.hdr.length) := by omega
  rw [if_neg h1, if_neg h2, if_neg h3, if_neg h4, if_neg h5, if_neg h6, if_neg h7,
    if_neg h8]

/-- The IPv4 block of `pkt_parse` on the PHV the 802.1Q block leaves. -/
theorem pkt_parse_ipv4_spec (raw : List Nat) (raw_len : Nat) (phv : phv_t)
    (hlen : phv.hdr.length = 512) :
    (¬ frame_has_ipv4 raw raw_len →
      pkt_parse_ipv4 raw raw_len phv (frame_inner_type raw raw_len)
        (frame_ip_start raw raw_len) = phv) ∧
    (¬ frame_has_l4 raw raw_len → ∀ i, 38 ≤ i →
      (pkt_parse_ipv4 raw raw_len phv (frame_inner_type raw raw_len)
        (frame_ip_start raw raw_len)).hdr.getD i 0 = phv.hdr.getD i 0) ∧
    (pkt_parse_ipv4 raw raw_len phv (frame_inner_type raw raw_len)
        (frame_ip_start raw raw_len)).hdr.length = 512 ∧
    (∀ i, i < 18 → (pkt_parse_ipv4 raw raw_len phv (frame_inner_type raw raw_len)
        (frame_ip_start raw raw_len)).hdr.getD i 0 = phv.hdr.getD i 0) ∧
    (pkt_parse_ipv4 raw raw_len phv (frame_inner_type raw raw_len)
        (frame_ip_start raw raw_len)).ig_port = phv.ig_port ∧
    (pkt_parse_ipv4 raw raw_len phv (frame_inner_type raw raw_len)
        (frame_ip_start raw raw_len)).eg_port = phv.eg_port ∧
    (pkt_parse_ipv4 raw raw_len phv (frame_inner_type raw raw_len)
        (frame_ip_start raw raw_len)).drop = phv.drop ∧
    (pkt_parse_ipv4 raw raw_len phv (frame_inner_type raw raw_len)
        (frame_ip_start raw raw_len)).punt = phv.punt ∧
    (pkt_parse_ipv4 raw raw_len phv (frame_inner_type raw raw_len)
        (frame_ip_start raw raw_len)).vlan_id = phv.vlan_id ∧
    (pkt_parse_ipv4 raw raw_len phv (frame_inner_type raw raw_len)
        (frame_ip_start raw raw_len)).qos_prio = phv.qos_prio ∧
    (pkt_parse_ipv4 raw raw_len phv (frame_inner_type raw raw_len)
        (frame_ip_start raw raw_len)).vlan_action = phv.vlan_action := by
  have hs : frame_ip_start raw raw_len = 14 ∨ frame_ip_start raw raw_len = 18 := by
    unfold frame_ip_start
    split_ifs
    · exact Or.inr rfl
    · exact Or.inl rfl
  have hmod : (frame_ip_start raw raw_len + 20) % 2 ^ 16 = frame_ip_start raw raw_len + 20 := by
    apply Nat.mod_eq_of_lt
    rcases hs with h | h <;> omega
  by_cases hip : frame_has_ipv4 raw raw_len
  · have hc : frame_inner_type raw raw_len = 0x0800 ∧
        raw_len ≥ (frame_ip_start raw raw_len + 20) % 2 ^ 16 := by
      rw [hmod]; exact hip
    have he : pkt_parse_ipv4 raw raw_len phv (frame_inner_type raw raw_len)
        (frame_ip_start raw raw_len)
        = pkt_parse_l4 raw raw_len (pkt_parse_ipv4_hdr raw phv (frame_ip_start raw raw_len))
            (frame_ip_start raw raw_len) := by
      unfold pkt_parse_ipv4
      rw [if_pos hc]
    rw [he]
    obtain ⟨a1, a2, a3, a4, a5, a6, a7, a8, a9⟩ :=
      pkt_parse_l4_frame raw raw_len (pkt_parse_ipv4_hdr raw phv (frame_ip_start raw raw_len))
        (frame_ip_start raw raw_len)
    obtain ⟨b1, b2, _, _, b5, b6, b7, b8, b9, b10, b11⟩ :=
      pkt_parse_ipv4_hdr_at raw phv (frame_ip_start raw raw_len) hlen
    refine ⟨fun h => absurd hip h, ?_, by rw [a1, b1], ?_, by rw [a3, b5], by rw [a4, b6],
      by rw [a5, b7], by rw [a6, b8], by rw [a7, b9], by rw [a8, b10], by rw [a9, b11]⟩
    · intro hl4 i hi
      have hihl : (raw.getD (frame_ip_start raw raw_len + 0) 0 &&& 0x0F) * 4 ≤ 60 := by
        have := @Nat.and_le_right (raw.getD (frame_ip_start raw raw_len + 0) 0) 0x0F
        omega
      have hc2 : ¬ ((raw.getD (frame_ip_start raw raw_len + 9) 0 = 6 ∨
            raw.getD (frame_ip_start raw raw_len + 9) 0 = 17) ∧
          raw_len ≥ (frame_ip_start raw raw_len +
            (raw.getD (frame_ip_start raw raw_len + 0) 0 &&& 0x0F) * 4 + 4) % 2 ^ 16) := by
        intro hh
        apply hl4
        refine ⟨hip, hh.1, ?_⟩
        have hm : (frame_ip_start raw raw_len +
            (raw.getD (frame_ip_start raw raw_len + 0) 0 &&& 0x0F) * 4 + 4) % 2 ^ 16
            = frame_ip_start raw raw_len +
            (raw.getD (frame_ip_start raw raw_len + 0) 0 &&& 0x0F) * 4 + 4 := by
          apply Nat.mod_eq_of_lt
          rcases hs with h | h <;> omega
        have h2 := hh.2
        rw [hm] at h2
        exact h2
      have he2 : pkt_parse_l4 raw raw_len
          (pkt_parse_ipv4_hdr raw phv (frame_ip_start raw raw_len)) (frame_ip_start raw raw_len)
          = pkt_parse_ipv4_hdr raw phv (frame_ip_start raw raw_len) := by
        unfold pkt_parse_l4
        simp only
        rw [if_neg hc2]
      rw [he2]
      exact pkt_parse_ipv4_hdr_high raw phv _ i hi
    · intro i hi
      rw [a2 i (by omega), b2 i hi]
  · have hc : ¬ (frame_inner_type raw raw_len = 0x0800 ∧
        raw_len ≥ (frame_ip_start raw raw_len + 20) % 2 ^ 16) := by
      rw [hmod]; exact hip
    have he : pkt_parse_ipv4 raw raw_len phv (frame_inner_type raw raw_len)
        (frame_ip_start raw raw_len) = phv := by
      unfold pkt_parse_ipv4
      rw [if_neg hc]
    rw [he]
    exact ⟨fun _ => rfl, fun _ _ _ => rfl, hlen, fun _ _ => rfl, rfl, rfl, rfl, rfl, rfl, rfl,
      rfl⟩

theorem pkt_parse_short (raw : List Nat) (raw_len ing_port : Nat) (phv : phv_t)
    (h : raw_len < 14) : pkt_parse raw raw_len ing_port phv = (-1, phv) := by
  unfold pkt_parse
  rw [if_pos h]

theorem pkt_parse_long (raw : List Nat) (raw_len ing_port : Nat) (phv : phv_t)
    (h : 14 ≤ raw_len) :
    pkt_parse raw raw_len ing_port phv
      = (0, pkt_parse_ipv4 raw raw_len
          (pkt_parse_vlan raw raw_len (pkt_parse_eth raw ing_port) (frame_eth_type raw)).1
          (pkt_parse_vlan raw raw_len (pkt_parse_eth raw ing_port) (frame_eth_type raw)).2.1
          (pkt_parse_vlan raw raw_len (pkt_parse_eth raw ing_port) (frame_eth_type raw)).2.2) := by
  unfold pkt_parse
  rw [if_neg (Nat.not_lt.mpr h)]
  rfl

/-- What `pkt_parse` returns and which bytes and fields of the PHV it leaves at zero. -/
theorem pkt_parse_spec (raw : List Nat) (raw_len ing_port : Nat) (phv : phv_t) :
    ((pkt_parse raw raw_len ing_port phv).1 = -1 ↔ raw_len < 14) ∧
    (raw_len < 14 → pkt_parse raw raw_len ing_port phv = (-1, phv)) ∧
    (14 ≤ raw_len →
      (pkt_parse raw raw_len ing_port phv).1 = 0 ∧
      pkt_parse raw raw_len ing_port phv = pkt_parse raw raw_len ing_port phv_zero ∧
      (pkt_parse raw raw_len ing_port phv).2.hdr.length = PKT_PHV_HDR_SIZE ∧
      (pkt_parse raw raw_len ing_port phv).2.ig_port = ing_port ∧
      (pkt_parse raw raw_len ing_port phv).2.eg_port = 0 ∧
      (pkt_parse raw raw_len ing_port phv).2.drop = 0 ∧
      (pkt_parse raw raw_len ing_port phv).2.punt = 0 ∧
      (pkt_parse raw raw_len ing_port phv).2.qos_prio = 0 ∧
      (pkt_parse raw raw_len ing_port phv).2.vlan_action = 0 ∧
      (∀ i, i < 14 → (pkt_parse raw raw_len ing_port phv).2.hdr.getD i 0 = raw.getD i 0) ∧
      (pkt_parse raw raw_len ing_port phv).2.hdr.getD 16 0 = 0 ∧
      (pkt_parse raw raw_len ing_port phv).2.hdr.getD 17 0 = 0 ∧
      (¬ frame_has_tag raw raw_len →
        (pkt_parse raw raw_len ing_port phv).2.hdr.getD PHV_OFF_VLAN_TCI 0 = 0 ∧
        (pkt_parse raw raw_len ing_port phv).2.hdr.getD (PHV_OFF_VLAN_TCI + 1) 0 = 0 ∧
        (pkt_parse raw raw_len ing_port phv).2.vlan_id = 0) ∧
      (¬ frame_has_ipv4 raw raw_len → ∀ i, PHV_OFF_IPV4_VER_IHL ≤ i →
        (pkt_parse raw raw_len ing_port phv).2.hdr.getD i 0 = 0) ∧
      (¬ frame_has_l4 raw raw_len → ∀ i, PHV_OFF_TCP_SPORT ≤ i →
        (pkt_parse raw raw_len ing_port phv).2.hdr.getD i 0 = 0)) := by
  refine ⟨?_, pkt_parse_short raw raw_len ing_port phv, ?_⟩
  · constructor
    · intro h
      by_contra hn
      rw [pkt_parse_long raw raw_len ing_port phv (Nat.le_of_not_lt hn)] at h
      exact absurd h (show (0 : Int) ≠ -1 by decide)
    · intro h
      rw [pkt_parse_short raw raw_len ing_port phv h]
  intro h14
  have hz := pkt_parse_long raw raw_len ing_port phv_zero h14
  rw [pkt_parse_long raw raw_len ing_port phv h14]
  refine ⟨rfl, hz.symm, ?_⟩
  obtain ⟨e1, e2⟩ := pkt_parse_eth_hdr raw ing_port
  have em : (pkt_parse_eth raw ing_port).ig_port = ing_port ∧
      (pkt_parse_eth raw ing_port).eg_port = 0 ∧ (pkt_parse_eth raw ing_port).drop = 0 ∧
      (pkt_parse_eth raw ing_port).punt = 0 ∧ (pkt_parse_eth raw ing_port).vlan_id = 0 ∧
      (pkt_parse_eth raw ing_port).qos_prio = 0 ∧
      (pkt_parse_eth raw ing_port).vlan_action = 0 := ⟨rfl, rfl, rfl, rfl, rfl, rfl, rfl⟩
  obtain ⟨m1, m2, m3, m4, m5, m6, m7⟩ := em
  by_cases ht : frame_has_tag raw raw_len
  · obtain ⟨v1, v2, v3, v4, v5, v6, v7, v8, v9⟩ :=
      pkt_parse_vlan_present raw raw_len (pkt_parse_eth raw ing_port) ht e1
    generalize pkt_parse_vlan raw raw_len (pkt_parse_eth raw ing_port) (frame_eth_type raw)
      = V at v1 v2 v3 v4 v5 v6 v7 v8 v9 ⊢
    obtain ⟨P, t, s⟩ := V
    simp only [Prod.mk.injEq] at v1
    obtain ⟨rfl, rfl⟩ := v1
    simp only at v2 v3 v4 v5 v6 v7 v8 v9 ⊢
    obtain ⟨p1, p2, p3, p4, p5, p6, p7, p8, p9, p10, p11⟩ :=
      pkt_parse_ipv4_spec raw raw_len P v2
    refine ⟨p3, by rw [p5, v4, m1], by rw [p6, v5, m2], by rw [p7, v6, m3],
      by rw [p8, v7, m4], by rw [p10, v8, m6], by rw [p11, v9, m7], ?_, ?_, ?_,
      fun h => absurd ht h, ?_, ?_⟩
    · intro i hi
      rw [p4 i (by omega), v3 i (by omega) (by omega), e2, if_pos hi]
    · rw [p4 16 (by omega), v3 16 (by omega) (by omega), e2]; rfl
    · rw [p4 17 (by omega), v3 17 (by omega) (by omega), e2]; rfl
    · intro hip i hi
      unfold PHV_OFF_IPV4_VER_IHL at hi
      rw [p1 hip, v3 i (by omega) (by omega), e2]
      exact if_neg (by omega)
    · intro hl4 i hi
      unfold PHV_OFF_TCP_SPORT at hi
      rw [p2 hl4 i hi, v3 i (by omega) (by omega), e2]
      exact if_neg (by omega)
  · rw [pkt_parse_vlan_absent raw raw_len (pkt_parse_eth raw ing_port) ht]
    simp only
    obtain ⟨p1, p2, p3, p4, p5, p6, p7, p8, p9, p10, p11⟩ :=
      pkt_parse_ipv4_spec raw raw_len (pkt_parse_eth raw ing_port) e1
    refine ⟨p3, by rw [p5, m1], by rw [p6, m2], by rw [p7, m3],
      by rw [p8, m4], by rw [p10, m6], by rw [p11, m7], ?_, ?_, ?_, ?_, ?_, ?_⟩
    · intro i hi
      rw [p4 i (by omega), e2, if_pos hi]
    · rw [p4 16 (by omega), e2]; rfl
    · rw [p4 17 (by omega), e2]; rfl
    · intro _
      refine ⟨?_, ?_, by rw [p9, m5]⟩
      · rw [p4 _ (by decide), e2]; rfl
      · rw [p4 _ (by decide), e2]; rfl
    · intro hip i hi
      rw [p1 hip, e2]
      unfold PHV_OFF_IPV4_VER_IHL at hi
      exact if_neg (by omega)
    · intro hl4 i hi
      unfold PHV_OFF_TCP_SPORT at hi
      rw [p2 hl4 i hi, e2]
      exact if_neg (by omega)

/-- C28: `pkt_parse` on a non-null frame returns -1 exactly when `raw_len < 14`, and
then hands the PHV back as it was. For `raw_len >= 14` it returns 0 and the PHV does
not depend on the one passed in (it is zeroed first): `ig_port` is the ingress port,
`eg_port`, `drop`, `punt`, `qos_prio` and `vlan_action` are 0, bytes 0..13 are the
Ethernet header and bytes 16, 17 are 0; without a whole 802.1Q tag the TCI bytes 14,
15 and `vlan_id` are 0; without a whole IPv4 header every byte from 18 on (IPv4
fields and ports) is 0; without TCP/UDP port bytes every byte from 38 on is 0. -/
theorem c28_pkt_parse_zeroes (raw : List Nat) (raw_len ing_port : Nat) (phv : phv_t) :
    ((pkt_parse raw raw_len ing_port phv).1 = -1 ↔ raw_len < 14) ∧
    (raw_len < 14 → pkt_parse raw raw_len ing_port phv = (-1, phv)) ∧
    (14 ≤ raw_len →
      (pkt_parse raw raw_len ing_port phv).1 = 0 ∧
      pkt_parse raw raw_len ing_port phv = pkt_parse raw raw_len ing_port phv_zero ∧
      (pkt_parse raw raw_len ing_port phv).2.hdr.length = PKT_PHV_HDR_SIZE ∧
      (pkt_parse raw raw_len ing_port phv).2.ig_port = ing_port ∧
      (pkt_parse raw raw_len ing_port phv).2.eg_port = 0 ∧
      (pkt_parse raw raw_len ing_port phv).2.drop = 0 ∧
      (pkt_parse raw raw_len ing_port phv).2.punt = 0 ∧
      (pkt_parse raw raw_len ing_port phv).2.qos_prio = 0 ∧
      (pkt_parse raw raw_len ing_port phv).2.vlan_action = 0 ∧
      (∀ i, i < 14 → (pkt_parse raw raw_len ing_port phv).2.hdr.getD i 0 = raw.getD i 0) ∧
      (pkt_parse raw raw_len ing_port phv).2.hdr.getD 16 0 = 0 ∧
      (pkt_parse raw raw_len ing_port phv).2.hdr.getD 17 0 = 0 ∧
      (¬ frame_has_tag raw raw_len →
        (pkt_parse raw raw_len ing_port phv).2.hdr.getD PHV_OFF_VLAN_TCI 0 = 0 ∧
        (pkt_parse raw raw_len ing_port phv).2.hdr.getD (PHV_OFF_VLAN_TCI + 1) 0 = 0 ∧
        (pkt_parse raw raw_len ing_port phv).2.vlan_id = 0) ∧
      (¬ frame_has_ipv4 raw raw_len → ∀ i, PHV_OFF_IPV4_VER_IHL ≤ i →
        (pkt_parse raw raw_len ing_port phv).2.hdr.getD i 0 = 0) ∧
      (¬ frame_has_l4 raw raw_len → ∀ i, PHV_OFF_TCP_SPORT ≤ i →
        (pkt_parse raw raw_len ing_port phv).2.hdr.getD i 0 = 0)) :=
  pkt_parse_spec raw raw_len ing_port phv

/-! ## C29: drop and punt stop the pipeline -/

theorem pkt_forward_loop_stopped (db : List sim_tcam_rec_t) (phv : phv_t) (stage n : Nat)
    (h : phv.drop ≠ 0 ∨ phv.punt ≠ 0) : pkt_forward_loop db phv stage n = phv := by
  cases n with
  | zero => rfl
  | succ n => rw [pkt_forward_loop, if_pos h]

theorem pkt_forward_loop_add (db : List sim_tcam_rec_t) (phv : phv_t) (stage k m : Nat) :
    pkt_forward_loop db phv stage (k + m)
      = pkt_forward_loop db (pkt_forward_loop db phv stage k) (stage + k) m := by
  induction k generalizing phv stage with
  | zero => rw [Nat.zero_add, Nat.add_zero]; rfl
  | succ k ih =>
    have e : k + 1 + m = (k + m) + 1 := by omega
    rw [e, pkt_forward_loop, pkt_forward_loop]
    by_cases h : phv.drop ≠ 0 ∨ phv.punt ≠ 0
    · rw [if_pos h, if_pos h, pkt_forward_loop_stopped db phv _ m h]
    · rw [if_neg h, if_neg h, ih]
      have e2 : stage + 1 + k = stage + (k + 1) := by omega
      rw [e2]

theorem apply_action_keeps_flags (phv : phv_t) (r : sim_tcam_rec_t) :
    ((apply_action phv r).drop = phv.drop ∨ (apply_action phv r).drop = 1) ∧
    ((apply_action phv r).punt = phv.punt ∨ (apply_action phv r).punt = 1) := by
  unfold apply_action
  simp only
  by_cases h0 : r.entry.action_id = ACTION_FORWARD
  · rw [if_pos h0]
    exact ⟨Or.inl rfl, Or.inl rfl⟩
  rw [if_neg h0]
  by_cases h1 : r.entry.action_id = ACTION_DROP
  · rw [if_pos h1]
    exact ⟨Or.inr rfl, Or.inl rfl⟩
  rw [if_neg h1]
  by_cases h2 : r.entry.action_id = ACTION_PERMIT
  · rw [if_pos h2]
    exact ⟨Or.inl rfl, Or.inl rfl⟩
  rw [if_neg h2]
  by_cases h3 : r.entry.action_id = ACTION_DENY
  · rw [if_pos h3]
    exact ⟨Or.inr rfl, Or.inl rfl⟩
  rw [if_neg h3]
  by_cases h4 : r.entry.action_id = ACTION_L2_FORWARD
  · rw [if_pos h4]
    exact ⟨Or.inl rfl, Or.inl rfl⟩
  rw [if_neg h4]
  by_cases h5 : r.entry.action_id = ACTION_FLOOD
  · rw [if_pos h5]
    exact ⟨Or.inl rfl, Or.inl rfl⟩
  rw [if_neg h5]
  by_cases h6 : r.entry.action_id = ACTION_PUNT_CPU
  · rw [if_pos h6]
    exact ⟨Or.inl rfl, Or.inr rfl⟩
  rw [if_neg h6]
  by_cases h7 : r.entry.action_id = ACTION_VLAN_ASSIGN_PVID
  · rw [if_pos h7]
    exact ⟨Or.inl rfl, Or.inl rfl⟩
  rw [if_neg h7]
  by_cases h8 : r.entry.action_id = ACTION_VLAN_ACCEPT_TAGGED
  · rw [if_pos h8]
    split <;> exact ⟨Or.inl rfl, Or.inl rfl⟩
  rw [if_neg h8]
  by_cases h9 : r.entry.action_id = ACTION_VLAN_DROP
  · rw [if_pos h9]
    exact ⟨Or.inr rfl, Or.inl rfl⟩
  rw [if_neg h9]
  by_cases h10 : r.entry.action_id = ACTION_VLAN_STRIP_TAG
  · rw [if_pos h10]
    exact ⟨Or.inl rfl, Or.inl rfl⟩
  rw [if_neg h10]
  by_cases h11 : r.entry.action_id = ACTION_VLAN_KEEP_TAG
  · rw [if_pos h11]
    exact ⟨Or.inl rfl, Or.inl rfl⟩
  rw [if_neg h11]
  by_cases h12 : r.entry.action_id = ACTION_SET_PRIO
  · rw [if_pos h12]
    exact ⟨Or.inl rfl, Or.inl rfl⟩
  rw [if_neg h12]
  exact ⟨Or.inl rfl, Or.inl rfl⟩

/-- C29: `pkt_forward` on a PHV with `drop` or `punt` set returns 0 with that PHV
unchanged and the result copied from it, whatever the rule store holds. If after the
first `k` stages (`k <= 7`) the PHV has `drop` or `punt` set, the PHV that
`pkt_forward` returns is that PHV, and the result carries its `drop` and `punt`; so
a drop set by Stage 1 (the ACL) stands in the result. No action clears a flag:
after `apply_action` each of `drop`, `punt` is what it was or 1. -/
theorem c29_forward_short_circuit (db : List sim_tcam_rec_t) (phv : phv_t) :
    (phv.drop ≠ 0 ∨ phv.punt ≠ 0 →
      pkt_forward db phv
        = (0, phv, { eg_port := phv.eg_port, drop := phv.drop, punt := phv.punt,
                     vlan_id := phv.vlan_id, qos_prio := phv.qos_prio,
                     vlan_action := phv.vlan_action })) ∧
    (∀ k, k ≤ PKT_NUM_STAGES →
      (pkt_forward_loop db phv 0 k).drop ≠ 0 ∨ (pkt_forward_loop db phv 0 k).punt ≠ 0 →
      (pkt_forward db phv).2.1 = pkt_forward_loop db phv 0 k ∧
      (pkt_forward db phv).2.2.drop = (pkt_forward_loop db phv 0 k).drop ∧
      (pkt_forward db phv).2.2.punt = (pkt_forward_loop db phv 0 k).punt) ∧
    ((pkt_forward_loop db phv 0 2).drop ≠ 0 → (pkt_forward db phv).2.2.drop ≠ 0) ∧
    (∀ r, ((apply_action phv r).drop = phv.drop ∨ (apply_action phv r).drop = 1) ∧
      ((apply_action phv r).punt = phv.punt ∨ (apply_action phv r).punt = 1)) ∧
    (pkt_forward db phv).2.2.drop = (pkt_forward db phv).2.1.drop ∧
    (pkt_forward db phv).2.2.punt = (pkt_forward db phv).2.1.punt := by
  have hk : ∀ k, k ≤ PKT_NUM_STAGES →
      (pkt_forward_loop db phv 0 k).drop ≠ 0 ∨ (pkt_forward_loop db phv 0 k).punt ≠ 0 →
      pkt_forward_loop db phv 0 PKT_NUM_STAGES = pkt_forward_loop db phv 0 k := by
    intro k hk hf
    obtain ⟨m, hm⟩ := Nat.exists_eq_add_of_le hk
    rw [hm, pkt_forward_loop_add, pkt_forward_loop_stopped db _ _ m hf]
  refine ⟨?_, ?_, ?_, apply_action_keeps_flags phv, rfl, rfl⟩
  · intro h
    rw [pkt_forward_eq, pkt_forward_loop_stopped db phv 0 _ h]
  · intro k hk7 hf
    rw [pkt_forward_eq]
    simp only
    rw [hk k hk7 hf]
    exact ⟨rfl, rfl, rfl⟩
  · intro h
    rw [pkt_forward_eq]
    simp only
    rw [hk 2 (by decide) (Or.inl h)]
    exact h

/-! ## One call of the rule store and the other table ids -/

theorem findIdx?_congr_map {α : Type} (p : α → Bool) (l1 l2 : List α) (i : Nat)
    (h : l1.map p = l2.map p) : l1.findIdx? p i = l2.findIdx? p i := by
  induction l1 generalizing l2 i with
  | nil =>
    cases l2 with
    | nil => rfl
    | cons y ys => simp at h
  | cons x xs ih =>
    cases l2 with
    | nil => simp at h
    | cons y ys =>
      simp only [List.map_cons, List.cons.injEq] at h
      rw [List.findIdx?_cons, List.findIdx?_cons, h.1, ih ys (i + 1) h.2]

theorem map_slot_update_congr {α β : Type} (p : α → β) (f : α → α) (l : List α) (j : Nat)
    (h : ∀ x, l[j]? = some x → p (f x) = p x) : (slot_update f l j).map p = l.map p := by
  induction l generalizing j with
  | nil => rfl
  | cons x xs ih =>
    cases j with
    | zero =>
      simp only [slot_update, List.map_cons]
      rw [h x (by simp)]
    | succ j =>
      simp only [slot_update, List.map_cons]
      rw [ih j (fun y hy => h y (by simpa using hy))]

/-- Marking dead the record found for `(stage, table_id)`. -/
theorem hal_tcam_delete_found (db : List sim_tcam_rec_t) (stage table_id j : Nat)
    (hf : sim_tcam_find db stage table_id = some j) :
    hal_tcam_delete stage table_id db
      = (HAL_OK, slot_update (fun r => { r with deleted := 1 }) db j) := by
  unfold hal_tcam_delete
  rw [hf]

theorem hal_tcam_delete_absent (db : List sim_tcam_rec_t) (stage table_id : Nat)
    (hf : sim_tcam_find db stage table_id = none) :
    hal_tcam_delete stage table_id db = (HAL_ERR_INVAL, db) := by
  unfold hal_tcam_delete
  rw [hf]

/-- A delete does not move or change what `sim_tcam_find` returns for another key. -/
theorem sim_tcam_find_delete_other (db : List sim_tcam_rec_t) (stage table_id s2 t2 : Nat)
    (hne : ¬ (s2 = stage ∧ t2 = table_id)) :
    sim_tcam_find (hal_tcam_delete stage table_id db).2 s2 t2 = sim_tcam_find db s2 t2 := by
  cases hf : sim_tcam_find db stage table_id with
  | none => rw [hal_tcam_delete_absent db stage table_id hf]
  | some j =>
    rw [hal_tcam_delete_found db stage table_id j hf, sim_tcam_find_eq, sim_tcam_find_eq]
    apply findIdx?_congr_map
    apply map_slot_update_congr
    intro x hx
    obtain ⟨r, hr, his, _⟩ := (sim_tcam_find_some db stage table_id j).mp hf
    rw [hx] at hr
    obtain rfl := Option.some.inj hr
    obtain ⟨_, h1, h2⟩ := (rec_is_iff stage table_id x).mp his
    have hx2 : rec_is s2 t2 x = false := by
      cases hh : rec_is s2 t2 x with
      | false => rfl
      | true =>
        obtain ⟨_, h3, h4⟩ := (rec_is_iff s2 t2 x).mp hh
        exact absurd ⟨h3.symm.trans h1, h4.symm.trans h2⟩ hne
    rw [hx2]
    simp [rec_is]

/-- In a store with one live record per key, a delete leaves no live record of the
key. -/
theorem sim_tcam_find_delete_self (db : List sim_tcam_rec_t) (stage table_id : Nat)
    (hu : store_unique db) :
    sim_tcam_find (hal_tcam_delete stage table_id db).2 stage table_id = none := by
  cases hf : sim_tcam_find db stage table_id with
  | none => rw [hal_tcam_delete_absent db stage table_id hf]; exact hf
  | some j =>
    rw [hal_tcam_delete_found db stage table_id j hf, sim_tcam_find_none]
    intro r hr
    obtain ⟨k, hk⟩ := List.getElem?_of_mem hr
    rw [getElem?_slot_update] at hk
    obtain ⟨rj, hrj, hisj, _⟩ := (sim_tcam_find_some db stage table_id j).mp hf
    by_cases hjk : j = k
    · rw [if_pos hjk] at hk
      subst hjk
      rw [hrj] at hk
      obtain rfl := Option.some.inj hk
      simp [rec_is]
    · rw [if_neg hjk] at hk
      cases hh : rec_is stage table_id r with
      | false => rfl
      | true =>
        obtain ⟨a1, a2, a3⟩ := (rec_is_iff stage table_id r).mp hh
        obtain ⟨b1, b2, b3⟩ := (rec_is_iff stage table_id rj).mp hisj
        exact absurd (hu j k rj r hrj hk b1 a1 (b2.trans a2.symm) (b3.trans a3.symm)) hjk

/-- A delete changes at most the slot it found, and only its `deleted` flag. -/
theorem hal_tcam_delete_slots (db : List sim_tcam_rec_t) (stage table_id : Nat) :
    (hal_tcam_delete stage table_id db).2.length = db.length ∧
    ∀ (k : Nat) (r : sim_tcam_rec_t), db[k]? = some r →
      (hal_tcam_delete stage table_id db).2[k]? = some r ∨
      (rec_is stage table_id r = true ∧
        (hal_tcam_delete stage table_id db).2[k]? = some { r with deleted := 1 }) := by
  cases hf : sim_tcam_find db stage table_id with
  | none =>
    rw [hal_tcam_delete_absent db stage table_id hf]
    exact ⟨rfl, fun k r hr => Or.inl hr⟩
  | some j =>
    rw [hal_tcam_delete_found db stage table_id j hf]
    refine ⟨length_slot_update _ _ _, ?_⟩
    intro k r hr
    rw [getElem?_slot_update]
    by_cases hjk : j = k
    · right
      subst hjk
      obtain ⟨rj, hrj, hisj, _⟩ := (sim_tcam_find_some db stage table_id j).mp hf
      rw [hr] at hrj
      obtain rfl := Option.some.inj hrj
      rw [if_pos rfl, hr]
      exact ⟨hisj, rfl⟩
    · left
      rw [if_neg hjk]
      exact hr

/-! ## C21: `acl_delete` -/

/-- C21: for a 16-bit id, `acl_delete(id)` on a table with no valid slot of that id
returns `HAL_ERR_INVAL` and leaves the ACL table, `acl_next_id` and the rule store as
they were. When slot `i` is the first valid slot holding the id and slot `j` of the
store is the live Stage-1 record of table id `id`, `acl_delete(id)` returns `HAL_OK`,
clears `valid` in slot `i` and changes no other slot of the table, sets `deleted` in
slot `j` and changes no other slot of the store; for every other `(stage, table_id)`
`sim_tcam_find` returns the slot it returned before, whose content is unchanged, and
in a store with one live record per key no live Stage-1 record of `id` is left. -/
theorem c21_acl_delete (rule_id : Nat) (st : acl_state) (db : List sim_tcam_rec_t)
    (hid : rule_id < 2 ^ 16) :
    ((∀ e ∈ st.acl_table, ¬ (e.valid ≠ 0 ∧ e.rule_id = rule_id)) →
      acl_delete rule_id st db = (HAL_ERR_INVAL, st, db)) ∧
    (∀ i j, st.acl_table.findIdx? (fun e => e.valid != 0 && e.rule_id == rule_id) = some i →
      sim_tcam_find db TABLE_ACL_INGRESS_STAGE rule_id = some j →
      (acl_delete rule_id st db).1 = HAL_OK ∧
      (acl_delete rule_id st db).2.1.acl_next_id = st.acl_next_id ∧
      (∃ e, st.acl_table[i]? = some e ∧ e.valid ≠ 0 ∧ e.rule_id = rule_id ∧
        (acl_delete rule_id st db).2.1.acl_table[i]? = some { e with valid := 0 }) ∧
      (∀ k, k ≠ i → (acl_delete rule_id st db).2.1.acl_table[k]? = st.acl_table[k]?) ∧
      (∃ r, db[j]? = some r ∧ rec_live r = true ∧
        r.entry.stage = TABLE_ACL_INGRESS_STAGE ∧ r.entry.table_id = rule_id ∧
        (acl_delete rule_id st db).2.2[j]? = some { r with deleted := 1 }) ∧
      (∀ k, k ≠ j → (acl_delete rule_id st db).2.2[k]? = db[k]?) ∧
      (∀ s2 t2, ¬ (s2 = TABLE_ACL_INGRESS_STAGE ∧ t2 = rule_id) →
        sim_tcam_find (acl_delete rule_id st db).2.2 s2 t2 = sim_tcam_find db s2 t2) ∧
      (store_unique db →
        sim_tcam_find (acl_delete rule_id st db).2.2 TABLE_ACL_INGRESS_STAGE rule_id
          = none)) := by
  have htid : (TABLE_ACL_INGRESS_BASE + rule_id) % 2 ^ 16 = rule_id := by
    unfold TABLE_ACL_INGRESS_BASE
    rw [Nat.zero_add]
    exact Nat.mod_eq_of_lt hid
  constructor
  · intro habs
    have hn : st.acl_table.findIdx? (fun e => e.valid != 0 && e.rule_id == rule_id)
        = none := by
      rw [List.findIdx?_eq_none_iff]
      intro e he
      have := habs e he
      cases hv : (e.valid != 0 && e.rule_id == rule_id) with
      | false => rfl
      | true =>
        simp only [Bool.and_eq_true, bne_iff_ne, ne_eq, beq_iff_eq] at hv
        exact absurd hv this
    unfold acl_delete
    rw [hn]
  · intro i j hi hj
    have he : acl_delete rule_id st db
        = ((hal_tcam_delete TABLE_ACL_INGRESS_STAGE rule_id db).1,
           { st with acl_table :=
               slot_update (fun x => { x with valid := 0 }) st.acl_table i },
           (hal_tcam_delete TABLE_ACL_INGRESS_STAGE rule_id db).2) := by
      unfold acl_delete
      rw [hi, htid]
    rw [he]
    obtain ⟨e, hei, hpe, _⟩ := (findIdx?_eq_some_iff_getElem? _ _ _).mp hi
    simp only [Bool.and_eq_true, bne_iff_ne, ne_eq, beq_iff_eq] at hpe
    obtain ⟨r, hrj, hris, _⟩ := (sim_tcam_find_some db _ _ j).mp hj
    obtain ⟨hl, hs, ht⟩ := (rec_is_iff _ _ r).mp hris
    refine ⟨?_, rfl, ⟨e, hei, hpe.1, hpe.2, ?_⟩, ?_, ⟨r, hrj, hl, hs, ht, ?_⟩, ?_, ?_, ?_⟩
    · rw [hal_tcam_delete_found db _ _ j hj]
    · simp only [getElem?_slot_update, if_true, hei, Option.map_some']
    · intro k hk
      simp only [getElem?_slot_update]
      rw [if_neg (Ne.symm hk)]
    · rw [hal_tcam_delete_found db _ _ j hj]
      simp only [getElem?_slot_update, if_true, hrj, Option.map_some']
    · intro k hk
      rw [hal_tcam_delete_found db _ _ j hj]
      simp only [getElem?_slot_update]
      rw [if_neg (Ne.symm hk)]
    · intro s2 t2 hne
      exact sim_tcam_find_delete_other db _ _ s2 t2 hne
    · intro hu
      exact sim_tcam_find_delete_self db _ _ hu

/-- C21 at rule id 1 after the three adds of `test_acl_seq_ids` on the empty store. -/
theorem c21_acl_delete_witness :
    (1 : Nat) < 2 ^ 16 ∧
    (acl_run acl_sys_init (acl_test_ops.take 3)).st.acl_table.findIdx?
      (fun e => e.valid != 0 && e.rule_id == 1) = some 1 ∧
    sim_tcam_find (acl_run acl_sys_init (acl_test_ops.take 3)).db TABLE_ACL_INGRESS_STAGE 1
      = some 1 ∧
    (acl_delete 1 (acl_run acl_sys_init (acl_test_ops.take 3)).st
      (acl_run acl_sys_init (acl_test_ops.take 3)).db).1 = HAL_OK :=
  ⟨by decide, by decide, by decide,
   ((c21_acl_delete 1 (acl_run acl_sys_init (acl_test_ops.take 3)).st
      (acl_run acl_sys_init (acl_test_ops.take 3)).db (by decide)).2 1 1
        (by decide) (by decide)).1⟩

/-! ## One insert and the slots of the store -/

/-- An insert does not move or change what `sim_tcam_find` returns for another key. -/
theorem sim_tcam_find_insert_other (db : List sim_tcam_rec_t) (e : tcam_entry_t) (s2 t2 : Nat)
    (hne : ¬ (s2 = e.stage ∧ t2 = e.table_id)) :
    sim_tcam_find (hal_tcam_insert (some e) db).2 s2 t2 = sim_tcam_find db s2 t2 := by
  cases hf : sim_tcam_find db e.stage e.table_id with
  | some j =>
    rw [hal_tcam_insert_existing db e j hf, sim_tcam_find_eq, sim_tcam_find_eq]
    apply findIdx?_congr_map
    apply map_slot_update_congr
    intro x hx
    obtain ⟨r, hr, his, _⟩ := (sim_tcam_find_some db e.stage e.table_id j).mp hf
    rw [hx] at hr
    obtain rfl := Option.some.inj hr
    obtain ⟨_, h1, h2⟩ := (rec_is_iff e.stage e.table_id x).mp his
    have hx2 : rec_is s2 t2 x = false := by
      cases hh : rec_is s2 t2 x with
      | false => rfl
      | true =>
        obtain ⟨_, h3, h4⟩ := (rec_is_iff s2 t2 x).mp hh
        exact absurd ⟨h3.symm.trans h1, h4.symm.trans h2⟩ hne
    rw [hx2]
    cases hh : rec_is s2 t2 { x with entry := e, deleted := 0 } with
    | false => rfl
    | true =>
      obtain ⟨_, h3, h4⟩ := (rec_is_iff s2 t2 _).mp hh
      exact absurd ⟨h3.symm, h4.symm⟩ hne
  | none =>
    by_cases hn : db.length < SIM_TCAM_MAX
    · rw [hal_tcam_insert_new db e hf hn, sim_tcam_find_eq, sim_tcam_find_eq,
        List.findIdx?_append]
      have hx : rec_is s2 t2 { entry := e, valid := 1, deleted := 0 } = false := by
        cases hh : rec_is s2 t2 { entry := e, valid := 1, deleted := 0 } with
        | false => rfl
        | true =>
          obtain ⟨_, h3, h4⟩ := (rec_is_iff s2 t2 _).mp hh
          exact absurd ⟨h3.symm, h4.symm⟩ hne
      simp [hx]
    · have : hal_tcam_insert (some e) db = (HAL_ERR_FULL, db) := by
        unfold hal_tcam_insert
        simp only [hf]
        rw [if_pos (Nat.le_of_not_lt hn)]
      rw [this]

/-- The insert that is refused leaves the store as it was; it is refused exactly when
the key has no live record and all `SIM_TCAM_MAX` slots are allocated. -/
theorem hal_tcam_insert_refused (db : List sim_tcam_rec_t) (e : tcam_entry_t) :
    ((hal_tcam_insert (some e) db).1 = HAL_OK ↔
      (sim_tcam_find db e.stage e.table_id ≠ none ∨ db.length < SIM_TCAM_MAX)) ∧
    ((hal_tcam_insert (some e) db).1 ≠ HAL_OK → (hal_tcam_insert (some e) db).2 = db) := by
  cases hf : sim_tcam_find db e.stage e.table_id with
  | some j =>
    rw [hal_tcam_insert_existing db e j hf]
    exact ⟨⟨fun _ => Or.inl (by simp), fun _ => rfl⟩, fun h => absurd rfl h⟩
  | none =>
    by_cases hn : db.length < SIM_TCAM_MAX
    · rw [hal_tcam_insert_new db e hf hn]
      exact ⟨⟨fun _ => Or.inr hn, fun _ => rfl⟩, fun h => absurd rfl h⟩
    · have : hal_tcam_insert (some e) db = (HAL_ERR_FULL, db) := by
        unfold hal_tcam_insert
        simp only [hf]
        rw [if_pos (Nat.le_of_not_lt hn)]
      rw [this]
      refine ⟨⟨fun h => absurd h (show HAL_ERR_FULL ≠ HAL_OK by decide), fun h => ?_⟩,
        fun _ => rfl⟩
      rcases h with h | h
      · exact absurd rfl h
      · exact absurd h hn

/-- The insert that is accepted writes one slot: `sim_tcam_find` returns it, it is
live and holds the entry, and every other slot is what it was. -/
theorem hal_tcam_insert_accepted (db : List sim_tcam_rec_t) (e : tcam_entry_t)
    (h : (hal_tcam_insert (some e) db).1 = HAL_OK) :
    ∃ (j : Nat) (r : sim_tcam_rec_t),
      sim_tcam_find (hal_tcam_insert (some e) db).2 e.stage e.table_id = some j ∧
      (hal_tcam_insert (some e) db).2[j]? = some r ∧ rec_live r = true ∧ r.entry = e ∧
      (∀ k, k ≠ j → (hal_tcam_insert (some e) db).2[k]? = db[k]?) ∧
      (sim_tcam_find db e.stage e.table_id = some j ∨
        (sim_tcam_find db e.stage e.table_id = none ∧ j = db.length)) := by
  cases hf : sim_tcam_find db e.stage e.table_id with
  | some j =>
    obtain ⟨_, _, h3, ⟨r, hr, _, _, h4⟩, h5⟩ := hal_tcam_insert_overwrite_spec db e j hf
    obtain ⟨rj, hrj, hisj, _⟩ := (sim_tcam_find_some db e.stage e.table_id j).mp hf
    rw [hrj] at hr
    obtain rfl := Option.some.inj hr
    obtain ⟨hl, _, _⟩ := (rec_is_iff _ _ _).mp hisj
    exact ⟨j, _, h5, h4, by simpa [rec_live] using hl, rfl, h3, Or.inl rfl⟩
  | none =>
    have hn : db.length < SIM_TCAM_MAX := by
      rcases ((hal_tcam_insert_refused db e).1.mp h) with h1 | h1
      · exact absurd hf h1
      · exact h1
    rw [hal_tcam_insert_new db e hf hn]
    refine ⟨db.length, { entry := e, valid := 1, deleted := 0 }, ?_, ?_, rfl, rfl, ?_,
      Or.inr ⟨rfl, rfl⟩⟩
    · rw [sim_tcam_find_some]
      refine ⟨{ entry := e, valid := 1, deleted := 0 }, by simp, by simp [rec_is], ?_⟩
      intro j r2 hj hr2
      rw [List.getElem?_append_left hj] at hr2
      exact (sim_tcam_find_none db _ _).mp hf r2 (List.getElem?_mem hr2)
    · simp
    · intro k hk
      by_cases hlt : k < db.length
      · rw [List.getElem?_append_left hlt]
      · have hgt : db.length < k := by omega
        rw [List.getElem?_eq_none (by simp; omega), List.getElem?_eq_none (by omega)]

/-! ## C22: `fdb_learn` -/

theorem fdb_alloc_none_iff (fdb_table : List fdb_entry_t) :
    fdb_alloc fdb_table = none ↔ ∀ e ∈ fdb_table, e.valid ≠ 0 := by
  unfold fdb_alloc
  rw [List.findIdx?_eq_none_iff]
  constructor
  · intro h e he hv
    have := h e he
    simp [hv] at this
  · intro h e he
    simp [h e he]

theorem fdb_find_none_iff (fdb_table : List fdb_entry_t) (dmac : Nat) :
    fdb_find fdb_table dmac = none ↔ ∀ e ∈ fdb_table, ¬ (e.valid ≠ 0 ∧ e.dmac = dmac) := by
  unfold fdb_find
  rw [List.findIdx?_eq_none_iff]
  constructor
  · intro h e he hv
    have := h e he
    simp [hv.1, hv.2] at this
  · intro h e he
    have := h e he
    cases hv : (e.valid != 0 && e.dmac == dmac) with
    | false => rfl
    | true =>
      simp only [Bool.and_eq_true, bne_iff_ne, ne_eq, beq_iff_eq] at hv
      exact absurd hv this

theorem fdb_tcam_entry_bytes (dmac port b : Nat) (hb : b < 6) :
    (fdb_tcam_entry dmac port).key.bytes.getD b 0 = (dmac >>> (40 - 8 * b)) % 256 ∧
    (fdb_tcam_entry dmac port).mask.bytes.getD b 0 = 0xFF := by
  unfold fdb_tcam_entry tcam_entry_zero
  simp only [and_0xFF, Nat.mod_mod, List.range, List.range.loop, List.foldl]
  interval_cases b <;> simp

/-- The rule store after `fdb_learn` got a slot: the state and code of the insert. -/
theorem fdb_learn_store (dmac port : Nat) (fdb_table : List fdb_entry_t)
    (db : List sim_tcam_rec_t)
    (h : fdb_find fdb_table dmac ≠ none ∨ fdb_alloc fdb_table ≠ none) :
    (fdb_learn dmac port fdb_table db).1
      = (hal_tcam_insert (some (fdb_tcam_entry dmac port)) db).1 ∧
    (fdb_learn dmac port fdb_table db).2.2
      = (hal_tcam_insert (some (fdb_tcam_entry dmac port)) db).2 := by
  unfold fdb_learn fdb_install_tcam
  cases hf : fdb_find fdb_table dmac with
  | some i => exact ⟨rfl, rfl⟩
  | none =>
    cases ha : fdb_alloc fdb_table with
    | some i => exact ⟨rfl, rfl⟩
    | none =>
      rcases h with h | h
      · exact absurd hf h
      · exact absurd ha h

/-- C22: `fdb_learn(mac, port)`. (1) When `fdb_find` returns slot `i` (the first valid
slot holding the MAC), that slot keeps its MAC, VLAN, static flag and `valid` and gets
`port` and `age_ticks = 0`; no other slot changes. (2) When no valid slot holds the MAC
and `fdb_alloc` returns the free slot `i`, that slot becomes the dynamic entry
`(mac, port, vlan 0, age 0, static 0, valid 1)`; no other slot changes. In both cases
the call returns the code of the rule-store insert, `HAL_OK` unless the store has all
512 slots allocated and no live Stage-2 record at the table id `mac & 0xFFF`; on
`HAL_OK` `sim_tcam_find` returns a live Stage-2 record at that table id with the
6-byte exact key of the MAC and action L2-forward to `port`, and every other slot of
the store is unchanged. (3) When no valid slot holds the MAC and every slot is valid,
the call returns `HAL_ERR_FULL` and changes neither the table nor the store. -/
theorem c22_fdb_learn_upsert (dmac port : Nat) (fdb_table : List fdb_entry_t)
    (db : List sim_tcam_rec_t) :
    (∀ i, fdb_find fdb_table dmac = some i →
      (∃ e, fdb_table[i]? = some e ∧ e.valid ≠ 0 ∧ e.dmac = dmac ∧
        (fdb_learn dmac port fdb_table db).2.1[i]?
          = some { dmac := e.dmac, port := port, vlan := e.vlan, age_ticks := 0,
                   is_static := e.is_static, valid := e.valid }) ∧
      (∀ k, k ≠ i → (fdb_learn dmac port fdb_table db).2.1[k]? = fdb_table[k]?) ∧
      (fdb_learn dmac port fdb_table db).2.1.length = fdb_table.length) ∧
    (∀ i, fdb_find fdb_table dmac = none → fdb_alloc fdb_table = some i →
      (∃ e, fdb_table[i]? = some e ∧ e.valid = 0) ∧
      (fdb_learn dmac port fdb_table db).2.1[i]?
        = some { dmac := dmac, port := port, vlan := 0, age_ticks := 0, is_static := 0,
                 valid := 1 } ∧
      (∀ k, k ≠ i → (fdb_learn dmac port fdb_table db).2.1[k]? = fdb_table[k]?) ∧
      (fdb_learn dmac port fdb_table db).2.1.length = fdb_table.length) ∧
    (fdb_find fdb_table dmac ≠ none ∨ fdb_alloc fdb_table ≠ none →
      ((fdb_learn dmac port fdb_table db).1 = HAL_OK ∨
        (fdb_learn dmac port fdb_table db).1 = HAL_ERR_FULL) ∧
      ((fdb_learn dmac port fdb_table db).1 = HAL_OK ↔
        (sim_tcam_find db TABLE_L2_FDB_STAGE (dmac % 4096) ≠ none ∨
          db.length < SIM_TCAM_MAX)) ∧
      ((fdb_learn dmac port fdb_table db).1 ≠ HAL_OK →
        (fdb_learn dmac port fdb_table db).2.2 = db) ∧
      ((fdb_learn dmac port fdb_table db).1 = HAL_OK →
        ∃ (j : Nat) (r : sim_tcam_rec_t),
          sim_tcam_find (fdb_learn dmac port fdb_table db).2.2 TABLE_L2_FDB_STAGE
            (dmac % 4096) = some j ∧
          (fdb_learn dmac port fdb_table db).2.2[j]? = some r ∧ rec_live r = true ∧
          r.entry = fdb_tcam_entry dmac port ∧
          r.entry.key.key_len = 6 ∧
          (∀ b, b < 6 → r.entry.key.bytes.getD b 0 = (dmac >>> (40 - 8 * b)) % 256 ∧
            r.entry.mask.bytes.getD b 0 = 0xFF) ∧
          r.entry.action_id = ACTION_L2_FORWARD ∧ r.entry.action_params.getD 0 0 = port ∧
          (∀ k, k ≠ j → (fdb_learn dmac port fdb_table db).2.2[k]? = db[k]?))) ∧
    ((∀ e ∈ fdb_table, ¬ (e.valid ≠ 0 ∧ e.dmac = dmac)) → (∀ e ∈ fdb_table, e.valid ≠ 0) →
      fdb_learn dmac port fdb_table db = (HAL_ERR_FULL, fdb_table, db)) := by
  refine ⟨?_, ?_, ?_, ?_⟩
  · intro i hf
    have he : (fdb_learn dmac port fdb_table db).2.1
        = slot_update (fun x => { x with port := port, age_ticks := 0 }) fdb_table i := by
      unfold fdb_learn
      rw [hf]
    rw [he]
    unfold fdb_find at hf
    obtain ⟨e, hei, hpe, _⟩ := (findIdx?_eq_some_iff_getElem? _ _ _).mp hf
    simp only [Bool.and_eq_true, bne_iff_ne, ne_eq, beq_iff_eq] at hpe
    refine ⟨⟨e, hei, hpe.1, hpe.2, ?_⟩, ?_, length_slot_update _ _ _⟩
    · rw [getElem?_slot_update, if_pos rfl, hei]
      rfl
    · intro k hk
      rw [getElem?_slot_update, if_neg (Ne.symm hk)]
  · intro i hf ha
    have he : (fdb_learn dmac port fdb_table db).2.1
        = slot_update (fun _ => (⟨dmac, port, 0, 0, 0, 1⟩ : fdb_entry_t)) fdb_table i := by
      unfold fdb_learn
      rw [hf]
      simp only [ha]
    rw [he]
    unfold fdb_alloc at ha
    obtain ⟨e, hei, hpe, _⟩ := (findIdx?_eq_some_iff_getElem? _ _ _).mp ha
    simp only [beq_iff_eq] at hpe
    refine ⟨⟨e, hei, hpe⟩, ?_, ?_, length_slot_update _ _ _⟩
    · rw [getElem?_slot_update, if_pos rfl, hei]
      rfl
    · intro k hk
      rw [getElem?_slot_update, if_neg (Ne.symm hk)]
  · intro hslot
    obtain ⟨h1, h2⟩ := fdb_learn_store dmac port fdb_table db hslot
    rw [h1, h2]
    obtain ⟨f1, f2, f3, f4⟩ := fdb_tcam_entry_fields dmac port
    have hr := hal_tcam_insert_refused db (fdb_tcam_entry dmac port)
    rw [f1, f2] at hr
    refine ⟨hal_tcam_insert_ret _ db, hr.1, hr.2, ?_⟩
    intro hok
    obtain ⟨j, r, a1, a2, a3, a4, a5, _⟩ := hal_tcam_insert_accepted db _ hok
    rw [f1, f2] at a1
    refine ⟨j, r, a1, a2, a3, a4, by rw [a4]; rfl, ?_, by rw [a4]; exact f3,
      by rw [a4]; exact f4, a5⟩
    intro b hb
    rw [a4]
    exact fdb_tcam_entry_bytes dmac port b hb
  · intro hnew hfull
    unfold fdb_learn
    rw [(fdb_find_none_iff fdb_table dmac).mpr hnew]
    simp only [(fdb_alloc_none_iff fdb_table).mpr hfull]

/-! ## Runs of deletes -/

theorem hal_tcam_delete_run_snoc (db : List sim_tcam_rec_t) (keys : List (Nat × Nat))
    (k : Nat × Nat) :
    hal_tcam_delete_run db (keys ++ [k])
      = (hal_tcam_delete k.1 k.2 (hal_tcam_delete_run db keys)).2 := by
  unfold hal_tcam_delete_run
  rw [List.foldl_append]
  rfl

theorem store_unique_delete_run (db : List sim_tcam_rec_t) (keys : List (Nat × Nat))
    (hu : store_unique db) : store_unique (hal_tcam_delete_run db keys) := by
  induction keys using List.reverseRecOn with
  | nil => exact hu
  | append_singleton ks k ih =>
    rw [hal_tcam_delete_run_snoc]
    exact store_unique_delete _ _ _ ih

/-- A run of deletes changes a slot only by setting `deleted` in a live record of one
of its keys. -/
theorem hal_tcam_delete_run_slots (db : List sim_tcam_rec_t) (keys : List (Nat × Nat)) :
    (hal_tcam_delete_run db keys).length = db.length ∧
    ∀ (k : Nat) (r : sim_tcam_rec_t), db[k]? = some r →
      (hal_tcam_delete_run db keys)[k]? = some r ∨
      ((hal_tcam_delete_run db keys)[k]? = some { r with deleted := 1 } ∧
        ∃ key ∈ keys, rec_is key.1 key.2 r = true) := by
  induction keys using List.reverseRecOn with
  | nil => exact ⟨rfl, fun k r hr => Or.inl hr⟩
  | append_singleton ks key ih =>
    rw [hal_tcam_delete_run_snoc]
    obtain ⟨h1, h2⟩ := hal_tcam_delete_slots (hal_tcam_delete_run db ks) key.1 key.2
    refine ⟨h1.trans ih.1, ?_⟩
    intro k r hr
    rcases ih.2 k r hr with h | ⟨h, key0, hk0, his⟩
    · rcases h2 k r h with h3 | ⟨h3, h4⟩
      · exact Or.inl h3
      · exact Or.inr ⟨h4, key, List.mem_append_right _ (List.mem_singleton.mpr rfl), h3⟩
    · right
      refine ⟨?_, key0, List.mem_append_left _ hk0, his⟩
      rcases h2 k _ h with h3 | ⟨h3, _⟩
      · exact h3
      · simp [rec_is] at h3

/-- A run of deletes does not move or change what `sim_tcam_find` returns for a key
that is not in the run. -/
theorem sim_tcam_find_delete_run_other (db : List sim_tcam_rec_t) (keys : List (Nat × Nat))
    (s t : Nat) (hne : ∀ key ∈ keys, ¬ (s = key.1 ∧ t = key.2)) :
    sim_tcam_find (hal_tcam_delete_run db keys) s t = sim_tcam_find db s t := by
  induction keys using List.reverseRecOn with
  | nil => rfl
  | append_singleton ks key ih =>
    rw [hal_tcam_delete_run_snoc,
      sim_tcam_find_delete_other _ _ _ s t
        (hne key (List.mem_append_right _ (List.mem_singleton.mpr rfl))),
      ih (fun k hk => hne k (List.mem_append_left _ hk))]

/-- In a store with one live record per key, a run of deletes leaves no live record of
any of its keys. -/
theorem sim_tcam_find_delete_run_self (db : List sim_tcam_rec_t) (keys : List (Nat × Nat))
    (hu : store_unique db) (key : Nat × Nat) (hk : key ∈ keys) :
    sim_tcam_find (hal_tcam_delete_run db keys) key.1 key.2 = none := by
  induction keys using List.reverseRecOn with
  | nil => exact absurd hk (List.not_mem_nil key)
  | append_singleton ks k0 ih =>
    rw [hal_tcam_delete_run_snoc]
    by_cases he : key.1 = k0.1 ∧ key.2 = k0.2
    · rw [he.1, he.2]
      exact sim_tcam_find_delete_self _ _ _ (store_unique_delete_run db ks hu)
    · rw [sim_tcam_find_delete_other _ _ _ _ _ he]
      rcases List.mem_append.mp hk with h | h
      · exact ih h
      · rw [List.mem_singleton.mp h] at he
        exact absurd ⟨rfl, rfl⟩ he

/-- A loop that deletes the key of each index that passes a test is a run of deletes. -/
theorem foldl_delete_eq_run (idxs : List Nat) (c : Nat → Bool) (key : Nat → Nat × Nat)
    (db : List sim_tcam_rec_t) :
    idxs.foldl (fun db p =>
        if c p = true then (hal_tcam_delete (key p).1 (key p).2 db).2 else db) db
      = hal_tcam_delete_run db ((idxs.filter c).map key) := by
  induction idxs generalizing db with
  | nil => rfl
  | cons p ps ih =>
    rw [List.foldl_cons, ih]
    cases hc : c p with
    | true =>
      rw [if_pos rfl, List.filter_cons_of_pos hc, List.map_cons]
      rfl
    | false =>
      rw [if_neg (by simp), List.filter_cons_of_neg (by simp [hc])]

/-! ## The aging pass of the FDB -/

theorem fdb_age_slot_expired (now_sec : Nat) (st : List fdb_entry_t × List sim_tcam_rec_t)
    (i : Nat) (h : fdb_expired now_sec (st.1.getD i fdb_entry_zero)) :
    fdb_age_slot now_sec st i
      = (slot_update (fun _ => fdb_entry_zero) st.1 i,
         (hal_tcam_delete TABLE_L2_FDB_STAGE
            (fdb_tcam_id (st.1.getD i fdb_entry_zero).dmac) st.2).2) := by
  obtain ⟨h1, h2, h3⟩ := h
  have c1 : ¬ ((st.1.getD i fdb_entry_zero).valid = 0 ∨
      (st.1.getD i fdb_entry_zero).is_static ≠ 0) := by
    rintro (h | h)
    · exact h1 h
    · exact h h2
  have c2 : (now_sec + 2 ^ 32 - (st.1.getD i fdb_entry_zero).age_ticks) % 2 ^ 32
      ≥ FDB_AGE_DYNAMIC := h3
  unfold fdb_age_slot
  simp only
  rw [if_neg c1, if_pos c2]

theorem fdb_age_slot_kept (now_sec : Nat) (st : List fdb_entry_t × List sim_tcam_rec_t)
    (i : Nat) (h : ¬ fdb_expired now_sec (st.1.getD i fdb_entry_zero)) :
    fdb_age_slot now_sec st i = st := by
  unfold fdb_age_slot
  simp only
  by_cases c1 : (st.1.getD i fdb_entry_zero).valid = 0 ∨
      (st.1.getD i fdb_entry_zero).is_static ≠ 0
  · rw [if_pos c1]
  · rw [if_neg c1]
    have c2 : ¬ ((now_sec + 2 ^ 32 - (st.1.getD i fdb_entry_zero).age_ticks) % 2 ^ 32
        ≥ FDB_AGE_DYNAMIC) := by
      intro h3
      apply h
      refine ⟨fun h0 => c1 (Or.inl h0), ?_, h3⟩
      by_contra h0
      exact c1 (Or.inr h0)
    rw [if_neg c2]

theorem fdb_expired_zero (now_sec : Nat) : ¬ fdb_expired now_sec fdb_entry_zero :=
  fun h => h.1 rfl

/-- The loop of `fdb_age` over distinct slots: the store is the run of deletes of the
expired entries, and the table has exactly their slots zeroed. -/
theorem fdb_age_fold (now_sec : Nat) (t0 : List fdb_entry_t) (db0 : List sim_tcam_rec_t)
    (idxs : List Nat) (hnd : idxs.Nodup) :
    (idxs.foldl (fdb_age_slot now_sec) (t0, db0)).2
      = hal_tcam_delete_run db0 (fdb_age_keys now_sec t0 idxs) ∧
    (idxs.foldl (fdb_age_slot now_sec) (t0, db0)).1.length = t0.length ∧
    ∀ i, (idxs.foldl (fdb_age_slot now_sec) (t0, db0)).1.getD i fdb_entry_zero
      = if i ∈ idxs ∧ fdb_expired now_sec (t0.getD i fdb_entry_zero) then fdb_entry_zero
        else t0.getD i fdb_entry_zero := by
  induction idxs using List.reverseRecOn with
  | nil =>
    refine ⟨rfl, rfl, fun i => ?_⟩
    rw [if_neg (fun h => absurd h.1 (List.not_mem_nil i))]
    rfl
  | append_singleton ks n ih =>
    have hnd2 := List.nodup_append.mp hnd
    obtain ⟨ih1, ih2, ih3⟩ := ih hnd2.1
    have hn : n ∉ ks := fun h => hnd2.2.2 h (List.mem_singleton.mpr rfl)
    rw [List.foldl_append]
    simp only [List.foldl_cons, List.foldl_nil]
    generalize hst : ks.foldl (fdb_age_slot now_sec) (t0, db0) = st at ih1 ih2 ih3 ⊢
    have hen : st.1.getD n fdb_entry_zero = t0.getD n fdb_entry_zero := by
      rw [ih3 n, if_neg (fun h => hn h.1)]
    have hkeys : fdb_age_keys now_sec t0 (ks ++ [n])
        = fdb_age_keys now_sec t0 ks ++
          (if fdb_expired now_sec (t0.getD n fdb_entry_zero) then
            [(TABLE_L2_FDB_STAGE, fdb_tcam_id (t0.getD n fdb_entry_zero).dmac)] else []) := by
      unfold fdb_age_keys
      rw [List.filter_append, List.map_append]
      congr 1
      by_cases hx : fdb_expired now_sec (t0.getD n fdb_entry_zero)
      · rw [if_pos hx, List.filter_cons_of_pos (by simpa using hx)]
        rfl
      · rw [if_neg hx, List.filter_cons_of_neg (by simpa using hx)]
        rfl
    by_cases hx : fdb_expired now_sec (t0.getD n fdb_entry_zero)
    · rw [fdb_age_slot_expired now_sec st n (by rw [hen]; exact hx), hkeys, if_pos hx,
        hal_tcam_delete_run_snoc, ← ih1, hen]
      refine ⟨rfl, by rw [length_slot_update]; exact ih2, ?_⟩
      intro i
      have hnlt : n < st.1.length := by
        by_contra hge
        apply fdb_expired_zero now_sec
        have : t0.getD n fdb_entry_zero = fdb_entry_zero := by
          rw [List.getD_eq_getElem?_getD, List.getElem?_eq_none (by omega)]
          rfl
        rw [← this]
        exact hx
      simp only
      rw [getD_slot_update]
      by_cases hni : n = i
      · subst hni
        rw [if_pos ⟨rfl, hnlt⟩,
          if_pos ⟨List.mem_append_right _ (List.mem_singleton.mpr rfl), hx⟩]
      · rw [if_neg (fun h => hni h.1), ih3 i]
        have hm : (i ∈ ks ++ [n]) ↔ i ∈ ks := by
          rw [List.mem_append, List.mem_singleton]
          exact ⟨fun h => h.elim id (fun h => absurd h.symm hni), Or.inl⟩
        simp only [hm]
    · rw [fdb_age_slot_kept now_sec st n (by rw [hen]; exact hx), hkeys, if_neg hx,
        List.append_nil]
      refine ⟨ih1, ih2, ?_⟩
      intro i
      rw [ih3 i]
      by_cases hni : n = i
      · subst hni
        rw [if_neg (fun h => hx h.2), if_neg (fun h => hx h.2)]
      · have hm : (i ∈ ks ++ [n]) ↔ i ∈ ks := by
          rw [List.mem_append, List.mem_singleton]
          exact ⟨fun h => h.elim id (fun h => absurd h.symm hni), Or.inl⟩
        simp only [hm]

theorem getElem?_eq_some_getD {α : Type} (l : List α) (i : Nat) (d : α) (h : i < l.length) :
    l[i]? = some (l.getD i d) := by
  rw [List.getD_eq_getElem?_getD, List.getElem?_eq_getElem h]
  rfl

theorem getD_of_getElem? {α : Type} (l : List α) (i : Nat) (d x : α) (h : l[i]? = some x) :
    l.getD i d = x := by
  rw [List.getD_eq_getElem?_getD, h]
  rfl

theorem fdb_idle_eq (now_sec : Nat) (e : fdb_entry_t) (h1 : e.age_ticks ≤ now_sec)
    (h2 : now_sec < 2 ^ 32) : fdb_idle now_sec e = now_sec - e.age_ticks := by
  unfold fdb_idle
  have h32 : (2 : Nat) ^ 32 = 4294967296 := by norm_num
  rw [h32] at h2 ⊢
  omega

set_option maxRecDepth 100000 in
theorem fdb_alias_sys_eq :
    fdb_alias_sys.1.length = FDB_TABLE_SIZE ∧
    fdb_alias_sys.1.getD 1 fdb_entry_zero
      = { dmac := 1, port := 2, vlan := 0, age_ticks := 0, is_static := 1, valid := 1 } ∧
    fdb_alias_sys.2 = [{ entry := fdb_tcam_entry 0x0001 2, valid := 1, deleted := 0 }] ∧
    fdb_age_keys 300 fdb_alias_sys.1 (List.range FDB_TABLE_SIZE) = [(TABLE_L2_FDB_STAGE, 1)] := by
  decide

/-- C23 as stated fails: after `fdb_learn(00:00:00:00:10:01, 1)` and
`fdb_add_static(00:00:00:00:00:01, 2, 0)` both MACs derive table id 1, and the one
live Stage-2 record carries the key of the static entry; `fdb_age(300)` removes the
dynamic entry and kills that record, so the static entry stays valid in the table
while no live Stage-2 record of its table id is left. -/
theorem c23_counterexample :
    fdb_alias_sys.1[1]?
      = some { dmac := 1, port := 2, vlan := 0, age_ticks := 0, is_static := 1, valid := 1 } ∧
    fdb_alias_sys.2 = [{ entry := fdb_tcam_entry 0x0001 2, valid := 1, deleted := 0 }] ∧
    sim_tcam_find fdb_alias_sys.2 TABLE_L2_FDB_STAGE (0x0001 % 4096) = some 0 ∧
    (fdb_age 300 fdb_alias_sys.1 fdb_alias_sys.2).1[1]?
      = some { dmac := 1, port := 2, vlan := 0, age_ticks := 0, is_static := 1, valid := 1 } ∧
    sim_tcam_find (fdb_age 300 fdb_alias_sys.1 fdb_alias_sys.2).2 TABLE_L2_FDB_STAGE
      (0x0001 % 4096) = none := by
  obtain ⟨a1, a2, a3, a4⟩ := fdb_alias_sys_eq
  obtain ⟨f1, f2, f3⟩ := fdb_age_fold 300 fdb_alias_sys.1 fdb_alias_sys.2
    (List.range FDB_TABLE_SIZE) (List.nodup_range FDB_TABLE_SIZE)
  have hage : fdb_age 300 fdb_alias_sys.1 fdb_alias_sys.2
      = (List.range FDB_TABLE_SIZE).foldl (fdb_age_slot 300)
          (fdb_alias_sys.1, fdb_alias_sys.2) := rfl
  rw [← hage] at f1 f2 f3
  have h1 : (1 : Nat) < fdb_alias_sys.1.length := by rw [a1]; decide
  refine ⟨?_, a3, ?_, ?_, ?_⟩
  · rw [getElem?_eq_some_getD _ 1 fdb_entry_zero h1, a2]
  · rw [a3]; decide
  · rw [getElem?_eq_some_getD _ 1 fdb_entry_zero (by rw [f2]; exact h1), f3 1, a2,
      if_neg (fun h => absurd h.2.2.1 (by decide))]
  · rw [f1, a4, a3]
    decide

/-- C23 (amended): on the 256-slot table and a store with one live record per key,
`fdb_age(now)` zeroes the slot of every valid dynamic entry whose `uint32_t`
difference `now - age_ticks` is at least `FDB_AGE_DYNAMIC` (300) and leaves no live
Stage-2 record at its table id `mac & 0xFFF`; every other slot (static, or idle for
less than 300 s) is unchanged, and when no removed entry shares the low 12 bits of
its MAC, `sim_tcam_find` returns for its table id the slot it returned before, with
the record unchanged. For `age_ticks <= now < 2^32` the difference is
`now - age_ticks`. -/
theorem c23_fdb_age (now_sec : Nat) (fdb_table : List fdb_entry_t) (db : List sim_tcam_rec_t)
    (hlen : fdb_table.length = FDB_TABLE_SIZE) (hu : store_unique db) :
    (∀ (i : Nat) (e : fdb_entry_t), fdb_table[i]? = some e → fdb_expired now_sec e →
      (fdb_age now_sec fdb_table db).1[i]? = some fdb_entry_zero ∧
      sim_tcam_find (fdb_age now_sec fdb_table db).2 TABLE_L2_FDB_STAGE (e.dmac % 4096)
        = none) ∧
    (∀ (i : Nat) (e : fdb_entry_t), fdb_table[i]? = some e → ¬ fdb_expired now_sec e →
      (fdb_age now_sec fdb_table db).1[i]? = some e ∧
      ((∀ (k : Nat) (x : fdb_entry_t), fdb_table[k]? = some x → fdb_expired now_sec x →
          x.dmac % 4096 ≠ e.dmac % 4096) →
        sim_tcam_find (fdb_age now_sec fdb_table db).2 TABLE_L2_FDB_STAGE (e.dmac % 4096)
          = sim_tcam_find db TABLE_L2_FDB_STAGE (e.dmac % 4096) ∧
        ∀ j, sim_tcam_find db TABLE_L2_FDB_STAGE (e.dmac % 4096) = some j →
          (fdb_age now_sec fdb_table db).2[j]? = db[j]?)) ∧
    (∀ e : fdb_entry_t, e.age_ticks ≤ now_sec → now_sec < 2 ^ 32 →
      fdb_idle now_sec e = now_sec - e.age_ticks) := by
  obtain ⟨f1, f2, f3⟩ := fdb_age_fold now_sec fdb_table db (List.range FDB_TABLE_SIZE)
    (List.nodup_range FDB_TABLE_SIZE)
  have hage : fdb_age now_sec fdb_table db
      = (List.range FDB_TABLE_SIZE).foldl (fdb_age_slot now_sec) (fdb_table, db) := rfl
  rw [← hage] at f1 f2 f3
  have hslot : ∀ (i : Nat) (e : fdb_entry_t), fdb_table[i]? = some e →
      i ∈ List.range FDB_TABLE_SIZE ∧ fdb_table.getD i fdb_entry_zero = e ∧
      i < (fdb_age now_sec fdb_table db).1.length := by
    intro i e hi
    have hlt : i < fdb_table.length := by
      by_contra hge
      rw [List.getElem?_eq_none (by omega)] at hi
      cases hi
    exact ⟨List.mem_range.mpr (by omega), getD_of_getElem? _ _ _ _ hi, by omega⟩
  refine ⟨?_, ?_, fun e h1 h2 => fdb_idle_eq now_sec e h1 h2⟩
  · intro i e hi hx
    obtain ⟨h1, h2, h3⟩ := hslot i e hi
    constructor
    · rw [getElem?_eq_some_getD _ i fdb_entry_zero h3, f3 i, h2, if_pos ⟨h1, hx⟩]
    · rw [f1, ← fdb_tcam_id_eq]
      have hk : (TABLE_L2_FDB_STAGE, fdb_tcam_id e.dmac)
          ∈ fdb_age_keys now_sec fdb_table (List.range FDB_TABLE_SIZE) := by
        unfold fdb_age_keys
        rw [List.mem_map]
        refine ⟨i, List.mem_filter.mpr ⟨h1, ?_⟩, by rw [h2]⟩
        rw [h2]
        exact decide_eq_true hx
      exact sim_tcam_find_delete_run_self db _ hu _ hk
  · intro i e hi hx
    obtain ⟨h1, h2, h3⟩ := hslot i e hi
    constructor
    · rw [getElem?_eq_some_getD _ i fdb_entry_zero h3, f3 i, h2, if_neg (fun h => hx h.2)]
    · intro hal
      have hne : ∀ key ∈ fdb_age_keys now_sec fdb_table (List.range FDB_TABLE_SIZE),
          ¬ (TABLE_L2_FDB_STAGE = key.1 ∧ e.dmac % 4096 = key.2) := by
        intro key hkey hk
        unfold fdb_age_keys at hkey
        rw [List.mem_map] at hkey
        obtain ⟨k, hkf, rfl⟩ := hkey
        obtain ⟨hk1, hk2⟩ := List.mem_filter.mp hkf
        have hk3 := of_decide_eq_true hk2
        have hklt : k < fdb_table.length := by
          rw [hlen]
          exact List.mem_range.mp hk1
        have hkx := getElem?_eq_some_getD fdb_table k fdb_entry_zero hklt
        have := hal k _ hkx hk3
        rw [fdb_tcam_id_eq] at hk
        exact this hk.2.symm
      rw [f1]
      refine ⟨sim_tcam_find_delete_run_other db _ _ _ hne, ?_⟩
      intro j hj
      obtain ⟨r, hr, his, _⟩ := (sim_tcam_find_some db _ _ j).mp hj
      rcases (hal_tcam_delete_run_slots db
        (fdb_age_keys now_sec fdb_table (List.range FDB_TABLE_SIZE))).2 j r hr with h | h
      · rw [h, hr]
      · obtain ⟨_, key, hkey, hkis⟩ := h
        obtain ⟨_, a1, a2⟩ := (rec_is_iff _ _ r).mp his
        obtain ⟨_, b1, b2⟩ := (rec_is_iff _ _ r).mp hkis
        exact absurd ⟨a1.symm.trans b1, a2.symm.trans b2⟩ (hne key hkey)

set_option maxRecDepth 100000 in
/-- C23 at the table left by `fdb_learn(00:00:00:00:10:01, 1)` on the empty store and
`now = 300`. -/
theorem c23_fdb_age_witness :
    (fdb_learn 0x1001 1 fdb_init []).2.1.length = FDB_TABLE_SIZE ∧
    store_unique (fdb_learn 0x1001 1 fdb_init []).2.2 ∧
    (fdb_learn 0x1001 1 fdb_init []).2.1[0]? = some (⟨0x1001, 1, 0, 0, 0, 1⟩ : fdb_entry_t) ∧
    fdb_expired 300 (⟨0x1001, 1, 0, 0, 0, 1⟩ : fdb_entry_t) ∧
    (fdb_age 300 (fdb_learn 0x1001 1 fdb_init []).2.1 (fdb_learn 0x1001 1 fdb_init []).2.2).1[0]?
      = some fdb_entry_zero :=
  ⟨by decide, store_unique_insert [] _ store_unique_nil, by decide, by decide,
   ((c23_fdb_age 300 (fdb_learn 0x1001 1 fdb_init []).2.1 (fdb_learn 0x1001 1 fdb_init []).2.2
      (by decide) (store_unique_insert [] _ store_unique_nil)).1 0
      (⟨0x1001, 1, 0, 0, 0, 1⟩ : fdb_entry_t) (by decide) (by decide)).1⟩

/-! ## C24: the egress rule of a VLAN membership -/

theorem vlan_egress_id (port vlan_id : Nat) (hp : port < 32) (hv : vlan_id ≤ 255) :
    (VLAN_EGRESS_ENTRY port vlan_id) % 2 ^ 16 = port * 256 + vlan_id := by
  unfold VLAN_EGRESS_ENTRY
  apply Nat.mod_eq_of_lt
  have : (2 : Nat) ^ 16 = 65536 := by norm_num
  omega

theorem vlan_egress_id_inj (p1 v1 p2 v2 : Nat) (h1 : v1 ≤ 255) (h2 : v2 ≤ 255)
    (h : p1 * 256 + v1 = p2 * 256 + v2) : p1 = p2 ∧ v1 = v2 := by
  omega

theorem foldl_delete_if_eq_run (idxs : List Nat) (c : Nat → Prop) [DecidablePred c]
    (key : Nat → Nat × Nat) (db : List sim_tcam_rec_t) :
    idxs.foldl (fun db p =>
        if c p then (hal_tcam_delete (key p).1 (key p).2 db).2 else db) db
      = hal_tcam_delete_run db ((idxs.filter (fun p => decide (c p))).map key) := by
  induction idxs generalizing db with
  | nil => rfl
  | cons p ps ih =>
    rw [List.foldl_cons, ih]
    by_cases hc : c p
    · rw [if_pos hc, List.filter_cons_of_pos (by simpa using hc), List.map_cons]
      rfl
    · rw [if_neg hc, List.filter_cons_of_neg (by simpa using hc)]

theorem uint32_bit_test (m p : Nat) (hp : p < 32) :
    m &&& ((1 <<< p) % 2 ^ 32) ≠ 0 ↔ m.testBit p = true := by
  have h1 : (1 <<< p) % 2 ^ 32 = 2 ^ p := by
    rw [Nat.one_shiftLeft]
    exact Nat.mod_eq_of_lt (Nat.pow_lt_pow_right (by decide) hp)
  rw [h1, Nat.and_two_pow]
  cases m.testBit p <;> simp

/-- The keys `vlan_delete` deletes: the egress table ids of the member ports. -/
theorem vlan_delete_rules_eq (vlan_id mbr : Nat) (db : List sim_tcam_rec_t) :
    vlan_delete_rules vlan_id mbr db
      = hal_tcam_delete_run db
          (((List.range 32).filter
              (fun p => decide (mbr &&& ((1 <<< p) % 2 ^ 32) ≠ 0))).map
            (fun p => (TABLE_VLAN_EGRESS_STAGE, (VLAN_EGRESS_ENTRY p vlan_id) % 2 ^ 16))) := by
  unfold vlan_delete_rules
  exact foldl_delete_if_eq_run (List.range 32) (fun p => mbr &&& ((1 <<< p) % 2 ^ 32) ≠ 0)
    (fun p => (TABLE_VLAN_EGRESS_STAGE, (VLAN_EGRESS_ENTRY p vlan_id) % 2 ^ 16)) db

theorem vlan_delete_keys_mem (vlan_id mbr : Nat) (hv : vlan_id ≤ 255) (key : Nat × Nat) :
    key ∈ ((List.range 32).filter
        (fun p => decide (mbr &&& ((1 <<< p) % 2 ^ 32) ≠ 0))).map
      (fun p => (TABLE_VLAN_EGRESS_STAGE, (VLAN_EGRESS_ENTRY p vlan_id) % 2 ^ 16))
    ↔ ∃ p, p < 32 ∧ mbr.testBit p = true ∧
        key = (TABLE_VLAN_EGRESS_STAGE, p * 256 + vlan_id) := by
  rw [List.mem_map]
  constructor
  · rintro ⟨p, hp, rfl⟩
    obtain ⟨h1, h2⟩ := List.mem_filter.mp hp
    have hp32 := List.mem_range.mp h1
    exact ⟨p, hp32, (uint32_bit_test mbr p hp32).mp (of_decide_eq_true h2),
      by rw [vlan_egress_id p vlan_id hp32 hv]⟩
  · rintro ⟨p, hp32, hb, rfl⟩
    refine ⟨p, List.mem_filter.mpr ⟨List.mem_range.mpr hp32, ?_⟩,
      by rw [vlan_egress_id p vlan_id hp32 hv]⟩
    exact decide_eq_true ((uint32_bit_test mbr p hp32).mpr hb)

/-- The state after a `vlan_delete` that passes the checks. -/
theorem vlan_delete_ok (vlan_id : Nat) (s : vlan_sys) (hv1 : 1 ≤ vlan_id)
    (hv2 : vlan_id ≤ 255) (hvalid : (s.vlan_db.getD vlan_id vlan_entry_zero).valid ≠ 0) :
    vlan_delete vlan_id s
      = (HAL_OK,
         { s with
           vlan_db := slot_update (fun _ => vlan_entry_zero) s.vlan_db vlan_id,
           csr := (hal_vlan_member_set vlan_id 0 0 s.csr).2,
           db := vlan_delete_rules vlan_id
             (s.vlan_db.getD vlan_id vlan_entry_zero).member_bitmap s.db }) := by
  have c1 : ¬ (vlan_id = 0 ∨ vlan_id > VLAN_MAX_ID) := by
    unfold VLAN_MAX_ID
    omega
  unfold vlan_delete
  rw [if_neg c1, if_neg hvalid]

theorem hal_vlan_member_set_spec (vlan_id member untagged : Nat) (csr : sim_vlan_t)
    (hv : vlan_id ≤ 255) :
    (hal_vlan_member_set vlan_id member untagged csr).2.sim_vlan_member
      = csr.sim_vlan_member.set vlan_id member ∧
    (hal_vlan_member_set vlan_id member untagged csr).2.sim_vlan_untagged
      = csr.sim_vlan_untagged.set vlan_id untagged ∧
    (hal_vlan_member_set vlan_id member untagged csr).2.sim_vlan_pvid = csr.sim_vlan_pvid ∧
    (hal_vlan_member_set vlan_id member untagged csr).2.sim_vlan_mode = csr.sim_vlan_mode := by
  unfold hal_vlan_member_set
  rw [if_neg (by omega)]
  exact ⟨rfl, rfl, rfl, rfl⟩

/-- C25: `vlan_delete(v)` with `v = 0`, `v > 255` or `vlan_db[v]` not valid returns
`HAL_ERR_INVAL` and leaves the whole state (VLAN table, port configuration, registers,
rule store) as it was. For a valid VLAN `1 <= v <= 255`, on the 256-entry table and
registers and a store with one live record per key, it returns `HAL_OK`; for every
port `p < 32` whose bit is set in the member bitmap no live Stage-6 record is left at
table id `p * 256 + v`; `vlan_db[v]` is zeroed and `sim_vlan_member[v]`,
`sim_vlan_untagged[v]` are 0; the entries and registers of every other VLAN, the port
configuration and the PVID and mode registers are unchanged; and for every key that
is not the egress table id of a member port of `v` (so for every egress rule of another
VLAN) `sim_tcam_find` returns the slot it returned before, with the record unchanged. -/
theorem c25_vlan_delete_cascade (vlan_id : Nat) (s : vlan_sys)
    (hlen : s.vlan_db.length = VLAN_MAX_ID + 1)
    (hcsr : s.csr.sim_vlan_member.length = 256 ∧ s.csr.sim_vlan_untagged.length = 256)
    (hu : store_unique s.db) :
    (vlan_id = 0 ∨ vlan_id > 255 ∨ (s.vlan_db.getD vlan_id vlan_entry_zero).valid = 0 →
      vlan_delete vlan_id s = (HAL_ERR_INVAL, s)) ∧
    (1 ≤ vlan_id → vlan_id ≤ 255 → (s.vlan_db.getD vlan_id vlan_entry_zero).valid ≠ 0 →
      (vlan_delete vlan_id s).1 = HAL_OK ∧
      (∀ p, p < 32 →
        (s.vlan_db.getD vlan_id vlan_entry_zero).member_bitmap.testBit p = true →
        sim_tcam_find (vlan_delete vlan_id s).2.db TABLE_VLAN_EGRESS_STAGE
          (p * 256 + vlan_id) = none) ∧
      (vlan_delete vlan_id s).2.vlan_db.getD vlan_id vlan_entry_zero = vlan_entry_zero ∧
      (vlan_delete vlan_id s).2.csr.sim_vlan_member.getD vlan_id 0 = 0 ∧
      (vlan_delete vlan_id s).2.csr.sim_vlan_untagged.getD vlan_id 0 = 0 ∧
      (∀ w, w ≠ vlan_id →
        (vlan_delete vlan_id s).2.vlan_db.getD w vlan_entry_zero
          = s.vlan_db.getD w vlan_entry_zero ∧
        (vlan_delete vlan_id s).2.csr.sim_vlan_member.getD w 0
          = s.csr.sim_vlan_member.getD w 0 ∧
        (vlan_delete vlan_id s).2.csr.sim_vlan_untagged.getD w 0
          = s.csr.sim_vlan_untagged.getD w 0) ∧
      (vlan_delete vlan_id s).2.port_cfg = s.port_cfg ∧
      (vlan_delete vlan_id s).2.csr.sim_vlan_pvid = s.csr.sim_vlan_pvid ∧
      (vlan_delete vlan_id s).2.csr.sim_vlan_mode = s.csr.sim_vlan_mode ∧
      (∀ s2 t2,
        ¬ (s2 = TABLE_VLAN_EGRESS_STAGE ∧ ∃ p, p < 32 ∧
            (s.vlan_db.getD vlan_id vlan_entry_zero).member_bitmap.testBit p = true ∧
            t2 = p * 256 + vlan_id) →
        sim_tcam_find (vlan_delete vlan_id s).2.db s2 t2 = sim_tcam_find s.db s2 t2 ∧
        ∀ j, sim_tcam_find s.db s2 t2 = some j →
          (vlan_delete vlan_id s).2.db[j]? = s.db[j]?) ∧
      (∀ q w, q < 32 → w ≤ 255 → w ≠ vlan_id →
        sim_tcam_find (vlan_delete vlan_id s).2.db TABLE_VLAN_EGRESS_STAGE (q * 256 + w)
          = sim_tcam_find s.db TABLE_VLAN_EGRESS_STAGE (q * 256 + w))) := by
  constructor
  · intro h
    unfold vlan_delete
    by_cases c1 : vlan_id = 0 ∨ vlan_id > VLAN_MAX_ID
    · rw [if_pos c1]
    · rw [if_neg c1]
      have hv : (s.vlan_db.getD vlan_id vlan_entry_zero).valid = 0 := by
        rcases h with h | h | h
        · exact absurd (Or.inl h) c1
        · exact absurd (Or.inr h) c1
        · exact h
      rw [if_pos hv]
  · intro hv1 hv2 hvalid
    rw [vlan_delete_ok vlan_id s hv1 hv2 hvalid]
    simp only
    obtain ⟨m1, m2, m3, m4⟩ := hal_vlan_member_set_spec vlan_id 0 0 s.csr hv2
    rw [vlan_delete_rules_eq]
    have hother : ∀ s2 t2,
        ¬ (s2 = TABLE_VLAN_EGRESS_STAGE ∧ ∃ p, p < 32 ∧
            (s.vlan_db.getD vlan_id vlan_entry_zero).member_bitmap.testBit p = true ∧
            t2 = p * 256 + vlan_id) →
        ∀ key ∈ ((List.range 32).filter (fun p => decide
            ((s.vlan_db.getD vlan_id vlan_entry_zero).member_bitmap &&&
              ((1 <<< p) % 2 ^ 32) ≠ 0))).map
          (fun p => (TABLE_VLAN_EGRESS_STAGE, (VLAN_EGRESS_ENTRY p vlan_id) % 2 ^ 16)),
          ¬ (s2 = key.1 ∧ t2 = key.2) := by
      intro s2 t2 hne key hkey hk
      obtain ⟨p, hp, hb, rfl⟩ := (vlan_delete_keys_mem vlan_id _ hv2 key).mp hkey
      exact hne ⟨hk.1, p, hp, hb, hk.2⟩
    refine ⟨trivial, ?_, ?_, ?_, ?_, ?_, trivial, m3, m4, ?_, ?_⟩
    · intro p hp hb
      exact sim_tcam_find_delete_run_self s.db _ hu (TABLE_VLAN_EGRESS_STAGE, p * 256 + vlan_id)
        ((vlan_delete_keys_mem vlan_id _ hv2 _).mpr ⟨p, hp, hb, rfl⟩)
    · rw [getD_slot_update, if_pos ⟨rfl, by rw [hlen]; unfold VLAN_MAX_ID; omega⟩]
    · rw [m1, getD_set_zero, if_pos ⟨rfl, by rw [hcsr.1]; omega⟩]
    · rw [m2, getD_set_zero, if_pos ⟨rfl, by rw [hcsr.2]; omega⟩]
    · intro w hw
      refine ⟨?_, ?_, ?_⟩
      · rw [getD_slot_update, if_neg (fun h => hw h.1.symm)]
      · rw [m1, getD_set_zero, if_neg (fun h => hw h.1.symm)]
      · rw [m2, getD_set_zero, if_neg (fun h => hw h.1.symm)]
    · intro s2 t2 hne
      refine ⟨sim_tcam_find_delete_run_other s.db _ s2 t2 (hother s2 t2 hne), ?_⟩
      intro j hj
      obtain ⟨r, hr, his, _⟩ := (sim_tcam_find_some s.db _ _ j).mp hj
      rcases (hal_tcam_delete_run_slots s.db _).2 j r hr with h | h
      · rw [h, hr]
      · obtain ⟨_, key, hkey, hkis⟩ := h
        obtain ⟨_, a1, a2⟩ := (rec_is_iff _ _ r).mp his
        obtain ⟨_, b1, b2⟩ := (rec_is_iff _ _ r).mp hkis
        exact absurd ⟨a1.symm.trans b1, a2.symm.trans b2⟩ (hother s2 t2 hne key hkey)
    · intro q w hq hw hwv
      apply sim_tcam_find_delete_run_other s.db _ _ _ (hother _ _ ?_)
      rintro ⟨_, p, hp, _, he⟩
      exact hwv (vlan_egress_id_inj q w p vlan_id hw hv2 he).2

theorem vlan_create_db (vlan_id : Nat) (s : vlan_sys) : (vlan_create vlan_id s).2.db = s.db := by
  unfold vlan_create
  split_ifs <;> rfl

theorem vlan_port_add_unique (vlan_id port tagged : Nat) (s : vlan_sys)
    (hu : store_unique s.db) : store_unique (vlan_port_add vlan_id port tagged s).2.db := by
  unfold vlan_port_add
  split_ifs
  all_goals first | exact hu | exact store_unique_insert s.db _ hu

set_option maxRecDepth 100000 in
/-- C25 at the state of `test_vlan_delete` before the delete: VLAN 10 created on the reset
state, ports 0 and 1 added untagged and port 2 tagged. -/
theorem c25_vlan_delete_cascade_witness :
    (vlan_port_add 10 2 1 (vlan_port_add 10 1 0 (vlan_port_add 10 0 0
      (vlan_create 10 vlan_sys_reset).2).2).2).2.vlan_db.length = VLAN_MAX_ID + 1 ∧
    ((vlan_port_add 10 2 1 (vlan_port_add 10 1 0 (vlan_port_add 10 0 0
      (vlan_create 10 vlan_sys_reset).2).2).2).2.vlan_db.getD 10 vlan_entry_zero).member_bitmap
      = 7 ∧
    sim_tcam_count_stage (vlan_port_add 10 2 1 (vlan_port_add 10 1 0 (vlan_port_add 10 0 0
      (vlan_create 10 vlan_sys_reset).2).2).2).2.db TABLE_VLAN_EGRESS_STAGE = 3 ∧
    (vlan_delete 10 (vlan_port_add 10 2 1 (vlan_port_add 10 1 0 (vlan_port_add 10 0 0
      (vlan_create 10 vlan_sys_reset).2).2).2).2).1 = HAL_OK ∧
    sim_tcam_find (vlan_delete 10 (vlan_port_add 10 2 1 (vlan_port_add 10 1 0
      (vlan_port_add 10 0 0 (vlan_create 10 vlan_sys_reset).2).2).2).2).2.db
      TABLE_VLAN_EGRESS_STAGE (0 * 256 + 10) = none :=
  ⟨by decide, by decide, by decide,
   ((c25_vlan_delete_cascade 10 (vlan_port_add 10 2 1 (vlan_port_add 10 1 0
      (vlan_port_add 10 0 0 (vlan_create 10 vlan_sys_reset).2).2).2).2 (by decide)
      ⟨by decide, by decide⟩
      (vlan_port_add_unique _ _ _ _ (vlan_port_add_unique _ _ _ _
        (vlan_port_add_unique _ _ _ _
          (by rw [vlan_create_db]; exact store_unique_nil))))).2
      (by decide) (by decide) (by decide)).1,
   ((c25_vlan_delete_cascade 10 (vlan_port_add 10 2 1 (vlan_port_add 10 1 0
      (vlan_port_add 10 0 0 (vlan_create 10 vlan_sys_reset).2).2).2).2 (by decide)
      ⟨by decide, by decide⟩
      (vlan_port_add_unique _ _ _ _ (vlan_port_add_unique _ _ _ _
        (vlan_port_add_unique _ _ _ _
          (by rw [vlan_create_db]; exact store_unique_nil))))).2
      (by decide) (by decide) (by decide)).2.1 0 (by decide) (by decide)⟩

/-! ## What the actions leave alone -/

theorem apply_action_ig_port (phv : phv_t) (r : sim_tcam_rec_t) :
    (apply_action phv r).ig_port = phv.ig_port := by
  unfold apply_action
  simp only
  by_cases c0 : r.entry.action_id = ACTION_FORWARD
  · rw [if_pos c0]
    try rfl
  rw [if_neg c0]
  by_cases c1 : r.entry.action_id = ACTION_DROP
  · rw [if_pos c1]
    try rfl
  rw [if_neg c1]
  by_cases c2 : r.entry.action_id = ACTION_PERMIT
  · rw [if_pos c2]
    try rfl
  rw [if_neg c2]
  by_cases c3 : r.entry.action_id = ACTION_DENY
  · rw [if_pos c3]
    try rfl
  rw [if_neg c3]
  by_cases c4 : r.entry.action_id = ACTION_L2_FORWARD
  · rw [if_pos c4]
    try rfl
  rw [if_neg c4]
  by_cases c5 : r.entry.action_id = ACTION_FLOOD
  · rw [if_pos c5]
    try rfl
  rw [if_neg c5]
  by_cases c6 : r.entry.action_id = ACTION_PUNT_CPU
  · rw [if_pos c6]
    try rfl
  rw [if_neg c6]
  by_cases c7 : r.entry.action_id = ACTION_VLAN_ASSIGN_PVID
  · rw [if_pos c7]
    try rfl
  rw [if_neg c7]
  by_cases c8 : r.entry.action_id = ACTION_VLAN_ACCEPT_TAGGED
  · rw [if_pos c8]
    try (split <;> rfl)
  rw [if_neg c8]
  by_cases c9 : r.entry.action_id = ACTION_VLAN_DROP
  · rw [if_pos c9]
    try rfl
  rw [if_neg c9]
  by_cases c10 : r.entry.action_id = ACTION_VLAN_STRIP_TAG
  · rw [if_pos c10]
    try rfl
  rw [if_neg c10]
  by_cases c11 : r.entry.action_id = ACTION_VLAN_KEEP_TAG
  · rw [if_pos c11]
    try rfl
  rw [if_neg c11]
  by_cases c12 : r.entry.action_id = ACTION_SET_PRIO
  · rw [if_pos c12]
    try rfl
  rw [if_neg c12]
  try rfl

/-- Only the two VLAN ingress actions write `vlan_id`. -/
theorem apply_action_vlan_id (phv : phv_t) (r : sim_tcam_rec_t)
    (h1 : r.entry.action_id ≠ ACTION_VLAN_ASSIGN_PVID)
    (h2 : r.entry.action_id ≠ ACTION_VLAN_ACCEPT_TAGGED) :
    (apply_action phv r).vlan_id = phv.vlan_id := by
  unfold apply_action
  simp only
  by_cases c0 : r.entry.action_id = ACTION_FORWARD
  · rw [if_pos c0]
    try rfl
  rw [if_neg c0]
  by_cases c1 : r.entry.action_id = ACTION_DROP
  · rw [if_pos c1]
    try rfl
  rw [if_neg c1]
  by_cases c2 : r.entry.action_id = ACTION_PERMIT
  · rw [if_pos c2]
    try rfl
  rw [if_neg c2]
  by_cases c3 : r.entry.action_id = ACTION_DENY
  · rw [if_pos c3]
    try rfl
  rw [if_neg c3]
  by_cases c4 : r.entry.action_id = ACTION_L2_FORWARD
  · rw [if_pos c4]
    try rfl
  rw [if_neg c4]
  by_cases c5 : r.entry.action_id = ACTION_FLOOD
  · rw [if_pos c5]
    try rfl
  rw [if_neg c5]
  by_cases c6 : r.entry.action_id = ACTION_PUNT_CPU
  · rw [if_pos c6]
    try rfl
  rw [if_neg c6]
  by_cases c7 : r.entry.action_id = ACTION_VLAN_ASSIGN_PVID
  · rw [if_pos c7]
    exact absurd c7 h1
  rw [if_neg c7]
  by_cases c8 : r.entry.action_id = ACTION_VLAN_ACCEPT_TAGGED
  · rw [if_pos c8]
    exact absurd c8 h2
  rw [if_neg c8]
  by_cases c9 : r.entry.action_id = ACTION_VLAN_DROP
  · rw [if_pos c9]
    try rfl
  rw [if_neg c9]
  by_cases c10 : r.entry.action_id = ACTION_VLAN_STRIP_TAG
  · rw [if_pos c10]
    try rfl
  rw [if_neg c10]
  by_cases c11 : r.entry.action_id = ACTION_VLAN_KEEP_TAG
  · rw [if_pos c11]
    try rfl
  rw [if_neg c11]
  by_cases c12 : r.entry.action_id = ACTION_SET_PRIO
  · rw [if_pos c12]
    try rfl
  rw [if_neg c12]
  try rfl

/-- The egress actions strip-tag and keep-tag leave `drop`, `punt` and `vlan_id`. -/
theorem apply_action_egress (phv : phv_t) (r : sim_tcam_rec_t)
    (h : r.entry.action_id = ACTION_VLAN_STRIP_TAG ∨ r.entry.action_id = ACTION_VLAN_KEEP_TAG) :
    (apply_action phv r).drop = phv.drop ∧ (apply_action phv r).punt = phv.punt ∧
    (apply_action phv r).vlan_id = phv.vlan_id := by
  rcases h with h | h
  · unfold apply_action
    simp only
    rw [if_neg (by rw [h]; decide), if_neg (by rw [h]; decide), if_neg (by rw [h]; decide),
      if_neg (by rw [h]; decide), if_neg (by rw [h]; decide), if_neg (by rw [h]; decide),
      if_neg (by rw [h]; decide), if_neg (by rw [h]; decide), if_neg (by rw [h]; decide),
      if_neg (by rw [h]; decide), if_pos h]
    exact ⟨rfl, rfl, rfl⟩
  · unfold apply_action
    simp only
    rw [if_neg (by rw [h]; decide), if_neg (by rw [h]; decide), if_neg (by rw [h]; decide),
      if_neg (by rw [h]; decide), if_neg (by rw [h]; decide), if_neg (by rw [h]; decide),
      if_neg (by rw [h]; decide), if_neg (by rw [h]; decide), if_neg (by rw [h]; decide),
      if_neg (by rw [h]; decide), if_neg (by rw [h]; decide), if_pos h]
    exact ⟨rfl, rfl, rfl⟩

theorem apply_action_assign_pvid (phv : phv_t) (r : sim_tcam_rec_t)
    (h : r.entry.action_id = ACTION_VLAN_ASSIGN_PVID) :
    apply_action phv r
      = { phv with vlan_id :=
            (((r.entry.action_params.getD 0 0) <<< 8) ||| (r.entry.action_params.getD 1 0))
              % 2 ^ 16 } := by
  unfold apply_action
  simp only
  rw [if_neg (by rw [h]; decide), if_neg (by rw [h]; decide), if_neg (by rw [h]; decide),
    if_neg (by rw [h]; decide), if_neg (by rw [h]; decide), if_neg (by rw [h]; decide),
    if_neg (by rw [h]; decide), if_pos h]

/-! ## One stage and runs of stages -/

/-- A stage leaves the PHV, or applies the action of a live record of that stage. -/
theorem pkt_forward_stage_cases (db : List sim_tcam_rec_t) (phv : phv_t) (stage : Nat) :
    pkt_forward_stage db phv stage = phv ∨
    ∃ r ∈ db, rec_live r = true ∧ r.entry.stage = stage % 256 ∧
      pkt_forward_stage db phv stage = apply_action phv r := by
  unfold pkt_forward_stage
  simp only
  cases hl : tcam_ternary_lookup db (stage % 256)
      (stage_extract stage phv (List.replicate 64 0)).1
      (stage_extract stage phv (List.replicate 64 0)).2 with
  | none => exact Or.inl rfl
  | some m =>
    obtain ⟨r, hr, hhit, _⟩ := (tcam_ternary_lookup_some db _ _ _ m).mp hl
    right
    simp only [ternary_hit, Bool.and_eq_true, beq_iff_eq] at hhit
    refine ⟨r, List.getElem?_mem hr, hhit.1.1, hhit.1.2, ?_⟩
    simp only [hr]

/-- A property of the PHV that every action of a live record of the stages
`s0 .. s0 + n - 1` keeps is kept by the run of these stages. -/
theorem pkt_forward_loop_keeps (Q : phv_t → Prop) (db : List sim_tcam_rec_t) (s0 n : Nat)
    (hQ : ∀ (phv : phv_t) (r : sim_tcam_rec_t), r ∈ db → rec_live r = true →
      (∃ s, s0 ≤ s ∧ s < s0 + n ∧ r.entry.stage = s % 256) → Q phv → Q (apply_action phv r))
    (phv : phv_t) (h : Q phv) : Q (pkt_forward_loop db phv s0 n) := by
  induction n generalizing s0 phv with
  | zero => exact h
  | succ n ih =>
    rw [pkt_forward_loop]
    split
    · exact h
    · apply ih (s0 + 1)
      · intro phv2 r hr hl hs hq
        obtain ⟨s, h1, h2, h3⟩ := hs
        exact hQ phv2 r hr hl ⟨s, by omega, by omega, h3⟩ hq
      · rcases pkt_forward_stage_cases db phv s0 with h1 | ⟨r, hr, hl, hs, h1⟩
        · rw [h1]; exact h
        · rw [h1]
          exact hQ phv r hr hl ⟨s0, Nat.le_refl _, by omega, hs⟩ h

/-! ## Two inserts in a row -/

theorem hal_tcam_insert_mem (db : List sim_tcam_rec_t) (e : tcam_entry_t) (r : sim_tcam_rec_t)
    (hr : r ∈ (hal_tcam_insert (some e) db).2) : r ∈ db ∨ r.entry = e := by
  cases hf : sim_tcam_find db e.stage e.table_id with
  | some j =>
    rw [hal_tcam_insert_existing db e j hf] at hr
    obtain ⟨k, hk⟩ := List.getElem?_of_mem hr
    rw [getElem?_slot_update] at hk
    by_cases hjk : j = k
    · rw [if_pos hjk] at hk
      cases hd : db[k]? with
      | none => rw [hd] at hk; cases hk
      | some x =>
        rw [hd] at hk
        simp only [Option.map_some', Option.some.injEq] at hk
        right
        rw [← hk]
    · rw [if_neg hjk] at hk
      exact Or.inl (List.getElem?_mem hk)
  | none =>
    by_cases hn : db.length < SIM_TCAM_MAX
    · rw [hal_tcam_insert_new db e hf hn] at hr
      rcases List.mem_append.mp hr with h | h
      · exact Or.inl h
      · right
        rw [List.mem_singleton.mp h]
    · have he := (hal_tcam_insert_refused db e).2 (by
        intro hok
        rcases (hal_tcam_insert_refused db e).1.mp hok with h | h
        · exact h hf
        · exact hn h)
      rw [he] at hr
      exact Or.inl hr

/-- Insert of `a` then of `b` with distinct keys, on a store where a live record of
`b`'s key sits behind a live record of `a`'s key and the insert of `a` is accepted:
afterwards `sim_tcam_find` returns a live record holding `a`, and a live record of
`b`'s key sits behind it. -/
theorem hal_tcam_insert_pair (db : List sim_tcam_rec_t) (a b : tcam_entry_t)
    (hne : ¬ (a.stage = b.stage ∧ a.table_id = b.table_id))
    (hord : ∀ j, sim_tcam_find db b.stage b.table_id = some j →
      ∃ i, i < j ∧ sim_tcam_find db a.stage a.table_id = some i)
    (hroom : sim_tcam_find db a.stage a.table_id ≠ none ∨ db.length < SIM_TCAM_MAX) :
    ∃ (i : Nat) (r : sim_tcam_rec_t),
      sim_tcam_find (hal_tcam_insert (some b) (hal_tcam_insert (some a) db).2).2
        a.stage a.table_id = some i ∧
      (hal_tcam_insert (some b) (hal_tcam_insert (some a) db).2).2[i]? = some r ∧
      rec_live r = true ∧ r.entry = a ∧
      ∀ j, sim_tcam_find (hal_tcam_insert (some b) (hal_tcam_insert (some a) db).2).2
        b.stage b.table_id = some j → i < j := by
  have hok := (hal_tcam_insert_refused db a).1.mpr hroom
  obtain ⟨i, r, a1, a2, a3, a4, a5, a6⟩ := hal_tcam_insert_accepted db a hok
  have hne2 : ¬ (b.stage = a.stage ∧ b.table_id = a.table_id) :=
    fun h => hne ⟨h.1.symm, h.2.symm⟩
  generalize hdb1 : (hal_tcam_insert (some a) db).2 = db1 at a1 a2 a5
  have hfb : sim_tcam_find db1 b.stage b.table_id = sim_tcam_find db b.stage b.table_id := by
    rw [← hdb1]
    exact sim_tcam_find_insert_other db a _ _ hne2
  have hilt : i < db1.length := by
    by_contra hge
    rw [List.getElem?_eq_none (by omega)] at a2
    cases a2
  have hfa : sim_tcam_find (hal_tcam_insert (some b) db1).2 a.stage a.table_id = some i := by
    rw [sim_tcam_find_insert_other db1 b _ _ hne, a1]
  -- where the live record of the key of `b` sits afterwards
  have hjb : ∀ j, sim_tcam_find (hal_tcam_insert (some b) db1).2 b.stage b.table_id = some j →
      i < j ∧ (hal_tcam_insert (some b) db1).2[i]? = db1[i]? := by
    intro j hj
    by_cases hokb : (hal_tcam_insert (some b) db1).1 = HAL_OK
    · obtain ⟨j2, r2, b1, b2, b3, b4, b5, b6⟩ := hal_tcam_insert_accepted db1 b hokb
      rw [b1] at hj
      obtain rfl := Option.some.inj hj
      have hlt : i < j2 := by
        rcases b6 with h | ⟨_, h⟩
        · rw [hfb] at h
          obtain ⟨i0, hi0, hfa0⟩ := hord j2 h
          rcases a6 with h2 | ⟨h2, _⟩
          · rw [hfa0] at h2
            obtain rfl := Option.some.inj h2
            exact hi0
          · rw [hfa0] at h2
            cases h2
        · rw [h]
          exact hilt
      exact ⟨hlt, b5 i (by omega)⟩
    · have he := (hal_tcam_insert_refused db1 b).2 hokb
      rw [he] at hj ⊢
      rw [hfb] at hj
      obtain ⟨i0, hi0, hfa0⟩ := hord j hj
      rcases a6 with h2 | ⟨h2, _⟩
      · rw [hfa0] at h2
        obtain rfl := Option.some.inj h2
        exact ⟨hi0, rfl⟩
      · rw [hfa0] at h2
        cases h2
  have hslot : (hal_tcam_insert (some b) db1).2[i]? = some r := by
    by_cases hokb : (hal_tcam_insert (some b) db1).1 = HAL_OK
    · obtain ⟨j2, r2, b1, _, _, _, _, _⟩ := hal_tcam_insert_accepted db1 b hokb
      rw [(hjb j2 b1).2, a2]
    · rw [(hal_tcam_insert_refused db1 b).2 hokb, a2]
  exact ⟨i, r, hfa, hslot, a3, a4, fun j hj => (hjb j hj).1⟩

/-! ## The ingress rules of a port and Stage 4 -/

theorem u16_bytes_join (x : Nat) (hx : x < 2 ^ 16) :
    (((((x >>> 8) &&& 0xFF) % 256) <<< 8) ||| ((x &&& 0xFF) % 256)) % 2 ^ 16 = x := by
  rw [and_0xFF, and_0xFF, Nat.mod_mod, Nat.mod_mod, Nat.shiftRight_eq_div_pow,
    Nat.shiftLeft_eq, Nat.mul_comm,
    ← Nat.mul_add_lt_is_or (Nat.mod_lt x (by decide : 0 < 256)) (x / 2 ^ 8 % 256)]
  have h8 : (2 : Nat) ^ 8 = 256 := by norm_num
  have h16 : (2 : Nat) ^ 16 = 65536 := by norm_num
  rw [h8]
  rw [h16] at hx ⊢
  omega

theorem vlan_ingress_entry_fields (port tci_val tci_mask action_id meta_vlan_id table_id : Nat) :
    (vlan_ingress_entry port tci_val tci_mask action_id meta_vlan_id table_id).stage
      = TABLE_VLAN_INGRESS_STAGE ∧
    (vlan_ingress_entry port tci_val tci_mask action_id meta_vlan_id table_id).table_id
      = table_id ∧
    (vlan_ingress_entry port tci_val tci_mask action_id meta_vlan_id table_id).action_id
      = action_id ∧
    (vlan_ingress_entry port tci_val tci_mask action_id meta_vlan_id table_id).key.key_len = 3 ∧
    (vlan_ingress_entry port tci_val tci_mask action_id meta_vlan_id table_id).key.bytes.getD 0 0
      = port ∧
    (vlan_ingress_entry port tci_val tci_mask action_id meta_vlan_id table_id).mask.bytes.getD 0 0
      = 0xFF ∧
    (vlan_ingress_entry port tci_val tci_mask action_id meta_vlan_id table_id).mask.bytes.getD 1 0
      = (tci_mask >>> 8) &&& 0xFF ∧
    (vlan_ingress_entry port tci_val tci_mask action_id meta_vlan_id table_id).mask.bytes.getD 2 0
      = tci_mask &&& 0xFF ∧
    (vlan_ingress_entry port tci_val tci_mask action_id meta_vlan_id
        table_id).action_params.getD 0 0 = ((meta_vlan_id >>> 8) &&& 0xFF) % 256 ∧
    (vlan_ingress_entry port tci_val tci_mask action_id meta_vlan_id
        table_id).action_params.getD 1 0 = (meta_vlan_id &&& 0xFF) % 256 := by
  refine ⟨rfl, rfl, rfl, rfl, ?_, ?_, ?_, ?_, ?_, ?_⟩ <;>
    simp [vlan_ingress_entry, u16_to_key, tcam_entry_zero]

theorem sim_tcam_find_le_of_is (db : List sim_tcam_rec_t) (stage table_id k : Nat)
    (r : sim_tcam_rec_t) (hk : db[k]? = some r) (hr : rec_is stage table_id r = true) :
    ∃ i, sim_tcam_find db stage table_id = some i ∧ i ≤ k := by
  cases h : sim_tcam_find db stage table_id with
  | none =>
    have := (sim_tcam_find_none db stage table_id).mp h r (List.getElem?_mem hk)
    rw [hr] at this
    cases this
  | some i =>
    refine ⟨i, rfl, ?_⟩
    by_contra hgt
    obtain ⟨_, _, _, hlt⟩ := (sim_tcam_find_some db stage table_id i).mp h
    have := hlt k r (by omega) hk
    rw [hr] at this
    cases this

theorem extract_s4_key (phv : phv_t) :
    (stage_extract 4 phv (List.replicate 64 0)).2 = 3 ∧
    (stage_extract 4 phv (List.replicate 64 0)).1.getD 0 0 = phv.ig_port := by
  refine ⟨rfl, ?_⟩
  show (extract_s4 phv (List.replicate 64 0)).1.getD 0 0 = phv.ig_port
  show ((((List.replicate 64 0).set 0 phv.ig_port).set 1
      (phv.hdr.getD PHV_OFF_VLAN_TCI 0)).set 2
      (phv.hdr.getD (PHV_OFF_VLAN_TCI + 1) 0)).getD 0 0 = phv.ig_port
  rw [getD_set_zero, if_neg (by omega), getD_set_zero, if_neg (by omega), getD_set_zero,
    if_pos ⟨rfl, by rw [List.length_replicate]; decide⟩]

/-- Stage 4 over a store of ingress rules in which the first rule of `port` is live in
slot `i`, in front of the second: every PHV that entered on `port` hits slot `i`. -/
theorem vlan_stage4_lookup (db : List sim_tcam_rec_t) (port i : Nat) (r : sim_tcam_rec_t)
    (hp : port < 32) (hu : store_unique db) (hst : vlan_ingress_store db)
    (hi : db[i]? = some r) (hl : rec_live r = true)
    (hs : r.entry.stage = TABLE_VLAN_INGRESS_STAGE)
    (ht : r.entry.table_id = VLAN_INGRESS_ENTRY port 0)
    (hk : r.entry.key.key_len = 3 ∧ r.entry.key.bytes.getD 0 0 = port ∧
      r.entry.mask.bytes.getD 0 0 = 0xFF ∧ r.entry.mask.bytes.getD 1 0 = 0 ∧
      r.entry.mask.bytes.getD 2 0 = 0)
    (hord : ∀ j, sim_tcam_find db TABLE_VLAN_INGRESS_STAGE (VLAN_INGRESS_ENTRY port 1) = some j →
      i < j)
    (phv : phv_t) (hig : phv.ig_port = port) :
    tcam_ternary_lookup db 4 (stage_extract 4 phv (List.replicate 64 0)).1
      (stage_extract 4 phv (List.replicate 64 0)).2 = some i := by
  obtain ⟨k1, k2⟩ := extract_s4_key phv
  rw [k1]
  generalize (stage_extract 4 phv (List.replicate 64 0)).1 = key at k2
  rw [hig] at k2
  rw [tcam_ternary_lookup_some]
  refine ⟨r, hi, ?_, ?_⟩
  · have hm : ternary_match key 3 r.entry ≠ 0 := by
      rw [ternary_match_ne_zero, hk.1]
      intro b hb
      have hb3 : b < 3 := by simpa using hb
      interval_cases b
      · rw [k2, hk.2.1]
      · rw [hk.2.2.2.1, Nat.and_zero, Nat.and_zero]
      · rw [hk.2.2.2.2, Nat.and_zero, Nat.and_zero]
    have hs4 : r.entry.stage = 4 := hs
    simp [ternary_hit, hl, hs4, hm]
  · intro j r2 hj hr2
    cases hh : ternary_hit 4 key 3 r2 with
    | false => rfl
    | true =>
      exfalso
      simp only [ternary_hit, Bool.and_eq_true, beq_iff_eq, bne_iff_ne, ne_eq] at hh
      obtain ⟨⟨hl2, hs2⟩, hm2⟩ := hh
      obtain ⟨c1, c2, c3, c4⟩ := (hst r2 (List.getElem?_mem hr2) hl2).1 hs2
      have h0 := (ternary_match_ne_zero key 3 r2.entry).mp hm2 0 (by rw [c1]; decide)
      rw [k2, c2, and_0xFF, and_0xFF, Nat.mod_eq_of_lt (by omega),
        Nat.mod_eq_of_lt (by omega)] at h0
      rw [← h0] at c4
      rcases c4 with c4 | c4
      · have := hu i j r r2 hi hr2 hl hl2 (hs.trans hs2.symm) (ht.trans c4.symm)
        omega
      · obtain ⟨j2, hj2, hle⟩ := sim_tcam_find_le_of_is db TABLE_VLAN_INGRESS_STAGE
          (VLAN_INGRESS_ENTRY port 1) j r2 hr2
          ((rec_is_iff _ _ _).mpr ⟨hl2, hs2, c4⟩)
        have := hord j2 hj2
        omega

theorem vlan_ingress_id (port t : Nat) (hp : port < 32) (ht : t < 2) :
    (VLAN_INGRESS_ENTRY port t) % 2 ^ 16 = VLAN_INGRESS_ENTRY port t := by
  unfold VLAN_INGRESS_ENTRY
  apply Nat.mod_eq_of_lt
  have : (2 : Nat) ^ 16 = 65536 := by norm_num
  omega

/-- The store after `vlan_install_port_rules(port)`: the insert of the assign-PVID
rule, then the insert of an accept-tagged rule whose form depends on the mode. -/
theorem vlan_install_port_rules_db (port : Nat) (s : vlan_sys) (hp : port < 32) :
    ∃ b : tcam_entry_t,
      b.stage = TABLE_VLAN_INGRESS_STAGE ∧ b.table_id = VLAN_INGRESS_ENTRY port 1 ∧
      b.key.key_len = 3 ∧ b.key.bytes.getD 0 0 = port ∧ b.mask.bytes.getD 0 0 = 0xFF ∧
      (vlan_install_port_rules port s).db
        = (hal_tcam_insert (some b)
            (hal_tcam_insert (some (vlan_ingress_entry port 0 0 ACTION_VLAN_ASSIGN_PVID
              (s.port_cfg.getD port port_vlan_cfg_zero).pvid (VLAN_INGRESS_ENTRY port 0)))
              s.db).2).2 := by
  unfold vlan_install_port_rules install_ingress_rule
  simp only
  rw [vlan_ingress_id port 0 hp (by decide), vlan_ingress_id port 1 hp (by decide)]
  split
  · exact ⟨_, (vlan_ingress_entry_fields _ _ _ _ _ _).1,
      (vlan_ingress_entry_fields _ _ _ _ _ _).2.1,
      (vlan_ingress_entry_fields _ _ _ _ _ _).2.2.2.1,
      (vlan_ingress_entry_fields _ _ _ _ _ _).2.2.2.2.1,
      (vlan_ingress_entry_fields _ _ _ _ _ _).2.2.2.2.2.1, rfl⟩
  · exact ⟨_, (vlan_ingress_entry_fields _ _ _ _ _ _).1,
      (vlan_ingress_entry_fields _ _ _ _ _ _).2.1,
      (vlan_ingress_entry_fields _ _ _ _ _ _).2.2.2.1,
      (vlan_ingress_entry_fields _ _ _ _ _ _).2.2.2.2.1,
      (vlan_ingress_entry_fields _ _ _ _ _ _).2.2.2.2.2.1, rfl⟩

theorem vlan_ingress_ordered_iff (db : List sim_tcam_rec_t) (port : Nat)
    (h : vlan_ingress_ordered db port) (j : Nat)
    (hj : sim_tcam_find db TABLE_VLAN_INGRESS_STAGE (VLAN_INGRESS_ENTRY port 1) = some j) :
    ∃ i, i < j ∧
      sim_tcam_find db TABLE_VLAN_INGRESS_STAGE (VLAN_INGRESS_ENTRY port 0) = some i := by
  unfold vlan_ingress_ordered at h
  rw [hj] at h
  simp only at h
  cases hf : sim_tcam_find db TABLE_VLAN_INGRESS_STAGE (VLAN_INGRESS_ENTRY port 0) with
  | none => rw [hf] at h; exact absurd h id
  | some i => rw [hf] at h; exact ⟨i, h, rfl⟩

/-- The facts about the store after `vlan_install_port_rules(port)` that the pipeline
needs. -/
theorem vlan_install_port_rules_store (port : Nat) (s : vlan_sys) (hp : port < 32)
    (hst : vlan_ingress_store s.db) (hord : vlan_ingress_ordered s.db port)
    (hu : store_unique s.db)
    (hroom : sim_tcam_find s.db TABLE_VLAN_INGRESS_STAGE (VLAN_INGRESS_ENTRY port 0) ≠ none ∨
      s.db.length < SIM_TCAM_MAX) :
    store_unique (vlan_install_port_rules port s).db ∧
    vlan_ingress_store (vlan_install_port_rules port s).db ∧
    (vlan_only_store s.db → vlan_only_store (vlan_install_port_rules port s).db) ∧
    ∃ (i : Nat) (r : sim_tcam_rec_t),
      (vlan_install_port_rules port s).db[i]? = some r ∧ rec_live r = true ∧
      r.entry = vlan_ingress_entry port 0 0 ACTION_VLAN_ASSIGN_PVID
        (s.port_cfg.getD port port_vlan_cfg_zero).pvid (VLAN_INGRESS_ENTRY port 0) ∧
      ∀ j, sim_tcam_find (vlan_install_port_rules port s).db TABLE_VLAN_INGRESS_STAGE
        (VLAN_INGRESS_ENTRY port 1) = some j → i < j := by
  obtain ⟨b, b1, b2, b3, b4, b5, hdb⟩ := vlan_install_port_rules_db port s hp
  rw [hdb]
  generalize ha : vlan_ingress_entry port 0 0 ACTION_VLAN_ASSIGN_PVID
    (s.port_cfg.getD port port_vlan_cfg_zero).pvid (VLAN_INGRESS_ENTRY port 0) = a
  obtain ⟨f1, f2, f3, f4, f5, f6, _⟩ := vlan_ingress_entry_fields port 0 0
    ACTION_VLAN_ASSIGN_PVID (s.port_cfg.getD port port_vlan_cfg_zero).pvid
    (VLAN_INGRESS_ENTRY port 0)
  rw [ha] at f1 f2 f3 f4 f5 f6
  have hmem : ∀ r ∈ (hal_tcam_insert (some b) (hal_tcam_insert (some a) s.db).2).2,
      r ∈ s.db ∨ r.entry = a ∨ r.entry = b := by
    intro r hr
    rcases hal_tcam_insert_mem _ b r hr with h | h
    · rcases hal_tcam_insert_mem _ a r h with h2 | h2
      · exact Or.inl h2
      · exact Or.inr (Or.inl h2)
    · exact Or.inr (Or.inr h)
  have hne : ¬ (a.stage = b.stage ∧ a.table_id = b.table_id) := by
    rintro ⟨_, h⟩
    rw [f2, b2] at h
    unfold VLAN_INGRESS_ENTRY at h
    omega
  refine ⟨store_unique_insert _ _ (store_unique_insert _ _ hu), ?_, ?_, ?_⟩
  · intro r hr hl
    rcases hmem r hr with h | h | h
    · exact hst r h hl
    · unfold vlan_ingress_rule
      rw [h]
      refine ⟨fun _ => ⟨f4, f6, by rw [f5]; exact hp, Or.inl (by rw [f5]; exact f2)⟩, ?_⟩
      intro hs
      rw [f1] at hs
      rcases hs with hs | hs <;> exact absurd hs (by decide)
    · unfold vlan_ingress_rule
      rw [h]
      refine ⟨fun _ => ⟨b3, b5, by rw [b4]; exact hp, Or.inr (by rw [b4]; exact b2)⟩, ?_⟩
      intro hs
      rw [b1] at hs
      rcases hs with hs | hs <;> exact absurd hs (by decide)
  · intro hon r hr hl
    rcases hmem r hr with h | h | h
    · exact hon r h hl
    · rw [h]; exact Or.inl f1
    · rw [h]; exact Or.inl b1
  · have hord2 : ∀ j, sim_tcam_find s.db b.stage b.table_id = some j →
        ∃ i, i < j ∧ sim_tcam_find s.db a.stage a.table_id = some i := by
      intro j hj
      rw [b1, b2] at hj
      rw [f1, f2]
      exact vlan_ingress_ordered_iff s.db port hord j hj
    obtain ⟨i, r, p1, p2, p3, p4, p5⟩ := hal_tcam_insert_pair s.db a b hne hord2
      (by rw [f1, f2]; exact hroom)
    refine ⟨i, r, p2, p3, p4, ?_⟩
    intro j hj
    apply p5 j
    rw [b1, b2]
    exact hj

/-- Stage 4 after `vlan_install_port_rules(port)`: a PHV that entered on `port` gets
the PVID of the port as `vlan_id`, whatever its TCI bytes. -/
theorem vlan_stage4_pvid (port : Nat) (s : vlan_sys) (hp : port < 32)
    (hpv : (s.port_cfg.getD port port_vlan_cfg_zero).pvid < 2 ^ 16)
    (hst : vlan_ingress_store s.db) (hord : vlan_ingress_ordered s.db port)
    (hu : store_unique s.db)
    (hroom : sim_tcam_find s.db TABLE_VLAN_INGRESS_STAGE (VLAN_INGRESS_ENTRY port 0) ≠ none ∨
      s.db.length < SIM_TCAM_MAX)
    (phv : phv_t) (hig : phv.ig_port = port) :
    pkt_forward_stage (vlan_install_port_rules port s).db phv 4
      = { phv with vlan_id := (s.port_cfg.getD port port_vlan_cfg_zero).pvid } := by
  obtain ⟨h1, h2, _, i, r, hi, hl, he, ho⟩ :=
    vlan_install_port_rules_store port s hp hst hord hu hroom
  obtain ⟨f1, f2, f3, f4, f5, f6, f7, f8, f9, f10⟩ := vlan_ingress_entry_fields port 0 0
    ACTION_VLAN_ASSIGN_PVID (s.port_cfg.getD port port_vlan_cfg_zero).pvid
    (VLAN_INGRESS_ENTRY port 0)
  rw [← he] at f1 f2 f3 f4 f5 f6 f7 f8 f9 f10
  have hlook := vlan_stage4_lookup (vlan_install_port_rules port s).db port i r hp h1 h2 hi hl
    f1 f2 ⟨f4, f5, f6, by rw [f7]; rfl, by rw [f8]; rfl⟩ ho phv hig
  have h4 : 4 % 256 = 4 := rfl
  unfold pkt_forward_stage
  simp only
  rw [h4, hlook]
  simp only [hi]
  rw [apply_action_assign_pvid phv r f3, f9, f10, u16_bytes_join _ hpv]

/-- The pipeline after `vlan_install_port_rules(port)`, on a PHV that entered on
`port`: when the PHV comes out with `drop` and `punt` clear, its `vlan_id` is the
PVID of the port; over a store that holds only rules of the VLAN compiler a PHV that
goes in with `drop` and `punt` clear comes out so. -/
theorem vlan_port_rules_forward (port : Nat) (s : vlan_sys) (hp : port < 32)
    (hpv : (s.port_cfg.getD port port_vlan_cfg_zero).pvid < 2 ^ 16)
    (hst : vlan_ingress_store s.db) (hord : vlan_ingress_ordered s.db port)
    (hu : store_unique s.db)
    (hroom : sim_tcam_find s.db TABLE_VLAN_INGRESS_STAGE (VLAN_INGRESS_ENTRY port 0) ≠ none ∨
      s.db.length < SIM_TCAM_MAX)
    (phv : phv_t) (hig : phv.ig_port = port) :
    ((pkt_forward_loop (vlan_install_port_rules port s).db phv 0 PKT_NUM_STAGES).drop = 0 →
      (pkt_forward_loop (vlan_install_port_rules port s).db phv 0 PKT_NUM_STAGES).punt = 0 →
      (pkt_forward_loop (vlan_install_port_rules port s).db phv 0 PKT_NUM_STAGES).vlan_id
        = (s.port_cfg.getD port port_vlan_cfg_zero).pvid) ∧
    (vlan_only_store s.db → phv.drop = 0 → phv.punt = 0 →
      (pkt_forward_loop (vlan_install_port_rules port s).db phv 0 PKT_NUM_STAGES).drop = 0 ∧
      (pkt_forward_loop (vlan_install_port_rules port s).db phv 0 PKT_NUM_STAGES).punt = 0 ∧
      (pkt_forward_loop (vlan_install_port_rules port s).db phv 0 PKT_NUM_STAGES).vlan_id
        = (s.port_cfg.getD port port_vlan_cfg_zero).pvid) := by
  obtain ⟨_, h2, h3, _⟩ := vlan_install_port_rules_store port s hp hst hord hu hroom
  have hs4 := fun q hq => vlan_stage4_pvid port s hp hpv hst hord hu hroom q hq
  generalize (vlan_install_port_rules port s).db = db at h2 h3 hs4 ⊢
  generalize (s.port_cfg.getD port port_vlan_cfg_zero).pvid = pvid at hs4 ⊢
  have h7 : PKT_NUM_STAGES = 4 + 3 := rfl
  rw [h7, pkt_forward_loop_add, Nat.zero_add]
  have hq : (pkt_forward_loop db phv 0 4).ig_port = port :=
    pkt_forward_loop_keeps (fun x => x.ig_port = port) db 0 4
      (fun x r _ _ _ hx => (apply_action_ig_port x r).trans hx) phv hig
  -- stages 5 and 6 keep `vlan_id`
  have h56 : ∀ x : phv_t, x.vlan_id = pvid → (pkt_forward_loop db x 5 2).vlan_id = pvid := by
    intro x hx
    apply pkt_forward_loop_keeps (fun y => y.vlan_id = pvid) db 5 2 _ x hx
    intro y r hr hl hs hy
    obtain ⟨n, n1, n2, n3⟩ := hs
    have hst56 : r.entry.stage = TABLE_DSCP_MAP_STAGE ∨
        r.entry.stage = TABLE_VLAN_EGRESS_STAGE := by
      have : n = 5 ∨ n = 6 := by omega
      rcases this with h | h
      · left; rw [n3, h]; rfl
      · right; rw [n3, h]; rfl
    obtain ⟨a1, a2⟩ := (h2 r hr hl).2 hst56
    show (apply_action y r).vlan_id = pvid
    rw [apply_action_vlan_id y r a1 a2]
    exact hy
  have hstep : ∀ x : phv_t, x.ig_port = port → ¬ (x.drop ≠ 0 ∨ x.punt ≠ 0) →
      pkt_forward_loop db x 4 3
        = pkt_forward_loop db { x with vlan_id := pvid } 5 2 := by
    intro x hx hf
    have e3 : (3 : Nat) = 2 + 1 := rfl
    rw [e3, pkt_forward_loop, if_neg hf, hs4 x hx]
  constructor
  · intro hd hpu
    by_cases hf : (pkt_forward_loop db phv 0 4).drop ≠ 0 ∨ (pkt_forward_loop db phv 0 4).punt ≠ 0
    · rw [pkt_forward_loop_stopped db _ 4 3 hf] at hd hpu
      rcases hf with hf | hf
      · exact absurd hd hf
      · exact absurd hpu hf
    · rw [hstep _ hq hf]
      exact h56 _ rfl
  · intro hon hd hpu
    have h03 : pkt_forward_loop db phv 0 4 = phv := by
      apply pkt_forward_loop_keeps (fun x => x = phv) db 0 4 _ phv rfl
      intro y r hr hl hs _
      obtain ⟨n, _, n2, n3⟩ := hs
      exfalso
      have hn : n % 256 = n := Nat.mod_eq_of_lt (by omega)
      rw [hn] at n3
      rcases h3 hon r hr hl with h | ⟨h, _⟩
      · rw [n3] at h
        have : n = 4 := h
        omega
      · rw [n3] at h
        have : n = 6 := h
        omega
    rw [h03, hstep phv hig (by rw [hd, hpu]; simp)]
    have hall := pkt_forward_loop_keeps
      (fun y => y.drop = 0 ∧ y.punt = 0 ∧ y.vlan_id = pvid) db 5 2
      (fun y r hr hl hs hy => by
        obtain ⟨n, n1, n2, n3⟩ := hs
        have hn : n % 256 = n := Nat.mod_eq_of_lt (by omega)
        rw [hn] at n3
        rcases h3 hon r hr hl with h | ⟨h, ha⟩
        · exfalso
          rw [n3] at h
          have : n = 4 := h
          omega
        · obtain ⟨e1, e2, e3⟩ := apply_action_egress y r ha
          exact ⟨by rw [e1]; exact hy.1, by rw [e2]; exact hy.2.1, by rw [e3]; exact hy.2.2⟩)
      { phv with vlan_id := pvid } ⟨hd, hpu, rfl⟩
    exact hall


/-! ## C26: PVID assignment end to end -/

theorem vlan_install_port_rules_unique (port : Nat) (s : vlan_sys) (hu : store_unique s.db) :
    store_unique (vlan_install_port_rules port s).db := by
  unfold vlan_install_port_rules install_ingress_rule
  simp only
  split <;> exact store_unique_insert _ _ (store_unique_insert _ _ hu)

/-- The state after a `vlan_port_set_mode` that passes the argument checks. -/
theorem vlan_port_set_mode_ok (port mode : Nat) (s : vlan_sys) (hp : port < 32)
    (hm : mode = VLAN_MODE_ACCESS ∨ mode = VLAN_MODE_TRUNK) (hcfg : s.port_cfg.length = 32) :
    ∃ s1 : vlan_sys, s1.db = s.db ∧
      (s1.port_cfg.getD port port_vlan_cfg_zero).pvid
        = (s.port_cfg.getD port port_vlan_cfg_zero).pvid ∧
      (s1.port_cfg.getD port port_vlan_cfg_zero).mode = mode ∧
      vlan_port_set_mode port mode s = (HAL_OK, vlan_install_port_rules port s1) := by
  have c1 : ¬ (port ≥ 32 ∨ (mode ≠ VLAN_MODE_ACCESS ∧ mode ≠ VLAN_MODE_TRUNK)) := by
    rintro (h | ⟨h1, h2⟩)
    · omega
    · rcases hm with h | h
      · exact h1 h
      · exact h2 h
  refine ⟨{ s with port_cfg := slot_update (fun c => { c with mode := mode }) s.port_cfg port,
                   csr := (hal_vlan_mode_set port mode s.csr).2 }, rfl, ?_, ?_, ?_⟩
  · simp only
    rw [getD_slot_update, if_pos ⟨rfl, by omega⟩]
  · simp only
    rw [getD_slot_update, if_pos ⟨rfl, by omega⟩]
  · unfold vlan_port_set_mode
    rw [if_neg c1]

theorem vlan_port_set_pvid_unique (port vlan_id : Nat) (s : vlan_sys)
    (hu : store_unique s.db) : store_unique (vlan_port_set_pvid port vlan_id s).2.db := by
  unfold vlan_port_set_pvid
  split
  · exact hu
  · exact vlan_install_port_rules_unique _ _ hu

theorem vlan_trunk_sys_unique : store_unique vlan_trunk_sys.db := by
  unfold vlan_trunk_sys
  apply vlan_port_set_pvid_unique
  rw [vlan_create_db]
  exact store_unique_nil

set_option maxRecDepth 100000 in
theorem vlan_trunk_sys_facts :
    vlan_trunk_sys.port_cfg.length = 32 ∧
    (vlan_trunk_sys.port_cfg.getD 5 port_vlan_cfg_zero).pvid = 10 ∧
    vlan_ingress_store vlan_trunk_sys.db ∧ vlan_ingress_ordered vlan_trunk_sys.db 5 ∧
    vlan_only_store vlan_trunk_sys.db ∧ vlan_trunk_sys.db.length < SIM_TCAM_MAX := by
  decide

/-- After `vlan_port_set_mode(5, VLAN_MODE_TRUNK)` on `vlan_trunk_sys` every frame of at
least 14 bytes entering on port 5 comes out with the PVID 10. -/
theorem vlan_trunk_sys_forward (raw : List Nat) (raw_len : Nat) (result : fwd_result_t)
    (hlen : 14 ≤ raw_len) :
    (pkt_process (vlan_port_set_mode 5 VLAN_MODE_TRUNK vlan_trunk_sys).2.db
      raw raw_len 5 result).1 = 0 ∧
    (pkt_process (vlan_port_set_mode 5 VLAN_MODE_TRUNK vlan_trunk_sys).2.db
      raw raw_len 5 result).2.vlan_id = 10 := by
  obtain ⟨t1, t2, t3, t4, t5, t6⟩ := vlan_trunk_sys_facts
  obtain ⟨s1, hdb, hpv, _, hset⟩ := vlan_port_set_mode_ok 5 VLAN_MODE_TRUNK vlan_trunk_sys
    (by decide) (Or.inr rfl) t1
  rw [t2] at hpv
  rw [hset]
  simp only
  obtain ⟨q1, _, _, q4, _, q6, q7, _⟩ := (pkt_parse_spec raw raw_len 5 phv_zero).2.2 hlen
  have hproc : pkt_process (vlan_install_port_rules 5 s1).db raw raw_len 5 result
      = (0, (pkt_forward (vlan_install_port_rules 5 s1).db
          (pkt_parse raw raw_len 5 phv_zero).2).2.2) := by
    unfold pkt_process
    simp only
    rw [if_neg (by rw [q1]; simp)]
    rfl
  rw [hproc, pkt_forward_eq]
  simp only
  rw [← hdb] at t3 t4 t5 t6
  obtain ⟨_, f2⟩ := vlan_port_rules_forward 5 s1 (by decide) (by rw [hpv]; decide) t3 t4
    (by rw [hdb]; exact vlan_trunk_sys_unique) (Or.inr t6)
    (pkt_parse raw raw_len 5 phv_zero).2 q4
  rw [hpv] at f2
  exact ⟨trivial, (f2 t5 q6 q7).2.2⟩

set_option maxRecDepth 100000 in
theorem vlan_trunk_sys_rules :
    (vlan_port_set_mode 5 VLAN_MODE_TRUNK vlan_trunk_sys).1 = HAL_OK ∧
    sim_tcam_find (vlan_port_set_mode 5 VLAN_MODE_TRUNK vlan_trunk_sys).2.db
      TABLE_VLAN_INGRESS_STAGE (VLAN_INGRESS_ENTRY 5 0) = some 0 ∧
    sim_tcam_find (vlan_port_set_mode 5 VLAN_MODE_TRUNK vlan_trunk_sys).2.db
      TABLE_VLAN_INGRESS_STAGE (VLAN_INGRESS_ENTRY 5 1) = some 1 := by
  decide

set_option maxRecDepth 100000 in
theorem vlan_tagged_frame_20 :
    frame_has_tag (vlan_tagged_frame 20) 18 ∧
    (pkt_parse (vlan_tagged_frame 20) 18 5 phv_zero).2.vlan_id = 20 := by
  decide

set_option maxRecDepth 100000 in
theorem vlan_trunk_sys_frame_20 :
    pkt_process (vlan_port_set_mode 5 VLAN_MODE_TRUNK vlan_trunk_sys).2.db
      (vlan_tagged_frame 20) 18 5 ⟨0, 0, 0, 0, 0, 0⟩ = (0, ⟨0, 0, 0, 10, 0, 0⟩) := by
  decide

/-- C27 at `sim_hal_reset(); vlan_create(10); vlan_port_set_pvid(5, 10);
vlan_port_set_mode(5, VLAN_MODE_TRUNK)`: the store holds the assign-PVID rule of port 5
in slot 0 and the accept-tagged rule in slot 1; `pkt_parse` reads VID 20 from the
tagged frame, and `pkt_process` of that frame on port 5 returns `vlan_id = 10`, the
PVID; so it does for the tagged frame of every VID. -/
theorem c27_trunk_tag_overridden :
    (vlan_port_set_mode 5 VLAN_MODE_TRUNK vlan_trunk_sys).1 = HAL_OK ∧
    sim_tcam_find (vlan_port_set_mode 5 VLAN_MODE_TRUNK vlan_trunk_sys).2.db
      TABLE_VLAN_INGRESS_STAGE (VLAN_INGRESS_ENTRY 5 0) = some 0 ∧
    sim_tcam_find (vlan_port_set_mode 5 VLAN_MODE_TRUNK vlan_trunk_sys).2.db
      TABLE_VLAN_INGRESS_STAGE (VLAN_INGRESS_ENTRY 5 1) = some 1 ∧
    frame_has_tag (vlan_tagged_frame 20) 18 ∧
    (pkt_parse (vlan_tagged_frame 20) 18 5 phv_zero).2.vlan_id = 20 ∧
    pkt_process (vlan_port_set_mode 5 VLAN_MODE_TRUNK vlan_trunk_sys).2.db
      (vlan_tagged_frame 20) 18 5 ⟨0, 0, 0, 0, 0, 0⟩ = (0, ⟨0, 0, 0, 10, 0, 0⟩) ∧
    (∀ (x : Nat) (result : fwd_result_t),
      (pkt_process (vlan_port_set_mode 5 VLAN_MODE_TRUNK vlan_trunk_sys).2.db
        (vlan_tagged_frame x) 18 5 result).1 = 0 ∧
      (pkt_process (vlan_port_set_mode 5 VLAN_MODE_TRUNK vlan_trunk_sys).2.db
        (vlan_tagged_frame x) 18 5 result).2.vlan_id = 10) :=
  ⟨vlan_trunk_sys_rules.1, vlan_trunk_sys_rules.2.1, vlan_trunk_sys_rules.2.2,
   vlan_tagged_frame_20.1, vlan_tagged_frame_20.2, vlan_trunk_sys_frame_20,
   fun x result => vlan_trunk_sys_forward (vlan_tagged_frame x) 18 result (by decide)⟩

/-! ## ACL entries: key and mask bytes -/

theorem acl_deny_entry_bytes_port (src smask dst dmask dport rid i : Nat) (hi : i < 10) :
    (acl_deny_entry src smask dst dmask dport rid).key.bytes.getD i 0
      = (if i < 4 then (src >>> (24 - 8 * i)) % 256
         else if i < 8 then (dst >>> (24 - 8 * (i - 4))) % 256
         else if i = 8 then (dport >>> 8) % 256 else dport % 256) ∧
    (acl_deny_entry src smask dst dmask dport rid).mask.bytes.getD i 0
      = (if i < 4 then (smask >>> (24 - 8 * i)) % 256
         else if i < 8 then (dmask >>> (24 - 8 * (i - 4))) % 256
         else if dport ≠ 0 then 0xFF else 0) := by
  obtain ⟨Z, hZ, hZl, hZg⟩ : ∃ Z : List Nat, Z = List.replicate 64 0 ∧ Z.length = 64 ∧
      ∀ j, Z.getD j 0 = 0 :=
    ⟨_, rfl, List.length_replicate 64 0, replicate_zero_getD 64⟩
  have hkb : (acl_deny_entry src smask dst dmask dport rid).key.bytes
      = ((u32_to_key (u32_to_key Z 0 src) 4 dst).set 8 (((dport >>> 8) &&& 0xFF) % 256)).set 9
          ((dport &&& 0xFF) % 256) := by
    rw [hZ]
    unfold acl_deny_entry
    by_cases h : dport = 0
    · simp only [h, ne_eq, not_true_eq_false, if_false]
      rfl
    · simp only [h, ne_eq, not_false_eq_true, if_true]
      rfl
  have hmb : (acl_deny_entry src smask dst dmask dport rid).mask.bytes
      = if dport ≠ 0 then ((u32_to_key (u32_to_key Z 0 smask) 4 dmask).set 8 0xFF).set 9 0xFF
        else u32_to_key (u32_to_key Z 0 smask) 4 dmask := by
    rw [hZ]
    unfold acl_deny_entry
    by_cases h : dport = 0
    · simp only [h, ne_eq, not_true_eq_false, if_false]
      rfl
    · simp only [h, ne_eq, not_false_eq_true, if_true]
      rfl
  have hl0 : 0 + 4 ≤ Z.length := by omega
  have hl4 : ∀ v, 4 + 4 ≤ (u32_to_key Z 0 v).length := by
    intro v
    rw [length_u32_to_key]
    omega
  constructor
  · rw [hkb, getD_set_zero, getD_set_zero, u32_to_key_getD_at _ 4 dst i (hl4 src),
      u32_to_key_getD_at _ 0 src i hl0, hZg]
    simp only [List.length_set, length_u32_to_key, hZl, and_0xFF, Nat.mod_mod]
    interval_cases i <;> simp
  · rw [hmb]
    by_cases h : dport = 0
    · subst h
      simp only [ne_eq, not_true_eq_false, if_false]
      rw [u32_to_key_getD_at _ 4 dmask i (hl4 smask), u32_to_key_getD_at _ 0 smask i hl0, hZg]
      interval_cases i <;> simp
    · have hne : dport ≠ 0 := h
      simp only [hne, ne_eq, not_false_eq_true, if_true]
      rw [getD_set_zero, getD_set_zero,
        u32_to_key_getD_at _ 4 dmask i (hl4 smask), u32_to_key_getD_at _ 0 smask i hl0, hZg]
      simp only [List.length_set, length_u32_to_key, hZl]
      interval_cases i <;> simp
/-! ## Bytes of a parsed PHV -/

theorem hdr_set_lt (l : List Nat) (i v : Nat) (hl : ∀ j, l.getD j 0 < 256) (hv : v < 256) :
    ∀ j, (l.set i v).getD j 0 < 256 := by
  intro j
  rw [getD_set_zero]
  split
  · exact hv
  · exact hl j

theorem hdr_memcpy_lt (dst : List Nat) (doff : Nat) (src : List Nat) (soff n : Nat)
    (hd : ∀ j, dst.getD j 0 < 256) (hs : ∀ j, src.getD j 0 < 256) :
    ∀ j, (memcpy dst doff src soff n).getD j 0 < 256 := by
  intro j
  rw [getD_memcpy]
  split
  · exact hs _
  · exact hd j

/-- Every byte of the PHV that `pkt_parse` builds from a frame of bytes is a byte. -/
theorem pkt_parse_hdr_lt (raw : List Nat) (raw_len ing_port : Nat) (phv : phv_t)
    (hbytes : ∀ b ∈ raw, b < 256) (hlen : 14 ≤ raw_len) :
    ∀ j, (pkt_parse raw raw_len ing_port phv).2.hdr.getD j 0 < 256 := by
  have hr : ∀ i, raw.getD i 0 < 256 := getD_lt_of_forall_mem raw hbytes
  have h0 : ∀ j, phv_zero.hdr.getD j 0 < 256 := by
    intro j
    rw [phv_zero_hdr_getD]
    decide
  have heth : ∀ j, (pkt_parse_eth raw ing_port).hdr.getD j 0 < 256 := by
    unfold pkt_parse_eth
    simp only
    exact hdr_set_lt _ _ _ (hdr_set_lt _ _ _
      (hdr_memcpy_lt _ _ _ _ _ (hdr_memcpy_lt _ _ _ _ _ h0 hr) hr) (hr _)) (hr _)
  have hvlan : ∀ (p : phv_t) (et : Nat), (∀ j, p.hdr.getD j 0 < 256) →
      ∀ j, (pkt_parse_vlan raw raw_len p et).1.hdr.getD j 0 < 256 := by
    intro p et hp
    unfold pkt_parse_vlan
    split
    · simp only
      exact hdr_set_lt _ _ _ (hdr_set_lt _ _ _ hp (hr _)) (hr _)
    · exact hp
  have hl4 : ∀ (p : phv_t) (ip : Nat), (∀ j, p.hdr.getD j 0 < 256) →
      ∀ j, (pkt_parse_l4 raw raw_len p ip).hdr.getD j 0 < 256 := by
    intro p ip hp
    unfold pkt_parse_l4
    simp only
    split
    · exact hdr_set_lt _ _ _ (hdr_set_lt _ _ _ (hdr_set_lt _ _ _
        (hdr_set_lt _ _ _ hp (hr _)) (hr _)) (hr _)) (hr _)
    · exact hp
  have hip : ∀ (p : phv_t) (ip : Nat), (∀ j, p.hdr.getD j 0 < 256) →
      ∀ j, (pkt_parse_ipv4_hdr raw p ip).hdr.getD j 0 < 256 := by
    intro p ip hp
    unfold pkt_parse_ipv4_hdr
    simp only
    exact hdr_memcpy_lt _ _ _ _ _ (hdr_memcpy_lt _ _ _ _ _
      (hdr_set_lt _ _ _ (hdr_set_lt _ _ _ (hdr_set_lt _ _ _ (hdr_set_lt _ _ _
        (hdr_set_lt _ _ _ (hdr_set_lt _ _ _ hp (hr _)) (hr _)) (hr _)) (hr _)) (hr _)) (hr _))
      hr) hr
  have hipv4 : ∀ (p : phv_t) (et ip : Nat), (∀ j, p.hdr.getD j 0 < 256) →
      ∀ j, (pkt_parse_ipv4 raw raw_len p et ip).hdr.getD j 0 < 256 := by
    intro p et ip hp
    unfold pkt_parse_ipv4
    split
    · exact hl4 _ _ (hip _ _ hp)
    · exact hp
  rw [pkt_parse_long raw raw_len ing_port phv hlen]
  exact hipv4 _ _ _ (hvlan _ _ heth)
theorem acl_permit_entry_bytes (src smask dst dmask rid i : Nat) :
    (acl_permit_entry src smask dst dmask rid).key.bytes.getD i 0
      = (if i < 4 then (src >>> (24 - 8 * i)) % 256
         else if i < 8 then (dst >>> (24 - 8 * (i - 4))) % 256 else 0) ∧
    (acl_permit_entry src smask dst dmask rid).mask.bytes.getD i 0
      = (if i < 4 then (smask >>> (24 - 8 * i)) % 256
         else if i < 8 then (dmask >>> (24 - 8 * (i - 4))) % 256 else 0) := by
  obtain ⟨Z, hZ, hZl, hZg⟩ : ∃ Z : List Nat, Z = List.replicate 64 0 ∧ Z.length = 64 ∧
      ∀ j, Z.getD j 0 = 0 :=
    ⟨_, rfl, List.length_replicate 64 0, replicate_zero_getD 64⟩
  have hkb : (acl_permit_entry src smask dst dmask rid).key.bytes
      = u32_to_key (u32_to_key Z 0 src) 4 dst := by
    rw [hZ]
    rfl
  have hmb : (acl_permit_entry src smask dst dmask rid).mask.bytes
      = u32_to_key (u32_to_key Z 0 smask) 4 dmask := by
    rw [hZ]
    rfl
  have hl0 : 0 + 4 ≤ Z.length := by omega
  have hl4 : ∀ v, 4 + 4 ≤ (u32_to_key Z 0 v).length := by
    intro v
    rw [length_u32_to_key]
    omega
  rw [hkb, hmb, u32_to_key_getD_at _ 4 dst i (hl4 src),
    u32_to_key_getD_at _ 0 src i hl0, u32_to_key_getD_at _ 4 dmask i (hl4 smask),
    u32_to_key_getD_at _ 0 smask i hl0, hZg]
  by_cases h8 : i < 8
  · interval_cases i <;> simp
  · have e1 : ¬ i = 4 := by omega
    have e2 : ¬ i = 4 + 1 := by omega
    have e3 : ¬ i = 4 + 2 := by omega
    have e4 : ¬ i = 4 + 3 := by omega
    have e5 : ¬ i = 0 := by omega
    have e6 : ¬ i = 0 + 1 := by omega
    have e7 : ¬ i = 0 + 2 := by omega
    have e8 : ¬ i = 0 + 3 := by omega
    have e9 : ¬ i < 4 := by omega
    simp only [e1, e2, e3, e4, e5, e6, e7, e8, e9, h8, if_false, and_self]

/-- The masked comparison of the two address words of a key with an ACL entry, from
the comparison of their eight bytes. -/
theorem acl_addr_bytes_iff (key kb mb : List Nat) (src smask dst dmask : Nat)
    (hsrc : src < 2 ^ 32) (hdst : dst < 2 ^ 32) (hk : ∀ i, i < 8 → key.getD i 0 < 256)
    (hkb : ∀ i, i < 8 → kb.getD i 0
      = if i < 4 then (src >>> (24 - 8 * i)) % 256 else (dst >>> (24 - 8 * (i - 4))) % 256)
    (hmb : ∀ i, i < 8 → mb.getD i 0
      = if i < 4 then (smask >>> (24 - 8 * i)) % 256
        else (dmask >>> (24 - 8 * (i - 4))) % 256) :
    (∀ i, i < 8 → key.getD i 0 &&& mb.getD i 0 = kb.getD i 0 &&& mb.getD i 0) ↔
      (key.getD 0 0 * 2 ^ 24 + key.getD 1 0 * 2 ^ 16 + key.getD 2 0 * 2 ^ 8 + key.getD 3 0)
          &&& smask = src &&& smask ∧
      (key.getD 4 0 * 2 ^ 24 + key.getD 5 0 * 2 ^ 16 + key.getD 6 0 * 2 ^ 8 + key.getD 7 0)
          &&& dmask = dst &&& dmask := by
  obtain ⟨hs, hs0, hs1, hs2, hs3⟩ := be32_bytes _ _ _ _ (hk 0 (by decide)) (hk 1 (by decide))
    (hk 2 (by decide)) (hk 3 (by decide))
  obtain ⟨hd, hd0, hd1, hd2, hd3⟩ := be32_bytes _ _ _ _ (hk 4 (by decide)) (hk 5 (by decide))
    (hk 6 (by decide)) (hk 7 (by decide))
  rw [u32_eq_iff_bytes _ _ (land_lt_two_pow_32 _ smask hs) (land_lt_two_pow_32 src smask hsrc),
    u32_eq_iff_bytes _ _ (land_lt_two_pow_32 _ dmask hd) (land_lt_two_pow_32 dst dmask hdst)]
  simp only [byte_land, hs0, hs1, hs2, hs3, hd0, hd1, hd2, hd3]
  constructor
  · intro h
    have e0 := h 0 (by decide)
    have e1 := h 1 (by decide)
    have e2 := h 2 (by decide)
    have e3 := h 3 (by decide)
    have e4 := h 4 (by decide)
    have e5 := h 5 (by decide)
    have e6 := h 6 (by decide)
    have e7 := h 7 (by decide)
    rw [hkb 0 (by decide), hmb 0 (by decide)] at e0
    rw [hkb 1 (by decide), hmb 1 (by decide)] at e1
    rw [hkb 2 (by decide), hmb 2 (by decide)] at e2
    rw [hkb 3 (by decide), hmb 3 (by decide)] at e3
    rw [hkb 4 (by decide), hmb 4 (by decide)] at e4
    rw [hkb 5 (by decide), hmb 5 (by decide)] at e5
    rw [hkb 6 (by decide), hmb 6 (by decide)] at e6
    rw [hkb 7 (by decide), hmb 7 (by decide)] at e7
    exact ⟨⟨e0, e1, e2, e3⟩, e4, e5, e6, e7⟩
  · rintro ⟨⟨e0, e1, e2, e3⟩, e4, e5, e6, e7⟩ i hi
    rw [hkb i hi, hmb i hi]
    interval_cases i
    · exact e0
    · exact e1
    · exact e2
    · exact e3
    · exact e4
    · exact e5
    · exact e6
    · exact e7

/-- A 10-byte key hits a permit entry exactly when the masked addresses agree; bytes
8 and 9 of the key are not compared. -/
theorem acl_permit_match_iff (key : List Nat) (src smask dst dmask rid : Nat)
    (hsrc : src < 2 ^ 32) (hdst : dst < 2 ^ 32) (hk : ∀ i, i < 8 → key.getD i 0 < 256) :
    ternary_match key 10 (acl_permit_entry src smask dst dmask rid) ≠ 0 ↔
      (key.getD 0 0 * 2 ^ 24 + key.getD 1 0 * 2 ^ 16 + key.getD 2 0 * 2 ^ 8 + key.getD 3 0)
          &&& smask = src &&& smask ∧
      (key.getD 4 0 * 2 ^ 24 + key.getD 5 0 * 2 ^ 16 + key.getD 6 0 * 2 ^ 8 + key.getD 7 0)
          &&& dmask = dst &&& dmask := by
  rw [ternary_match_ne_zero]
  have hkl : (acl_permit_entry src smask dst dmask rid).key.key_len = 8 := rfl
  rw [hkl, show min 8 10 = 8 by decide]
  apply acl_addr_bytes_iff key _ _ src smask dst dmask hsrc hdst hk
  · intro i hi
    rw [(acl_permit_entry_bytes src smask dst dmask rid i).1]
    by_cases h4 : i < 4
    · rw [if_pos h4, if_pos h4]
    · rw [if_neg h4, if_pos hi, if_neg h4]
  · intro i hi
    rw [(acl_permit_entry_bytes src smask dst dmask rid i).2]
    by_cases h4 : i < 4
    · rw [if_pos h4, if_pos h4]
    · rw [if_neg h4, if_pos hi, if_neg h4]

/-- A 10-byte key hits a deny entry exactly when the masked addresses agree and, for a
rule with a port, bytes 8..9 of the key are that port. -/
theorem acl_deny_match_port_iff (key : List Nat) (src smask dst dmask dport rid : Nat)
    (hsrc : src < 2 ^ 32) (hdst : dst < 2 ^ 32) (hdport : dport < 2 ^ 16)
    (hk : ∀ i, i < 10 → key.getD i 0 < 256) :
    ternary_match key 10 (acl_deny_entry src smask dst dmask dport rid) ≠ 0 ↔
      ((key.getD 0 0 * 2 ^ 24 + key.getD 1 0 * 2 ^ 16 + key.getD 2 0 * 2 ^ 8 + key.getD 3 0)
          &&& smask = src &&& smask ∧
       (key.getD 4 0 * 2 ^ 24 + key.getD 5 0 * 2 ^ 16 + key.getD 6 0 * 2 ^ 8 + key.getD 7 0)
          &&& dmask = dst &&& dmask) ∧
      (dport = 0 ∨ key.getD 8 0 * 2 ^ 8 + key.getD 9 0 = dport) := by
  rw [ternary_match_ne_zero]
  have hkl : (acl_deny_entry src smask dst dmask dport rid).key.key_len = 10 := by
    unfold acl_deny_entry
    by_cases h : dport = 0
    · simp only [h, ne_eq, not_true_eq_false, if_false]
    · simp only [h, ne_eq, not_false_eq_true, if_true]
  rw [hkl, Nat.min_self]
  have haddr := acl_addr_bytes_iff key
    (acl_deny_entry src smask dst dmask dport rid).key.bytes
    (acl_deny_entry src smask dst dmask dport rid).mask.bytes src smask dst dmask hsrc hdst
    (fun i hi => hk i (by omega))
    (by
      intro i hi
      rw [(acl_deny_entry_bytes_port src smask dst dmask dport rid i (by omega)).1]
      by_cases h4 : i < 4
      · rw [if_pos h4, if_pos h4]
      · rw [if_neg h4, if_pos hi, if_neg h4])
    (by
      intro i hi
      rw [(acl_deny_entry_bytes_port src smask dst dmask dport rid i (by omega)).2]
      by_cases h4 : i < 4
      · rw [if_pos h4, if_pos h4]
      · rw [if_neg h4, if_pos hi, if_neg h4])
  have h8k := (acl_deny_entry_bytes_port src smask dst dmask dport rid 8 (by decide)).1
  have h8m := (acl_deny_entry_bytes_port src smask dst dmask dport rid 8 (by decide)).2
  have h9k := (acl_deny_entry_bytes_port src smask dst dmask dport rid 9 (by decide)).1
  have h9m := (acl_deny_entry_bytes_port src smask dst dmask dport rid 9 (by decide)).2
  simp only [show ¬ (8 < 4) by decide, show ¬ (8 < 8) by decide, show ¬ (9 < 4) by decide,
    show ¬ (9 < 8) by decide, show ¬ (9 = 8) by decide, if_false, if_true] at h8k h8m h9k h9m
  have k8 := hk 8 (by decide)
  have k9 := hk 9 (by decide)
  have hsh : dport >>> 8 = dport / 256 := by
    rw [Nat.shiftRight_eq_div_pow]
  constructor
  · intro h
    refine ⟨haddr.mp (fun i hi => h i (by omega)), ?_⟩
    by_cases hd0 : dport = 0
    · exact Or.inl hd0
    · right
      have e8 := h 8 (by decide)
      have e9 := h 9 (by decide)
      rw [h8k, h8m, if_pos hd0, and_0xFF, and_0xFF, Nat.mod_mod, Nat.mod_eq_of_lt k8] at e8
      rw [h9k, h9m, if_pos hd0, and_0xFF, and_0xFF, Nat.mod_mod, Nat.mod_eq_of_lt k9] at e9
      rw [hsh] at e8
      omega
  · rintro ⟨ha, hp⟩ i hi
    by_cases h8 : i < 8
    · exact haddr.mpr ha i h8
    · by_cases hd0 : dport = 0
      · have hi2 : i = 8 ∨ i = 9 := by omega
        rcases hi2 with rfl | rfl
        · rw [h8m, if_neg (by simpa using hd0)]
          simp
        · rw [h9m, if_neg (by simpa using hd0)]
          simp
      · have hp2 : key.getD 8 0 * 2 ^ 8 + key.getD 9 0 = dport := by
          rcases hp with hp | hp
          · exact absurd hp hd0
          · exact hp
        have hi2 : i = 8 ∨ i = 9 := by omega
        rcases hi2 with rfl | rfl
        · rw [h8k, hsh]
          congr 1
          omega
        · rw [h9k]
          congr 1
          omega
/-! ## Stage 1 over ACL records -/

/-- The key `extract_s1` builds: source address, destination address, destination port. -/
theorem extract_s1_key (phv : phv_t) :
    (stage_extract 1 phv (List.replicate 64 0)).2 = 10 ∧
    (∀ i, i < 8 → (stage_extract 1 phv (List.replicate 64 0)).1.getD i 0
      = phv.hdr.getD (30 + i) 0) ∧
    (stage_extract 1 phv (List.replicate 64 0)).1.getD 8 0 = phv.hdr.getD 40 0 ∧
    (stage_extract 1 phv (List.replicate 64 0)).1.getD 9 0 = phv.hdr.getD 41 0 := by
  have hk : ∀ i, i < 10 →
      (memcpy (memcpy (memcpy (List.replicate 64 0) 0 phv.hdr PHV_OFF_IPV4_SRC 4) 4
          phv.hdr PHV_OFF_IPV4_DST 4) 8 phv.hdr PHV_OFF_TCP_DPORT 2).getD i 0
        = if i < 8 then phv.hdr.getD (30 + i) 0 else phv.hdr.getD (32 + i) 0 := by
    intro i hi
    simp only [getD_memcpy, length_memcpy, List.length_replicate, PHV_OFF_IPV4_SRC,
      PHV_OFF_IPV4_DST, PHV_OFF_TCP_DPORT]
    by_cases h8 : i < 8
    · have h1 : ¬ (8 ≤ i ∧ i < 8 + 2 ∧ i < 64) := by omega
      rw [if_neg h1, if_pos h8]
      by_cases h4 : i < 4
      · have h2 : ¬ (4 ≤ i ∧ i < 4 + 4 ∧ i < 64) := by omega
        have h3 : 0 ≤ i ∧ i < 0 + 4 ∧ i < 64 := by omega
        rw [if_neg h2, if_pos h3]
        congr 1
      · have h2 : 4 ≤ i ∧ i < 4 + 4 ∧ i < 64 := by omega
        rw [if_pos h2]
        congr 1
        omega
    · have h1 : 8 ≤ i ∧ i < 8 + 2 ∧ i < 64 := by omega
      rw [if_pos h1, if_neg h8]
      congr 1
      omega
  refine ⟨rfl, ?_, ?_, ?_⟩
  · intro i hi
    have := hk i (by omega)
    rw [if_pos hi] at this
    exact this
  · exact hk 8 (by decide)
  · exact hk 9 (by decide)

/-- A live deny record is hit by the Stage-1 key of a PHV exactly when the addresses
match under the masks and, for a rule with a port, the port is that of the PHV. -/
theorem acl_deny_hit_iff (phv : phv_t) (src smask dst dmask dport rid : Nat)
    (hsrc : src < 2 ^ 32) (hdst : dst < 2 ^ 32) (hdport : dport < 2 ^ 16)
    (hb : ∀ j, phv.hdr.getD j 0 < 256) :
    ternary_hit 1 (stage_extract 1 phv (List.replicate 64 0)).1 10
        { entry := acl_deny_entry src smask dst dmask dport rid, valid := 1, deleted := 0 } = true ↔
      acl_addr_match phv src smask dst dmask ∧ (dport = 0 ∨ phv_dport phv = dport) := by
  obtain ⟨_, k1, k8, k9⟩ := extract_s1_key phv
  have hm := acl_deny_match_port_iff (stage_extract 1 phv (List.replicate 64 0)).1
    src smask dst dmask dport rid hsrc hdst hdport
    (by
      intro i hi
      by_cases h8 : i < 8
      · rw [k1 i h8]
        exact hb _
      · have hi2 : i = 8 ∨ i = 9 := by omega
        rcases hi2 with rfl | rfl
        · rw [k8]
          exact hb _
        · rw [k9]
          exact hb _)
  rw [k1 0 (by decide), k1 1 (by decide), k1 2 (by decide), k1 3 (by decide),
    k1 4 (by decide), k1 5 (by decide), k1 6 (by decide), k1 7 (by decide), k8, k9] at hm
  have hst : (acl_deny_entry src smask dst dmask dport rid).stage = 1 := by
    unfold acl_deny_entry
    by_cases h : dport = 0
    · simp only [h, ne_eq, not_true_eq_false, if_false]
      rfl
    · simp only [h, ne_eq, not_false_eq_true, if_true]
      rfl
  unfold acl_addr_match phv_ipv4_src phv_ipv4_dst phv_dport
  rw [← hm]
  simp [ternary_hit, rec_live, hst]

/-- A live permit record is hit by the Stage-1 key of a PHV exactly when the addresses
match under the masks. -/
theorem acl_permit_hit_iff (phv : phv_t) (src smask dst dmask rid : Nat)
    (hsrc : src < 2 ^ 32) (hdst : dst < 2 ^ 32) (hb : ∀ j, phv.hdr.getD j 0 < 256) :
    ternary_hit 1 (stage_extract 1 phv (List.replicate 64 0)).1 10
        { entry := acl_permit_entry src smask dst dmask rid, valid := 1, deleted := 0 } = true ↔
      acl_addr_match phv src smask dst dmask := by
  obtain ⟨_, k1, _, _⟩ := extract_s1_key phv
  have hm := acl_permit_match_iff (stage_extract 1 phv (List.replicate 64 0)).1
    src smask dst dmask rid hsrc hdst
    (by
      intro i hi
      rw [k1 i hi]
      exact hb _)
  rw [k1 0 (by decide), k1 1 (by decide), k1 2 (by decide), k1 3 (by decide),
    k1 4 (by decide), k1 5 (by decide), k1 6 (by decide), k1 7 (by decide)] at hm
  have hst : (acl_permit_entry src smask dst dmask rid).stage = 1 := rfl
  unfold acl_addr_match phv_ipv4_src phv_ipv4_dst
  rw [← hm]
  simp [ternary_hit, rec_live, hst]

/-- One stage of the pipeline over a store of one record. -/
theorem pkt_forward_stage_single (r : sim_tcam_rec_t) (phv : phv_t) (stage : Nat) :
    pkt_forward_stage [r] phv stage
      = if ternary_hit (stage % 256) (stage_extract stage phv (List.replicate 64 0)).1
            (stage_extract stage phv (List.replicate 64 0)).2 r = true
        then apply_action phv r else phv := by
  unfold pkt_forward_stage
  simp only
  rw [tcam_ternary_lookup_singleton]
  generalize stage_extract stage phv (List.replicate 64 0) = K
  by_cases h1 : ternary_hit (stage % 256) K.1 K.2 r = true
  · rw [if_pos h1, if_pos h1]
    simp only [List.getElem?_cons_zero]
  · rw [if_neg h1, if_neg h1]

/-- One stage of the pipeline over a store of two records: the first record that is
hit acts. -/
theorem pkt_forward_stage_pair (r1 r2 : sim_tcam_rec_t) (phv : phv_t) (stage : Nat) :
    pkt_forward_stage [r1, r2] phv stage
      = if ternary_hit (stage % 256) (stage_extract stage phv (List.replicate 64 0)).1
            (stage_extract stage phv (List.replicate 64 0)).2 r1 = true
        then apply_action phv r1
        else if ternary_hit (stage % 256) (stage_extract stage phv (List.replicate 64 0)).1
            (stage_extract stage phv (List.replicate 64 0)).2 r2 = true
        then apply_action phv r2 else phv := by
  unfold pkt_forward_stage
  simp only
  rw [tcam_ternary_lookup_eq]
  generalize stage_extract stage phv (List.replicate 64 0) = K
  by_cases h1 : ternary_hit (stage % 256) K.1 K.2 r1 = true
  · rw [if_pos h1]
    simp only [List.findIdx?_cons, h1, if_true, List.getElem?_cons_zero]
  · rw [if_neg h1]
    by_cases h2 : ternary_hit (stage % 256) K.1 K.2 r2 = true
    · rw [if_pos h2]
      simp [List.findIdx?_cons, h1, h2]
    · rw [if_neg h2]
      simp [List.findIdx?_cons, h1, h2]

/-- The stage loop over a store whose records all belong to stage `k`: only stage `k`
acts. -/
theorem pkt_forward_loop_one_stage (db : List sim_tcam_rec_t) (k : Nat) (hk : k < 7)
    (h : ∀ r ∈ db, r.entry.stage = k) (phv : phv_t) (hd : phv.drop = 0) (hp : phv.punt = 0) :
    pkt_forward_loop db phv 0 PKT_NUM_STAGES = pkt_forward_stage db phv k := by
  have h7 : PKT_NUM_STAGES = k + (1 + (6 - k)) := by
    unfold PKT_NUM_STAGES
    omega
  rw [h7, pkt_forward_loop_add, pkt_forward_loop_add]
  rw [pkt_forward_loop_miss db phv 0 k (by
    intro s _ hs r hr
    rw [h r hr, Nat.mod_eq_of_lt (by omega)]
    omega)]
  have h1 : pkt_forward_loop db phv (0 + k) 1 = pkt_forward_stage db phv k := by
    rw [Nat.zero_add]
    show (if phv.drop ≠ 0 ∨ phv.punt ≠ 0 then phv
      else pkt_forward_loop db (pkt_forward_stage db phv k) (k + 1) 0) = _
    rw [if_neg (by rw [hd, hp]; simp)]
    rfl
  rw [h1]
  exact pkt_forward_loop_miss db _ (0 + k + 1) (6 - k) (by
    intro s hs1 hs2 r hr
    rw [h r hr, Nat.mod_eq_of_lt (by omega)]
    omega)
theorem acl_deny_entry_fields (src smask dst dmask dport rid : Nat) :
    (acl_deny_entry src smask dst dmask dport rid).stage = TABLE_ACL_INGRESS_STAGE ∧
    (acl_deny_entry src smask dst dmask dport rid).table_id
      = (TABLE_ACL_INGRESS_BASE + rid) % 2 ^ 16 ∧
    (acl_deny_entry src smask dst dmask dport rid).action_id = ACTION_DENY ∧
    (acl_deny_entry src smask dst dmask dport rid).key.key_len = 10 ∧
    (acl_deny_entry src smask dst dmask dport rid).mask.key_len = 10 := by
  unfold acl_deny_entry
  by_cases h : dport = 0
  · simp only [h, ne_eq, not_true_eq_false, if_false]
    exact ⟨trivial, trivial, trivial, trivial, trivial⟩
  · simp only [h, ne_eq, not_false_eq_true, if_true]
    exact ⟨trivial, trivial, trivial, trivial, trivial⟩

theorem apply_action_permit (phv : phv_t) (r : sim_tcam_rec_t)
    (h : r.entry.action_id = ACTION_PERMIT) : apply_action phv r = phv := by
  unfold apply_action
  simp only
  rw [if_neg (by rw [h]; decide), if_neg (by rw [h]; decide), if_pos h]

/-- An `acl_add_deny` that finds a free mirror slot, no live Stage-1 record at the id
it hands out, and room in the store, appends its record. -/
theorem acl_add_deny_fresh (a b c d p : Nat) (st : acl_state) (db : List sim_tcam_rec_t)
    (e : Nat) (halloc : acl_alloc st.acl_table = some e)
    (hfree : sim_tcam_find db TABLE_ACL_INGRESS_STAGE
      ((TABLE_ACL_INGRESS_BASE + st.acl_next_id) % 2 ^ 16) = none)
    (hroom : db.length < SIM_TCAM_MAX) :
    acl_add_deny a b c d p st db
      = ((st.acl_next_id : Int),
         { acl_table := slot_update (fun _ => (⟨a, b, c, d, p, 0, 1, st.acl_next_id⟩ : acl_entry_t)) st.acl_table e,
           acl_next_id := (st.acl_next_id + 1) % 2 ^ 16 },
         db ++ [{ entry := acl_deny_entry a b c d p st.acl_next_id, valid := 1, deleted := 0 }]) := by
  obtain ⟨f1, f2, _, _, _⟩ := acl_deny_entry_fields a b c d p st.acl_next_id
  have hins := hal_tcam_insert_new db (acl_deny_entry a b c d p st.acl_next_id)
    (by rw [f1, f2]; exact hfree) hroom
  unfold acl_add_deny
  rw [halloc]
  simp only
  rw [hins]
  simp only [ne_eq, not_true_eq_false, if_false]

/-- An `acl_add_permit` that finds a free mirror slot, no live Stage-1 record at the
id it hands out, and room in the store, appends its record. -/
theorem acl_add_permit_fresh (a b c d : Nat) (st : acl_state) (db : List sim_tcam_rec_t)
    (e : Nat) (halloc : acl_alloc st.acl_table = some e)
    (hfree : sim_tcam_find db TABLE_ACL_INGRESS_STAGE
      ((TABLE_ACL_INGRESS_BASE + st.acl_next_id) % 2 ^ 16) = none)
    (hroom : db.length < SIM_TCAM_MAX) :
    acl_add_permit a b c d st db
      = ((st.acl_next_id : Int),
         { acl_table := slot_update (fun _ => (⟨a, b, c, d, 0, 1, 1, st.acl_next_id⟩ : acl_entry_t)) st.acl_table e,
           acl_next_id := (st.acl_next_id + 1) % 2 ^ 16 },
         db ++ [{ entry := acl_permit_entry a b c d st.acl_next_id, valid := 1, deleted := 0 }]) := by
  have hins := hal_tcam_insert_new db (acl_permit_entry a b c d st.acl_next_id) hfree hroom
  unfold acl_add_permit
  rw [halloc]
  simp only
  rw [hins]
  simp only [ne_eq, not_true_eq_false, if_false]

theorem acl_alloc_init : acl_alloc acl_init.acl_table = some 0 := by
  unfold acl_alloc acl_init
  simp only
  rw [List.findIdx?_replicate]
  simp [ACL_TABLE_SIZE]

/-- The first `acl_add_deny` after `sim_hal_reset(); acl_init()`. -/
theorem acl_add_deny_init (a b c d p : Nat) :
    (acl_add_deny a b c d p acl_init []).1 = 0 ∧
    (acl_add_deny a b c d p acl_init []).2.2
      = [{ entry := acl_deny_entry a b c d p 0, valid := 1, deleted := 0 }] := by
  rw [acl_add_deny_fresh a b c d p acl_init [] 0 acl_alloc_init rfl (by decide)]
  exact ⟨rfl, rfl⟩

/-- The first `acl_add_permit` after `sim_hal_reset(); acl_init()`. -/
theorem acl_add_permit_init (a b c d : Nat) :
    (acl_add_permit a b c d acl_init []).1 = 0 ∧
    (acl_add_permit a b c d acl_init []).2.2
      = [{ entry := acl_permit_entry a b c d 0, valid := 1, deleted := 0 }] := by
  rw [acl_add_permit_fresh a b c d acl_init [] 0 acl_alloc_init rfl (by decide)]
  exact ⟨rfl, rfl⟩

/-- The pipeline over a store that holds one deny rule. -/
theorem pkt_process_deny (src smask dst dmask dport rid : Nat) (raw : List Nat)
    (raw_len ing_port : Nat) (result : fwd_result_t)
    (hsrc : src < 2 ^ 32) (hdst : dst < 2 ^ 32) (hdport : dport < 2 ^ 16)
    (hbytes : ∀ b ∈ raw, b < 256) (hlen : 14 ≤ raw_len) :
    (pkt_process [{ entry := acl_deny_entry src smask dst dmask dport rid, valid := 1, deleted := 0 }]
      raw raw_len ing_port result).1 = 0 ∧
    (pkt_process [{ entry := acl_deny_entry src smask dst dmask dport rid, valid := 1, deleted := 0 }]
      raw raw_len ing_port result).2.drop
      = if acl_addr_match (pkt_parse raw raw_len ing_port phv_zero).2 src smask dst dmask ∧
          (dport = 0 ∨ phv_dport (pkt_parse raw raw_len ing_port phv_zero).2 = dport)
        then 1 else 0 := by
  obtain ⟨q1, _, _, _, _, q6, q7, _⟩ := (pkt_parse_spec raw raw_len ing_port phv_zero).2.2 hlen
  have hb := pkt_parse_hdr_lt raw raw_len ing_port phv_zero hbytes hlen
  obtain ⟨f1, _, f3, _, _⟩ := acl_deny_entry_fields src smask dst dmask dport rid
  have hproc : ∀ db, pkt_process db raw raw_len ing_port result
      = (0, (pkt_forward db (pkt_parse raw raw_len ing_port phv_zero).2).2.2) := by
    intro db
    unfold pkt_process
    simp only
    rw [if_neg (by rw [q1]; simp)]
    rfl
  rw [hproc, pkt_forward_eq]
  simp only
  rw [pkt_forward_loop_one_stage _ 1 (by decide) (by
      intro r hr
      rw [List.mem_singleton] at hr
      rw [hr]
      exact f1) _ q6 q7,
    pkt_forward_stage_single]
  refine ⟨trivial, ?_⟩
  have hh := acl_deny_hit_iff (pkt_parse raw raw_len ing_port phv_zero).2 src smask dst dmask
    dport rid hsrc hdst hdport hb
  rw [show 1 % 256 = 1 from rfl, (extract_s1_key (pkt_parse raw raw_len ing_port phv_zero).2).1]
  by_cases hc : acl_addr_match (pkt_parse raw raw_len ing_port phv_zero).2 src smask dst dmask ∧
          (dport = 0 ∨ phv_dport (pkt_parse raw raw_len ing_port phv_zero).2 = dport)
  · rw [if_pos hc, if_pos (hh.mpr hc), apply_action_deny _ _ f3]
  · rw [if_neg hc, if_neg (fun h => hc (hh.mp h))]
    exact q6
/-! ## C31: the keys of deny and permit rules -/

/-- C31: for 32-bit addresses and a 16-bit port, the first `acl_add_deny` after
`acl_init` returns id 0 and installs one Stage-1 record with a 10-byte key: bytes 0..3
the source address, 4..7 the destination address, 8..9 the port, big endian, under the
masks `src_mask`, `dst_mask` and, for the port bytes, `0xFF 0xFF` when `dport != 0` and
`0x00 0x00` when `dport = 0`. Over that store `pkt_process` of a frame of at least 14
bytes returns `drop = 1` exactly when the parsed source and destination addresses match
under the masks and either `dport = 0` or the parsed destination port is `dport`. The
first `acl_add_permit` installs an 8-byte key of source and destination address; bytes
8 and up of its key and mask are zero, it is hit exactly when the addresses match,
whatever the port, and the frame is not dropped. -/
theorem c31_acl_key_asymmetry (src smask dst dmask dport : Nat) (raw : List Nat)
    (raw_len ing_port : Nat) (result : fwd_result_t)
    (hsrc : src < 2 ^ 32) (hdst : dst < 2 ^ 32) (hdport : dport < 2 ^ 16)
    (hbytes : ∀ b ∈ raw, b < 256) (hlen : 14 ≤ raw_len) :
    ((acl_add_deny src smask dst dmask dport acl_init []).1 = 0 ∧
     (acl_add_deny src smask dst dmask dport acl_init []).2.2
       = [{ entry := acl_deny_entry src smask dst dmask dport 0, valid := 1, deleted := 0 }] ∧
     (acl_deny_entry src smask dst dmask dport 0).stage = TABLE_ACL_INGRESS_STAGE ∧
     (acl_deny_entry src smask dst dmask dport 0).action_id = ACTION_DENY ∧
     (acl_deny_entry src smask dst dmask dport 0).key.key_len = 10 ∧
     (acl_deny_entry src smask dst dmask dport 0).mask.key_len = 10 ∧
     (∀ i, i < 4 →
       (acl_deny_entry src smask dst dmask dport 0).key.bytes.getD i 0
         = (src >>> (24 - 8 * i)) % 256 ∧
       (acl_deny_entry src smask dst dmask dport 0).key.bytes.getD (4 + i) 0
         = (dst >>> (24 - 8 * i)) % 256 ∧
       (acl_deny_entry src smask dst dmask dport 0).mask.bytes.getD i 0
         = (smask >>> (24 - 8 * i)) % 256 ∧
       (acl_deny_entry src smask dst dmask dport 0).mask.bytes.getD (4 + i) 0
         = (dmask >>> (24 - 8 * i)) % 256) ∧
     (acl_deny_entry src smask dst dmask dport 0).key.bytes.getD 8 0 = dport >>> 8 ∧
     (acl_deny_entry src smask dst dmask dport 0).key.bytes.getD 9 0 = dport % 256 ∧
     (acl_deny_entry src smask dst dmask dport 0).mask.bytes.getD 8 0
       = (if dport ≠ 0 then 0xFF else 0x00) ∧
     (acl_deny_entry src smask dst dmask dport 0).mask.bytes.getD 9 0
       = (if dport ≠ 0 then 0xFF else 0x00)) ∧
    ((pkt_process (acl_add_deny src smask dst dmask dport acl_init []).2.2
        raw raw_len ing_port result).1 = 0 ∧
     ((pkt_process (acl_add_deny src smask dst dmask dport acl_init []).2.2
        raw raw_len ing_port result).2.drop = 1 ↔
       acl_addr_match (pkt_parse raw raw_len ing_port phv_zero).2 src smask dst dmask ∧
       (dport = 0 ∨ phv_dport (pkt_parse raw raw_len ing_port phv_zero).2 = dport))) ∧
    ((acl_add_permit src smask dst dmask acl_init []).1 = 0 ∧
     (acl_add_permit src smask dst dmask acl_init []).2.2
       = [{ entry := acl_permit_entry src smask dst dmask 0, valid := 1, deleted := 0 }] ∧
     (acl_permit_entry src smask dst dmask 0).stage = TABLE_ACL_INGRESS_STAGE ∧
     (acl_permit_entry src smask dst dmask 0).action_id = ACTION_PERMIT ∧
     (acl_permit_entry src smask dst dmask 0).key.key_len = 8 ∧
     (acl_permit_entry src smask dst dmask 0).mask.key_len = 8 ∧
     (∀ i, i < 4 →
       (acl_permit_entry src smask dst dmask 0).key.bytes.getD i 0
         = (src >>> (24 - 8 * i)) % 256 ∧
       (acl_permit_entry src smask dst dmask 0).key.bytes.getD (4 + i) 0
         = (dst >>> (24 - 8 * i)) % 256 ∧
       (acl_permit_entry src smask dst dmask 0).mask.bytes.getD i 0
         = (smask >>> (24 - 8 * i)) % 256 ∧
       (acl_permit_entry src smask dst dmask 0).mask.bytes.getD (4 + i) 0
         = (dmask >>> (24 - 8 * i)) % 256) ∧
     (∀ i, 8 ≤ i →
       (acl_permit_entry src smask dst dmask 0).key.bytes.getD i 0 = 0 ∧
       (acl_permit_entry src smask dst dmask 0).mask.bytes.getD i 0 = 0) ∧
     (ternary_hit 1
         (stage_extract 1 (pkt_parse raw raw_len ing_port phv_zero).2 (List.replicate 64 0)).1 10
         { entry := acl_permit_entry src smask dst dmask 0, valid := 1, deleted := 0 } = true ↔
       acl_addr_match (pkt_parse raw raw_len ing_port phv_zero).2 src smask dst dmask) ∧
     (pkt_process (acl_add_permit src smask dst dmask acl_init []).2.2
        raw raw_len ing_port result).2.drop = 0) := by
  obtain ⟨d1, d2⟩ := acl_add_deny_init src smask dst dmask dport
  obtain ⟨p1, p2⟩ := acl_add_permit_init src smask dst dmask
  obtain ⟨f1, _, f3, f4, f5⟩ := acl_deny_entry_fields src smask dst dmask dport 0
  obtain ⟨q1, _, _, _, _, q6, q7, _⟩ := (pkt_parse_spec raw raw_len ing_port phv_zero).2.2 hlen
  have hb := pkt_parse_hdr_lt raw raw_len ing_port phv_zero hbytes hlen
  have h8k := (acl_deny_entry_bytes_port src smask dst dmask dport 0 8 (by decide)).1
  have h8m := (acl_deny_entry_bytes_port src smask dst dmask dport 0 8 (by decide)).2
  have h9k := (acl_deny_entry_bytes_port src smask dst dmask dport 0 9 (by decide)).1
  have h9m := (acl_deny_entry_bytes_port src smask dst dmask dport 0 9 (by decide)).2
  simp only [show ¬ (8 < 4) by decide, show ¬ (8 < 8) by decide, show ¬ (9 < 4) by decide,
    show ¬ (9 < 8) by decide, show ¬ (9 = 8) by decide, if_false, if_true] at h8k h8m h9k h9m
  have hsh : (dport >>> 8) % 256 = dport >>> 8 := by
    apply Nat.mod_eq_of_lt
    rw [Nat.shiftRight_eq_div_pow]
    omega
  refine ⟨⟨d1, d2, f1, f3, f4, f5, ?_, ?_, h9k, h8m, h9m⟩, ⟨?_, ?_⟩,
    ⟨p1, p2, rfl, rfl, rfl, rfl, ?_, ?_, ?_, ?_⟩⟩
  · intro i hi
    have a := acl_deny_entry_bytes_port src smask dst dmask dport 0 i (by omega)
    have b := acl_deny_entry_bytes_port src smask dst dmask dport 0 (4 + i) (by omega)
    rw [if_pos hi] at a
    rw [if_pos hi] at a
    rw [if_neg (by omega), if_pos (by omega)] at b
    rw [if_neg (by omega), if_pos (by omega)] at b
    rw [show 4 + i - 4 = i by omega] at b
    exact ⟨a.1, b.1, a.2, b.2⟩
  · rw [h8k, hsh]
  · rw [d2]
    exact (pkt_process_deny src smask dst dmask dport 0 raw raw_len ing_port result hsrc hdst
      hdport hbytes hlen).1
  · rw [d2, (pkt_process_deny src smask dst dmask dport 0 raw raw_len ing_port result hsrc hdst
      hdport hbytes hlen).2]
    constructor
    · intro h
      by_contra hc
      rw [if_neg hc] at h
      exact absurd h (by decide)
    · intro h
      rw [if_pos h]
  · intro i hi
    have a := acl_permit_entry_bytes src smask dst dmask 0 i
    have b := acl_permit_entry_bytes src smask dst dmask 0 (4 + i)
    rw [if_pos hi] at a
    rw [if_pos hi] at a
    rw [if_neg (by omega), if_pos (by omega)] at b
    rw [if_neg (by omega), if_pos (by omega)] at b
    rw [show 4 + i - 4 = i by omega] at b
    exact ⟨a.1, b.1, a.2, b.2⟩
  · intro i hi
    have a := acl_permit_entry_bytes src smask dst dmask 0 i
    rw [if_neg (by omega), if_neg (by omega)] at a
    rw [if_neg (by omega), if_neg (by omega)] at a
    exact a
  · exact acl_permit_hit_iff _ src smask dst dmask 0 hsrc hdst hb
  · rw [p2]
    have hproc : ∀ db, pkt_process db raw raw_len ing_port result
        = (0, (pkt_forward db (pkt_parse raw raw_len ing_port phv_zero).2).2.2) := by
      intro db
      unfold pkt_process
      simp only
      rw [if_neg (by rw [q1]; simp)]
      rfl
    rw [hproc, pkt_forward_eq]
    simp only
    rw [pkt_forward_loop_one_stage _ 1 (by decide) (by
        intro r hr
        rw [List.mem_singleton] at hr
        rw [hr]
        rfl) _ q6 q7,
      pkt_forward_stage_single]
    split
    · rw [apply_action_permit _ _ rfl]
      exact q6
    · exact q6

set_option maxRecDepth 100000 in
/-- C31 at the rule of `test_acl_deny` (192.168.0.0/16 to 10.0.0.0/8, port 80): a TCP
frame from 192.168.1.1 to 10.0.0.1 is dropped when its destination port is 80 and not
when it is 443. -/
theorem c31_acl_key_asymmetry_witness :
    (∀ b ∈ acl_tcp_frame 80, b < 256) ∧
    (pkt_process (acl_add_deny 0xC0A80000 0xFFFF0000 0x0A000000 0xFF000000 80 acl_init []).2.2
      (acl_tcp_frame 80) 38 0 ⟨0, 0, 0, 0, 0, 0⟩).2.drop = 1 ∧
    (pkt_process (acl_add_deny 0xC0A80000 0xFFFF0000 0x0A000000 0xFF000000 80 acl_init []).2.2
      (acl_tcp_frame 443) 38 0 ⟨0, 0, 0, 0, 0, 0⟩).2.drop ≠ 1 :=
  ⟨by decide,
   ((c31_acl_key_asymmetry 0xC0A80000 0xFFFF0000 0x0A000000 0xFF000000 80 (acl_tcp_frame 80)
      38 0 ⟨0, 0, 0, 0, 0, 0⟩ (by decide) (by decide) (by decide) (by decide)
      (by decide)).2.1.2).mpr (by decide),
   fun h => absurd (((c31_acl_key_asymmetry 0xC0A80000 0xFFFF0000 0x0A000000 0xFF000000 80
      (acl_tcp_frame 443) 38 0 ⟨0, 0, 0, 0, 0, 0⟩ (by decide) (by decide) (by decide) (by decide)
      (by decide)).2.1.2).mp h) (by decide)⟩
/-! ## C38: precedence between a deny and a permit rule -/

theorem acl_alloc_second (x : acl_entry_t) (hx : x.valid = 1) :
    acl_alloc (slot_update (fun _ => x) acl_init.acl_table 0) = some 1 := by
  have h : slot_update (fun _ => x) acl_init.acl_table 0
      = x :: List.replicate 127 (⟨0, 0, 0, 0, 0, 0, 0, 0⟩ : acl_entry_t) := rfl
  rw [h]
  unfold acl_alloc
  rw [List.findIdx?_cons, hx]
  simp [List.findIdx?_replicate]

/-- The store after `acl_add_deny` then `acl_add_permit` on the initial state, and
after the same two calls in the other order. -/
theorem acl_run_two (s1 m1 d1 e1 dport s2 m2 d2 e2 : Nat) :
    (acl_run acl_sys_init [acl_op.deny s1 m1 d1 e1 dport, acl_op.permit s2 m2 d2 e2]).db
      = [{ entry := acl_deny_entry s1 m1 d1 e1 dport 0, valid := 1, deleted := 0 },
         { entry := acl_permit_entry s2 m2 d2 e2 1, valid := 1, deleted := 0 }] ∧
    (acl_run acl_sys_init [acl_op.permit s2 m2 d2 e2, acl_op.deny s1 m1 d1 e1 dport]).db
      = [{ entry := acl_permit_entry s2 m2 d2 e2 0, valid := 1, deleted := 0 },
         { entry := acl_deny_entry s1 m1 d1 e1 dport 1, valid := 1, deleted := 0 }] := by
  have hd := acl_add_deny_fresh s1 m1 d1 e1 dport acl_init [] 0 acl_alloc_init rfl (by decide)
  have hp := acl_add_permit_fresh s2 m2 d2 e2 acl_init [] 0 acl_alloc_init rfl (by decide)
  have hst : ∀ r : sim_tcam_rec_t, r.entry.table_id = 0 →
      sim_tcam_find [r] TABLE_ACL_INGRESS_STAGE ((TABLE_ACL_INGRESS_BASE + 1) % 2 ^ 16) = none := by
    intro r hr
    rw [sim_tcam_find_none]
    intro x hx
    rw [List.mem_singleton] at hx
    rw [hx]
    cases hc : rec_is TABLE_ACL_INGRESS_STAGE ((TABLE_ACL_INGRESS_BASE + 1) % 2 ^ 16) r with
    | false => rfl
    | true =>
      obtain ⟨_, _, ht⟩ := (rec_is_iff _ _ r).mp hc
      rw [hr] at ht
      exact absurd ht (by decide)
  have hd0 : (acl_deny_entry s1 m1 d1 e1 dport 0).table_id = 0 :=
    (acl_deny_entry_fields s1 m1 d1 e1 dport 0).2.1
  constructor
  · show (acl_add_permit s2 m2 d2 e2 (acl_add_deny s1 m1 d1 e1 dport acl_init []).2.1
        (acl_add_deny s1 m1 d1 e1 dport acl_init []).2.2).2.2 = _
    rw [hd]
    simp only
    rw [acl_add_permit_fresh s2 m2 d2 e2 _ _ 1 (acl_alloc_second _ rfl)
      (hst _ hd0) (by simp [SIM_TCAM_MAX])]
    rfl
  · show (acl_add_deny s1 m1 d1 e1 dport (acl_add_permit s2 m2 d2 e2 acl_init []).2.1
        (acl_add_permit s2 m2 d2 e2 acl_init []).2.2).2.2 = _
    rw [hp]
    simp only
    rw [acl_add_deny_fresh s1 m1 d1 e1 dport _ _ 1 (acl_alloc_second _ rfl)
      (hst _ rfl) (by simp [SIM_TCAM_MAX])]
    rfl

/-- A permit record in front of the store that is hit by the Stage-1 key leaves the
PHV as it is, whatever records follow. -/
theorem pkt_forward_stage_permit_first (src smask dst dmask rid : Nat)
    (rest : List sim_tcam_rec_t) (phv : phv_t)
    (hsrc : src < 2 ^ 32) (hdst : dst < 2 ^ 32) (hb : ∀ j, phv.hdr.getD j 0 < 256)
    (hm : acl_addr_match phv src smask dst dmask) :
    pkt_forward_stage
      ({ entry := acl_permit_entry src smask dst dmask rid, valid := 1, deleted := 0 } :: rest)
      phv 1 = phv := by
  have hh := (acl_permit_hit_iff phv src smask dst dmask rid hsrc hdst hb).mpr hm
  unfold pkt_forward_stage
  simp only
  rw [tcam_ternary_lookup_eq, show 1 % 256 = 1 from rfl, (extract_s1_key phv).1,
    List.findIdx?_cons, hh]
  simp only [if_true, List.getElem?_cons_zero]
  exact apply_action_permit _ _ rfl

/-- C38 (amended): let a deny rule and a permit rule both match the source and the
destination address of a frame of at least 14 bytes. With the deny rule added first,
`pkt_process` returns `drop = 1` exactly when the deny rule has `dport = 0` or the
parsed destination port of the frame is its `dport`; with the permit rule added first
it returns `drop = 0` whatever the port, and a permit record in front of the store
leaves the PHV unchanged at Stage 1 whatever records follow it. -/
theorem c38_acl_precedence (s1 m1 d1 e1 dport s2 m2 d2 e2 : Nat) (raw : List Nat)
    (raw_len ing_port : Nat) (result : fwd_result_t)
    (hs1 : s1 < 2 ^ 32) (hd1 : d1 < 2 ^ 32) (hdport : dport < 2 ^ 16)
    (hs2 : s2 < 2 ^ 32) (hd2 : d2 < 2 ^ 32)
    (hbytes : ∀ b ∈ raw, b < 256) (hlen : 14 ≤ raw_len)
    (hdeny : acl_addr_match (pkt_parse raw raw_len ing_port phv_zero).2 s1 m1 d1 e1)
    (hpermit : acl_addr_match (pkt_parse raw raw_len ing_port phv_zero).2 s2 m2 d2 e2) :
    ((pkt_process
        (acl_run acl_sys_init [acl_op.deny s1 m1 d1 e1 dport, acl_op.permit s2 m2 d2 e2]).db
        raw raw_len ing_port result).2.drop = 1 ↔
      (dport = 0 ∨ phv_dport (pkt_parse raw raw_len ing_port phv_zero).2 = dport)) ∧
    ((pkt_process
        (acl_run acl_sys_init [acl_op.deny s1 m1 d1 e1 dport, acl_op.permit s2 m2 d2 e2]).db
        raw raw_len ing_port result).2.drop = 1 ∨
     (pkt_process
        (acl_run acl_sys_init [acl_op.deny s1 m1 d1 e1 dport, acl_op.permit s2 m2 d2 e2]).db
        raw raw_len ing_port result).2.drop = 0) ∧
    (pkt_process
        (acl_run acl_sys_init [acl_op.permit s2 m2 d2 e2, acl_op.deny s1 m1 d1 e1 dport]).db
        raw raw_len ing_port result).2.drop = 0 ∧
    (∀ (rid : Nat) (rest : List sim_tcam_rec_t),
      pkt_forward_stage
        ({ entry := acl_permit_entry s2 m2 d2 e2 rid, valid := 1, deleted := 0 } :: rest)
        (pkt_parse raw raw_len ing_port phv_zero).2 1
        = (pkt_parse raw raw_len ing_port phv_zero).2) := by
  obtain ⟨r1, r2⟩ := acl_run_two s1 m1 d1 e1 dport s2 m2 d2 e2
  obtain ⟨q1, _, _, _, _, q6, q7, _⟩ := (pkt_parse_spec raw raw_len ing_port phv_zero).2.2 hlen
  have hb := pkt_parse_hdr_lt raw raw_len ing_port phv_zero hbytes hlen
  have hproc : ∀ db, pkt_process db raw raw_len ing_port result
      = (0, (pkt_forward db (pkt_parse raw raw_len ing_port phv_zero).2).2.2) := by
    intro db
    unfold pkt_process
    simp only
    rw [if_neg (by rw [q1]; simp)]
    rfl
  have hdh := fun rid => acl_deny_hit_iff (pkt_parse raw raw_len ing_port phv_zero).2
    s1 m1 d1 e1 dport rid hs1 hd1 hdport hb
  have hph := fun rid => (acl_permit_hit_iff (pkt_parse raw raw_len ing_port phv_zero).2
    s2 m2 d2 e2 rid hs2 hd2 hb).mpr hpermit
  have hfd := fun rid => (acl_deny_entry_fields s1 m1 d1 e1 dport rid)
  have hdrop : (pkt_process
        (acl_run acl_sys_init [acl_op.deny s1 m1 d1 e1 dport, acl_op.permit s2 m2 d2 e2]).db
        raw raw_len ing_port result).2.drop
      = if dport = 0 ∨ phv_dport (pkt_parse raw raw_len ing_port phv_zero).2 = dport
        then 1 else 0 := by
    rw [r1, hproc, pkt_forward_eq]
    simp only
    rw [pkt_forward_loop_one_stage _ 1 (by decide) (by
        intro r hr
        simp only [List.mem_cons, List.mem_singleton, List.not_mem_nil, or_false] at hr
        rcases hr with hr | hr
        · rw [hr]
          exact (hfd 0).1
        · rw [hr]
          rfl) _ q6 q7,
      pkt_forward_stage_pair, show 1 % 256 = 1 from rfl, (extract_s1_key _).1]
    by_cases hc : dport = 0 ∨ phv_dport (pkt_parse raw raw_len ing_port phv_zero).2 = dport
    · rw [if_pos hc, if_pos ((hdh 0).mpr ⟨hdeny, hc⟩), apply_action_deny _ _ (hfd 0).2.2.1]
    · rw [if_neg hc, if_neg (fun h => hc ((hdh 0).mp h).2), if_pos (hph 1),
        apply_action_permit _ _ rfl]
      exact q6
  refine ⟨?_, ?_, ?_, ?_⟩
  · rw [hdrop]
    constructor
    · intro h
      by_contra hc
      rw [if_neg hc] at h
      exact absurd h (by decide)
    · intro h
      rw [if_pos h]
  · rw [hdrop]
    split
    · exact Or.inl rfl
    · exact Or.inr rfl
  · rw [r2, hproc, pkt_forward_eq]
    simp only
    rw [pkt_forward_loop_one_stage _ 1 (by decide) (by
        intro r hr
        simp only [List.mem_cons, List.mem_singleton, List.not_mem_nil, or_false] at hr
        rcases hr with hr | hr
        · rw [hr]
          rfl
        · rw [hr]
          exact (hfd 1).1) _ q6 q7,
      pkt_forward_stage_permit_first s2 m2 d2 e2 0 _ _ hs2 hd2 hb hpermit]
    exact q6
  · intro rid rest
    exact pkt_forward_stage_permit_first s2 m2 d2 e2 rid rest _ hs2 hd2 hb hpermit

set_option maxRecDepth 100000 in
/-- C38, the claim for a deny rule with a port: `acl_add_deny(192.168.0.0/16,
10.0.0.0/8, 80)` is added before `acl_add_permit(192.168.0.0/16, 10.0.0.0/8)`, both
match the source and destination of a TCP frame from 192.168.1.1 to 10.0.0.1 with
destination port 443, and the frame is not dropped. -/
theorem c38_counterexample :
    acl_addr_match (pkt_parse (acl_tcp_frame 443) 38 0 phv_zero).2
      0xC0A80000 0xFFFF0000 0x0A000000 0xFF000000 ∧
    (acl_run acl_sys_init [acl_op.deny 0xC0A80000 0xFFFF0000 0x0A000000 0xFF000000 80,
      acl_op.permit 0xC0A80000 0xFFFF0000 0x0A000000 0xFF000000]).db
      = [{ entry := acl_deny_entry 0xC0A80000 0xFFFF0000 0x0A000000 0xFF000000 80 0,
           valid := 1, deleted := 0 },
         { entry := acl_permit_entry 0xC0A80000 0xFFFF0000 0x0A000000 0xFF000000 1,
           valid := 1, deleted := 0 }] ∧
    pkt_process
      (acl_run acl_sys_init [acl_op.deny 0xC0A80000 0xFFFF0000 0x0A000000 0xFF000000 80,
        acl_op.permit 0xC0A80000 0xFFFF0000 0x0A000000 0xFF000000]).db
      (acl_tcp_frame 443) 38 0 ⟨0, 0, 0, 0, 0, 0⟩ = (0, ⟨0, 0, 0, 0, 0, 0⟩) := by
  refine ⟨by decide, (acl_run_two _ _ _ _ _ _ _ _ _).1, ?_⟩
  rw [(acl_run_two _ _ _ _ _ _ _ _ _).1]
  decide

set_option maxRecDepth 100000 in
/-- C38 at the same two rules and the frame with destination port 80: dropped when the
deny rule was added first, not dropped when the permit rule was. -/
theorem c38_acl_precedence_witness :
    (pkt_process
      (acl_run acl_sys_init [acl_op.deny 0xC0A80000 0xFFFF0000 0x0A000000 0xFF000000 80,
        acl_op.permit 0xC0A80000 0xFFFF0000 0x0A000000 0xFF000000]).db
      (acl_tcp_frame 80) 38 0 ⟨0, 0, 0, 0, 0, 0⟩).2.drop = 1 ∧
    (pkt_process
      (acl_run acl_sys_init [acl_op.permit 0xC0A80000 0xFFFF0000 0x0A000000 0xFF000000,
        acl_op.deny 0xC0A80000 0xFFFF0000 0x0A000000 0xFF000000 80]).db
      (acl_tcp_frame 80) 38 0 ⟨0, 0, 0, 0, 0, 0⟩).2.drop = 0 :=
  ⟨(c38_acl_precedence 0xC0A80000 0xFFFF0000 0x0A000000 0xFF000000 80
      0xC0A80000 0xFFFF0000 0x0A000000 0xFF000000 (acl_tcp_frame 80) 38 0 ⟨0, 0, 0, 0, 0, 0⟩
      (by decide) (by decide) (by decide) (by decide) (by decide) (by decide) (by decide)
      (by decide) (by decide)).1.mpr (by decide),
   (c38_acl_precedence 0xC0A80000 0xFFFF0000 0x0A000000 0xFF000000 80
      0xC0A80000 0xFFFF0000 0x0A000000 0xFF000000 (acl_tcp_frame 80) 38 0 ⟨0, 0, 0, 0, 0, 0⟩
      (by decide) (by decide) (by decide) (by decide) (by decide) (by decide) (by decide)
      (by decide) (by decide)).2.2.1⟩

/-! ## C33: the ARP punt rule -/

theorem apply_action_punt (phv : phv_t) (r : sim_tcam_rec_t)
    (h : r.entry.action_id = ACTION_PUNT_CPU) : apply_action phv r = { phv with punt := 1 } := by
  unfold apply_action
  simp only
  rw [if_neg (by rw [h]; decide), if_neg (by rw [h]; decide), if_neg (by rw [h]; decide),
    if_neg (by rw [h]; decide), if_neg (by rw [h]; decide), if_neg (by rw [h]; decide),
    if_pos h]

/-- The record of `install_arp_punt_rule` is hit by the Stage-3 key of a PHV exactly
when bytes 12..13 of the PHV are 0x08 0x06. -/
theorem arp_punt_hit_iff (phv : phv_t) (hb : ∀ j, phv.hdr.getD j 0 < 256) :
    ternary_hit 3 (stage_extract 3 phv (List.replicate 64 0)).1 2
        { entry := arp_punt_entry, valid := 1, deleted := 0 } = true ↔
      phv.hdr.getD 12 0 = 0x08 ∧ phv.hdr.getD 13 0 = 0x06 := by
  have hk : ∀ i, i < 2 →
      (memcpy (List.replicate 64 0) 0 phv.hdr PHV_OFF_ETH_TYPE 2).getD i 0
        = phv.hdr.getD (12 + i) 0 := by
    intro i hi
    simp only [getD_memcpy, List.length_replicate, PHV_OFF_ETH_TYPE]
    rw [if_pos (by omega), Nat.sub_zero]
  have hm := ternary_match_ne_zero (memcpy (List.replicate 64 0) 0 phv.hdr PHV_OFF_ETH_TYPE 2)
    2 arp_punt_entry
  have hkl : arp_punt_entry.key.key_len = 2 := rfl
  rw [hkl, Nat.min_self] at hm
  have hst : arp_punt_entry.stage = 3 := rfl
  have e0 : arp_punt_entry.key.bytes.getD 0 0 = 0x08 := by decide
  have e1 : arp_punt_entry.key.bytes.getD 1 0 = 0x06 := by decide
  have m0 : arp_punt_entry.mask.bytes.getD 0 0 = 0xFF := by decide
  have m1 : arp_punt_entry.mask.bytes.getD 1 0 = 0xFF := by decide
  have b12 := hb 12
  have b13 := hb 13
  have hiff : ternary_match (memcpy (List.replicate 64 0) 0 phv.hdr PHV_OFF_ETH_TYPE 2)
      2 arp_punt_entry ≠ 0 ↔ phv.hdr.getD 12 0 = 0x08 ∧ phv.hdr.getD 13 0 = 0x06 := by
    rw [hm]
    constructor
    · intro h
      have h0 := h 0 (by decide)
      have h1 := h 1 (by decide)
      rw [hk 0 (by decide), e0, m0, and_0xFF, Nat.mod_eq_of_lt b12] at h0
      rw [hk 1 (by decide), e1, m1, and_0xFF, Nat.mod_eq_of_lt b13] at h1
      exact ⟨h0, h1⟩
    · rintro ⟨h0, h1⟩ i hi
      have hi2 : i = 0 ∨ i = 1 := by omega
      rcases hi2 with rfl | rfl
      · rw [hk 0 (by decide), e0, m0, h0]
      · rw [hk 1 (by decide), e1, m1, h1]
  show ternary_hit 3 (memcpy (List.replicate 64 0) 0 phv.hdr PHV_OFF_ETH_TYPE 2) 2
    { entry := arp_punt_entry, valid := 1, deleted := 0 } = true ↔ _
  rw [← hiff]
  simp [ternary_hit, rec_live, hst]

/-- C33: after `sim_hal_reset(); arp_init()` the rule store holds one record, at
Stage 3 and table id 0, with the 2-byte key `08 06` under the mask `FF FF` and the
action punt-to-CPU. Over that store `pkt_process` of a frame of at least 14 bytes
returns 0 with `drop = 0`, and `punt = 1` exactly when bytes 12..13 of the frame are
`08 06`; otherwise `punt = 0`. -/
theorem c33_arp_punt (raw : List Nat) (raw_len ing_port : Nat) (result : fwd_result_t)
    (hbytes : ∀ b ∈ raw, b < 256) (hlen : 14 ≤ raw_len) :
    (arp_init arp_sys_reset).db = [{ entry := arp_punt_entry, valid := 1, deleted := 0 }] ∧
    (arp_punt_entry.stage = TABLE_ARP_TRAP_STAGE ∧ arp_punt_entry.table_id = 0 ∧
     arp_punt_entry.key.key_len = 2 ∧ arp_punt_entry.mask.key_len = 2 ∧
     arp_punt_entry.key.bytes.getD 0 0 = 0x08 ∧ arp_punt_entry.key.bytes.getD 1 0 = 0x06 ∧
     arp_punt_entry.mask.bytes.getD 0 0 = 0xFF ∧ arp_punt_entry.mask.bytes.getD 1 0 = 0xFF ∧
     arp_punt_entry.action_id = ACTION_PUNT_CPU) ∧
    (pkt_process (arp_init arp_sys_reset).db raw raw_len ing_port result).1 = 0 ∧
    ((pkt_process (arp_init arp_sys_reset).db raw raw_len ing_port result).2.punt = 1 ↔
      raw.getD 12 0 = 0x08 ∧ raw.getD 13 0 = 0x06) ∧
    (¬ (raw.getD 12 0 = 0x08 ∧ raw.getD 13 0 = 0x06) →
      (pkt_process (arp_init arp_sys_reset).db raw raw_len ing_port result).2.punt = 0) ∧
    (pkt_process (arp_init arp_sys_reset).db raw raw_len ing_port result).2.drop = 0 := by
  have hdb : (arp_init arp_sys_reset).db
      = [{ entry := arp_punt_entry, valid := 1, deleted := 0 }] := rfl
  obtain ⟨q1, _, _, _, _, q6, q7, _, _, q10, _⟩ :=
    (pkt_parse_spec raw raw_len ing_port phv_zero).2.2 hlen
  have hb := pkt_parse_hdr_lt raw raw_len ing_port phv_zero hbytes hlen
  have hproc : pkt_process (arp_init arp_sys_reset).db raw raw_len ing_port result
      = (0, (pkt_forward [{ entry := arp_punt_entry, valid := 1, deleted := 0 }]
          (pkt_parse raw raw_len ing_port phv_zero).2).2.2) := by
    rw [hdb]
    unfold pkt_process
    simp only
    rw [if_neg (by rw [q1]; simp)]
    rfl
  have hhit := arp_punt_hit_iff (pkt_parse raw raw_len ing_port phv_zero).2 hb
  rw [q10 12 (by decide), q10 13 (by decide)] at hhit
  have hres : (pkt_process (arp_init arp_sys_reset).db raw raw_len ing_port result).2.punt
        = (if raw.getD 12 0 = 0x08 ∧ raw.getD 13 0 = 0x06 then 1 else 0) ∧
      (pkt_process (arp_init arp_sys_reset).db raw raw_len ing_port result).2.drop = 0 := by
    rw [hproc, pkt_forward_eq]
    simp only
    rw [pkt_forward_loop_one_stage _ 3 (by decide) (by
        intro r hr
        rw [List.mem_singleton] at hr
        rw [hr]
        rfl) _ q6 q7,
      pkt_forward_stage_single, show 3 % 256 = 3 from rfl]
    have hk2 : (stage_extract 3 (pkt_parse raw raw_len ing_port phv_zero).2
        (List.replicate 64 0)).2 = 2 := rfl
    rw [hk2]
    by_cases hc : raw.getD 12 0 = 0x08 ∧ raw.getD 13 0 = 0x06
    · rw [if_pos hc, if_pos (hhit.mpr hc), apply_action_punt _ _ rfl]
      exact ⟨rfl, q6⟩
    · rw [if_neg hc, if_neg (fun h => hc (hhit.mp h))]
      exact ⟨q7, q6⟩
  refine ⟨hdb, ⟨rfl, rfl, rfl, rfl, by decide, by decide, by decide, by decide, rfl⟩, ?_, ?_,
    ?_, hres.2⟩
  · rw [hproc]
  · rw [hres.1]
    constructor
    · intro h
      by_contra hc
      rw [if_neg hc] at h
      exact absurd h (by decide)
    · intro h
      rw [if_pos h]
  · intro hc
    rw [hres.1, if_neg hc]

/-- C33 at the frames of `test_dp_cosim_arp_punt` and `test_dp_cosim_route_forward`:
the ARP Request is punted, the IPv4 frame is not. -/
theorem c33_arp_punt_witness :
    (∀ b ∈ cosim_arp_pkt, b < 256) ∧ (∀ b ∈ cosim_route_pkt, b < 256) ∧
    (pkt_process (arp_init arp_sys_reset).db cosim_arp_pkt 42 0 ⟨0, 0, 0, 0, 0, 0⟩).2.punt = 1 ∧
    (pkt_process (arp_init arp_sys_reset).db cosim_arp_pkt 42 0 ⟨0, 0, 0, 0, 0, 0⟩).2.drop = 0 ∧
    (pkt_process (arp_init arp_sys_reset).db cosim_route_pkt 34 0 ⟨0, 0, 0, 0, 0, 0⟩).2.punt = 0 :=
  ⟨by decide, by decide,
   (c33_arp_punt cosim_arp_pkt 42 0 ⟨0, 0, 0, 0, 0, 0⟩ (by decide) (by decide)).2.2.2.1.mpr
     (by decide),
   (c33_arp_punt cosim_arp_pkt 42 0 ⟨0, 0, 0, 0, 0, 0⟩ (by decide) (by decide)).2.2.2.2.2,
   (c33_arp_punt cosim_route_pkt 34 0 ⟨0, 0, 0, 0, 0, 0⟩ (by decide) (by decide)).2.2.2.2.1
     (by decide)⟩

/-! ## Inserting the same entry again -/

theorem hal_tcam_insert_length (db : List sim_tcam_rec_t) (e : tcam_entry_t) :
    (hal_tcam_insert (some e) db).2.length
      = db.length + (if sim_tcam_find db e.stage e.table_id = none ∧ db.length < SIM_TCAM_MAX
          then 1 else 0) := by
  cases hf : sim_tcam_find db e.stage e.table_id with
  | some j =>
    rw [hal_tcam_insert_existing db e j hf, length_slot_update, if_neg (by simp), Nat.add_zero]
  | none =>
    by_cases hn : db.length < SIM_TCAM_MAX
    · rw [hal_tcam_insert_new db e hf hn, if_pos ⟨rfl, hn⟩]
      simp
    · have hno : (hal_tcam_insert (some e) db).1 ≠ HAL_OK := by
        intro hok
        rcases (hal_tcam_insert_refused db e).1.mp hok with h | h
        · exact h hf
        · exact hn h
      rw [(hal_tcam_insert_refused db e).2 hno, if_neg (fun h => hn h.2), Nat.add_zero]

theorem tcam_step_length (db : List sim_tcam_rec_t) (op : tcam_op) :
    db.length ≤ (tcam_step db op).length := by
  cases op with
  | insert e =>
    cases e with
    | none => exact Nat.le_refl _
    | some e =>
      show db.length ≤ (hal_tcam_insert (some e) db).2.length
      rw [hal_tcam_insert_length]
      omega
  | delete s t =>
    show db.length ≤ (hal_tcam_delete s t db).2.length
    rw [(hal_tcam_delete_slots db s t).1]
  | modify e =>
    cases e with
    | none => exact Nat.le_refl _
    | some e =>
      show db.length ≤ (hal_tcam_modify (some e) db).2.length
      unfold hal_tcam_modify
      simp only
      split
      · exact Nat.le_refl _
      · rw [length_slot_update]
  | flush s =>
    show db.length ≤ (hal_tcam_flush s db).2.length
    unfold hal_tcam_flush
    simp only [List.length_map]
    exact Nat.le_refl _

theorem tcam_run_length (ops : List tcam_op) (db : List sim_tcam_rec_t) :
    db.length ≤ (tcam_run db ops).length := by
  induction ops generalizing db with
  | nil => exact Nat.le_refl _
  | cons op ops ih =>
    exact Nat.le_trans (tcam_step_length db op) (ih (tcam_step db op))

theorem sim_tcam_find_dead (db : List sim_tcam_rec_t) (h : ∀ r ∈ db, rec_live r = false)
    (stage table_id : Nat) : sim_tcam_find db stage table_id = none := by
  rw [sim_tcam_find_none]
  intro r hr
  cases hc : rec_is stage table_id r with
  | false => rfl
  | true =>
    have := ((rec_is_iff _ _ r).mp hc).1
    rw [h r hr] at this
    cases this

/-- The state between the cycles of `route_cycles`: a software table of 256 slots with
no valid route, and a store of `n` allocated slots with no live record. -/
theorem route_cycle_step (s : route_sys) (n : Nat) (c : Nat × Nat × Nat × Nat)
    (hrl : s.route_table.length = ROUTE_TABLE_SIZE)
    (hrv : ∀ r ∈ s.route_table, r.valid = 0)
    (hdl : s.sim_tcam_db.length = n) (hdd : ∀ r ∈ s.sim_tcam_db, rec_live r = false)
    (hn : n < SIM_TCAM_MAX) (hc : c.2.1 ≤ 32) :
    (route_run s (route_cycles [c])).route_table.length = ROUTE_TABLE_SIZE ∧
    (∀ r ∈ (route_run s (route_cycles [c])).route_table, r.valid = 0) ∧
    (route_run s (route_cycles [c])).sim_tcam_db.length = n + 1 ∧
    (∀ r ∈ (route_run s (route_cycles [c])).sim_tcam_db, rec_live r = false) := by
  obtain ⟨pfx, len, port, dmac⟩ := c
  simp only at hc
  obtain ⟨rt, db⟩ := s
  simp only at hrl hrv hdl hdd
  -- the software table starts with an invalid slot
  obtain ⟨r0, rs, hrt⟩ : ∃ r0 rs, rt = r0 :: rs := by
    cases rt with
    | nil => simp [ROUTE_TABLE_SIZE] at hrl
    | cons r0 rs => exact ⟨r0, rs, rfl⟩
  have hr0 : r0.valid = 0 := hrv r0 (by rw [hrt]; exact List.mem_cons_self _ _)
  have hnone : rt.findIdx? (route_is pfx len) = none := by
    rw [List.findIdx?_eq_none_iff]
    intro r hr
    unfold route_is
    rw [hrv r hr]
    rfl
  have hslot : route_add_slot rt pfx len = some 0 := by
    unfold route_add_slot
    rw [hnone, hrt]
    simp only [List.findIdx?_cons, hr0]
    rfl
  have hfind := sim_tcam_find_dead db hdd TABLE_IPV4_LPM_STAGE (route_tcam_id pfx len)
  have hadd : route_add pfx len port dmac rt db
      = (HAL_OK, slot_update (fun _ => (⟨pfx, len, port, dmac, 1⟩ : route_entry_t)) rt 0,
          db ++ [{ entry := route_tcam_entry pfx len port dmac, valid := 1, deleted := 0 }]) := by
    unfold route_add
    rw [if_neg (by omega), hslot]
    simp only
    rw [hal_tcam_insert_new db _ hfind (by rw [hdl]; exact hn)]
  have hdelslot : (slot_update (fun _ => (⟨pfx, len, port, dmac, 1⟩ : route_entry_t)) rt 0).findIdx?
      (route_is pfx len) = some 0 := by
    rw [hrt]
    show ((⟨pfx, len, port, dmac, 1⟩ : route_entry_t) :: rs).findIdx? (route_is pfx len) = some 0
    rw [List.findIdx?_cons]
    have : route_is pfx len (⟨pfx, len, port, dmac, 1⟩ : route_entry_t) = true := by
      simp [route_is]
    rw [this]
    rfl
  have hdel : route_del pfx len
        (slot_update (fun _ => (⟨pfx, len, port, dmac, 1⟩ : route_entry_t)) rt 0)
        (db ++ [{ entry := route_tcam_entry pfx len port dmac, valid := 1, deleted := 0 }])
      = (HAL_OK,
          slot_update (fun r => { r with valid := 0 })
            (slot_update (fun _ => (⟨pfx, len, port, dmac, 1⟩ : route_entry_t)) rt 0) 0,
          db ++ [{ entry := route_tcam_entry pfx len port dmac, valid := 1, deleted := 1 }]) := by
    unfold route_del
    rw [if_neg (by omega), hdelslot]
    simp only
    have := (hal_tcam_delete_appended db (route_tcam_entry pfx len port dmac) hfind).1
    rw [route_tcam_entry_stage, route_tcam_entry_table_id] at this
    rw [this]
  have hrun : route_run ⟨rt, db⟩ (route_cycles [(pfx, len, port, dmac)])
      = ⟨slot_update (fun r => { r with valid := 0 })
            (slot_update (fun _ => (⟨pfx, len, port, dmac, 1⟩ : route_entry_t)) rt 0) 0,
          db ++ [{ entry := route_tcam_entry pfx len port dmac, valid := 1, deleted := 1 }]⟩ := by
    show route_step (route_step ⟨rt, db⟩ (route_op.add pfx len port dmac))
      (route_op.del pfx len) = _
    unfold route_step
    simp only
    rw [hadd]
    simp only
    rw [hdel]
  rw [hrun]
  simp only
  refine ⟨?_, ?_, ?_, ?_⟩
  · rw [length_slot_update, length_slot_update]
    exact hrl
  · intro r hr
    rw [hrt] at hr
    change r ∈ ({ (⟨pfx, len, port, dmac, 1⟩ : route_entry_t) with valid := 0 } :: rs) at hr
    rcases List.mem_cons.mp hr with h | h
    · rw [h]
    · exact hrv r (by rw [hrt]; exact List.mem_cons_of_mem _ h)
  · rw [List.length_append, hdl]
    rfl
  · intro r hr
    rcases List.mem_append.mp hr with h | h
    · exact hdd r h
    · rw [List.mem_singleton.mp h]
      rfl

theorem route_cycles_cons (c : Nat × Nat × Nat × Nat) (cs : List (Nat × Nat × Nat × Nat))
    (s : route_sys) :
    route_run s (route_cycles (c :: cs)) = route_run (route_run s (route_cycles [c]))
      (route_cycles cs) := rfl

theorem route_cycles_run (cs : List (Nat × Nat × Nat × Nat)) (s : route_sys) (n : Nat)
    (hrl : s.route_table.length = ROUTE_TABLE_SIZE)
    (hrv : ∀ r ∈ s.route_table, r.valid = 0)
    (hdl : s.sim_tcam_db.length = n) (hdd : ∀ r ∈ s.sim_tcam_db, rec_live r = false)
    (hn : n + cs.length ≤ SIM_TCAM_MAX) (hc : ∀ c ∈ cs, c.2.1 ≤ 32) :
    (route_run s (route_cycles cs)).route_table.length = ROUTE_TABLE_SIZE ∧
    (∀ r ∈ (route_run s (route_cycles cs)).route_table, r.valid = 0) ∧
    (route_run s (route_cycles cs)).sim_tcam_db.length = n + cs.length ∧
    (∀ r ∈ (route_run s (route_cycles cs)).sim_tcam_db, rec_live r = false) := by
  induction cs generalizing s n with
  | nil => exact ⟨hrl, hrv, hdl, hdd⟩
  | cons c cs ih =>
    rw [List.length_cons] at hn
    obtain ⟨a1, a2, a3, a4⟩ := route_cycle_step s n c hrl hrv hdl hdd (by omega)
      (hc c (List.mem_cons_self _ _))
    rw [route_cycles_cons]
    have := ih (route_run s (route_cycles [c])) (n + 1) a1 a2 a3 a4 (by omega)
      (fun x hx => hc x (List.mem_cons_of_mem _ hx))
    rw [List.length_cons]
    rw [show n + (cs.length + 1) = n + 1 + cs.length by omega]
    exact this

/-- C35: (1) no call of the rule-store interface lowers the number of allocated
slots, so no sequence of calls does. (2) In a store with one live record per key and
fewer than 512 slots, deleting the live record of a key and inserting the key again
marks the old slot deleted and appends the new record in the fresh slot at the end.
(3) With 512 slots allocated, an insert of a key that has no live record returns
`HAL_ERR_FULL` and changes nothing, also when no record at all is live. (4) After
`route_add; route_del` cycles for any 512 routes with `len <= 32` from the initial
state, the same or different ones, the store has 512 allocated slots and no live
record, and every further `route_add` with `len <= 32` returns `HAL_ERR_FULL` and
leaves the store as it is. -/
theorem c35_slots_never_reclaimed :
    (∀ (db : List sim_tcam_rec_t) (op : tcam_op), db.length ≤ (tcam_step db op).length) ∧
    (∀ (db : List sim_tcam_rec_t) (ops : List tcam_op), db.length ≤ (tcam_run db ops).length) ∧
    (∀ (db : List sim_tcam_rec_t) (e : tcam_entry_t) (j : Nat), store_unique db →
      sim_tcam_find db e.stage e.table_id = some j → db.length < SIM_TCAM_MAX →
      j < db.length ∧
      (∃ r, db[j]? = some r ∧
        (hal_tcam_delete e.stage e.table_id db).2[j]? = some { r with deleted := 1 }) ∧
      hal_tcam_insert (some e) (hal_tcam_delete e.stage e.table_id db).2
        = (HAL_OK, (hal_tcam_delete e.stage e.table_id db).2
            ++ [{ entry := e, valid := 1, deleted := 0 }]) ∧
      sim_tcam_find (hal_tcam_insert (some e) (hal_tcam_delete e.stage e.table_id db).2).2
        e.stage e.table_id = some db.length) ∧
    (∀ (db : List sim_tcam_rec_t) (e : tcam_entry_t), SIM_TCAM_MAX ≤ db.length →
      (sim_tcam_find db e.stage e.table_id = none →
        hal_tcam_insert (some e) db = (HAL_ERR_FULL, db)) ∧
      ((∀ r ∈ db, rec_live r = false) → hal_tcam_insert (some e) db = (HAL_ERR_FULL, db))) ∧
    (∀ cs : List (Nat × Nat × Nat × Nat), cs.length = 512 → (∀ c ∈ cs, c.2.1 ≤ 32) →
      (route_run route_sys_init (route_cycles cs)).sim_tcam_db.length = SIM_TCAM_MAX ∧
      (∀ r ∈ (route_run route_sys_init (route_cycles cs)).sim_tcam_db, rec_live r = false) ∧
      (∀ r ∈ (route_run route_sys_init (route_cycles cs)).route_table, r.valid = 0) ∧
      ∀ pfx len port dmac, len ≤ 32 →
        (route_add pfx len port dmac (route_run route_sys_init (route_cycles cs)).route_table
          (route_run route_sys_init (route_cycles cs)).sim_tcam_db).1 = HAL_ERR_FULL ∧
        (route_add pfx len port dmac (route_run route_sys_init (route_cycles cs)).route_table
          (route_run route_sys_init (route_cycles cs)).sim_tcam_db).2.2
          = (route_run route_sys_init (route_cycles cs)).sim_tcam_db) := by
  have hfull : ∀ (db : List sim_tcam_rec_t) (e : tcam_entry_t), SIM_TCAM_MAX ≤ db.length →
      sim_tcam_find db e.stage e.table_id = none →
      hal_tcam_insert (some e) db = (HAL_ERR_FULL, db) := by
    intro db e hl hf
    unfold hal_tcam_insert
    simp only
    rw [hf]
    simp only
    rw [if_pos hl]
  refine ⟨tcam_step_length, fun db ops => tcam_run_length ops db, ?_, ?_, ?_⟩
  · intro db e j hu hf hroom
    obtain ⟨r, hr, _, _⟩ := (sim_tcam_find_some db _ _ j).mp hf
    have hj : j < db.length := by
      by_contra hge
      rw [List.getElem?_eq_none (by omega)] at hr
      cases hr
    have hdel := hal_tcam_delete_found db _ _ j hf
    have hnone := sim_tcam_find_delete_self db e.stage e.table_id hu
    have hlen := (hal_tcam_delete_slots db e.stage e.table_id).1
    have hins := hal_tcam_insert_new (hal_tcam_delete e.stage e.table_id db).2 e hnone
      (by rw [hlen]; exact hroom)
    refine ⟨hj, ⟨r, hr, ?_⟩, hins, ?_⟩
    · rw [hdel]
      simp only [getElem?_slot_update, if_true, hr, Option.map_some']
    · rw [hins]
      simp only
      rw [sim_tcam_find_some]
      refine ⟨{ entry := e, valid := 1, deleted := 0 }, ?_, ?_, ?_⟩
      · rw [← hlen, List.getElem?_append_right (Nat.le_refl _)]
        simp
      · simp [rec_is]
      · intro k r2 hk hr2
        rw [← hlen] at hk
        rw [List.getElem?_append_left hk] at hr2
        exact (sim_tcam_find_none _ _ _).mp hnone r2 (List.getElem?_mem hr2)
  · intro db e hl
    exact ⟨hfull db e hl, fun hd => hfull db e hl (sim_tcam_find_dead db hd _ _)⟩
  · intro cs hlen hc
    have hinit : ∀ r ∈ route_sys_init.route_table, r.valid = 0 := by
      intro r hr
      have := List.eq_of_mem_replicate hr
      rw [this]
    have hl0 : route_sys_init.route_table.length = ROUTE_TABLE_SIZE := by
      unfold route_sys_init route_init
      simp only [List.length_replicate]
    obtain ⟨a1, a2, a3, a4⟩ := route_cycles_run cs route_sys_init 0 hl0 hinit rfl
      (by intro r hr; cases hr) (by rw [hlen]; unfold SIM_TCAM_MAX; omega) hc
    rw [Nat.zero_add, hlen] at a3
    have a3b : (route_run route_sys_init (route_cycles cs)).sim_tcam_db.length = SIM_TCAM_MAX := a3
    refine ⟨a3b, a4, a2, ?_⟩
    intro pfx len port dmac hl
    generalize route_run route_sys_init (route_cycles cs) = S at a1 a2 a3 a3b a4
    obtain ⟨r0, rs, hrt⟩ : ∃ r0 rs, S.route_table = r0 :: rs := by
      cases h : S.route_table with
      | nil => rw [h] at a1; simp [ROUTE_TABLE_SIZE] at a1
      | cons r0 rs => exact ⟨r0, rs, rfl⟩
    have hr0 : r0.valid = 0 := a2 r0 (by rw [hrt]; exact List.mem_cons_self _ _)
    have hnone : S.route_table.findIdx? (route_is pfx len) = none := by
      rw [List.findIdx?_eq_none_iff]
      intro r hr
      unfold route_is
      rw [a2 r hr]
      rfl
    have hslot : route_add_slot S.route_table pfx len = some 0 := by
      unfold route_add_slot
      rw [hnone, hrt]
      simp only [List.findIdx?_cons, hr0]
      rfl
    unfold route_add
    rw [if_neg (by omega), hslot]
    simp only
    rw [hfull S.sim_tcam_db _ (Nat.le_of_eq a3b.symm)
      (sim_tcam_find_dead _ a4 _ _)]
    exact ⟨rfl, rfl⟩

/-! ## C36: `pkt_parse` reads inside the frame -/

theorem mem_memcpy_reads (off n i : Nat) : i ∈ memcpy_reads off n ↔ off ≤ i ∧ i < off + n := by
  unfold memcpy_reads
  simp only [List.mem_map, List.mem_range]
  constructor
  · rintro ⟨k, hk, rfl⟩
    omega
  · intro h
    exact ⟨i - off, by omega, by omega⟩

theorem memcpy_congr (dst : List Nat) (doff : Nat) (src src2 : List Nat) (soff n : Nat)
    (h : ∀ i ∈ memcpy_reads soff n, src.getD i 0 = src2.getD i 0) :
    memcpy dst doff src soff n = memcpy dst doff src2 soff n := by
  induction n with
  | zero => rfl
  | succ n ih =>
    show (memcpy dst doff src soff n).set (doff + n) (src.getD (soff + n) 0)
      = (memcpy dst doff src2 soff n).set (doff + n) (src2.getD (soff + n) 0)
    rw [ih (fun i hi => h i (by
      rw [mem_memcpy_reads] at hi ⊢
      omega)), h (soff + n) (by rw [mem_memcpy_reads]; omega)]

theorem pkt_parse_vlan_cases (raw : List Nat) (raw_len : Nat) (phv : phv_t) (eth_type : Nat) :
    ((pkt_parse_vlan raw raw_len phv eth_type).2.2 = 14 ∨
      ((pkt_parse_vlan raw raw_len phv eth_type).2.2 = 18 ∧ 18 ≤ raw_len)) := by
  unfold pkt_parse_vlan
  split
  · right
    rename_i h
    exact ⟨rfl, h.2⟩
  · left
    rfl

/-- Every offset `pkt_parse` reads lies below `raw_len`. -/
theorem pkt_parse_reads_lt (raw : List Nat) (raw_len : Nat) :
    ∀ i ∈ pkt_parse_reads raw raw_len, i < raw_len := by
  intro i hi
  unfold pkt_parse_reads at hi
  split at hi
  · cases hi
  · rename_i h14
    simp only at hi
    rw [List.mem_append, List.mem_append] at hi
    rcases hi with (hi | hi) | hi
    · unfold pkt_parse_eth_reads at hi
      rw [List.mem_append, List.mem_append, mem_memcpy_reads, mem_memcpy_reads] at hi
      rcases hi with (hi | hi) | hi
      · omega
      · omega
      · simp only [List.mem_cons, List.mem_singleton, List.not_mem_nil, or_false] at hi
        omega
    · unfold pkt_parse_vlan_reads at hi
      split at hi
      · rename_i ht
        simp only [List.mem_cons, List.mem_singleton, List.not_mem_nil, or_false] at hi
        omega
      · cases hi
    · unfold pkt_parse_ipv4_reads at hi
      split at hi
      · rename_i hip
        have hs := pkt_parse_vlan_cases raw raw_len phv_zero
          ((((raw.getD 12 0) <<< 8) ||| (raw.getD 13 0)) % 2 ^ 16)
        generalize (pkt_parse_vlan raw raw_len phv_zero
          ((((raw.getD 12 0) <<< 8) ||| (raw.getD 13 0)) % 2 ^ 16)).2.2 = ip at hi hip hs
        have hip2 : ip + 20 ≤ raw_len := by
          have h := hip.2
          have h16 : (2 : Nat) ^ 16 = 65536 := by norm_num
          rw [h16] at h
          omega
        rw [List.mem_append] at hi
        rcases hi with hi | hi
        · unfold pkt_parse_ipv4_hdr_reads at hi
          simp only at hi
          rw [List.mem_append, List.mem_append, mem_memcpy_reads, mem_memcpy_reads] at hi
          rcases hi with (hi | hi) | hi
          · simp only [List.mem_cons, List.mem_singleton, List.not_mem_nil, or_false] at hi
            omega
          · omega
          · omega
        · unfold pkt_parse_l4_reads at hi
          simp only at hi
          rw [List.mem_append] at hi
          rcases hi with hi | hi
          · simp only [List.mem_cons, List.mem_singleton, List.not_mem_nil, or_false] at hi
            omega
          · split at hi
            · rename_i hl4
              have hihl : (raw.getD (ip + 0) 0) &&& 0x0F ≤ 15 := Nat.and_le_right
              have h := hl4.2
              have h16 : (2 : Nat) ^ 16 = 65536 := by norm_num
              rw [h16] at h
              simp only [List.mem_cons, List.mem_singleton, List.not_mem_nil, or_false] at hi
              omega
            · cases hi
      · cases hi
theorem pkt_parse_eth_congr (raw raw2 : List Nat) (ing_port : Nat)
    (h : ∀ i ∈ pkt_parse_eth_reads, raw.getD i 0 = raw2.getD i 0) :
    pkt_parse_eth raw ing_port = pkt_parse_eth raw2 ing_port ∧
    (((raw.getD 12 0) <<< 8) ||| (raw.getD 13 0)) % 2 ^ 16
      = (((raw2.getD 12 0) <<< 8) ||| (raw2.getD 13 0)) % 2 ^ 16 := by
  have h12 : raw.getD 12 0 = raw2.getD 12 0 := h 12 (by
    unfold pkt_parse_eth_reads
    simp only [List.mem_append, List.mem_cons, true_or, or_true])
  have h13 : raw.getD 13 0 = raw2.getD 13 0 := h 13 (by
    unfold pkt_parse_eth_reads
    simp only [List.mem_append, List.mem_cons, true_or, or_true])
  have hm0 : ∀ dst doff, memcpy dst doff raw 0 6 = memcpy dst doff raw2 0 6 := fun dst doff =>
    memcpy_congr dst doff raw raw2 0 6 (fun i hi => h i (by
      unfold pkt_parse_eth_reads
      simp only [List.mem_append, hi, true_or]))
  have hm6 : ∀ dst doff, memcpy dst doff raw 6 6 = memcpy dst doff raw2 6 6 := fun dst doff =>
    memcpy_congr dst doff raw raw2 6 6 (fun i hi => h i (by
      unfold pkt_parse_eth_reads
      simp only [List.mem_append, hi, true_or, or_true]))
  refine ⟨?_, by rw [h12, h13]⟩
  unfold pkt_parse_eth
  simp only [hm0, hm6, h12, h13]

theorem pkt_parse_vlan_congr (raw raw2 : List Nat) (raw_len : Nat) (phv : phv_t)
    (eth_type : Nat)
    (h : ∀ i ∈ pkt_parse_vlan_reads raw_len eth_type, raw.getD i 0 = raw2.getD i 0) :
    pkt_parse_vlan raw raw_len phv eth_type = pkt_parse_vlan raw2 raw_len phv eth_type := by
  unfold pkt_parse_vlan_reads at h
  unfold pkt_parse_vlan
  by_cases hc : eth_type = 0x8100 ∧ raw_len ≥ 18
  · rw [if_pos hc] at h
    have h14 := h 14 (by simp only [List.mem_cons, true_or, or_true])
    have h15 := h 15 (by simp only [List.mem_cons, true_or, or_true])
    have h16 := h 16 (by simp only [List.mem_cons, List.mem_singleton, true_or, or_true])
    have h17 := h 17 (by simp only [List.mem_cons, List.mem_singleton, true_or, or_true])
    rw [if_pos hc, if_pos hc]
    simp only [h14, h15, h16, h17]
  · rw [if_neg hc, if_neg hc]

theorem pkt_parse_vlan_snd (raw : List Nat) (raw_len : Nat) (phv phv2 : phv_t)
    (eth_type : Nat) :
    (pkt_parse_vlan raw raw_len phv eth_type).2 = (pkt_parse_vlan raw raw_len phv2 eth_type).2 := by
  unfold pkt_parse_vlan
  by_cases hc : eth_type = 0x8100 ∧ raw_len ≥ 18
  · rw [if_pos hc, if_pos hc]
  · rw [if_neg hc, if_neg hc]

theorem pkt_parse_ipv4_hdr_congr (raw raw2 : List Nat) (phv : phv_t) (ip_start : Nat)
    (h : ∀ i ∈ pkt_parse_ipv4_hdr_reads ip_start, raw.getD i 0 = raw2.getD i 0) :
    pkt_parse_ipv4_hdr raw phv ip_start = pkt_parse_ipv4_hdr raw2 phv ip_start := by
  unfold pkt_parse_ipv4_hdr_reads at h
  simp only at h
  have h0 := h (ip_start + 0) (by simp only [List.mem_append, List.mem_cons, true_or, or_true])
  have h1 := h (ip_start + 1) (by simp only [List.mem_append, List.mem_cons, true_or, or_true])
  have h2 := h (ip_start + 2) (by simp only [List.mem_append, List.mem_cons, true_or, or_true])
  have h3 := h (ip_start + 3) (by simp only [List.mem_append, List.mem_cons, true_or, or_true])
  have h8 := h (ip_start + 8) (by simp only [List.mem_append, List.mem_cons, true_or, or_true])
  have h9 := h (ip_start + 9) (by
    simp only [List.mem_append, List.mem_cons, List.mem_singleton, true_or, or_true])
  have hm12 : ∀ dst doff, memcpy dst doff raw (ip_start + 12) 4
      = memcpy dst doff raw2 (ip_start + 12) 4 := fun dst doff =>
    memcpy_congr dst doff raw raw2 (ip_start + 12) 4 (fun i hi => h i (by
      simp only [List.mem_append, hi, true_or, or_true]))
  have hm16 : ∀ dst doff, memcpy dst doff raw (ip_start + 16) 4
      = memcpy dst doff raw2 (ip_start + 16) 4 := fun dst doff =>
    memcpy_congr dst doff raw raw2 (ip_start + 16) 4 (fun i hi => h i (by
      simp only [List.mem_append, hi, true_or, or_true]))
  unfold pkt_parse_ipv4_hdr
  simp only [h0, h1, h2, h3, h8, h9, hm12, hm16]

theorem pkt_parse_l4_congr (raw raw2 : List Nat) (raw_len : Nat) (phv : phv_t)
    (ip_start : Nat)
    (h : ∀ i ∈ pkt_parse_l4_reads raw raw_len ip_start, raw.getD i 0 = raw2.getD i 0) :
    pkt_parse_l4 raw raw_len phv ip_start = pkt_parse_l4 raw2 raw_len phv ip_start ∧
    pkt_parse_l4_reads raw2 raw_len ip_start = pkt_parse_l4_reads raw raw_len ip_start := by
  unfold pkt_parse_l4_reads at h
  simp only at h
  have h0 := h (ip_start + 0) (by simp only [List.mem_append, List.mem_cons, true_or])
  have h9 := h (ip_start + 9) (by
    simp only [List.mem_append, List.mem_cons, List.mem_singleton, true_or, or_true])
  unfold pkt_parse_l4 pkt_parse_l4_reads
  simp only
  rw [← h0, ← h9]
  by_cases hc : (raw.getD (ip_start + 9) 0 = 6 ∨ raw.getD (ip_start + 9) 0 = 17) ∧
      raw_len ≥ (ip_start + ((raw.getD (ip_start + 0) 0) &&& 0x0F) * 4 + 4) % 2 ^ 16
  · rw [if_pos hc] at h
    have g0 := h (ip_start + ((raw.getD (ip_start + 0) 0) &&& 0x0F) * 4 + 0) (by
      simp only [List.mem_append, List.mem_cons, true_or, or_true])
    have g1 := h (ip_start + ((raw.getD (ip_start + 0) 0) &&& 0x0F) * 4 + 1) (by
      simp only [List.mem_append, List.mem_cons, true_or, or_true])
    have g2 := h (ip_start + ((raw.getD (ip_start + 0) 0) &&& 0x0F) * 4 + 2) (by
      simp only [List.mem_append, List.mem_cons, true_or, or_true])
    have g3 := h (ip_start + ((raw.getD (ip_start + 0) 0) &&& 0x0F) * 4 + 3) (by
      simp only [List.mem_append, List.mem_cons, List.mem_singleton, true_or, or_true])
    rw [if_pos hc, if_pos hc, if_pos hc]
    simp only [g0, g1, g2, g3, and_self]
  · rw [if_neg hc, if_neg hc, if_neg hc]
    exact ⟨rfl, rfl⟩

theorem pkt_parse_ipv4_congr (raw raw2 : List Nat) (raw_len : Nat) (phv : phv_t)
    (eth_type ip_start : Nat)
    (h : ∀ i ∈ pkt_parse_ipv4_reads raw raw_len eth_type ip_start,
      raw.getD i 0 = raw2.getD i 0) :
    pkt_parse_ipv4 raw raw_len phv eth_type ip_start
      = pkt_parse_ipv4 raw2 raw_len phv eth_type ip_start ∧
    pkt_parse_ipv4_reads raw2 raw_len eth_type ip_start
      = pkt_parse_ipv4_reads raw raw_len eth_type ip_start := by
  unfold pkt_parse_ipv4_reads at h ⊢
  unfold pkt_parse_ipv4
  by_cases hc : eth_type = 0x0800 ∧ raw_len ≥ (ip_start + 20) % 2 ^ 16
  · rw [if_pos hc] at h
    rw [if_pos hc, if_pos hc, if_pos hc, if_pos hc]
    have ha := pkt_parse_ipv4_hdr_congr raw raw2 phv ip_start (fun i hi =>
      h i (List.mem_append_left _ hi))
    have hb := pkt_parse_l4_congr raw raw2 raw_len (pkt_parse_ipv4_hdr raw2 phv ip_start)
      ip_start (fun i hi => h i (List.mem_append_right _ hi))
    rw [ha, hb.1, hb.2]
    exact ⟨rfl, rfl⟩
  · rw [if_neg hc, if_neg hc, if_neg hc, if_neg hc]
    exact ⟨rfl, rfl⟩

/-- Two frames that agree on the offsets `pkt_parse` reads from the first are parsed
alike, and the same offsets are read from the second. -/
theorem pkt_parse_reads_complete (raw raw2 : List Nat) (raw_len ing_port : Nat) (phv : phv_t)
    (h : ∀ i ∈ pkt_parse_reads raw raw_len, raw.getD i 0 = raw2.getD i 0) :
    pkt_parse raw raw_len ing_port phv = pkt_parse raw2 raw_len ing_port phv ∧
    pkt_parse_reads raw2 raw_len = pkt_parse_reads raw raw_len := by
  unfold pkt_parse_reads at h ⊢
  unfold pkt_parse
  by_cases h14 : raw_len < 14
  · rw [if_pos h14, if_pos h14, if_pos h14, if_pos h14]
    exact ⟨rfl, rfl⟩
  · rw [if_neg h14] at h
    rw [if_neg h14, if_neg h14, if_neg h14, if_neg h14]
    simp only at h ⊢
    have ha := pkt_parse_eth_congr raw raw2 ing_port (fun i hi =>
      h i (List.mem_append_left _ (List.mem_append_left _ hi)))
    rw [← ha.1, ← ha.2]
    generalize (((raw.getD 12 0) <<< 8) ||| (raw.getD 13 0)) % 2 ^ 16 = et at h ⊢
    have hv : ∀ p, pkt_parse_vlan raw2 raw_len p et = pkt_parse_vlan raw raw_len p et :=
      fun p => (pkt_parse_vlan_congr raw raw2 raw_len p et (fun i hi =>
        h i (List.mem_append_left _ (List.mem_append_right _ hi)))).symm
    rw [hv, hv]
    have hs := pkt_parse_vlan_snd raw raw_len (pkt_parse_eth raw ing_port) phv_zero et
    have hi4 := pkt_parse_ipv4_congr raw raw2 raw_len
      (pkt_parse_vlan raw raw_len (pkt_parse_eth raw ing_port) et).1
      (pkt_parse_vlan raw raw_len phv_zero et).2.1
      (pkt_parse_vlan raw raw_len phv_zero et).2.2 (fun i hi =>
        h i (List.mem_append_right _ hi))
    rw [hs, hi4.1, hi4.2]
    exact ⟨rfl, rfl⟩

/-- C36: `pkt_parse` reads only bytes at offsets below `raw_len`, whatever the frame
holds and whatever the length: every offset in the list of reads of the parser is
below `raw_len`, the tag bytes, the IPv4 header and the four L4 bytes being in the
list only when their length test passed, for each value of the IHL nibble, and nothing
being read when `raw_len < 14`; and the list of reads is all the parser looks at, as two frames that agree on it, or on every offset below
`raw_len`, give the same return value and the same PHV. -/
theorem c36_parse_reads_in_frame (raw : List Nat) (raw_len ing_port : Nat) (phv : phv_t) :
    (∀ i ∈ pkt_parse_reads raw raw_len, i < raw_len) ∧
    (∀ raw2 : List Nat, (∀ i ∈ pkt_parse_reads raw raw_len, raw.getD i 0 = raw2.getD i 0) →
      pkt_parse raw2 raw_len ing_port phv = pkt_parse raw raw_len ing_port phv ∧
      pkt_parse_reads raw2 raw_len = pkt_parse_reads raw raw_len) ∧
    (∀ raw2 : List Nat, (∀ i, i < raw_len → raw.getD i 0 = raw2.getD i 0) →
      pkt_parse raw2 raw_len ing_port phv = pkt_parse raw raw_len ing_port phv) ∧
    (raw_len < 14 → pkt_parse_reads raw raw_len = []) := by
  refine ⟨pkt_parse_reads_lt raw raw_len, ?_, ?_, ?_⟩
  · intro raw2 h
    have := pkt_parse_reads_complete raw raw2 raw_len ing_port phv h
    exact ⟨this.1.symm, this.2⟩
  · intro raw2 h
    exact ((pkt_parse_reads_complete raw raw2 raw_len ing_port phv (fun i hi =>
      h i (pkt_parse_reads_lt raw raw_len i hi))).1).symm
  · intro h
    unfold pkt_parse_reads
    rw [if_pos h]

/-! ## C34: one slot per address in the ARP table -/

theorem arp_single_unique (h : Nat) (e : arp_entry_t) (ip : Nat) :
    arp_ip_unique (arp_single h e) ip := by
  intro i _ j _ hi hj
  unfold arp_holds at hi hj
  rw [getD_arp_single] at hi hj
  by_cases ci : h = i ∧ h < ARP_TABLE_SIZE
  · by_cases cj : h = j ∧ h < ARP_TABLE_SIZE
    · rw [← ci.1, ← cj.1]
    · rw [if_neg cj] at hj
      exact absurd rfl hj.1
  · rw [if_neg ci] at hi
    exact absurd rfl hi.1

set_option maxRecDepth 100000 in
theorem arp_collide_table :
    arp_collide_sys.arp_table
      = arp_single 147
          { ip := 0x0A00019A, mac := [0x00, 0xAA, 0xBB, 0xCC, 0xDD, 0xEE], port := 3, vlan := 10,
            age_ticks := 0, retry := ARP_PROBE_RETRY_MAX, state := ARP_STATE_REACHABLE } := by
  decide

set_option maxRecDepth 100000 in
theorem arp_collide_probe_holds :
    (arp_probe 0x0A00019A 0 10 arp_collide_sys).1 = HAL_OK ∧
    arp_holds (arp_probe 0x0A00019A 0 10 arp_collide_sys).2.arp_table 146 0x0A00019A ∧
    arp_holds (arp_probe 0x0A00019A 0 10 arp_collide_sys).2.arp_table 147 0x0A00019A := by
  decide

/-- C34 (the code at the failing input): along calls of `arp_add` and `arp_delete` after
`arp_init` no address has two slots, and so it is in the state reached by `arp_init`,
`arp_set_port_intf(0, 10.10.0.1, ...)`, `arp_add(10.0.0.1)`, `arp_add(10.0.1.154)`,
`arp_delete(10.0.0.1)`; but after `arp_probe(10.0.1.154, 0, 10)` in that state, which
returns `HAL_OK`, the two slots 146 and 147 are both not Free and both hold
10.0.1.154. -/
theorem c34_probe_breaks_uniqueness :
    (∀ (s0 : arp_sys) (ops : List arp_op), (∀ op ∈ ops, arp_op_wf op) →
      arp_within_capacity ops → ∀ ip, arp_ip_unique (arp_run (arp_init s0) ops).arp_table ip) ∧
    (∀ ip, arp_ip_unique arp_collide_sys.arp_table ip) ∧
    (arp_probe 0x0A00019A 0 10 arp_collide_sys).1 = HAL_OK ∧
    arp_holds (arp_probe 0x0A00019A 0 10 arp_collide_sys).2.arp_table 146 0x0A00019A ∧
    arp_holds (arp_probe 0x0A00019A 0 10 arp_collide_sys).2.arp_table 147 0x0A00019A ∧
    ¬ arp_ip_unique (arp_probe 0x0A00019A 0 10 arp_collide_sys).2.arp_table 0x0A00019A := by
  refine ⟨fun s0 ops hwf hcap => (arp_run_inv s0 ops hwf hcap).2.2.2.2, ?_,
    arp_collide_probe_holds.1, arp_collide_probe_holds.2.1, arp_collide_probe_holds.2.2, ?_⟩
  · intro ip
    rw [arp_collide_table]
    exact arp_single_unique _ _ ip
  · intro hu
    have := hu 146 (by decide) 147 (by decide) arp_collide_probe_holds.2.1
      arp_collide_probe_holds.2.2
    exact absurd this (by decide)

/-! ## C39: the age of an FDB entry -/

theorem fdb_ages_zero_update (f : fdb_entry_t → fdb_entry_t) (t : List fdb_entry_t) (e : Nat)
    (hf : ∀ x, (f x).age_ticks = 0) (h : fdb_ages_zero t) :
    fdb_ages_zero (slot_update f t e) := by
  refine ⟨by rw [length_slot_update]; exact h.1, fun i => ?_⟩
  rw [getD_slot_update]
  split
  · exact hf _
  · exact h.2 i

theorem fdb_learn_ages_zero (dmac port : Nat) (t : List fdb_entry_t) (db : List sim_tcam_rec_t)
    (h : fdb_ages_zero t) : fdb_ages_zero (fdb_learn dmac port t db).2.1 := by
  unfold fdb_learn
  cases fdb_find t dmac with
  | some e => exact fdb_ages_zero_update _ t e (fun _ => rfl) h
  | none =>
    cases fdb_alloc t with
    | none => exact h
    | some e => exact fdb_ages_zero_update _ t e (fun _ => rfl) h

theorem fdb_add_static_ages_zero (dmac port vlan : Nat) (t : List fdb_entry_t)
    (db : List sim_tcam_rec_t) (h : fdb_ages_zero t) :
    fdb_ages_zero (fdb_add_static dmac port vlan t db).2.1 := by
  unfold fdb_add_static
  cases fdb_find t dmac with
  | some e => exact fdb_ages_zero_update _ t e (fun _ => rfl) h
  | none =>
    cases fdb_alloc t with
    | none => exact h
    | some e => exact fdb_ages_zero_update _ t e (fun _ => rfl) h

theorem fdb_delete_ages_zero (dmac : Nat) (t : List fdb_entry_t)
    (db : List sim_tcam_rec_t) (h : fdb_ages_zero t) :
    fdb_ages_zero (fdb_delete dmac t db).2.1 := by
  unfold fdb_delete
  cases fdb_find t dmac with
  | some e => exact fdb_ages_zero_update _ t e (fun _ => rfl) h
  | none => exact h

theorem fdb_age_ages_zero (now_sec : Nat) (t : List fdb_entry_t)
    (db : List sim_tcam_rec_t) (h : fdb_ages_zero t) :
    fdb_ages_zero (fdb_age now_sec t db).1 := by
  obtain ⟨_, f2, f3⟩ := fdb_age_fold now_sec t db (List.range FDB_TABLE_SIZE)
    (List.nodup_range FDB_TABLE_SIZE)
  refine ⟨f2.trans h.1, fun i => ?_⟩
  unfold fdb_age
  rw [f3 i]
  split
  · rfl
  · exact h.2 i

theorem fdb_init_ages_zero : fdb_ages_zero fdb_init := by
  refine ⟨List.length_replicate _ _, fun i => ?_⟩
  unfold fdb_init
  simp only [List.getD_eq_getElem?_getD, List.getElem?_replicate]
  split <;> rfl

theorem fdb_call_ages_zero (st : List fdb_entry_t × List sim_tcam_rec_t) (op : fdb_op)
    (h : fdb_ages_zero st.1) : fdb_ages_zero (fdb_call st op).1 := by
  cases op with
  | learn dmac port => exact fdb_learn_ages_zero dmac port st.1 st.2 h
  | add_static dmac port vlan => exact fdb_add_static_ages_zero dmac port vlan st.1 st.2 h
  | del dmac => exact fdb_delete_ages_zero dmac st.1 st.2 h
  | age now_sec => exact fdb_age_ages_zero now_sec st.1 st.2 h

theorem fdb_run_ages_zero (ops : List fdb_op) (st : List fdb_entry_t × List sim_tcam_rec_t)
    (h : fdb_ages_zero st.1) : fdb_ages_zero (fdb_run st ops).1 := by
  induction ops generalizing st with
  | nil => exact h
  | cons op ops ih => exact ih (fdb_call st op) (fdb_call_ages_zero st op h)

theorem fdb_idle_zero (now_sec : Nat) (e : fdb_entry_t) (h0 : e.age_ticks = 0)
    (h : now_sec < 2 ^ 32) : fdb_idle now_sec e = now_sec := by
  rw [fdb_idle_eq now_sec e (by omega) h, h0, Nat.sub_zero]

theorem fdb_age_fold_kept (now_sec : Nat) (idxs : List Nat)
    (st : List fdb_entry_t × List sim_tcam_rec_t)
    (h : ∀ i ∈ idxs, ¬ fdb_expired now_sec (st.1.getD i fdb_entry_zero)) :
    idxs.foldl (fdb_age_slot now_sec) st = st := by
  induction idxs with
  | nil => rfl
  | cons i idxs ih =>
    rw [List.foldl_cons, fdb_age_slot_kept now_sec st i (h i (List.mem_cons_self _ _))]
    exact ih (fun j hj => h j (List.mem_cons_of_mem _ hj))

theorem fdb_written_slot (f : fdb_entry_t → fdb_entry_t) (t : List fdb_entry_t)
    (p : fdb_entry_t → Bool) (i : Nat) (h : t.findIdx? p = some i) :
    (slot_update f t i).getD i fdb_entry_zero = f (t.getD i fdb_entry_zero) := by
  obtain ⟨r, hr, _⟩ := (findIdx?_eq_some_iff_getElem? _ _ _).mp h
  have hlt : i < t.length := by
    by_contra hge
    rw [List.getElem?_eq_none (by omega)] at hr
    cases hr
  rw [getD_slot_update, if_pos ⟨rfl, hlt⟩]

/-- C39: FDB ages are measured from time 0. (1) The slot `fdb_learn` writes (the one
`fdb_find` returns, else the one `fdb_alloc` returns) has `age_ticks = 0` afterwards,
and so has the slot `fdb_add_static` writes, whatever the table held. (2) In every
state reached from `fdb_init` by calls of `fdb_learn`, `fdb_add_static`, `fdb_delete`
and `fdb_age`, every slot has `age_ticks = 0`. (3) The test of `fdb_age` is on the
`uint32_t` difference `(now_sec - age_ticks) mod 2^32`, which for `age_ticks = 0` is
`now_sec`. (4) In such a state `fdb_age(now_sec)` with `now_sec >= 300` zeroes every
valid dynamic slot and leaves the other slots as they are, so no valid dynamic entry
remains; with `now_sec < 300` it changes neither the table nor the rule store. -/
theorem c39_fdb_age_from_zero (ops : List fdb_op) (now_sec : Nat) (hnow : now_sec < 2 ^ 32) :
    (∀ (dmac port : Nat) (t : List fdb_entry_t) (db : List sim_tcam_rec_t) (i : Nat),
      (fdb_find t dmac = some i ∨ (fdb_find t dmac = none ∧ fdb_alloc t = some i)) →
      ((fdb_learn dmac port t db).2.1.getD i fdb_entry_zero).age_ticks = 0) ∧
    (∀ (dmac port vlan : Nat) (t : List fdb_entry_t) (db : List sim_tcam_rec_t) (i : Nat),
      (fdb_find t dmac = some i ∨ (fdb_find t dmac = none ∧ fdb_alloc t = some i)) →
      ((fdb_add_static dmac port vlan t db).2.1.getD i fdb_entry_zero).age_ticks = 0) ∧
    (∀ i, ((fdb_run (fdb_init, []) ops).1.getD i fdb_entry_zero).age_ticks = 0) ∧
    (∀ e : fdb_entry_t,
      (fdb_expired now_sec e ↔ e.valid ≠ 0 ∧ e.is_static = 0 ∧
        (now_sec + 2 ^ 32 - e.age_ticks) % 2 ^ 32 ≥ FDB_AGE_DYNAMIC) ∧
      (e.age_ticks = 0 → (now_sec + 2 ^ 32 - e.age_ticks) % 2 ^ 32 = now_sec)) ∧
    (∀ (t : List fdb_entry_t) (db : List sim_tcam_rec_t) (i : Nat),
      fdb_age_slot now_sec (t, db) i
        = if fdb_expired now_sec (t.getD i fdb_entry_zero) then
            (slot_update (fun _ => fdb_entry_zero) t i,
             (hal_tcam_delete TABLE_L2_FDB_STAGE
               (fdb_tcam_id (t.getD i fdb_entry_zero).dmac) db).2)
          else (t, db)) ∧
    (FDB_AGE_DYNAMIC ≤ now_sec →
      (∀ i, (fdb_age now_sec (fdb_run (fdb_init, []) ops).1
              (fdb_run (fdb_init, []) ops).2).1.getD i fdb_entry_zero
          = if ((fdb_run (fdb_init, []) ops).1.getD i fdb_entry_zero).valid ≠ 0 ∧
               ((fdb_run (fdb_init, []) ops).1.getD i fdb_entry_zero).is_static = 0
            then fdb_entry_zero
            else (fdb_run (fdb_init, []) ops).1.getD i fdb_entry_zero) ∧
      (∀ i, ((fdb_age now_sec (fdb_run (fdb_init, []) ops).1
              (fdb_run (fdb_init, []) ops).2).1.getD i fdb_entry_zero).valid ≠ 0 →
          ((fdb_age now_sec (fdb_run (fdb_init, []) ops).1
              (fdb_run (fdb_init, []) ops).2).1.getD i fdb_entry_zero).is_static ≠ 0)) ∧
    (now_sec < FDB_AGE_DYNAMIC →
      fdb_age now_sec (fdb_run (fdb_init, []) ops).1 (fdb_run (fdb_init, []) ops).2
        = fdb_run (fdb_init, []) ops) := by
  have hz := fdb_run_ages_zero ops (fdb_init, []) fdb_init_ages_zero
  generalize fdb_run (fdb_init, []) ops = S at hz
  have hidle : ∀ e : fdb_entry_t, e.age_ticks = 0 →
      (now_sec + 2 ^ 32 - e.age_ticks) % 2 ^ 32 = now_sec :=
    fun e h0 => fdb_idle_zero now_sec e h0 hnow
  have hexp : ∀ i, fdb_expired now_sec (S.1.getD i fdb_entry_zero) ↔
      (S.1.getD i fdb_entry_zero).valid ≠ 0 ∧ (S.1.getD i fdb_entry_zero).is_static = 0 ∧
        FDB_AGE_DYNAMIC ≤ now_sec := by
    intro i
    unfold fdb_expired
    rw [fdb_idle_zero now_sec _ (hz.2 i) hnow]
  have hslot : ∀ i, (fdb_age now_sec S.1 S.2).1.getD i fdb_entry_zero
      = if i ∈ List.range FDB_TABLE_SIZE ∧ fdb_expired now_sec (S.1.getD i fdb_entry_zero)
        then fdb_entry_zero else S.1.getD i fdb_entry_zero :=
    (fdb_age_fold now_sec S.1 S.2 (List.range FDB_TABLE_SIZE)
      (List.nodup_range FDB_TABLE_SIZE)).2.2
  have hrange : ∀ i, (S.1.getD i fdb_entry_zero).valid ≠ 0 → i ∈ List.range FDB_TABLE_SIZE := by
    intro i hv
    rw [List.mem_range, ← hz.1]
    by_contra hge
    rw [List.getD_eq_getElem?_getD, List.getElem?_eq_none (by omega)] at hv
    exact hv rfl
  refine ⟨?_, ?_, hz.2, fun e => ⟨Iff.rfl, hidle e⟩, ?_, ?_, ?_⟩
  · intro dmac port t db i h
    unfold fdb_learn
    rcases h with h | ⟨h1, h2⟩
    · rw [h]
      show ((slot_update _ t i).getD i fdb_entry_zero).age_ticks = 0
      rw [fdb_written_slot _ t _ i h]
    · rw [h1, h2]
      show ((slot_update _ t i).getD i fdb_entry_zero).age_ticks = 0
      rw [fdb_written_slot _ t _ i h2]
  · intro dmac port vlan t db i h
    unfold fdb_add_static
    rcases h with h | ⟨h1, h2⟩
    · rw [h]
      show ((slot_update _ t i).getD i fdb_entry_zero).age_ticks = 0
      rw [fdb_written_slot _ t _ i h]
    · rw [h1, h2]
      show ((slot_update _ t i).getD i fdb_entry_zero).age_ticks = 0
      rw [fdb_written_slot _ t _ i h2]
  · intro t db i
    by_cases hx : fdb_expired now_sec (t.getD i fdb_entry_zero)
    · rw [if_pos hx]
      exact fdb_age_slot_expired now_sec (t, db) i hx
    · rw [if_neg hx]
      exact fdb_age_slot_kept now_sec (t, db) i hx
  · intro h300
    have hall : ∀ i, (fdb_age now_sec S.1 S.2).1.getD i fdb_entry_zero
        = if (S.1.getD i fdb_entry_zero).valid ≠ 0 ∧ (S.1.getD i fdb_entry_zero).is_static = 0
          then fdb_entry_zero else S.1.getD i fdb_entry_zero := by
      intro i
      rw [hslot i]
      by_cases hc : (S.1.getD i fdb_entry_zero).valid ≠ 0 ∧
          (S.1.getD i fdb_entry_zero).is_static = 0
      · rw [if_pos hc, if_pos ⟨hrange i hc.1, (hexp i).mpr ⟨hc.1, hc.2, h300⟩⟩]
      · rw [if_neg hc, if_neg (fun h => hc ⟨((hexp i).mp h.2).1, ((hexp i).mp h.2).2.1⟩)]
    refine ⟨hall, fun i hv hs => ?_⟩
    rw [hall i] at hv hs
    by_cases hc : (S.1.getD i fdb_entry_zero).valid ≠ 0 ∧
        (S.1.getD i fdb_entry_zero).is_static = 0
    · rw [if_pos hc] at hv
      exact hv rfl
    · rw [if_neg hc] at hv hs
      exact hc ⟨hv, hs⟩
  · intro h300
    unfold fdb_age
    exact fdb_age_fold_kept now_sec _ S (fun i _ hx => by
      have := ((hexp i).mp hx).2.2
      omega)

set_option maxRecDepth 100000 in
/-- C39 at the table left by `fdb_learn(00:00:00:00:10:01, 1)` on the empty store: the
entry has `age_ticks = 0`, `fdb_age(300)` removes it and `fdb_age(299)` keeps it. -/
theorem c39_fdb_age_from_zero_witness :
    (300 : Nat) < 2 ^ 32 ∧ (299 : Nat) < 2 ^ 32 ∧
    (fdb_run (fdb_init, []) [fdb_op.learn 0x1001 1]).1.getD 0 fdb_entry_zero
      = (⟨0x1001, 1, 0, 0, 0, 1⟩ : fdb_entry_t) ∧
    (fdb_age 300 (fdb_run (fdb_init, []) [fdb_op.learn 0x1001 1]).1
        (fdb_run (fdb_init, []) [fdb_op.learn 0x1001 1]).2).1.getD 0 fdb_entry_zero
      = fdb_entry_zero ∧
    fdb_age 299 (fdb_run (fdb_init, []) [fdb_op.learn 0x1001 1]).1
        (fdb_run (fdb_init, []) [fdb_op.learn 0x1001 1]).2
      = fdb_run (fdb_init, []) [fdb_op.learn 0x1001 1] :=
  ⟨by norm_num, by norm_num, by decide,
   (((c39_fdb_age_from_zero [fdb_op.learn 0x1001 1] 300 (by norm_num)).2.2.2.2.2.1
      (by decide)).1 0).trans (by decide),
   (c39_fdb_age_from_zero [fdb_op.learn 0x1001 1] 299 (by norm_num)).2.2.2.2.2.2 (by decide)⟩

/-! ## C37: what `arp_process_pkt` decodes from the frames the ARP engine builds -/

theorem be32_join (v : Nat) (hv : v < 2 ^ 32) :
    ((((v >>> 24) % 256) <<< 24) % 2 ^ 32) ||| ((((v >>> 16) % 256) <<< 16) % 2 ^ 32) |||
      ((((v >>> 8) % 256) <<< 8) % 2 ^ 32) ||| ((v % 256) % 2 ^ 32) = v := by
  apply Nat.eq_of_testBit_eq
  intro i
  have h256 : (256 : Nat) = 2 ^ 8 := by norm_num
  simp only [h256, Nat.testBit_or, Nat.testBit_mod_two_pow, Nat.testBit_shiftLeft,
    Nat.testBit_shiftRight]
  by_cases h32 : i < 32
  · by_cases h8 : i < 8
    · have a1 : ¬ (i ≥ 24) := by omega
      have a2 : ¬ (i ≥ 16) := by omega
      have a3 : ¬ (i ≥ 8) := by omega
      simp [h32, h8, a1, a2, a3]
    · by_cases h16 : i < 16
      · have a1 : ¬ (i ≥ 24) := by omega
        have a2 : ¬ (i ≥ 16) := by omega
        have a3 : i ≥ 8 := by omega
        have a4 : i - 8 < 8 := by omega
        have a5 : 8 + (i - 8) = i := by omega
        simp [h32, h8, a1, a2, a3, a4, a5]
      · by_cases h24 : i < 24
        · have a1 : ¬ (i ≥ 24) := by omega
          have a2 : i ≥ 16 := by omega
          have a3 : i ≥ 8 := by omega
          have a4 : i - 16 < 8 := by omega
          have a5 : 16 + (i - 16) = i := by omega
          have a6 : ¬ (i - 8 < 8) := by omega
          simp [h32, h8, a1, a2, a3, a4, a5, a6]
        · have a1 : i ≥ 24 := by omega
          have a2 : i ≥ 16 := by omega
          have a3 : i ≥ 8 := by omega
          have a4 : i - 24 < 8 := by omega
          have a5 : 24 + (i - 24) = i := by omega
          have a6 : ¬ (i - 8 < 8) := by omega
          have a7 : ¬ (i - 16 < 8) := by omega
          simp [h32, h8, a1, a2, a3, a4, a5, a6, a7]
  · have hz : v.testBit i = false :=
      Nat.testBit_lt_two_pow (Nat.lt_of_lt_of_le hv (Nat.pow_le_pow_right (by norm_num)
        (Nat.not_lt.mp h32)))
    simp [h32, hz]

theorem arp_write_frame_read (eth_dst eth_src : List Nat) (oper : Nat) (sha : List Nat)
    (spa : Nat) (tha : List Nat) (tpa : Nat) (ho : oper < 256) (hs : spa < 2 ^ 32)
    (ht : tpa < 2 ^ 32) :
    u16_be_rd (arp_write_frame (List.replicate 256 0) eth_dst eth_src oper sha spa tha tpa) 12
      = ETH_TYPE_ARP ∧
    u16_be_rd (arp_write_frame (List.replicate 256 0) eth_dst eth_src oper sha spa tha tpa) 20
      = oper ∧
    mac_at (arp_write_frame (List.replicate 256 0) eth_dst eth_src oper sha spa tha tpa) 22
      = mac_at sha 0 ∧
    u32_be_rd (arp_write_frame (List.replicate 256 0) eth_dst eth_src oper sha spa tha tpa) 28
      = spa ∧
    u32_be_rd (arp_write_frame (List.replicate 256 0) eth_dst eth_src oper sha spa tha tpa) 38
      = tpa := by
  have hg : ∀ i, i < 42 →
      (arp_write_frame (List.replicate 256 0) eth_dst eth_src oper sha spa tha tpa).getD i 0
        = (arp_frame (mac_at eth_dst 0) (mac_at eth_src 0) oper (mac_at sha 0) spa
            (mac_at tha 0) tpa).getD i 0 := by
    intro i hi
    rw [← arp_write_frame_take eth_dst eth_src oper sha spa tha tpa ho, getD_take_zero _ _ _ hi]
  generalize arp_write_frame (List.replicate 256 0) eth_dst eth_src oper sha spa tha tpa = D
    at hg ⊢
  have h8 : (oper >>> 8) % 256 = 0 := by
    rw [Nat.shiftRight_eq_div_pow]
    omega
  have h0 : oper % 256 = oper := Nat.mod_eq_of_lt ho
  have e : ∀ i, i < 42 → D.getD i 0
      = (mac_at eth_dst 0 ++ mac_at eth_src 0 ++ [0x08, 0x06] ++
          [0x00, 0x01, 0x08, 0x00, 6, 4, 0, oper] ++ mac_at sha 0 ++ be32 spa ++ mac_at tha 0
          ++ be32 tpa).getD i 0 := by
    intro i hi
    rw [hg i hi]
    unfold arp_frame
    rw [h8, h0]
  simp only [mac_at, be32, List.range, List.range.loop, List.map, List.cons_append,
    List.nil_append, List.append_nil, Nat.add_zero, Nat.zero_add] at e
  have e12 : D.getD 12 0 = 0x08 := (e 12 (by omega)).trans rfl
  have e13 : D.getD 13 0 = 0x06 := (e 13 (by omega)).trans rfl
  have e20 : D.getD 20 0 = 0 := (e 20 (by omega)).trans rfl
  have e21 : D.getD 21 0 = oper := (e 21 (by omega)).trans rfl
  have e22 : D.getD 22 0 = sha.getD 0 0 := (e 22 (by omega)).trans rfl
  have e23 : D.getD 23 0 = sha.getD 1 0 := (e 23 (by omega)).trans rfl
  have e24 : D.getD 24 0 = sha.getD 2 0 := (e 24 (by omega)).trans rfl
  have e25 : D.getD 25 0 = sha.getD 3 0 := (e 25 (by omega)).trans rfl
  have e26 : D.getD 26 0 = sha.getD 4 0 := (e 26 (by omega)).trans rfl
  have e27 : D.getD 27 0 = sha.getD 5 0 := (e 27 (by omega)).trans rfl
  have e28 : D.getD 28 0 = (spa >>> 24) % 256 := (e 28 (by omega)).trans rfl
  have e29 : D.getD 29 0 = (spa >>> 16) % 256 := (e 29 (by omega)).trans rfl
  have e30 : D.getD 30 0 = (spa >>> 8) % 256 := (e 30 (by omega)).trans rfl
  have e31 : D.getD 31 0 = spa % 256 := (e 31 (by omega)).trans rfl
  have e38 : D.getD 38 0 = (tpa >>> 24) % 256 := (e 38 (by omega)).trans rfl
  have e39 : D.getD 39 0 = (tpa >>> 16) % 256 := (e 39 (by omega)).trans rfl
  have e40 : D.getD 40 0 = (tpa >>> 8) % 256 := (e 40 (by omega)).trans rfl
  have e41 : D.getD 41 0 = tpa % 256 := (e 41 (by omega)).trans rfl
  refine ⟨?_, ?_, ?_, ?_, ?_⟩
  · unfold u16_be_rd
    rw [e12, e13]
    decide
  · unfold u16_be_rd
    rw [e20, e21]
    have : ((0 % 2 ^ 16) <<< 8 ||| oper) = oper := by simp
    rw [this]
    exact Nat.mod_eq_of_lt (by omega)
  · show (List.range 6).map (fun i => D.getD (22 + i) 0) = mac_at sha 0
    simp only [mac_at, List.range, List.range.loop, List.map, Nat.add_zero, Nat.zero_add,
      Nat.reduceAdd, e22, e23, e24, e25, e26, e27]
  · unfold u32_be_rd
    simp only [Nat.reduceAdd, e28, e29, e30, e31]
    exact be32_join spa hs
  · unfold u32_be_rd
    simp only [Nat.reduceAdd, e38, e39, e40, e41]
    exact be32_join tpa ht

theorem arp_process_pkt_table (pkt : punt_pkt_t) (s : arp_sys)
    (h1 : 42 ≤ pkt.pkt_len) (h2 : u16_be_rd pkt.data 12 = ETH_TYPE_ARP)
    (h3 : u16_be_rd pkt.data 20 = ARP_OP_REQUEST ∨ u16_be_rd pkt.data 20 = ARP_OP_REPLY) :
    (arp_process_pkt (some pkt) s).arp_table
      = (arp_add (u32_be_rd pkt.data 28) (some (mac_at pkt.data 22)) pkt.ing_port
          pkt.vlan_id s).2.arp_table := by
  rcases h3 with h3 | h3
  · by_cases hl : arp_target_local pkt s
    · rw [arp_process_pkt_request_local pkt s h1 h2 h3 hl]
    · rw [arp_process_pkt_learn pkt s h1 h2 (Or.inr ⟨h3, hl⟩)]
  · rw [arp_process_pkt_learn pkt s h1 h2 (Or.inl h3)]

/-- What `arp_process_pkt` does with a frame written by `arp_write_frame` (the writes of
`arp_probe` and `send_arp_reply`) and received on port `q`: the ARP table is that of
`arp_add(spa, sha, q, vlan)`. -/
theorem arp_process_pkt_written (f : punt_pkt_t) (q : Nat) (r : arp_sys)
    (eth_dst eth_src : List Nat) (oper : Nat) (sha : List Nat) (spa : Nat) (tha : List Nat)
    (tpa : Nat) (hlen : f.pkt_len = 42)
    (hdata : f.data
      = arp_write_frame (List.replicate 256 0) eth_dst eth_src oper sha spa tha tpa)
    (ho : oper = ARP_OP_REQUEST ∨ oper = ARP_OP_REPLY) (hs : spa < 2 ^ 32) (ht : tpa < 2 ^ 32) :
    (arp_process_pkt (some (punt_rx f q)) r).arp_table
      = (arp_add spa (some (mac_at sha 0)) q f.vlan_id r).2.arp_table := by
  have ho2 : oper < 256 := by
    rcases ho with h | h <;> rw [h] <;> decide
  obtain ⟨r1, r2, r3, r4, _⟩ :=
    arp_write_frame_read eth_dst eth_src oper sha spa tha tpa ho2 hs ht
  rw [← hdata] at r1 r2 r3 r4
  have h := arp_process_pkt_table (punt_rx f q) r
    (by show 42 ≤ f.pkt_len; omega) r1 (by
      show u16_be_rd f.data 20 = ARP_OP_REQUEST ∨ u16_be_rd f.data 20 = ARP_OP_REPLY
      rw [r2]
      exact ho)
  rw [h]
  show (arp_add (u32_be_rd f.data 28) (some (mac_at f.data 22)) q f.vlan_id r).2.arp_table = _
  rw [r3, r4]

/-- C37: the frames the ARP engine builds are decoded by `arp_process_pkt` to what was
encoded. With the local interface `(lip, lmac)` configured on `port < 32` after
`arp_init`, `arp_probe(target, port, vlan)` hands to `hal_punt_tx_send` the 42-byte
packet `arp_probe_pkt`; that packet, received on ingress port `q` by an ARP engine
whose table has room for `lip`, is accepted: the receiver's ARP table is exactly that
of `arp_add(lip, lmac, q, vlan)`, and `arp_lookup(lip)` returns `HAL_OK`, `lmac` and
`q`. Likewise for the 42-byte Reply that `send_arp_reply` builds from the same
interface for any requester `(req_sha, req_spa)`. -/
theorem c37_arp_encode_decode (s0 r : arp_sys) (port lip : Nat) (lmac : List Nat)
    (target vlan q : Nat) (req_sha : List Nat) (req_spa : Nat)
    (hport : port < 32) (hlip : lip < 2 ^ 32) (htarget : target < 2 ^ 32)
    (hspa : req_spa < 2 ^ 32) (hwf : arp_table_wf r.arp_table)
    (hok : (arp_add lip (some (mac_at lmac 0)) q vlan r).1 = HAL_OK) :
    (arp_set_port_intf port lip (some lmac) (arp_init s0)).l3_intf.getD port l3_intf_zero
      = { ip := lip, mac := mac_at lmac 0, valid := 1 } ∧
    (arp_probe target port vlan (arp_set_port_intf port lip (some lmac) (arp_init s0))).1
      = (hal_punt_tx_send (some (arp_probe_pkt target port vlan (mac_at lmac 0) lip))
          s0.tx).1 ∧
    (arp_probe target port vlan (arp_set_port_intf port lip (some lmac) (arp_init s0))).2.tx
      = (hal_punt_tx_send (some (arp_probe_pkt target port vlan (mac_at lmac 0) lip))
          s0.tx).2 ∧
    (arp_probe_pkt target port vlan (mac_at lmac 0) lip).pkt_len = 42 ∧
    (arp_process_pkt
        (some (punt_rx (arp_probe_pkt target port vlan (mac_at lmac 0) lip) q)) r).arp_table
      = (arp_add lip (some (mac_at lmac 0)) q vlan r).2.arp_table ∧
    (∀ (mo : List Nat) (po : Nat), mo.length = 6 →
      arp_lookup lip (some mo) (some po)
          (arp_process_pkt
            (some (punt_rx (arp_probe_pkt target port vlan (mac_at lmac 0) lip) q))
            r).arp_table
        = (HAL_OK, some (mac_at lmac 0), some q)) ∧
    (∀ tx : sim_punt_tx_t,
      send_arp_reply port vlan req_sha req_spa (mac_at lmac 0) lip tx
        = (hal_punt_tx_send
            (some (arp_reply_pkt port vlan req_sha req_spa (mac_at lmac 0) lip)) tx).2) ∧
    (arp_reply_pkt port vlan req_sha req_spa (mac_at lmac 0) lip).pkt_len = 42 ∧
    (arp_process_pkt
        (some (punt_rx (arp_reply_pkt port vlan req_sha req_spa (mac_at lmac 0) lip) q))
        r).arp_table
      = (arp_add lip (some (mac_at lmac 0)) q vlan r).2.arp_table ∧
    (∀ (mo : List Nat) (po : Nat), mo.length = 6 →
      arp_lookup lip (some mo) (some po)
          (arp_process_pkt
            (some (punt_rx (arp_reply_pkt port vlan req_sha req_spa (mac_at lmac 0) lip) q))
            r).arp_table
        = (HAL_OK, some (mac_at lmac 0), some q)) ∧
    (lmac.length = 6 → mac_at lmac 0 = lmac) := by
  obtain ⟨h1, h2, h3⟩ := arp_init_set_intf s0 port lip lmac hport
  have hq := arp_process_pkt_written (arp_probe_pkt target port vlan (mac_at lmac 0) lip) q r
    BCAST_MAC (mac_at lmac 0) ARP_OP_REQUEST (mac_at lmac 0) lip BCAST_MAC target rfl
    (arp_probe_pkt_data _ _ _ _ _) (Or.inl rfl) hlip htarget
  have hr := arp_process_pkt_written
    (arp_reply_pkt port vlan req_sha req_spa (mac_at lmac 0) lip) q r
    req_sha (mac_at lmac 0) ARP_OP_REPLY (mac_at lmac 0) lip req_sha req_spa rfl
    (arp_reply_pkt_data _ _ _ _ _ _) (Or.inr rfl) hlip hspa
  rw [mac_at_mac_at] at hq hr
  have hvq : (arp_probe_pkt target port vlan (mac_at lmac 0) lip).vlan_id = vlan := rfl
  have hvr : (arp_reply_pkt port vlan req_sha req_spa (mac_at lmac 0) lip).vlan_id = vlan := rfl
  rw [hvq] at hq
  rw [hvr] at hr
  have hlook := arp_add_lookup r lip (mac_at lmac 0) q vlan hwf (mac_at_length _ _) hok
  refine ⟨h2, ?_, ?_, rfl, hq, ?_, fun _ => rfl, rfl, hr, ?_, ?_⟩
  · unfold arp_probe
    rw [if_neg (Nat.not_le.mpr hport), if_neg (by rw [h2]; exact Nat.succ_ne_zero 0)]
    simp only [h2, h3]
  · unfold arp_probe
    rw [if_neg (Nat.not_le.mpr hport), if_neg (by rw [h2]; exact Nat.succ_ne_zero 0)]
    simp only [h2, h3]
  · intro mo po hmo
    rw [hq]
    exact hlook mo po hmo
  · intro mo po hmo
    rw [hr]
    exact hlook mo po hmo
  · intro h6
    apply list_ext_getD _ _ 6 (mac_at_length _ _) h6
    intro i hi
    unfold mac_at
    interval_cases i <;> simp [List.range, List.range.loop]

set_option maxRecDepth 100000 in
/-- C37 at the interface of the tests, 10.10.0.1 with 02:00:00:00:00:00 on port 0: the
Request for 10.10.0.100 and the Reply to 10.10.0.2, received on port 7 by an engine
with an empty table, both make `arp_lookup(10.10.0.1)` return that MAC and port 7. -/
theorem c37_arp_encode_decode_witness :
    arp_lookup 0x0A0A0001 (some (List.replicate 6 0)) (some 0xFF)
        (arp_process_pkt
          (some (punt_rx (arp_probe_pkt 0x0A0A0064 0 10
            (mac_at [0x02, 0x00, 0x00, 0x00, 0x00, 0x00] 0) 0x0A0A0001) 7))
          (arp_init arp_sys_reset)).arp_table
      = (HAL_OK, some [0x02, 0x00, 0x00, 0x00, 0x00, 0x00], some 7) ∧
    arp_lookup 0x0A0A0001 (some (List.replicate 6 0)) (some 0xFF)
        (arp_process_pkt
          (some (punt_rx (arp_reply_pkt 0 10 [0x00, 0x11, 0x22, 0x33, 0x44, 0x55] 0x0A0A0002
            (mac_at [0x02, 0x00, 0x00, 0x00, 0x00, 0x00] 0) 0x0A0A0001) 7))
          (arp_init arp_sys_reset)).arp_table
      = (HAL_OK, some [0x02, 0x00, 0x00, 0x00, 0x00, 0x00], some 7) :=
  have h := c37_arp_encode_decode arp_sys_reset (arp_init arp_sys_reset) 0 0x0A0A0001
    [0x02, 0x00, 0x00, 0x00, 0x00, 0x00] 0x0A0A0064 10 7 [0x00, 0x11, 0x22, 0x33, 0x44, 0x55]
    0x0A0A0002 (by decide) (by norm_num) (by norm_num) (by norm_num)
    ⟨List.length_replicate _ _, arp_map_inv_init.2.1⟩ (by decide)
  ⟨h.2.2.2.2.2.1 (List.replicate 6 0) 0xFF rfl,
   h.2.2.2.2.2.2.2.2.2.1 (List.replicate 6 0) 0xFF rfl⟩

/-! ## C40: the time stamp of an ARP entry -/

theorem arp_getD_zero (t : List arp_entry_t) (i : Nat) (h : t.length ≤ i) :
    t.getD i arp_entry_zero = arp_entry_zero := by
  rw [List.getD_eq_getElem?_getD, List.getElem?_eq_none h]
  rfl

theorem arp_nonfree_lt (t : List arp_entry_t) (i : Nat)
    (h : (t.getD i arp_entry_zero).state ≠ ARP_STATE_FREE) : i < t.length := by
  by_contra hge
  rw [arp_getD_zero t i (by omega)] at h
  exact h rfl

theorem arp_find_lt (t : List arp_entry_t) (ip ff e : Nat) (h : arp_find t ip ff = some e) :
    e < ARP_TABLE_SIZE := by
  unfold arp_find at h
  exact (arp_find_loop_some t ip ff (arp_hash ip) ARP_TABLE_SIZE 0 e h).1

theorem arp_probe_mark_getD (t : List arp_entry_t) (ip port vlan i : Nat) :
    (arp_probe_mark ip port vlan t).length = t.length ∧
    ((arp_probe_mark ip port vlan t).getD i arp_entry_zero = t.getD i arp_entry_zero ∨
     ((t.getD i arp_entry_zero).state = ARP_STATE_FREE ∧
      ((arp_probe_mark ip port vlan t).getD i arp_entry_zero).state = ARP_STATE_INCOMPLETE ∧
      ((arp_probe_mark ip port vlan t).getD i arp_entry_zero).age_ticks
        = (t.getD i arp_entry_zero).age_ticks)) := by
  unfold arp_probe_mark
  cases arp_find t ip 1 with
  | none => exact ⟨rfl, Or.inl rfl⟩
  | some e =>
    simp only
    by_cases hf : (t.getD e arp_entry_zero).state = ARP_STATE_FREE
    · rw [if_pos hf]
      refine ⟨length_slot_update _ _ _, ?_⟩
      rw [getD_slot_update]
      by_cases hc : e = i ∧ e < t.length
      · rw [if_pos hc]
        right
        rw [← hc.1]
        exact ⟨hf, rfl, rfl⟩
      · rw [if_neg hc]
        exact Or.inl rfl
    · rw [if_neg hf]
      exact ⟨rfl, Or.inl rfl⟩

theorem arp_probe_getD (s : arp_sys) (ip port vlan i : Nat) :
    (arp_probe ip port vlan s).2.arp_table.length = s.arp_table.length ∧
    ((arp_probe ip port vlan s).2.arp_table.getD i arp_entry_zero
        = s.arp_table.getD i arp_entry_zero ∨
     ((s.arp_table.getD i arp_entry_zero).state = ARP_STATE_FREE ∧
      ((arp_probe ip port vlan s).2.arp_table.getD i arp_entry_zero).state
        = ARP_STATE_INCOMPLETE ∧
      ((arp_probe ip port vlan s).2.arp_table.getD i arp_entry_zero).age_ticks
        = (s.arp_table.getD i arp_entry_zero).age_ticks)) := by
  unfold arp_probe
  by_cases h1 : port ≥ 32
  · rw [if_pos h1]
    exact ⟨rfl, Or.inl rfl⟩
  · rw [if_neg h1]
    by_cases h2 : (s.l3_intf.getD port l3_intf_zero).valid = 0
    · rw [if_pos h2]
      exact ⟨rfl, Or.inl rfl⟩
    · rw [if_neg h2]
      exact arp_probe_mark_getD s.arp_table ip port vlan i

theorem arp_delete_getD (s : arp_sys) (ip i : Nat) :
    (arp_delete ip s).2.arp_table.length = s.arp_table.length ∧
    ((arp_delete ip s).2.arp_table.getD i arp_entry_zero = s.arp_table.getD i arp_entry_zero ∨
     (arp_delete ip s).2.arp_table.getD i arp_entry_zero = arp_entry_zero) := by
  unfold arp_delete
  cases arp_find s.arp_table ip 0 with
  | none => exact ⟨rfl, Or.inl rfl⟩
  | some e =>
    refine ⟨length_slot_update _ _ _, ?_⟩
    show (slot_update _ s.arp_table e).getD i arp_entry_zero = _ ∨ _
    rw [getD_slot_update]
    by_cases hc : e = i ∧ e < s.arp_table.length
    · rw [if_pos hc]
      exact Or.inr rfl
    · rw [if_neg hc]
      exact Or.inl rfl

theorem arp_add_getD (s : arp_sys) (ip : Nat) (mac : Option (List Nat)) (port vlan i : Nat) :
    (arp_add ip mac port vlan s).2.arp_table.length = s.arp_table.length ∧
    ((arp_add ip mac port vlan s).2.arp_table.getD i arp_entry_zero
        = s.arp_table.getD i arp_entry_zero ∨
     (((arp_add ip mac port vlan s).2.arp_table.getD i arp_entry_zero).age_ticks = 0 ∧
      ((arp_add ip mac port vlan s).2.arp_table.getD i arp_entry_zero).retry
        = ARP_PROBE_RETRY_MAX ∧
      ((arp_add ip mac port vlan s).2.arp_table.getD i arp_entry_zero).state
        = ARP_STATE_REACHABLE ∧
      arp_add_slot s.arp_table ip = some i)) := by
  unfold arp_add
  cases mac with
  | none => exact ⟨rfl, Or.inl rfl⟩
  | some mac =>
    cases hs : arp_add_slot s.arp_table ip with
    | none => exact ⟨rfl, Or.inl rfl⟩
    | some e =>
      refine ⟨length_slot_update _ _ _, ?_⟩
      show (slot_update _ s.arp_table e).getD i arp_entry_zero = _ ∨ _
      rw [getD_slot_update]
      by_cases hc : e = i ∧ e < s.arp_table.length
      · rw [if_pos hc, hc.1]
        exact Or.inr ⟨rfl, rfl, rfl, rfl⟩
      · rw [if_neg hc]
        exact Or.inl rfl

theorem arp_process_pkt_cases (pkt : Option punt_pkt_t) (s : arp_sys) :
    (arp_process_pkt pkt s).arp_table = s.arp_table ∨
    ∃ (spa : Nat) (sha : List Nat) (ing vlan : Nat),
      (arp_process_pkt pkt s).arp_table = (arp_add spa (some sha) ing vlan s).2.arp_table := by
  cases pkt with
  | none => exact Or.inl rfl
  | some pkt =>
    by_cases h1 : pkt.pkt_len < 42
    · left
      rw [arp_process_pkt_ignore pkt s (Or.inl h1)]
    · by_cases h2 : u16_be_rd pkt.data 12 = ETH_TYPE_ARP
      · by_cases h3 : u16_be_rd pkt.data 20 = ARP_OP_REQUEST ∨
            u16_be_rd pkt.data 20 = ARP_OP_REPLY
        · right
          exact ⟨_, _, _, _, arp_process_pkt_table pkt s (Nat.not_lt.mp h1) h2 h3⟩
        · left
          rw [arp_process_pkt_ignore pkt s (Or.inr (Or.inr ⟨fun h => h3 (Or.inl h),
            fun h => h3 (Or.inr h)⟩))]
      · left
        rw [arp_process_pkt_ignore pkt s (Or.inr (Or.inl h2))]

theorem arp_reprobe_getD (now : Nat) (s : arp_sys) (j i : Nat)
    (hnf : (s.arp_table.getD j arp_entry_zero).state ≠ ARP_STATE_FREE) :
    (arp_probe (s.arp_table.getD j arp_entry_zero).ip (s.arp_table.getD j arp_entry_zero).port
        (s.arp_table.getD j arp_entry_zero).vlan
        { s with arp_table := (slot_update (fun x => { x with age_ticks := now })
            (slot_update (fun x => { x with retry := x.retry - 1 }) s.arp_table j) j)
        }).2.arp_table.length = s.arp_table.length ∧
    (i = j →
      ((arp_probe (s.arp_table.getD j arp_entry_zero).ip
          (s.arp_table.getD j arp_entry_zero).port (s.arp_table.getD j arp_entry_zero).vlan
          { s with arp_table := (slot_update (fun x => { x with age_ticks := now })
              (slot_update (fun x => { x with retry := x.retry - 1 }) s.arp_table j) j)
          }).2.arp_table.getD i arp_entry_zero).state
        = (s.arp_table.getD j arp_entry_zero).state ∧
      ((arp_probe (s.arp_table.getD j arp_entry_zero).ip
          (s.arp_table.getD j arp_entry_zero).port (s.arp_table.getD j arp_entry_zero).vlan
          { s with arp_table := (slot_update (fun x => { x with age_ticks := now })
              (slot_update (fun x => { x with retry := x.retry - 1 }) s.arp_table j) j)
          }).2.arp_table.getD i arp_entry_zero).age_ticks = now) ∧
    (i ≠ j →
      ((arp_probe (s.arp_table.getD j arp_entry_zero).ip
          (s.arp_table.getD j arp_entry_zero).port (s.arp_table.getD j arp_entry_zero).vlan
          { s with arp_table := (slot_update (fun x => { x with age_ticks := now })
              (slot_update (fun x => { x with retry := x.retry - 1 }) s.arp_table j) j)
          }).2.arp_table.getD i arp_entry_zero = s.arp_table.getD i arp_entry_zero ∨
       ((s.arp_table.getD i arp_entry_zero).state = ARP_STATE_FREE ∧
        ((arp_probe (s.arp_table.getD j arp_entry_zero).ip
            (s.arp_table.getD j arp_entry_zero).port (s.arp_table.getD j arp_entry_zero).vlan
            { s with arp_table := (slot_update (fun x => { x with age_ticks := now })
                (slot_update (fun x => { x with retry := x.retry - 1 }) s.arp_table j) j)
            }).2.arp_table.getD i arp_entry_zero).state = ARP_STATE_INCOMPLETE ∧
        ((arp_probe (s.arp_table.getD j arp_entry_zero).ip
            (s.arp_table.getD j arp_entry_zero).port (s.arp_table.getD j arp_entry_zero).vlan
            { s with arp_table := (slot_update (fun x => { x with age_ticks := now })
                (slot_update (fun x => { x with retry := x.retry - 1 }) s.arp_table j) j)
            }).2.arp_table.getD i arp_entry_zero).age_ticks
          = (s.arp_table.getD i arp_entry_zero).age_ticks))) := by
  have hj : j < s.arp_table.length := arp_nonfree_lt _ _ hnf
  generalize hS : ({ s with arp_table := (slot_update (fun x => { x with age_ticks := now })
    (slot_update (fun x => { x with retry := x.retry - 1 }) s.arp_table j) j) } : arp_sys) = S
  have hT : S.arp_table = slot_update (fun x => { x with age_ticks := now })
      (slot_update (fun x => { x with retry := x.retry - 1 }) s.arp_table j) j := by
    rw [← hS]
  have hlen : S.arp_table.length = s.arp_table.length := by
    rw [hT, length_slot_update, length_slot_update]
  have hget : ∀ k, S.arp_table.getD k arp_entry_zero
      = if j = k then { s.arp_table.getD k arp_entry_zero with
                        retry := (s.arp_table.getD k arp_entry_zero).retry - 1,
                        age_ticks := now }
        else s.arp_table.getD k arp_entry_zero := by
    intro k
    rw [hT, getD_slot_update, getD_slot_update, length_slot_update]
    by_cases hk : j = k
    · rw [if_pos ⟨hk, hj⟩, if_pos ⟨hk, hj⟩, if_pos hk]
    · rw [if_neg (fun h => hk h.1), if_neg (fun h => hk h.1), if_neg hk]
  obtain ⟨p1, p2⟩ := arp_probe_getD S (s.arp_table.getD j arp_entry_zero).ip
    (s.arp_table.getD j arp_entry_zero).port (s.arp_table.getD j arp_entry_zero).vlan i
  refine ⟨p1.trans hlen, ?_, ?_⟩
  · intro hij
    have hgi := hget i
    rw [if_pos hij.symm] at hgi
    rcases p2 with p2 | ⟨p2, _⟩
    · rw [p2, hgi, hij]
      exact ⟨rfl, rfl⟩
    · rw [hgi, hij] at p2
      exact absurd p2 hnf
  · intro hij
    have hgi := hget i
    rw [if_neg (fun h => hij h.symm)] at hgi
    rw [hgi] at p2
    exact p2

theorem arp_age_slot_stale (now : Nat) (s : arp_sys) (j : Nat)
    (hs : (s.arp_table.getD j arp_entry_zero).state = ARP_STATE_REACHABLE)
    (hage : (now + 2 ^ 32 - (s.arp_table.getD j arp_entry_zero).age_ticks) % 2 ^ 32
      ≥ ARP_AGE_MAX) :
    arp_age_slot now s j
      = { s with arp_table :=
            slot_update (fun x => { x with state := ARP_STATE_STALE }) s.arp_table j } := by
  have h1 : ¬ (s.arp_table.getD j arp_entry_zero).state = ARP_STATE_FREE := by
    rw [hs]
    decide
  have h2 : ¬ (s.arp_table.getD j arp_entry_zero).state = ARP_STATE_INCOMPLETE := by
    rw [hs]
    decide
  unfold arp_age_slot
  simp only
  rw [if_neg h1, if_neg h2, if_pos hs, if_pos hage]

/-- What one iteration of the loop of `arp_age` does to slot `i` while it visits slot
`j`: nothing; or a Free slot becomes Incomplete (the mark of the re-probe); or the
visited slot, Incomplete or Stale with retry budget left, is stamped with `now` and is
Incomplete; or the slot is zeroed; or the visited slot goes from Reachable to Stale. -/
theorem arp_age_slot_getD (now : Nat) (s : arp_sys) (j i : Nat) :
    (arp_age_slot now s j).arp_table.length = s.arp_table.length ∧
    ((arp_age_slot now s j).arp_table.getD i arp_entry_zero
        = s.arp_table.getD i arp_entry_zero ∨
     ((s.arp_table.getD i arp_entry_zero).state = ARP_STATE_FREE ∧
      ((arp_age_slot now s j).arp_table.getD i arp_entry_zero).state
        = ARP_STATE_INCOMPLETE ∧
      ((arp_age_slot now s j).arp_table.getD i arp_entry_zero).age_ticks
        = (s.arp_table.getD i arp_entry_zero).age_ticks) ∨
     (i = j ∧
      ((s.arp_table.getD i arp_entry_zero).state = ARP_STATE_INCOMPLETE ∨
        (s.arp_table.getD i arp_entry_zero).state = ARP_STATE_STALE) ∧
      (s.arp_table.getD i arp_entry_zero).retry > 0 ∧
      ((arp_age_slot now s j).arp_table.getD i arp_entry_zero).state
        = ARP_STATE_INCOMPLETE ∧
      ((arp_age_slot now s j).arp_table.getD i arp_entry_zero).age_ticks = now) ∨
     ((arp_age_slot now s j).arp_table.getD i arp_entry_zero = arp_entry_zero ∧
      ((i = j ∧ (s.arp_table.getD i arp_entry_zero).state = ARP_STATE_INCOMPLETE) ∨
       ((s.arp_table.getD j arp_entry_zero).state = ARP_STATE_STALE ∧
        (s.arp_table.getD j arp_entry_zero).retry = 0))) ∨
     (i = j ∧ (s.arp_table.getD i arp_entry_zero).state = ARP_STATE_REACHABLE ∧
      (arp_age_slot now s j).arp_table.getD i arp_entry_zero
        = { s.arp_table.getD i arp_entry_zero with state := ARP_STATE_STALE })) := by
  by_cases hF : (s.arp_table.getD j arp_entry_zero).state = ARP_STATE_FREE
  · rw [arp_age_slot_free now s j hF]
    exact ⟨rfl, Or.inl rfl⟩
  have hj : j < s.arp_table.length := arp_nonfree_lt _ _ hF
  obtain ⟨q1, q2, q3⟩ := arp_reprobe_getD now s j i hF
  by_cases hI : (s.arp_table.getD j arp_entry_zero).state = ARP_STATE_INCOMPLETE
  · unfold arp_age_slot
    simp only
    rw [if_neg hF, if_pos hI]
    by_cases hage : (now + 2 ^ 32 - (s.arp_table.getD j arp_entry_zero).age_ticks) % 2 ^ 32
        ≥ ARP_INCOMPLETE_TTL
    · rw [if_pos hage]
      by_cases hr : (s.arp_table.getD j arp_entry_zero).retry > 0
      · rw [if_pos hr]
        refine ⟨q1, ?_⟩
        by_cases hij : i = j
        · obtain ⟨a1, a2⟩ := q2 hij
          right; right; left
          rw [hij]
          rw [hij] at a1 a2
          exact ⟨rfl, Or.inl hI, hr, a1.trans hI, a2⟩
        · rcases q3 hij with a | a
          · exact Or.inl a
          · exact Or.inr (Or.inl a)
      · rw [if_neg hr]
        refine ⟨length_slot_update _ _ _, ?_⟩
        show (slot_update _ s.arp_table j).getD i arp_entry_zero = _ ∨ _
        rw [getD_slot_update]
        by_cases hc : j = i ∧ j < s.arp_table.length
        · rw [if_pos hc]
          right; right; right; left
          refine ⟨rfl, Or.inl ⟨hc.1.symm, ?_⟩⟩
          rw [← hc.1]
          exact hI
        · rw [if_neg hc]
          exact Or.inl rfl
    · rw [if_neg hage]
      exact ⟨rfl, Or.inl rfl⟩
  by_cases hR : (s.arp_table.getD j arp_entry_zero).state = ARP_STATE_REACHABLE
  · by_cases hage : (now + 2 ^ 32 - (s.arp_table.getD j arp_entry_zero).age_ticks) % 2 ^ 32
        ≥ ARP_AGE_MAX
    · rw [arp_age_slot_stale now s j hR hage]
      refine ⟨length_slot_update _ _ _, ?_⟩
      show (slot_update _ s.arp_table j).getD i arp_entry_zero = _ ∨ _
      rw [getD_slot_update]
      by_cases hc : j = i ∧ j < s.arp_table.length
      · rw [if_pos hc]
        right; right; right; right
        refine ⟨hc.1.symm, ?_, rfl⟩
        rw [← hc.1]
        exact hR
      · rw [if_neg hc]
        exact Or.inl rfl
    · unfold arp_age_slot
      simp only
      rw [if_neg hF, if_neg hI, if_pos hR, if_neg hage]
      exact ⟨rfl, Or.inl rfl⟩
  by_cases hS : (s.arp_table.getD j arp_entry_zero).state = ARP_STATE_STALE
  · unfold arp_age_slot
    simp only
    rw [if_neg hF, if_neg hI, if_neg hR, if_pos hS]
    by_cases hage : (now + 2 ^ 32 - (s.arp_table.getD j arp_entry_zero).age_ticks) % 2 ^ 32
        ≥ ARP_AGE_MAX + ARP_INCOMPLETE_TTL
    · rw [if_pos hage]
      by_cases hr : (s.arp_table.getD j arp_entry_zero).retry > 0
      · rw [if_pos hr]
        refine ⟨(length_slot_update _ _ _).trans q1, ?_⟩
        show (slot_update _ _ j).getD i arp_entry_zero = _ ∨ _
        rw [getD_slot_update, q1]
        by_cases hij : i = j
        · obtain ⟨a1, a2⟩ := q2 hij
          rw [if_pos ⟨hij.symm, hj⟩]
          right; right; left
          rw [hij]
          rw [hij] at a2
          exact ⟨rfl, Or.inr hS, hr, rfl, a2⟩
        · rw [if_neg (fun h => hij h.1.symm)]
          rcases q3 hij with a | a
          · exact Or.inl a
          · exact Or.inr (Or.inl a)
      · rw [if_neg hr]
        obtain ⟨d1, d2⟩ := arp_delete_getD s (s.arp_table.getD j arp_entry_zero).ip i
        refine ⟨d1, ?_⟩
        rcases d2 with d | d
        · exact Or.inl d
        · right; right; right; left
          exact ⟨d, Or.inr ⟨hS, by omega⟩⟩
    · rw [if_neg hage]
      exact ⟨rfl, Or.inl rfl⟩
  · unfold arp_age_slot
    simp only
    rw [if_neg hF, if_neg hI, if_neg hR, if_neg hS]
    exact ⟨rfl, Or.inl rfl⟩

theorem arp_age_slot_inv (now : Nat) (s : arp_sys) (j : Nat)
    (h : arp_fresh_inv s.arp_table) : arp_fresh_inv (arp_age_slot now s j).arp_table := by
  refine ⟨((arp_age_slot_getD now s j 0).1).trans h.1, fun i => ?_⟩
  rcases (arp_age_slot_getD now s j i).2 with c | ⟨_, c, _⟩ | ⟨_, _, _, c, _⟩ | ⟨c, _⟩ |
    ⟨_, c1, c2⟩
  · rw [c]
    exact h.2 i
  · rw [c]
    exact ⟨fun hc => absurd hc (by decide), fun hc => absurd hc (by decide)⟩
  · rw [c]
    exact ⟨fun hc => absurd hc (by decide), fun hc => absurd hc (by decide)⟩
  · rw [c]
    exact ⟨fun hc => absurd hc (by decide), fun hc => absurd hc (by decide)⟩
  · rw [c2]
    exact ⟨fun hc => absurd (show ARP_STATE_STALE = ARP_STATE_REACHABLE from hc) (by decide),
      fun _ => ((h.2 i).1 c1).2⟩

theorem arp_age_fold_inv (now : Nat) (idxs : List Nat) (s : arp_sys)
    (h : arp_fresh_inv s.arp_table) :
    arp_fresh_inv (idxs.foldl (arp_age_slot now) s).arp_table := by
  induction idxs generalizing s with
  | nil => exact h
  | cons j idxs ih => exact ih (arp_age_slot now s j) (arp_age_slot_inv now s j h)

/-- A slot in use is not touched while `arp_age` visits another slot. -/
theorem arp_age_slot_frame (now : Nat) (s : arp_sys) (j i : Nat)
    (h : arp_fresh_inv s.arp_table) (hij : i ≠ j)
    (hnf : (s.arp_table.getD i arp_entry_zero).state ≠ ARP_STATE_FREE) :
    (arp_age_slot now s j).arp_table.getD i arp_entry_zero
      = s.arp_table.getD i arp_entry_zero := by
  rcases (arp_age_slot_getD now s j i).2 with c | ⟨c, _⟩ | ⟨c, _⟩ | ⟨_, ⟨c, _⟩ | ⟨c1, c2⟩⟩ |
    ⟨c, _⟩
  · exact c
  · exact absurd c hnf
  · exact absurd c hij
  · exact absurd c hij
  · have := (h.2 j).2 c1
    omega
  · exact absurd c hij

theorem arp_age_fold_frame (now : Nat) (idxs : List Nat) (s : arp_sys) (i : Nat)
    (h : arp_fresh_inv s.arp_table) (hi : i ∉ idxs)
    (hnf : (s.arp_table.getD i arp_entry_zero).state ≠ ARP_STATE_FREE) :
    (idxs.foldl (arp_age_slot now) s).arp_table.getD i arp_entry_zero
      = s.arp_table.getD i arp_entry_zero := by
  induction idxs generalizing s with
  | nil => rfl
  | cons j idxs ih =>
    have hij : i ≠ j := fun hc => hi (hc ▸ List.mem_cons_self _ _)
    have hfr := arp_age_slot_frame now s j i h hij hnf
    rw [List.foldl_cons, ih (arp_age_slot now s j) (arp_age_slot_inv now s j h)
      (fun hc => hi (List.mem_cons_of_mem _ hc)) (by rw [hfr]; exact hnf), hfr]

/-- Every Reachable slot the loop of `arp_age(now)` visits, `now >= 300`, is Stale
afterwards and otherwise as it was. -/
theorem arp_age_fold_stale (now : Nat) (idxs : List Nat) (s : arp_sys) (i : Nat)
    (hnow : now < 2 ^ 32) (h300 : ARP_AGE_MAX ≤ now)
    (h : arp_fresh_inv s.arp_table) (hnd : idxs.Nodup) (hi : i ∈ idxs)
    (hR : (s.arp_table.getD i arp_entry_zero).state = ARP_STATE_REACHABLE) :
    (idxs.foldl (arp_age_slot now) s).arp_table.getD i arp_entry_zero
      = { s.arp_table.getD i arp_entry_zero with state := ARP_STATE_STALE } := by
  induction idxs generalizing s with
  | nil => exact absurd hi (List.not_mem_nil i)
  | cons j idxs ih =>
    rw [List.foldl_cons]
    have hinv := arp_age_slot_inv now s j h
    by_cases hij : i = j
    · subst hij
      have hage : (now + 2 ^ 32 - (s.arp_table.getD i arp_entry_zero).age_ticks) % 2 ^ 32
          ≥ ARP_AGE_MAX := by
        rw [((h.2 i).1 hR).1]
        have h32 : (2 : Nat) ^ 32 = 4294967296 := by norm_num
        rw [h32] at hnow ⊢
        have : (now + 4294967296 - 0) % 4294967296 = now := by omega
        rw [this]
        exact h300
      have hlt : i < s.arp_table.length := arp_nonfree_lt _ _ (by rw [hR]; decide)
      have hstep : (arp_age_slot now s i).arp_table.getD i arp_entry_zero
          = { s.arp_table.getD i arp_entry_zero with state := ARP_STATE_STALE } := by
        rw [arp_age_slot_stale now s i hR hage]
        show (slot_update _ s.arp_table i).getD i arp_entry_zero = _
        rw [getD_slot_update, if_pos ⟨rfl, hlt⟩]
      rw [arp_age_fold_frame now idxs (arp_age_slot now s i) i hinv (List.nodup_cons.mp hnd).1
        (by rw [hstep]; exact (by decide : ARP_STATE_STALE ≠ ARP_STATE_FREE)), hstep]
    · have hfr := arp_age_slot_frame now s j i h hij (by rw [hR]; decide)
      have hmem : i ∈ idxs := by
        rcases List.mem_cons.mp hi with hc | hc
        · exact absurd hc hij
        · exact hc
      rw [ih (arp_age_slot now s j) hinv (List.nodup_cons.mp hnd).2 hmem (by rw [hfr]; exact hR),
        hfr]

/-- The loop of `arp_age` makes no slot Reachable. -/
theorem arp_age_fold_reachable (now : Nat) (idxs : List Nat) (s : arp_sys) (i : Nat)
    (hR : ((idxs.foldl (arp_age_slot now) s).arp_table.getD i arp_entry_zero).state
      = ARP_STATE_REACHABLE) :
    (idxs.foldl (arp_age_slot now) s).arp_table.getD i arp_entry_zero
      = s.arp_table.getD i arp_entry_zero := by
  induction idxs generalizing s with
  | nil => rfl
  | cons j idxs ih =>
    rw [List.foldl_cons] at hR ⊢
    have h1 := ih (arp_age_slot now s j) hR
    rw [h1] at hR ⊢
    rcases (arp_age_slot_getD now s j i).2 with c | ⟨_, c, _⟩ | ⟨_, _, _, c, _⟩ | ⟨c, _⟩ |
      ⟨_, _, c⟩
    · exact c
    · rw [c] at hR
      exact absurd hR (by decide)
    · rw [c] at hR
      exact absurd hR (by decide)
    · rw [c] at hR
      exact absurd hR (by decide)
    · rw [c] at hR
      exact absurd (show ARP_STATE_STALE = ARP_STATE_REACHABLE from hR) (by decide)

/-- The time stamp of a slot after the loop of `arp_age(now)` is the one before, or 0,
or `now`. -/
theorem arp_age_fold_stamp (now : Nat) (idxs : List Nat) (s : arp_sys) (i : Nat) :
    ((idxs.foldl (arp_age_slot now) s).arp_table.getD i arp_entry_zero).age_ticks
        = (s.arp_table.getD i arp_entry_zero).age_ticks ∨
    ((idxs.foldl (arp_age_slot now) s).arp_table.getD i arp_entry_zero).age_ticks = 0 ∨
    ((idxs.foldl (arp_age_slot now) s).arp_table.getD i arp_entry_zero).age_ticks = now := by
  induction idxs generalizing s with
  | nil => exact Or.inl rfl
  | cons j idxs ih =>
    rw [List.foldl_cons]
    have hstep : ((arp_age_slot now s j).arp_table.getD i arp_entry_zero).age_ticks
          = (s.arp_table.getD i arp_entry_zero).age_ticks ∨
        ((arp_age_slot now s j).arp_table.getD i arp_entry_zero).age_ticks = 0 ∨
        ((arp_age_slot now s j).arp_table.getD i arp_entry_zero).age_ticks = now := by
      rcases (arp_age_slot_getD now s j i).2 with c | ⟨_, _, c⟩ | ⟨_, _, _, _, c⟩ | ⟨c, _⟩ |
        ⟨_, _, c⟩
      · exact Or.inl (by rw [c])
      · exact Or.inl c
      · exact Or.inr (Or.inr c)
      · exact Or.inr (Or.inl (by rw [c]; rfl))
      · exact Or.inl (by rw [c])
    rcases ih (arp_age_slot now s j) with a | a | a
    · rw [a]
      exact hstep
    · exact Or.inr (Or.inl a)
    · exact Or.inr (Or.inr a)

theorem arp_init_fresh (s0 : arp_sys) : arp_fresh_inv (arp_init s0).arp_table := by
  refine ⟨List.length_replicate _ _, fun i => ?_⟩
  have hz : (arp_init s0).arp_table.getD i arp_entry_zero = arp_entry_zero := by
    show (List.replicate ARP_TABLE_SIZE arp_entry_zero).getD i arp_entry_zero = _
    simp only [List.getD_eq_getElem?_getD, List.getElem?_replicate]
    split <;> rfl
  rw [hz]
  exact ⟨fun hc => absurd hc (by decide), fun hc => absurd hc (by decide)⟩

theorem arp_add_fresh (s : arp_sys) (ip : Nat) (mac : Option (List Nat)) (port vlan : Nat)
    (h : arp_fresh_inv s.arp_table) :
    arp_fresh_inv (arp_add ip mac port vlan s).2.arp_table := by
  refine ⟨((arp_add_getD s ip mac port vlan 0).1).trans h.1, fun i => ?_⟩
  rcases (arp_add_getD s ip mac port vlan i).2 with c | ⟨c1, c2, c3, _⟩
  · rw [c]
    exact h.2 i
  · rw [c1, c2, c3]
    exact ⟨fun _ => ⟨rfl, by decide⟩, fun _ => by decide⟩

theorem arp_delete_fresh (s : arp_sys) (ip : Nat) (h : arp_fresh_inv s.arp_table) :
    arp_fresh_inv (arp_delete ip s).2.arp_table := by
  refine ⟨((arp_delete_getD s ip 0).1).trans h.1, fun i => ?_⟩
  rcases (arp_delete_getD s ip i).2 with c | c
  · rw [c]
    exact h.2 i
  · rw [c]
    exact ⟨fun hc => absurd hc (by decide), fun hc => absurd hc (by decide)⟩

theorem arp_probe_fresh (s : arp_sys) (ip port vlan : Nat) (h : arp_fresh_inv s.arp_table) :
    arp_fresh_inv (arp_probe ip port vlan s).2.arp_table := by
  refine ⟨((arp_probe_getD s ip port vlan 0).1).trans h.1, fun i => ?_⟩
  rcases (arp_probe_getD s ip port vlan i).2 with c | ⟨_, c, _⟩
  · rw [c]
    exact h.2 i
  · rw [c]
    exact ⟨fun hc => absurd hc (by decide), fun hc => absurd hc (by decide)⟩

theorem arp_api_call_fresh (s : arp_sys) (op : arp_api_op) (h : arp_fresh_inv s.arp_table) :
    arp_fresh_inv (arp_api_call s op).arp_table := by
  cases op with
  | set_intf port ip mac =>
    show arp_fresh_inv (arp_set_port_intf port ip (some mac) s).arp_table
    unfold arp_set_port_intf
    simp only
    split
    · exact h
    · exact h
  | add ip mac port vlan => exact arp_add_fresh s ip (some mac) port vlan h
  | del ip => exact arp_delete_fresh s ip h
  | probe target_ip eg_port vlan => exact arp_probe_fresh s target_ip eg_port vlan h
  | pkt p =>
    show arp_fresh_inv (arp_process_pkt (some p) s).arp_table
    rcases arp_process_pkt_cases (some p) s with c | ⟨spa, sha, ing, vlan, c⟩
    · rw [c]
      exact h
    · rw [c]
      exact arp_add_fresh s spa (some sha) ing vlan h
  | age now_sec => exact arp_age_fold_inv now_sec (List.range ARP_TABLE_SIZE) s h

theorem arp_api_run_fresh (ops : List arp_api_op) (s : arp_sys)
    (h : arp_fresh_inv s.arp_table) : arp_fresh_inv (arp_api_run s ops).arp_table := by
  induction ops generalizing s with
  | nil => exact h
  | cons op ops ih => exact ih (arp_api_call s op) (arp_api_call_fresh s op h)

theorem arp_api_call_stamp (s : arp_sys) (op : arp_api_op) (i : Nat)
    (hop : ∀ t, op ≠ arp_api_op.age t) :
    ((arp_api_call s op).arp_table.getD i arp_entry_zero).age_ticks
        = (s.arp_table.getD i arp_entry_zero).age_ticks ∨
    ((arp_api_call s op).arp_table.getD i arp_entry_zero).age_ticks = 0 := by
  cases op with
  | set_intf port ip mac =>
    left
    show ((arp_set_port_intf port ip (some mac) s).arp_table.getD i arp_entry_zero).age_ticks = _
    unfold arp_set_port_intf
    simp only
    split <;> rfl
  | add ip mac port vlan =>
    show ((arp_add ip (some mac) port vlan s).2.arp_table.getD i arp_entry_zero).age_ticks = _ ∨
      ((arp_add ip (some mac) port vlan s).2.arp_table.getD i arp_entry_zero).age_ticks = 0
    rcases (arp_add_getD s ip (some mac) port vlan i).2 with c | ⟨c, _⟩
    · exact Or.inl (by rw [c])
    · exact Or.inr c
  | del ip =>
    show ((arp_delete ip s).2.arp_table.getD i arp_entry_zero).age_ticks = _ ∨
      ((arp_delete ip s).2.arp_table.getD i arp_entry_zero).age_ticks = 0
    rcases (arp_delete_getD s ip i).2 with c | c
    · exact Or.inl (by rw [c])
    · exact Or.inr (by rw [c]; rfl)
  | probe target_ip eg_port vlan =>
    show ((arp_probe target_ip eg_port vlan s).2.arp_table.getD i arp_entry_zero).age_ticks = _ ∨
      ((arp_probe target_ip eg_port vlan s).2.arp_table.getD i arp_entry_zero).age_ticks = 0
    rcases (arp_probe_getD s target_ip eg_port vlan i).2 with c | ⟨_, _, c⟩
    · exact Or.inl (by rw [c])
    · exact Or.inl c
  | pkt p =>
    show ((arp_process_pkt (some p) s).arp_table.getD i arp_entry_zero).age_ticks = _ ∨
      ((arp_process_pkt (some p) s).arp_table.getD i arp_entry_zero).age_ticks = 0
    rcases arp_process_pkt_cases (some p) s with c | ⟨spa, sha, ing, vlan, c⟩
    · exact Or.inl (by rw [c])
    · rw [c]
      rcases (arp_add_getD s spa (some sha) ing vlan i).2 with c | ⟨c, _⟩
      · exact Or.inl (by rw [c])
      · exact Or.inr c
  | age t => exact absurd rfl (hop t)

/-- C40: ARP freshness is measured from time 0. (1) The slot `arp_add` writes has
`age_ticks = 0` and is Reachable, and the table after `arp_process_pkt` of a Request
or a Reply is that of such an `arp_add`. (2) In every state reached from `arp_init` by
calls of `arp_set_port_intf`, `arp_add`, `arp_delete`, `arp_probe`, `arp_process_pkt`
and `arp_age`, every Reachable slot has `age_ticks = 0`. (3) In such a state
`arp_age(now_sec)` with `300 <= now_sec < 2^32` makes every Reachable slot Stale,
changing nothing else in it, and leaves no Reachable slot. (4) A call other than
`arp_age` leaves the `age_ticks` of a slot as it was or at 0; `arp_age(t)` leaves it as
it was, at 0, or at `t`, and one iteration of its loop stamps a slot with `t` only in
the re-probe branch: the visited slot, Incomplete or Stale with retry budget left,
which is Incomplete afterwards. -/
theorem c40_arp_age_from_zero (s0 : arp_sys) (ops : List arp_api_op) (now_sec : Nat)
    (hnow : now_sec < 2 ^ 32) (h300 : ARP_AGE_MAX ≤ now_sec) :
    (∀ (s : arp_sys) (ip : Nat) (mac : List Nat) (port vlan e : Nat),
      arp_add_slot s.arp_table ip = some e → e < s.arp_table.length →
      ((arp_add ip (some mac) port vlan s).2.arp_table.getD e arp_entry_zero).age_ticks = 0 ∧
      ((arp_add ip (some mac) port vlan s).2.arp_table.getD e arp_entry_zero).state
        = ARP_STATE_REACHABLE) ∧
    (∀ (s : arp_sys) (pkt : punt_pkt_t), 42 ≤ pkt.pkt_len →
      u16_be_rd pkt.data 12 = ETH_TYPE_ARP →
      (u16_be_rd pkt.data 20 = ARP_OP_REQUEST ∨ u16_be_rd pkt.data 20 = ARP_OP_REPLY) →
      (arp_process_pkt (some pkt) s).arp_table
        = (arp_add (u32_be_rd pkt.data 28) (some (mac_at pkt.data 22)) pkt.ing_port
            pkt.vlan_id s).2.arp_table) ∧
    (∀ i, ((arp_api_run (arp_init s0) ops).arp_table.getD i arp_entry_zero).state
        = ARP_STATE_REACHABLE →
      ((arp_api_run (arp_init s0) ops).arp_table.getD i arp_entry_zero).age_ticks = 0) ∧
    (∀ i, ((arp_api_run (arp_init s0) ops).arp_table.getD i arp_entry_zero).state
        = ARP_STATE_REACHABLE →
      (arp_age now_sec (arp_api_run (arp_init s0) ops)).arp_table.getD i arp_entry_zero
        = { (arp_api_run (arp_init s0) ops).arp_table.getD i arp_entry_zero with
            state := ARP_STATE_STALE }) ∧
    (∀ i, ((arp_age now_sec (arp_api_run (arp_init s0) ops)).arp_table.getD i
        arp_entry_zero).state ≠ ARP_STATE_REACHABLE) ∧
    (∀ (s : arp_sys) (op : arp_api_op) (i : Nat), (∀ t, op ≠ arp_api_op.age t) →
      ((arp_api_call s op).arp_table.getD i arp_entry_zero).age_ticks
          = (s.arp_table.getD i arp_entry_zero).age_ticks ∨
      ((arp_api_call s op).arp_table.getD i arp_entry_zero).age_ticks = 0) ∧
    (∀ (s : arp_sys) (t i : Nat),
      ((arp_age t s).arp_table.getD i arp_entry_zero).age_ticks
          = (s.arp_table.getD i arp_entry_zero).age_ticks ∨
      ((arp_age t s).arp_table.getD i arp_entry_zero).age_ticks = 0 ∨
      ((arp_age t s).arp_table.getD i arp_entry_zero).age_ticks = t) ∧
    (∀ (s : arp_sys) (t j i : Nat),
      ((arp_age_slot t s j).arp_table.getD i arp_entry_zero).age_ticks
          = (s.arp_table.getD i arp_entry_zero).age_ticks ∨
      ((arp_age_slot t s j).arp_table.getD i arp_entry_zero).age_ticks = 0 ∨
      (i = j ∧
        ((s.arp_table.getD i arp_entry_zero).state = ARP_STATE_INCOMPLETE ∨
          (s.arp_table.getD i arp_entry_zero).state = ARP_STATE_STALE) ∧
        (s.arp_table.getD i arp_entry_zero).retry > 0 ∧
        ((arp_age_slot t s j).arp_table.getD i arp_entry_zero).state = ARP_STATE_INCOMPLETE ∧
        ((arp_age_slot t s j).arp_table.getD i arp_entry_zero).age_ticks = t)) := by
  have hinv := arp_api_run_fresh ops (arp_init s0) (arp_init_fresh s0)
  generalize arp_api_run (arp_init s0) ops = S at hinv
  refine ⟨?_, fun s pkt h1 h2 h3 => arp_process_pkt_table pkt s h1 h2 h3,
    fun i hR => ((hinv.2 i).1 hR).1, ?_, ?_, arp_api_call_stamp,
    fun s t i => arp_age_fold_stamp t (List.range ARP_TABLE_SIZE) s i, ?_⟩
  · intro s ip mac port vlan e hs he
    have htab : (arp_add ip (some mac) port vlan s).2.arp_table
        = slot_update
            (fun x => { ip := ip, port := port, vlan := vlan, age_ticks := 0,
                        retry := ARP_PROBE_RETRY_MAX, state := ARP_STATE_REACHABLE,
                        mac := memcpy x.mac 0 mac 0 6 }) s.arp_table e := by
      simp only [arp_add, hs]
    rw [htab, getD_slot_update, if_pos ⟨rfl, he⟩]
    exact ⟨rfl, rfl⟩
  · intro i hR
    have hlt : i < S.arp_table.length := arp_nonfree_lt _ _ (by rw [hR]; decide)
    exact arp_age_fold_stale now_sec (List.range ARP_TABLE_SIZE) S i hnow h300 hinv
      (List.nodup_range _) (List.mem_range.mpr (hinv.1 ▸ hlt)) hR
  · intro i hR
    have hsame := arp_age_fold_reachable now_sec (List.range ARP_TABLE_SIZE) S i hR
    have hR2 : (S.arp_table.getD i arp_entry_zero).state = ARP_STATE_REACHABLE := by
      rw [← hsame]
      exact hR
    have hlt : i < S.arp_table.length := arp_nonfree_lt _ _ (by rw [hR2]; decide)
    have hst := arp_age_fold_stale now_sec (List.range ARP_TABLE_SIZE) S i hnow h300 hinv
      (List.nodup_range _) (List.mem_range.mpr (hinv.1 ▸ hlt)) hR2
    have hR3 : ((arp_age now_sec S).arp_table.getD i arp_entry_zero).state
        = ARP_STATE_REACHABLE := hR
    unfold arp_age at hR3
    rw [hst] at hR3
    exact absurd (show ARP_STATE_STALE = ARP_STATE_REACHABLE from hR3) (by decide)
  · intro s t j i
    rcases (arp_age_slot_getD t s j i).2 with c | ⟨_, _, c⟩ | c | ⟨c, _⟩ | ⟨_, _, c⟩
    · exact Or.inl (by rw [c])
    · exact Or.inl c
    · exact Or.inr (Or.inr c)
    · exact Or.inr (Or.inl (by rw [c]; rfl))
    · exact Or.inl (by rw [c])


theorem arp_age_init (t : Nat) (s0 : arp_sys) : arp_age t (arp_init s0) = arp_init s0 := by
  unfold arp_age
  apply arp_age_foldl_free
  intro i _
  show ((List.replicate ARP_TABLE_SIZE arp_entry_zero).getD i arp_entry_zero).state = _
  simp only [List.getD_eq_getElem?_getD, List.getElem?_replicate]
  split <;> rfl

set_option maxRecDepth 100000 in
theorem arp_late_add_slot :
    (arp_api_run (arp_init arp_sys_reset)
        [arp_api_op.age 1000,
         arp_api_op.add 0x0A000001 [0x00, 0x11, 0x22, 0x33, 0x44, 0x55] 2 10]).arp_table.getD
        146 arp_entry_zero
      = ⟨0x0A000001, [0x00, 0x11, 0x22, 0x33, 0x44, 0x55], 2, 10, 0, 3, ARP_STATE_REACHABLE⟩ := by
  simp only [arp_api_run, List.foldl, arp_api_call]
  rw [arp_age_init]
  decide

/-- C40 with the clock at 1000: a neighbor added after `arp_age(1000)` is Reachable
with `age_ticks = 0`, and `arp_age(1001)` makes it Stale. -/
theorem c40_arp_age_from_zero_witness :
    (1001 : Nat) < 2 ^ 32 ∧ ARP_AGE_MAX ≤ 1001 ∧
    ((arp_api_run (arp_init arp_sys_reset)
        [arp_api_op.age 1000,
         arp_api_op.add 0x0A000001 [0x00, 0x11, 0x22, 0x33, 0x44, 0x55] 2 10]).arp_table.getD
        146 arp_entry_zero)
      = ⟨0x0A000001, [0x00, 0x11, 0x22, 0x33, 0x44, 0x55], 2, 10, 0, 3, ARP_STATE_REACHABLE⟩ ∧
    ((arp_age 1001 (arp_api_run (arp_init arp_sys_reset)
        [arp_api_op.age 1000,
         arp_api_op.add 0x0A000001 [0x00, 0x11, 0x22, 0x33, 0x44, 0x55] 2 10])).arp_table.getD
        146 arp_entry_zero).state = ARP_STATE_STALE :=
  ⟨by norm_num, by decide, arp_late_add_slot,
   congrArg arp_entry_t.state
      ((c40_arp_age_from_zero arp_sys_reset
        [arp_api_op.age 1000,
         arp_api_op.add 0x0A000001 [0x00, 0x11, 0x22, 0x33, 0x44, 0x55] 2 10] 1001
        (by norm_num) (by decide)).2.2.2.1 146 (by rw [arp_late_add_slot]))⟩

end RvP4
